import Mathlib

/-! Hokuyo SCIP2.0 driver (BreezyLidar, `c/hokuyo.c`): protocol engine.

A shallow embedding of the protocol helpers of `hokuyo.c` and of the part of
`serial_device.c` they call, followed by theorems about them.

Conventions of the embedding.

* A C `int` is an `Int` (all values that occur stay far inside 32 bits); an
  `unsigned int` is a `Nat` reduced modulo `2^32`; a `char` is represented by its
  8-bit pattern, a `Nat` below 256, and `charVal` gives the value the pattern has
  when the `char` is promoted to `int` (signed `char`, two's complement).
* A C array is a `List`; a pointer into it is an offset, or the suffix of the list
  that starts at the pointer. Reading or writing outside the list is undefined
  behaviour and makes the model return `Outcome.undefined`.
* Loops whose trip count is not a structural argument run on an iteration bound
  handed over by the enclosing function; `Outcome.fuel` is the (separate) result of
  an exhausted bound.
* `error_return` prints to stderr and returns `-1`; `message_on_debug` only prints.
  Printing is not modelled.
-/

namespace Hokuyo

/-! ## Constants (`hokuyo.h`, `hokuyo.c`) -/

def MAX_NUM_POINTS_URG_04LX : Int := 771
def MAX_NUM_POINTS_UTM_30LX : Int := 1081 * 2
def MAX_LINE_LENGTH : Int := 100
def MAX_PACKET_LENGTH : Int := 15000
def MAX_NUM_POINTS : Int := 3000
def TYPE_URG_04LX : Int := 0
def TYPE_UTM_30LX : Int := 1
def SCAN_REGULAR : Int := 0
def SCAN_SPECIAL_ME : Int := 1
def TWO_DIGITS : Int := 2
def THREE_DIGITS : Int := 3

/-- Value returned by `error_return` (message_utils.h). -/
def error_return : Int := -1

/-! ## Outcomes and machine values -/

/-- Outcome of running a driver function in the model: it returned `a`, it ran into
C undefined behaviour (an access outside an array, arithmetic on a null pointer), or
the iteration bound of the model was used up. -/
inductive Outcome (α : Type) where
  | ok (a : α)
  | undefined
  | fuel
deriving DecidableEq, Repr

/-- Value of a byte read through a `char` lvalue and promoted to `int`. -/
def charVal (b : Nat) : Int :=
  if b % 256 < 128 then ((b % 256 : Nat) : Int) else ((b % 256 : Nat) : Int) - 256

/-- Left shift of an `int` by `k` bits: multiplication by `2^k`. The operands that occur
are differences of two `char` values shifted by at most 12 bits, so nothing overflows; a
negative operand (a byte outside `0x30..0x7F`) is shifted arithmetically, as compilers
do. -/
def shl (x : Int) (k : Nat) : Int := x * 2 ^ k

/-- Conversion of an `int` to `unsigned int` (32 bits). -/
def toUInt32 (x : Int) : Nat := (x % 4294967296).toNat

/-- The value of an `int` expression (32 bits, two's complement) whose mathematical
value is `x`: `x` itself when it is in range, otherwise `x` reduced modulo `2^32` into the
range, as compilers do. -/
def toInt32 (x : Int) : Int := (x + 2147483648) % 4294967296 - 2147483648

/-- Conversion of an `int` to `size_t` (64 bits). -/
def toSizeT (x : Int) : Nat := (x % 18446744073709551616).toNat

/-- Store `v` at index `idx` of an array; `none` when the index is outside it. -/
def store (a : List Nat) (idx : Nat) (v : Nat) : Option (List Nat) :=
  if idx < a.length then some (a.set idx v) else none

/-! ## Device state -/

/-- The fields of `serial_device_t` (serial_device.c) that the protocol engine
depends on. `rx` is the sequence of bytes the device will still deliver on the file
descriptor (when it is empty, `select` times out); `tx` is what has been written.
The last two fields stand for what the operating system does: `flush_drops` gives, for
each coming call of `serial_device_flush_input_buffer`, the number of bytes at the head
of `rx` that have already arrived by then and are read off by it (0 once the list is
used up); `write_results` gives the value each coming call of `write` returns when it is
less than the number of bytes asked for (a full write once the list is used up). -/
structure serial_device_t where
  connected : Bool
  ioMode : Int
  numTermChars : Int
  termSequence : List Nat
  retTermSequence : Bool
  rx : List Nat
  tx : List Nat
  flush_drops : List Nat
  write_results : List Int
deriving DecidableEq, Repr

/-- The fields of `hokuyo_t` that the protocol engine depends on. -/
structure hokuyo_t where
  type : Int
  scan_ready : Bool
  sd : serial_device_t
  streaming : Bool
  scan_start : Int
  scan_end : Int
  scan_skip : Int
  encoding : Int
  scan_type : Int
  packet_length : Int
  baud : Int
  debug : Bool
  active : Bool
  need_to_stop_laser : Bool
  data : List Nat
  num_data : Int
deriving DecidableEq, Repr

/-! ## `_decode_packet` -/

/-- Result of `_decode_packet`: the returned `int` and the caller's `unsigned int`
array `extracted_data` after the call. -/
structure DecodeResult where
  ret : Int
  extracted_data : List Nat
deriving DecidableEq, Repr

/-- The value stored by the body of the `TWO_DIGITS` loop for the bytes `b0`, `b1`:
`((extracted_packet[i] - 0x30)<<6) + extracted_packet[i+1] - 0x30`, converted to
`unsigned int`. -/
def two_digit_value (b0 b1 : Nat) : Nat :=
  toUInt32 (shl (charVal b0 - 0x30) 6 + charVal b1 - 0x30)

/-- The value stored by the body of the `THREE_DIGITS` loop for the bytes `b0`, `b1`, `b2`:
`((p[i] - 0x30)<<12) + ((p[i+1] - 0x30)<<6) + p[i+2] - 0x30`, converted to
`unsigned int`. -/
def three_digit_value (b0 b1 b2 : Nat) : Nat :=
  toUInt32 (shl (charVal b0 - 0x30) 12 + shl (charVal b1 - 0x30) 6 + charVal b2 - 0x30)

/-- The `for` loop of the `TWO_DIGITS` case. `i` and `data_length` are the loop
variables; the pointer `extracted_data` is never advanced in this case, so every
store goes to element 0 of the array. The first argument bounds the iterations. -/
def decode_two_digits_loop (extracted_packet : List Nat) (extracted_length : Int) :
    Nat → Nat → Int → List Nat → Outcome DecodeResult
  | 0, _, _, _ => .fuel
  | n + 1, i, data_length, extracted_data =>
    if (i : Int) < extracted_length - 1 then
      match extracted_packet[i]?, extracted_packet[i + 1]? with
      | some b0, some b1 =>
        match store extracted_data 0 (two_digit_value b0 b1) with
        | some extracted_data =>
          if data_length + 1 > MAX_NUM_POINTS then
            .ok ⟨error_return, extracted_data⟩
          else
            decode_two_digits_loop extracted_packet extracted_length n (i + 1 + 1)
              (data_length + 1) extracted_data
        | none => .undefined
      | _, _ => .undefined
    else .ok ⟨data_length, extracted_data⟩

/-- The `for` loop of the `THREE_DIGITS` case. `p` is the offset of the pointer
`extracted_data` from its value on entry; it advances with every store. -/
def decode_three_digits_loop (extracted_packet : List Nat) (extracted_length : Int) :
    Nat → Nat → Nat → Int → List Nat → Outcome DecodeResult
  | 0, _, _, _, _ => .fuel
  | n + 1, i, p, data_length, extracted_data =>
    if (i : Int) < extracted_length - 1 then
      match extracted_packet[i]?, extracted_packet[i + 1]?, extracted_packet[i + 2]? with
      | some b0, some b1, some b2 =>
        match store extracted_data p (three_digit_value b0 b1 b2) with
        | some extracted_data =>
          if data_length + 1 > MAX_NUM_POINTS then
            .ok ⟨error_return, extracted_data⟩
          else
            decode_three_digits_loop extracted_packet extracted_length n (i + 2 + 1)
              (p + 1) (data_length + 1) extracted_data
        | none => .undefined
      | _, _, _ => .undefined
    else .ok ⟨data_length, extracted_data⟩

/-- Model of `_decode_packet`: `extracted_packet` is the whole `char` array the
pointer refers to, `extracted_length` the number of payload bytes in it,
`extracted_data` the caller's output array. -/
def _decode_packet (_h : hokuyo_t) (extracted_packet : List Nat) (extracted_data : List Nat)
    (extracted_length : Int) (encoding : Int) : Outcome DecodeResult :=
  if extracted_length < 1 then .ok ⟨error_return, extracted_data⟩
  else if encoding = TWO_DIGITS then
    decode_two_digits_loop extracted_packet extracted_length (extracted_length.toNat + 1)
      0 0 extracted_data
  else if encoding = THREE_DIGITS then
    decode_three_digits_loop extracted_packet extracted_length (extracted_length.toNat + 1)
      0 0 0 extracted_data
  else .ok ⟨error_return, extracted_data⟩

/-- Number of passes the loop `for (i = 0; i < extracted_length - 1; i += w)` of
`_decode_packet` makes (`w` is 2 or 3 by the increments in the header and the body), that
is the number of values it decodes. -/
def decoded_count (extracted_length encoding : Int) : Int :=
  if encoding = TWO_DIGITS then extracted_length / 2 else (extracted_length + 1) / 3

/-- The `int` a call returned, when it returned. -/
def DecodeResult.retOf : Outcome DecodeResult → Option Int
  | .ok r => some r.ret
  | _ => none

/-! ## `_check_line_checksum` -/

/-- Model of `memchr(s, c, n)` on the array suffix `s`: the offset of the first byte equal
to `c` among the first `n` bytes, `none` for a null result. The bytes are examined in
order up to the first match; examining a byte outside the array is undefined. The last
argument is the offset of `s` from the start of the search. -/
def memchr : List Nat → Nat → Nat → Nat → Outcome (Option Nat)
  | [], _, n, _ => if n = 0 then .ok none else .undefined
  | b :: s, c, n, k =>
    if n = 0 then .ok none
    else if b = c then .ok (some k)
    else memchr s c (n - 1) (k + 1)

/-- Result of `_check_line_checksum`: the returned `int`, the final value of the local
`char sum`, and whether the test `sum != line[line_length-1]` held (its only effect in
the source is a debug message). -/
structure ChecksumResult where
  ret : Int
  sum : Nat
  checksum_error : Bool
deriving DecidableEq, Repr

/-- The loop `for (j = 0; j < line_length - 1; j++) sum += line[j];` on a `char sum`
that starts at 0: the additions wrap modulo `2^8`. -/
def checksum_loop (line : List Nat) (line_length : Nat) : Nat :=
  (line.take (line_length - 1)).foldl (fun sum c => (sum + c) % 256) 0

/-- Model of `_check_line_checksum`. `line` is the array from the pointer `line` on.
A null `end_line` makes `end_line - line` undefined. The sanity check on `line_length`
only prints. Two `char`s are compared through their bit patterns. -/
def _check_line_checksum (_h : hokuyo_t) (line : List Nat) (max_length : Int) :
    Outcome ChecksumResult :=
  match memchr line 0x0a (toSizeT max_length) 0 with
  | .ok (some line_length) =>
    if line_length = 0 then .ok ⟨0, 0, false⟩
    else
      let sum := checksum_loop line line_length
      let sum := (sum &&& 0x3f) + 0x30
      .ok ⟨(line_length : Int) - 1, sum, sum != line.getD (line_length - 1) 0⟩
  | .ok none => .undefined
  | .undefined => .undefined
  | .fuel => .fuel

/-! ## `_extract_packet` -/

/-- Model of `memcpy(dst + p, src, n)`: `none` when the copy leaves either array. -/
def memcpy (dst : List Nat) (p : Nat) (src : List Nat) (n : Nat) : Option (List Nat) :=
  if p + n ≤ dst.length ∧ n ≤ src.length then
    some (dst.take p ++ src.take n ++ dst.drop (p + n))
  else none

/-- Result of `_extract_packet`: the returned `int` and the caller's array
`extracted_packet` after the call. -/
structure ExtractResult where
  ret : Int
  extracted_packet : List Nat
deriving DecidableEq, Repr

/-- The `while (line_length > 0)` loop of `_extract_packet` followed by the two `return`s.
`full_packet` is the input array from the current pointer on, `p` the offset of the
output pointer in the array `extracted_packet`. The first argument bounds the passes. -/
def extract_loop (h : hokuyo_t) :
    Nat → List Nat → List Nat → Nat → Int → Int → Outcome ExtractResult
  | 0, _, _, _, _, _ => .fuel
  | n + 1, full_packet, extracted_packet, p, len_nlfc, line_length =>
    if line_length > 0 then
      match memcpy extracted_packet p full_packet line_length.toNat with
      | none => .undefined
      | some extracted_packet =>
        let full_packet := full_packet.drop (line_length.toNat + 2)
        match _check_line_checksum h full_packet MAX_LINE_LENGTH with
        | .ok r =>
          extract_loop h n full_packet extracted_packet (p + line_length.toNat)
            (len_nlfc + line_length) r.ret
        | .undefined => .undefined
        | .fuel => .fuel
    else if line_length < 0 then .ok ⟨error_return, extracted_packet⟩
    else .ok ⟨len_nlfc, extracted_packet⟩

/-- Model of `_extract_packet`. `full_packet` and `extracted_packet` are the whole
arrays the two pointers refer to. -/
def _extract_packet (h : hokuyo_t) (full_packet extracted_packet : List Nat)
    (packet_length : Int) : Outcome ExtractResult :=
  if packet_length < 1 then .ok ⟨error_return, extracted_packet⟩
  else
    match _check_line_checksum h full_packet MAX_LINE_LENGTH with
    | .ok r => extract_loop h (full_packet.length + 1) full_packet extracted_packet 0 0 r.ret
    | .undefined => .undefined
    | .fuel => .fuel

/-- The bytes of a packet line on the wire: data bytes, checksum byte, linefeed. -/
def wire_line (l : List Nat × Nat) : List Nat := l.1 ++ [l.2, 0x0a]

/-- The bytes of a sequence of packet lines on the wire. -/
def wire_lines (ls : List (List Nat × Nat)) : List Nat := (ls.map wire_line).flatten

/-- The data bytes of a sequence of packet lines, concatenated in order. -/
def lines_data (ls : List (List Nat × Nat)) : List Nat := (ls.map Prod.fst).flatten

/-! ## `serial_device_read_chars` and `_read_line` -/

def IO_BLOCK_W_TIMEOUT : Int := 0
def IO_BLOCK_W_TIMEOUT_W_TERM_SEQUENCE : Int := 4
def MAX_NUM_TERM_CHARS : Int := 128

/-- Model of `serial_device_set_io_block_w_timeout_w_term_sequence` (the `fcntl` calls of
`set_blocking_io` are taken to succeed). -/
def serial_device_set_io_block_w_timeout_w_term_sequence (s : serial_device_t)
    (termSequence : List Nat) (numTermChars : Int) (retTermSequence : Bool) :
    Int × serial_device_t :=
  if !s.connected then (error_return, s)
  else if numTermChars < 1 ∨ numTermChars > MAX_NUM_TERM_CHARS then (error_return, s)
  else
    (0, { s with
          ioMode := IO_BLOCK_W_TIMEOUT_W_TERM_SEQUENCE
          numTermChars := numTermChars
          retTermSequence := retTermSequence
          termSequence := termSequence.take numTermChars.toNat
            ++ s.termSequence.drop numTermChars.toNat })

/-- Result of `serial_device_read_chars`: the returned `int`, the device (with the bytes
read taken off `rx`) and the caller's array `data` after the call. -/
structure ReadResult where
  ret : Int
  sd : serial_device_t
  data : List Nat
deriving DecidableEq, Repr

/-- The loop of the case `IO_BLOCK_W_TIMEOUT_W_TERM_SEQUENCE` of
`serial_device_read_chars`, by recursion on the bytes still to come: `select` times out
when there is none, otherwise `read` delivers one byte. -/
def read_term_sequence_loop (s : serial_device_t) :
    List Nat → List Nat → Nat → Int → Nat → Outcome ReadResult
  | rx, data, bytes_read_total, bytes_left, charsMatched =>
    if bytes_left = 0 then .ok ⟨error_return, { s with rx := rx }, data⟩
    else
      match rx with
      | [] => .ok ⟨error_return, { s with rx := [] }, data⟩
      | b :: rx =>
        match store data bytes_read_total b, s.termSequence[charsMatched]? with
        | some data, some t =>
          let charsMatched := if b = t then charsMatched + 1 else 0
          if (charsMatched : Int) = s.numTermChars then
            if s.retTermSequence then
              .ok ⟨(bytes_read_total : Int) + 1, { s with rx := rx }, data⟩
            else
              .ok ⟨(bytes_read_total : Int) + 1 - s.numTermChars, { s with rx := rx }, data⟩
          else
            read_term_sequence_loop s rx data (bytes_read_total + 1) (bytes_left - 1)
              charsMatched
        | _, _ => .undefined

/-- Model of `serial_device_read_chars` for the two io modes `hokuyo.c` selects. In mode
`IO_BLOCK_W_TIMEOUT` the call reads until `byte_count` bytes have arrived or `select`
times out and returns the number of bytes read. Every other mode value is answered like
the `default` case. -/
def serial_device_read_chars (s : serial_device_t) (data : List Nat) (byte_count : Int)
    (_timeout_us : Int) : Outcome ReadResult :=
  if !s.connected then .ok ⟨error_return, s, data⟩
  else if s.ioMode = IO_BLOCK_W_TIMEOUT then
    if byte_count < 0 then .undefined
    else
      let got := s.rx.take byte_count.toNat
      if got.length ≤ data.length then
        .ok ⟨got.length, { s with rx := s.rx.drop byte_count.toNat },
          got ++ data.drop got.length⟩
      else .undefined
  else if s.ioMode = IO_BLOCK_W_TIMEOUT_W_TERM_SEQUENCE then
    read_term_sequence_loop s s.rx data 0 byte_count 0
  else .ok ⟨error_return, s, data⟩

/-- Result of `_read_line`: the returned `int`, the handle (its transport has advanced)
and the caller's array `line` after the call. -/
structure ReadLineResult where
  ret : Int
  h : hokuyo_t
  line : List Nat
deriving DecidableEq, Repr

/-- The part of `_read_line` after the `num_chars == 1` block: the return without
checksum, or the call of `_check_line_checksum` and the two returns after it. -/
def read_line_finish (h : hokuyo_t) (line : List Nat) (num_chars : Int) (check_sum : Bool) :
    Outcome ReadLineResult :=
  if !check_sum then .ok ⟨num_chars - 1, h, line⟩
  else
    match _check_line_checksum h line num_chars with
    | .ok c =>
      if c.ret ≠ num_chars - 2 then
        if h.debug then .ok ⟨error_return, h, line⟩
        else .ok ⟨num_chars - 2, h, line⟩
      else .ok ⟨num_chars - 2, h, line⟩
    | .undefined => .undefined
    | .fuel => .fuel

/-- Model of `_read_line`. The return value of the call that selects the io mode is
ignored, as in the source. -/
def _read_line (h : hokuyo_t) (line : List Nat) (max_chars timeout_us : Int)
    (check_sum : Bool) : Outcome ReadLineResult :=
  if !h.sd.connected then .ok ⟨error_return, h, line⟩
  else
    let sd := (serial_device_set_io_block_w_timeout_w_term_sequence h.sd [0x0a] 1 true).2
    match serial_device_read_chars sd line max_chars timeout_us with
    | .ok r =>
      let h := { h with sd := r.sd }
      let line := r.data
      let num_chars := r.ret
      if num_chars < 1 ∧ h.debug then .ok ⟨error_return, h, line⟩
      else if num_chars = 1 then
        match line with
        | [] => .undefined
        | c :: _ =>
          if c = 0x0a then .ok ⟨0, h, line⟩
          else if h.debug then .ok ⟨error_return, h, line⟩
          else read_line_finish h line num_chars check_sum
      else read_line_finish h line num_chars check_sum
    | .undefined => .undefined
    | .fuel => .fuel

/-- The `int` a call of `_read_line` returned, when it returned. -/
def ReadLineResult.retOf : Outcome ReadLineResult → Option Int
  | .ok r => some r.ret
  | _ => none

/-- The bytes of an ASCII string. -/
def bytes (s : String) : List Nat := s.toList.map Char.toNat

/-! ## `_create_scan_request` -/

/-- Left padding with `'0'` up to a minimum field width (the `0` flag of `printf`). -/
def zero_pad (width : Nat) (s : List Char) : List Char :=
  List.replicate (width - s.length) '0' ++ s

/-- The characters `sprintf` writes for `%0<width>d`. -/
def fmt_d (width : Nat) (v : Int) : List Char :=
  if v < 0 then '-' :: zero_pad (width - 1) (Nat.toDigits 10 v.natAbs)
  else zero_pad width (Nat.toDigits 10 v.toNat)

/-- The characters `sprintf` writes for `%0<width>x`: the `int` argument is read as an
`unsigned int` and written in lower-case hexadecimal. -/
def fmt_x (width : Nat) (v : Int) : List Char :=
  zero_pad width (Nat.toDigits 16 (toUInt32 v))

/-- Result of `_create_scan_request`: the returned `int`, the string in `req` and the
flag `*need_to_read_off_cmd_and_status` after the call. -/
structure ScanRequest where
  ret : Int
  req : List Char
  need_to_read_off_cmd_and_status : Bool
deriving DecidableEq, Repr

/-- Model of `_create_scan_request`. `req` and `need` are the contents of the two output
locations before the call; an error return leaves `req` as it was. -/
def _create_scan_request (h : hokuyo_t) (scan_start scan_end scan_skip encoding scan_type
    num_scans : Int) (req : List Char) (need : Bool) : ScanRequest :=
  if scan_start < 0 then ⟨error_return, req, need⟩
  else if scan_end < 0 then ⟨error_return, req, need⟩
  else if h.type = TYPE_UTM_30LX ∧ scan_end > MAX_NUM_POINTS_UTM_30LX then
    ⟨error_return, req, need⟩
  else if h.type = TYPE_URG_04LX ∧ scan_end > MAX_NUM_POINTS_URG_04LX then
    ⟨error_return, req, need⟩
  else if scan_end ≤ scan_start then ⟨error_return, req, need⟩
  else if num_scans < 0 ∨ num_scans > 99 then ⟨error_return, req, need⟩
  else if h.type = TYPE_UTM_30LX ∧ encoding = TWO_DIGITS then ⟨error_return, req, need⟩
  else if num_scans = 1 then
    if scan_type = SCAN_REGULAR then
      if encoding = THREE_DIGITS then
        ⟨0, "GD".toList ++ fmt_d 4 scan_start ++ fmt_d 4 scan_end ++ fmt_x 2 scan_skip, false⟩
      else if encoding = TWO_DIGITS then
        ⟨0, "GS".toList ++ fmt_d 4 scan_start ++ fmt_d 4 scan_end ++ fmt_x 2 scan_skip, false⟩
      else ⟨error_return, req, need⟩
    else if scan_type = SCAN_SPECIAL_ME ∧ h.type = TYPE_UTM_30LX then
      if encoding = THREE_DIGITS then
        ⟨0, "ME".toList ++ fmt_d 4 scan_start ++ fmt_d 4 scan_end ++ fmt_x 2 scan_skip
            ++ '0' :: fmt_d 2 num_scans, true⟩
      else ⟨error_return, req, need⟩
    else ⟨error_return, req, need⟩
  else if num_scans = 0 then
    if scan_type = SCAN_REGULAR then
      if encoding = THREE_DIGITS then
        ⟨0, "MD".toList ++ fmt_d 4 scan_start ++ fmt_d 4 scan_end ++ fmt_x 2 scan_skip
            ++ '0' :: fmt_d 2 num_scans, true⟩
      else if encoding = TWO_DIGITS then
        ⟨0, "MS".toList ++ fmt_d 4 scan_start ++ fmt_d 4 scan_end ++ fmt_x 2 scan_skip
            ++ '0' :: fmt_d 2 num_scans, true⟩
      else ⟨error_return, req, true⟩
    else if scan_type = SCAN_SPECIAL_ME ∧ h.type = TYPE_UTM_30LX then
      if encoding = THREE_DIGITS then
        ⟨0, "ME".toList ++ fmt_d 4 scan_start ++ fmt_d 4 scan_end ++ fmt_x 2 scan_skip
            ++ '0' :: fmt_d 2 num_scans, true⟩
      else ⟨error_return, req, true⟩
    else ⟨error_return, req, true⟩
  else ⟨error_return, req, need⟩

/-! ### The layout of a command, in the words of the specification -/

/-- A number as 4 zero-padded decimal digits. -/
def dec4 (n : Nat) : List Char :=
  [Nat.digitChar (n / 1000 % 10), Nat.digitChar (n / 100 % 10), Nat.digitChar (n / 10 % 10),
    Nat.digitChar (n % 10)]

/-- A number as 2 zero-padded decimal digits. -/
def dec2 (n : Nat) : List Char := [Nat.digitChar (n / 10 % 10), Nat.digitChar (n % 10)]

/-- A number as 2 lower-case hexadecimal digits. -/
def hex2 (n : Nat) : List Char := [Nat.digitChar (n / 16 % 16), Nat.digitChar (n % 16)]

/-- The opcode of a request: `ME` for an intensity request, otherwise `G` for a single
shot and `M` for streaming, followed by `D` for the 3-digit and `S` for the 2-digit
encoding. -/
def opcode (encoding scan_type num_scans : Int) : List Char :=
  if scan_type = SCAN_SPECIAL_ME then "ME".toList
  else if num_scans = 1 then
    (if encoding = THREE_DIGITS then "GD".toList else "GS".toList)
  else (if encoding = THREE_DIGITS then "MD".toList else "MS".toList)

/-- The command string as the specification lays it out: opcode, start, end, skip and, for
streaming and intensity requests only, `'0'` and the repeat count. -/
def command_layout (scan_start scan_end scan_skip encoding scan_type num_scans : Int) :
    List Char :=
  opcode encoding scan_type num_scans ++ dec4 scan_start.toNat ++ dec4 scan_end.toNat
    ++ hex2 scan_skip.toNat
    ++ (if num_scans = 0 ∨ scan_type = SCAN_SPECIAL_ME then '0' :: dec2 num_scans.toNat
        else [])

/-- The maximum point count of the handle's variant, in the words of the
specification: 771 for URG-04LX, 2162 for UTM-30LX. -/
def variant_max_points (h : hokuyo_t) : Int :=
  if h.type = TYPE_UTM_30LX then 2162 else 771

/-- Encoding and scan kind are valid for the handle's variant, in the words of the
specification: a regular scan with the 3-digit encoding on both variants and with the
2-digit encoding on URG-04LX, an intensity scan (3-digit) on UTM-30LX only. -/
def valid_encoding_and_kind (h : hokuyo_t) (encoding scan_type : Int) : Prop :=
  (scan_type = SCAN_REGULAR
      ∧ (encoding = THREE_DIGITS ∨ (encoding = TWO_DIGITS ∧ h.type = TYPE_URG_04LX)))
    ∨ (scan_type = SCAN_SPECIAL_ME ∧ h.type = TYPE_UTM_30LX ∧ encoding = THREE_DIGITS)

instance (h : hokuyo_t) (encoding scan_type : Int) :
    Decidable (valid_encoding_and_kind h encoding scan_type) := by
  unfold valid_encoding_and_kind; infer_instance

/-- The window is valid for the handle's variant, in the words of the specification:
`scan_start >= 0`, `scan_end >= 0`, `scan_end > scan_start` and `scan_end` at most the
variant's maximum point count. -/
def valid_window (h : hokuyo_t) (scan_start scan_end : Int) : Prop :=
  0 ≤ scan_start ∧ 0 ≤ scan_end ∧ scan_start < scan_end ∧ scan_end ≤ variant_max_points h

instance (h : hokuyo_t) (scan_start scan_end : Int) :
    Decidable (valid_window h scan_start scan_end) := by
  unfold valid_window; infer_instance

/-- Value of a decimal digit character. -/
def dec_val (c : Char) : Nat := c.toNat - '0'.toNat

/-- Value of a hexadecimal digit character (digits and lower-case letters). -/
def hex_val (c : Char) : Nat :=
  if c.toNat ≤ '9'.toNat then c.toNat - '0'.toNat else c.toNat - 'a'.toNat + 10

/-- The characters of `s` at the positions `i..j` (counted from 0, both included). -/
def field (s : List Char) (i j : Nat) : List Char := (s.drop i).take (j + 1 - i)

/-- A field read as a decimal number. -/
def parse_dec (cs : List Char) : Nat := cs.foldl (fun a c => 10 * a + dec_val c) 0

/-- A field read as a hexadecimal number. -/
def parse_hex (cs : List Char) : Nat := cs.foldl (fun a c => 16 * a + hex_val c) 0

/-! ## Local arrays and strings -/

/-- An uninitialised local array of `n` bytes: its contents are the first `n` bytes of
`stack`, which stands for whatever the stack frame happens to hold (padded with zeros
when `stack` is shorter). -/
def local_array (stack : List Nat) (n : Nat) : List Nat :=
  (stack ++ List.replicate n 0).take n

/-- A C string as it lies in memory: the bytes of its characters and the terminating
NUL. -/
def cstr (s : List Char) : List Nat := s.map Char.toNat ++ [0]

/-- Model of `strncmp(s1, s2, n)` on two arrays: 0 when the first `n` bytes agree or the
strings agree up to a common NUL, otherwise the difference of the first two bytes that
differ. Comparing a byte outside an array is undefined. -/
def strncmp : List Nat → List Nat → Nat → Outcome Int
  | [], _, n => if n = 0 then .ok 0 else .undefined
  | _ :: _, [], n => if n = 0 then .ok 0 else .undefined
  | a :: s1, b :: s2, n =>
    if n = 0 then .ok 0
    else if a ≠ b then .ok ((a : Int) - (b : Int))
    else if a = 0 then .ok 0
    else strncmp s1 s2 (n - 1)

/-- Model of `_check_result(s, line)`: `strncmp(s, line, 2)`. -/
def _check_result (s : List Char) (line : List Nat) : Outcome Int :=
  strncmp (cstr s) line 2

/-! ## More of `serial_device.c` -/

/-- Model of `serial_device_flush_input_buffer`: the bytes that have arrived are read
off and thrown away (the `fcntl` calls that switch the blocking mode and back are taken
to succeed). -/
def serial_device_flush_input_buffer (s : serial_device_t) : Int × serial_device_t :=
  if !s.connected then (error_return, s)
  else
    match s.flush_drops with
    | [] => (0, s)
    | k :: ks => (0, { s with rx := s.rx.drop k, flush_drops := ks })

/-- Model of `serial_device_write_chars(s, caller, data, byte_count, 0)`: with
`delay_us = 0`, the only value `hokuyo.c` passes, one call of `write` followed by
`tcdrain`; the value `write` returned is returned. -/
def serial_device_write_chars (s : serial_device_t) (data : List Nat) (byte_count : Int) :
    Int × serial_device_t :=
  if !s.connected then (error_return, s)
  else
    match s.write_results with
    | [] => (byte_count, { s with tx := s.tx ++ data.take byte_count.toNat })
    | k :: ks =>
      if k < 0 then (k, { s with write_results := ks })
      else if k < byte_count then
        (k, { s with tx := s.tx ++ data.take k.toNat, write_results := ks })
      else
        (byte_count, { s with tx := s.tx ++ data.take byte_count.toNat,
                                write_results := ks })

/-- Model of `serial_device_set_io_block_w_timeout` (the `fcntl` calls of
`set_blocking_io` are taken to succeed). -/
def serial_device_set_io_block_w_timeout (s : serial_device_t) : Int × serial_device_t :=
  if !s.connected then (error_return, s)
  else
    (0, { s with ioMode := IO_BLOCK_W_TIMEOUT, numTermChars := 0, retTermSequence := false })

/-! ## Commands: `_send_command2`, `_laser_on_off`, `_laser_on`, `_laser_off` -/

def NUM_STOP_LASER_RETRIES : Nat := 5

/-- Model of `_send_command2`: the command and a linefeed are written; the result is 0
when all of it was written, 1 otherwise. (The commands of the driver are far shorter
than the local buffer of `MAXSTR` bytes.) -/
def _send_command2 (h : hokuyo_t) (cmd : List Char) : Int × hokuyo_t :=
  let buf := cmd.map Char.toNat ++ [0x0a]
  let w := serial_device_write_chars h.sd buf buf.length
  (if w.1 ≠ buf.length then 1 else 0, { h with sd := w.2 })

/-- Model of `_laser_on_off`. The three `strncmp` tests of the source only choose debug
messages and read no byte outside the arrays; they are left out. `stack` gives the
initial contents of the local array `line`. -/
def _laser_on_off (h : hokuyo_t) (turn_on : Bool) (stack : List Nat) :
    Outcome (Int × hokuyo_t) :=
  if !h.sd.connected then .ok (error_return, h)
  else
    let line := local_array stack 100
    let cmd := if turn_on then "BM".toList else "QT".toList
    let h := { h with sd := (serial_device_flush_input_buffer h.sd).2 }
    let h := (_send_command2 h cmd).2
    match _read_line h line MAX_LINE_LENGTH 200000 false with
    | .ok r1 =>
      match _read_line r1.h r1.line MAX_LINE_LENGTH 200000 true with
      | .ok r2 =>
        match _read_line r2.h r2.line MAX_LINE_LENGTH 200000 false with
        | .ok r3 =>
          if !turn_on then .ok (0, { r3.h with streaming := false })
          else .ok (0, r3.h)
        | .undefined => .undefined
        | .fuel => .fuel
      | .undefined => .undefined
      | .fuel => .fuel
    | .undefined => .undefined
    | .fuel => .fuel

/-- Model of `_laser_on`: stop, then start. -/
def _laser_on (h : hokuyo_t) (stack : List Nat) : Outcome (Int × hokuyo_t) :=
  match _laser_on_off h false stack with
  | .ok r1 =>
    match _laser_on_off r1.2 true stack with
    | .ok r2 => if r2.1 ≠ 0 then .ok (error_return, r2.2) else .ok (0, r2.2)
    | .undefined => .undefined
    | .fuel => .fuel
  | .undefined => .undefined
  | .fuel => .fuel

/-- The `for` loop of `_laser_off`, by recursion on the number of tries left, and the
`return -1` after it. -/
def laser_off_loop (stack : List Nat) : Nat → hokuyo_t → Outcome (Int × hokuyo_t)
  | 0, h => .ok (-1, h)
  | n + 1, h =>
    match _laser_on_off h false stack with
    | .ok r => if r.1 = 0 then .ok (0, r.2) else laser_off_loop stack n r.2
    | .undefined => .undefined
    | .fuel => .fuel

/-- Model of `_laser_off`. -/
def _laser_off (h : hokuyo_t) (stack : List Nat) : Outcome (Int × hokuyo_t) :=
  laser_off_loop stack NUM_STOP_LASER_RETRIES h

/-! ## `_confirm_scan`, `_read_packet` -/

/-- Model of `_confirm_scan`. A negative length of the echo line only prints a message
(the source has no `return` there). After a status other than "00" the remaining tests
only choose a debug message, except the test for "10", which turns the laser on. -/
def _confirm_scan (h : hokuyo_t) (req : List Char) (timeout_us : Int) (stack : List Nat) :
    Outcome (Int × hokuyo_t) :=
  let line := local_array stack 100
  match _read_line h line MAX_LINE_LENGTH timeout_us false with
  | .ok r1 =>
    match strncmp (cstr req) r1.line (toSizeT r1.ret) with
    | .ok c1 =>
      if c1 ≠ 0 then .ok (error_return, r1.h)
      else
        match _read_line r1.h r1.line MAX_LINE_LENGTH timeout_us true with
        | .ok r2 =>
          if r2.ret < 0 then .ok (error_return, r2.h)
          else
            match _check_result "00".toList r2.line, _check_result "10".toList r2.line with
            | .ok c00, .ok c10 =>
              if c00 ≠ 0 then
                if c10 = 0 then
                  match _laser_on r2.h stack with
                  | .ok r3 => .ok (-1, r3.2)
                  | .undefined => .undefined
                  | .fuel => .fuel
                else .ok (-1, r2.h)
              else .ok (0, r2.h)
            | _, _ => .undefined
        | .undefined => .undefined
        | .fuel => .fuel
    | .undefined => .undefined
    | .fuel => .fuel
  | .undefined => .undefined
  | .fuel => .fuel

/-- Result of `_read_packet`: the returned `int`, the handle (transport advanced,
`packet_length` possibly discovered) and the caller's array `data` after the call. -/
structure ReadPacketResult where
  ret : Int
  h : hokuyo_t
  data : List Nat
deriving DecidableEq, Repr

/-- Model of `_read_packet(h, caller, data, &h->packet_length, timeout_us)`. -/
def _read_packet (h : hokuyo_t) (data : List Nat) (timeout_us : Int) :
    Outcome ReadPacketResult :=
  if !h.sd.connected then .ok ⟨error_return, h, data⟩
  else if h.packet_length > 0 then
    let sd := (serial_device_set_io_block_w_timeout h.sd).2
    match serial_device_read_chars sd data h.packet_length timeout_us with
    | .ok r =>
      if r.ret ≠ h.packet_length then .ok ⟨error_return, { h with sd := r.sd }, r.data⟩
      else .ok ⟨0, { h with sd := r.sd }, r.data⟩
    | .undefined => .undefined
    | .fuel => .fuel
  else
    let sd := (serial_device_set_io_block_w_timeout_w_term_sequence h.sd [0x0a, 0x0a] 2
      true).2
    match serial_device_read_chars sd data MAX_PACKET_LENGTH timeout_us with
    | .ok r =>
      if r.ret < 0 then .ok ⟨error_return, { h with sd := r.sd }, r.data⟩
      else .ok ⟨0, { h with sd := r.sd, packet_length := r.ret }, r.data⟩
    | .undefined => .undefined
    | .fuel => .fuel

/-! ## `_get_scan` -/

def URG_04LX_GET_SCAN_TIMEOUT_US : Int := 500000
def UTM_30LX_GET_SCAN_TIMEOUT_US : Int := 500000

/-- The `switch (h->type)` that chooses `timeout_us` in `_get_scan`. -/
def get_scan_timeout_us (h : hokuyo_t) : Int :=
  if h.type = TYPE_URG_04LX then URG_04LX_GET_SCAN_TIMEOUT_US
  else if h.type = TYPE_UTM_30LX then UTM_30LX_GET_SCAN_TIMEOUT_US
  else 0

/-- Result of `_get_scan`: the returned `int`, the handle, the caller's array `range`
and the caller's `*n_range` after the call. -/
structure GetScanResult where
  ret : Int
  h : hokuyo_t
  range : List Nat
  n_range : Int
deriving DecidableEq, Repr

/-- The test "settings have changed" at the head of `_get_scan`. -/
def settings_changed (h : hokuyo_t) (scan_start scan_end scan_skip encoding scan_type : Int) :
    Bool :=
  h.scan_start != scan_start || h.scan_end != scan_end || h.scan_skip != scan_skip
    || h.encoding != encoding || h.scan_type != scan_type

/-- Lines 1483-1515 of `_get_scan`: when the settings have changed the packet length is
forgotten, the scan is marked unready and a streaming laser is shut off (the result of
`_laser_off` only chooses a debug message). -/
def get_scan_prepare (h : hokuyo_t) (scan_start scan_end scan_skip encoding scan_type : Int)
    (stack : List Nat) : Outcome hokuyo_t :=
  if settings_changed h scan_start scan_end scan_skip encoding scan_type then
    let h := { h with packet_length := -1, scan_ready := false }
    if h.streaming then
      match _laser_off h stack with
      | .ok r => .ok r.2
      | .undefined => .undefined
      | .fuel => .fuel
    else .ok h
  else .ok h

/-- Lines 1564-1600 of `_get_scan`, the block under `if (need_to_request_scan)`: flush,
write the request, confirm it, note that streaming has started, read off the empty
line. The `int` is 0 when the block ran through and -1 when it returned an error. -/
def get_scan_request (h : hokuyo_t) (req : List Char) (scan_type num_scans timeout_us : Int)
    (line stack : List Nat) : Outcome (Int × hokuyo_t × List Nat) :=
  let h := { h with sd := (serial_device_flush_input_buffer h.sd).2 }
  let w := _send_command2 h req
  if w.1 ≠ 0 then .ok (error_return, w.2, line)
  else
    match _confirm_scan w.2 req timeout_us stack with
    | .ok c =>
      if c.1 ≠ 0 then .ok (error_return, c.2, line)
      else
        let h := if num_scans = 0 then { c.2 with streaming := true } else c.2
        if num_scans = 0 ∨ scan_type = SCAN_SPECIAL_ME then
          match _read_line h line MAX_LINE_LENGTH timeout_us false with
          | .ok r =>
            if r.ret < 0 then .ok (error_return, r.h, r.line)
            else if r.ret > 0 then .ok (error_return, r.h, r.line)
            else .ok (0, r.h, r.line)
          | .undefined => .undefined
          | .fuel => .fuel
        else .ok (0, h, line)
    | .undefined => .undefined
    | .fuel => .fuel

/-- Lines 1602-1627 of `_get_scan`, the block under
`if (need_to_read_off_cmd_and_status)`: the echo of the command, compared with the
request on its first `line_len - 2` characters, and the status, which has to start with
"99" (`good_status` is a `char[2]` without a NUL). -/
def get_scan_read_off (h : hokuyo_t) (req : List Char) (timeout_us : Int) (line : List Nat) :
    Outcome (Int × hokuyo_t × List Nat) :=
  match _read_line h line MAX_LINE_LENGTH timeout_us false with
  | .ok r1 =>
    if r1.ret < 0 then .ok (error_return, r1.h, r1.line)
    else
      match strncmp (cstr req) r1.line (toSizeT (r1.ret - 2)) with
      | .ok c1 =>
        if c1 ≠ 0 then .ok (error_return, r1.h, r1.line)
        else
          match _read_line r1.h r1.line MAX_LINE_LENGTH timeout_us true with
          | .ok r2 =>
            if r2.ret < 0 then .ok (error_return, r2.h, r2.line)
            else
              match strncmp [0x39, 0x39] r2.line 2 with
              | .ok c2 =>
                if c2 ≠ 0 then .ok (error_return, r2.h, r2.line)
                else .ok (0, r2.h, r2.line)
              | .undefined => .undefined
              | .fuel => .fuel
          | .undefined => .undefined
          | .fuel => .fuel
      | .undefined => .undefined
      | .fuel => .fuel
  | .undefined => .undefined
  | .fuel => .fuel

/-- Lines 1630-1681 of `_get_scan`: the timestamp line, the data packet, its extraction
and decoding into `range`, the publication of the scan and the update of the stored
settings. Taking and releasing the data mutex and signalling the condition variable
have no effect in this sequential model. -/
def get_scan_data (h : hokuyo_t) (range : List Nat) (n_range : Int)
    (scan_start scan_end scan_skip encoding scan_type num_scans timeout_us : Int)
    (line full_packet extracted_packet : List Nat) : Outcome GetScanResult :=
  match _read_line h line MAX_LINE_LENGTH timeout_us true with
  | .ok r1 =>
    if r1.ret < 0 then .ok ⟨error_return, r1.h, range, n_range⟩
    else
      match _read_packet r1.h full_packet timeout_us with
      | .ok p =>
        if p.ret ≠ 0 then .ok ⟨error_return, p.h, range, n_range⟩
        else
          match _extract_packet p.h p.data extracted_packet p.h.packet_length with
          | .ok e =>
            if e.ret < 0 then .ok ⟨error_return, p.h, range, n_range⟩
            else
              match _decode_packet p.h e.extracted_packet range e.ret encoding with
              | .ok d =>
                if d.ret < 0 ∨ d.ret > MAX_NUM_POINTS then
                  .ok ⟨error_return, { p.h with scan_ready := false }, d.extracted_data,
                    d.ret⟩
                else
                  let h := { p.h with
                    scan_ready := true
                    scan_start := scan_start
                    scan_end := scan_end
                    scan_skip := scan_skip
                    encoding := encoding
                    scan_type := scan_type }
                  let h := if num_scans = 0 then { h with streaming := true } else h
                  .ok ⟨0, h, d.extracted_data, d.ret⟩
              | .undefined => .undefined
              | .fuel => .fuel
          | .undefined => .undefined
          | .fuel => .fuel
      | .undefined => .undefined
      | .fuel => .fuel
  | .undefined => .undefined
  | .fuel => .fuel

/-- Model of `_get_scan`. `range` and `n_range` are the contents of the caller's two
output locations before the call, `stack` the initial contents of the local arrays. The
branch `else return error "invalid number of scans"` after the choice of
`need_to_request_scan` is kept although `_create_scan_request` has already rejected such
a request. -/
def _get_scan (h : hokuyo_t) (range : List Nat) (n_range : Int)
    (scan_start scan_end scan_skip encoding scan_type num_scans : Int) (stack : List Nat) :
    Outcome GetScanResult :=
  if !h.sd.connected then .ok ⟨error_return, h, range, n_range⟩
  else
    match get_scan_prepare h scan_start scan_end scan_skip encoding scan_type stack with
    | .ok h =>
      let c := _create_scan_request h scan_start scan_end scan_skip encoding scan_type
        num_scans [] false
      if c.ret ≠ 0 then .ok ⟨error_return, h, range, n_range⟩
      else if num_scans ≠ 1 ∧ num_scans ≠ 0 then .ok ⟨error_return, h, range, n_range⟩
      else
        let need_to_request_scan : Bool := if num_scans = 1 then true else !h.streaming
        let timeout_us := get_scan_timeout_us h
        let line := local_array stack 100
        match (if need_to_request_scan then
                get_scan_request h c.req scan_type num_scans timeout_us line stack
              else .ok (0, h, line)) with
        | .ok (r1, h1, line1) =>
          if r1 ≠ 0 then .ok ⟨error_return, h1, range, n_range⟩
          else
            match (if c.need_to_read_off_cmd_and_status then
                    get_scan_read_off h1 c.req timeout_us line1
                  else .ok (0, h1, line1)) with
            | .ok (r2, h2, line2) =>
              if r2 ≠ 0 then .ok ⟨error_return, h2, range, n_range⟩
              else
                get_scan_data h2 range n_range scan_start scan_end scan_skip encoding
                  scan_type num_scans timeout_us line2
                  (local_array stack 15000) (local_array stack 15000)
            | .undefined => .undefined
            | .fuel => .fuel
        | .undefined => .undefined
        | .fuel => .fuel
    | .undefined => .undefined
    | .fuel => .fuel

/-- The `int` a call of `_get_scan` returned, when it returned. -/
def GetScanResult.retOf : Outcome GetScanResult → Option Int
  | .ok r => some r.ret
  | _ => none

/-! ## The worker's acquisition and `hokuyo_get_scan` -/

def SCAN_START : Int := 44
def SCAN_END : Int := 725
def SCAN_SKIP : Int := 1
def ENCODING : Int := THREE_DIGITS
def SCAN_TYPE : Int := 0
def READER_GET_SCAN_TIMEOUT_MSEC : Int := 400

/-- The call of `_get_scan` in `_run` (lines 1803-1811): the output locations are the
handle's own `data` and `num_data`, the window is the fixed production window, the
request is a streaming one. The `int` is the value of `error`. -/
def run_get_scan (h : hokuyo_t) (stack : List Nat) : Outcome (Int × hokuyo_t) :=
  match _get_scan h h.data h.num_data SCAN_START SCAN_END SCAN_SKIP ENCODING SCAN_TYPE 0
      stack with
  | .ok r => .ok (r.ret, { r.h with data := r.range, num_data := r.n_range })
  | .undefined => .undefined
  | .fuel => .fuel

/-- A reading of the clock by `gettimeofday`. -/
structure timeval where
  tv_sec : Int
  tv_usec : Int
deriving DecidableEq, Repr

/-- Rounding of a rational to the nearest integer, ties to the even one. -/
def round_half_even (x : ℚ) : Int :=
  if x - ⌊x⌋ < 1 / 2 then ⌊x⌋
  else if 1 / 2 < x - ⌊x⌋ then ⌊x⌋ + 1
  else if ⌊x⌋ % 2 = 0 then ⌊x⌋ else ⌊x⌋ + 1

/-- The `double` (IEEE 754 binary64) nearest to a rational, ties to even: with
`2^e <= |q| < 2^(e+1)` the result is the multiple of `2^(e-52)` nearest to `q`. A `double`
is represented by its value. The exponent range is not bounded here; the values that the
driver computes from two clock readings are far from overflow and from the subnormal
numbers. Every operation on `double`s is the exact operation followed by this rounding
(no excess precision, no fused multiply-add). -/
def round_double (q : ℚ) : ℚ :=
  (round_half_even (q / 2 ^ (Int.log 2 |q| - 52)) : ℚ) * 2 ^ (Int.log 2 |q| - 52)

/-- Model of `_get_current_time_sec`: the `double` value of
`time.tv_sec + time.tv_usec*0.000001`. The two `long` fields are converted to `double`,
`0.000001` is the `double` nearest to one millionth, and the product and the sum are
rounded. -/
def _get_current_time_sec (time : timeval) : ℚ :=
  round_double (round_double time.tv_sec
    + round_double (round_double time.tv_usec * round_double (1 / 1000000)))

/-- What the surroundings do during one pass of the wait loop of `hokuyo_get_scan`:
`now` is the clock reading at the top of the pass; `slot`, when present, holds the
values of `data`, `num_data` and `scan_ready` that the worker thread leaves while
`data__cond_wait` has released the mutex. -/
structure WaitEvent where
  now : timeval
  slot : Option (List Nat × Int × Bool)
deriving DecidableEq, Repr

/-- The test `(_get_current_time_sec() - timeStartSec)*1000 >= READER_GET_SCAN_TIMEOUT_MSEC`
in `double` arithmetic: the difference and the product are rounded, the two `int`s 1000
and 400 are converted to `double`. -/
def get_scan_timed_out (timeStartSec : ℚ) (now : timeval) : Bool :=
  decide (round_double (round_double (_get_current_time_sec now - timeStartSec)
      * round_double 1000)
    ≥ round_double READER_GET_SCAN_TIMEOUT_MSEC)

/-- A clock reading in seconds, as an exact rational. -/
def exact_sec (t : timeval) : ℚ := (t.tv_sec : ℚ) + (t.tv_usec : ℚ) / 1000000

/-- The number of microseconds from the clock reading `t0` to the clock reading `now`. -/
def elapsed_usec (t0 now : timeval) : Int :=
  (now.tv_sec - t0.tv_sec) * 1000000 + (now.tv_usec - t0.tv_usec)

/-- The loop `while (!_is_scan_ready(h))` of `hokuyo_get_scan`, by recursion on the
events of its passes; it is an exhausted bound when the events run out before the loop
is left. -/
def get_scan_wait (timeStartSec : ℚ) : List WaitEvent → hokuyo_t → Outcome hokuyo_t
  | events, h =>
    if h.scan_ready then .ok h
    else
      match events with
      | [] => .fuel
      | e :: es =>
        if get_scan_timed_out timeStartSec e.now then .ok h
        else
          match e.slot with
          | none => get_scan_wait timeStartSec es h
          | some (data, num_data, scan_ready) =>
            get_scan_wait timeStartSec es
              { h with data := data, num_data := num_data, scan_ready := scan_ready }

/-- Result of `hokuyo_get_scan`: the returned `int`, the handle and the caller's array
`range` after the call. -/
structure FetchResult where
  ret : Int
  h : hokuyo_t
  range : List Nat
deriving DecidableEq, Repr

/-- Model of `hokuyo_get_scan`. `timeStart` is the clock reading taken before the mutex
is locked. `memcpy` copies `num_data` values (a negative `num_data`, converted to
`size_t`, leaves every array). -/
def hokuyo_get_scan (h : hokuyo_t) (range : List Nat) (timeStart : timeval)
    (events : List WaitEvent) : Outcome FetchResult :=
  if !h.sd.connected then .ok ⟨0, h, range⟩
  else
    match get_scan_wait (_get_current_time_sec timeStart) events h with
    | .ok h =>
      if h.scan_ready then
        if h.num_data < 0 then .undefined
        else
          match memcpy range 0 h.data h.num_data.toNat with
          | some range => .ok ⟨h.num_data, { h with scan_ready := false }, range⟩
          | none => .undefined
      else .ok ⟨0, h, range⟩
    | .undefined => .undefined
    | .fuel => .fuel

/-- The `struct timespec` of an absolute deadline. -/
structure timespec where
  tv_sec : Int
  tv_nsec : Int
deriving DecidableEq, Repr

/-- The absolute deadline `max_wait_time` that `data__cond_wait` and `_cond_wait` (the two
bodies are the same) compute from the clock reading `time_start` and hand to
`pthread_cond_timedwait`. The products `timeout_ms*1000` and `timeout_ms*1000000` are `int`
products; `tv_usec*1000` and the sum are computed in `long`. -/
def cond_wait_deadline (time_start : timeval) (timeout_ms : Int) : timespec :=
  { tv_sec := time_start.tv_sec
      + (if time_start.tv_usec < 1000000 - toInt32 (timeout_ms * 1000) then 0 else 1)
    tv_nsec := (time_start.tv_usec * 1000 + toInt32 (timeout_ms * 1000000)).tmod 1000000000 }

/-! ## What the steps of an acquisition leave as it is -/

/-- The stored scan window of a handle. -/
def stored_window (h : hokuyo_t) : Int × Int × Int × Int × Int :=
  (h.scan_start, h.scan_end, h.scan_skip, h.encoding, h.scan_type)

/-- The flags and the baud rate of a handle that the protocol steps only read: `debug`,
`active`, `need_to_stop_laser`, `baud`. -/
def stored_flags (h : hokuyo_t) : Bool × Bool × Bool × Int :=
  (h.debug, h.active, h.need_to_stop_laser, h.baud)

/-- What no step of an acquisition changes: the variant, the flags `debug`, `active` and
`need_to_stop_laser` and the baud rate, the stored window and the connection. -/
def kept (h h' : hokuyo_t) : Prop :=
  h'.type = h.type ∧ stored_flags h' = stored_flags h ∧ stored_window h' = stored_window h
    ∧ h'.sd.connected = h.sd.connected

/-- What a step that only reads from the transport leaves as it is: in addition, the
streaming flag and the bytes written so far. -/
def quiet (h h' : hokuyo_t) : Prop :=
  kept h h' ∧ h'.streaming = h.streaming ∧ h'.sd.tx = h.sd.tx

/-- What is looked at after a call of `_get_scan`: the returned `int`, the streaming
flag, the bytes written so far and the bytes still to come. -/
def GetScanResult.summary : Outcome GetScanResult → Option (Int × Bool × List Nat × List Nat)
  | .ok r => some (r.ret, r.h.streaming, r.h.sd.tx, r.h.sd.rx)
  | _ => none

/-- What a step that only reads leaves as it is, and where it stops: in addition to
`quiet`, the packet length is kept and the bytes `rest` are still to come. -/
def reads (h h' : hokuyo_t) (rest : List Nat) : Prop :=
  quiet h h' ∧ h'.packet_length = h.packet_length ∧ h'.sd.rx = rest

/-- The number of terminator bytes matched after the bytes of a list have gone through
the read loop with the terminator linefeed-linefeed, starting from `cm` matched bytes;
`none` when the terminator is completed inside the list. -/
def lf_run (cm : Nat) : List Nat → Option Nat
  | [] => some cm
  | b :: bs =>
    if (if b = 0x0a then cm + 1 else 0) = 2 then none
    else lf_run (if b = 0x0a then cm + 1 else 0) bs

/-! ## The byte stream of a streaming device -/

/-- The bytes with which a device answers an accepted streaming request `req`: the echo
of the request, the status "00" with its checksum byte 'P', and an empty line. -/
def request_reply (req : List Char) : List Nat :=
  req.map Char.toNat ++ 0x0a :: 0x30 :: 0x30 :: 0x50 :: 0x0a :: [0x0a]

/-- The bytes of one data cycle of a stream for the request `req`: the echo of the
request, the status "99" with its checksum byte 'b', the timestamp line (data bytes `ts`,
checksum byte `tc`), the packet lines `ls` and the empty line that ends the packet. -/
def data_cycle (req : List Char) (ts : List Nat) (tc : Nat) (ls : List (List Nat × Nat)) :
    List Nat :=
  req.map Char.toNat ++ 0x0a :: 0x39 :: 0x39 :: 0x62 :: 0x0a
    :: (ts ++ tc :: 0x0a :: (wire_lines ls ++ [0x0a]))

/-- A timestamp line and packet lines that carry `k` values in the 3-digit encoding: no
data or checksum byte is a linefeed, every line has 1 to 98 data bytes, the packet with
its closing linefeed has at most `MAX_PACKET_LENGTH` bytes, the data bytes are `3k` bytes in
`0x30..0x6F`, and `1 ≤ k ≤ 3000`. The checksum bytes need not be right. -/
def good_cycle (ts : List Nat) (tc : Nat) (ls : List (List Nat × Nat)) (k : Nat) : Prop :=
  0x0a ∉ ts ∧ tc ≠ 0x0a ∧ ts.length ≤ 98
    ∧ (∀ l ∈ ls, 1 ≤ l.1.length ∧ l.1.length ≤ 98 ∧ 0x0a ∉ l.1 ∧ l.2 ≠ 0x0a)
    ∧ (wire_lines ls).length + 1 ≤ 15000
    ∧ 1 ≤ k ∧ k ≤ 3000 ∧ (lines_data ls).length = 3 * k
    ∧ ∀ b ∈ lines_data ls, 0x30 ≤ b ∧ b ≤ 0x6F

instance (ts : List Nat) (tc : Nat) (ls : List (List Nat × Nat)) (k : Nat) :
    Decidable (good_cycle ts tc ls k) := by
  unfold good_cycle; infer_instance

/-- The state of a handle on which the production window is being streamed: connected,
streaming, the stored window is the production window, the packet length is `len`, the
bytes `rest` are still to come and the bytes `tx` have been written. -/
def streams (h : hokuyo_t) (len : Int) (rest tx : List Nat) : Prop :=
  h.sd.connected = true ∧ h.streaming = true
    ∧ stored_window h = (SCAN_START, SCAN_END, SCAN_SKIP, ENCODING, SCAN_TYPE)
    ∧ h.packet_length = len ∧ h.sd.rx = rest ∧ h.sd.tx = tx

/-- The value of the `i`-th group of three bytes of a payload in `0x30..0x6F`. -/
def payload_value (payload : List Nat) (i : Nat) : Nat :=
  ((payload.getD (3 * i) 0 - 0x30) <<< 12) + ((payload.getD (3 * i + 1) 0 - 0x30) <<< 6)
    + (payload.getD (3 * i + 2) 0 - 0x30)

/-! ## The baud-rate probe: `serial_device_set_baud_rate`, `_test_baud_rate`, `_connect` -/

/-- Model of `serial_device_set_baud_rate`. `speed_to_baud` knows the seven rates listed;
`os_ok` tells whether the calls `tcgetattr`, `cfsetispeed`, `cfsetospeed` and `tcsetattr`
succeed. `tcflush(TCIOFLUSH)` throws away the bytes that have arrived, as many as the next
entry of `flush_drops` says. The terminal settings themselves are not part of the
model. -/
def serial_device_set_baud_rate (s : serial_device_t) (speed : Int) (os_ok : Bool) :
    Int × serial_device_t :=
  if !s.connected then (error_return, s)
  else if speed ∉ [2400, 4800, 9600, 19200, 38400, 57600, 115200] then (error_return, s)
  else if !os_ok then (error_return, s)
  else
    match s.flush_drops with
    | [] => (0, s)
    | k :: ks => (0, { s with rx := s.rx.drop k, flush_drops := ks })

/-- Model of `serial_device_disconnect` (the results of `tcsetattr` and `close` only
choose the returned value; the device is marked disconnected in every case). -/
def serial_device_disconnect (s : serial_device_t) : serial_device_t :=
  { s with connected := false }

def NUM_TEST_BAUD_RETRIES : Nat := 2

/-- The `for` loop of `_test_baud_rate`, by recursion on the number of passes left, and
the `return -1` after it. Every path through the body returns, so no pass is followed
by another one. -/
def test_baud_loop (baud_rate : Int) (os_ok : Bool) (stack : List Nat) :
    Nat → hokuyo_t → Outcome (Int × hokuyo_t)
  | 0, h => .ok (-1, h)
  | _ + 1, h =>
    let b := serial_device_set_baud_rate h.sd baud_rate os_ok
    let h := { h with sd := b.2 }
    if b.1 = 0 then
      match _laser_off h stack with
      | .ok r1 =>
        match _laser_off r1.2 stack with
        | .ok r2 =>
          if r2.1 = 0 then .ok (0, { r2.2 with baud := baud_rate })
          else .ok (error_return, r2.2)
        | .undefined => .undefined
        | .fuel => .fuel
      | .undefined => .undefined
      | .fuel => .fuel
    else .ok (error_return, h)

/-- Model of `_test_baud_rate`. -/
def _test_baud_rate (h : hokuyo_t) (baud_rate : Int) (os_ok : Bool) (stack : List Nat) :
    Outcome (Int × hokuyo_t) :=
  if !h.sd.connected then .ok (error_return, h)
  else test_baud_loop baud_rate os_ok stack NUM_TEST_BAUD_RETRIES h

/-- Lines 1284-1303 of `_connect`: the probe of the candidate rates 115200, 19200, 38400.
The `int` is 0 when a probe succeeded and `_connect` goes on, and -1 when `_connect`
disconnects and returns the error "failed to detect baud rate". `os_ok` tells, for each
rate, whether the operating system accepts it. -/
def connect_detect_baud (h : hokuyo_t) (os_ok : Int → Bool) (stack : List Nat) :
    Outcome (Int × hokuyo_t) :=
  match _test_baud_rate h 115200 (os_ok 115200) stack with
  | .ok r1 =>
    if r1.1 = 0 then .ok (0, r1.2)
    else
      match _test_baud_rate r1.2 19200 (os_ok 19200) stack with
      | .ok r2 =>
        if r2.1 = 0 then .ok (0, r2.2)
        else
          match _test_baud_rate r2.2 38400 (os_ok 38400) stack with
          | .ok r3 =>
            if r3.1 = 0 then .ok (0, r3.2)
            else .ok (error_return, { r3.2 with sd := serial_device_disconnect r3.2.sd })
          | .undefined => .undefined
          | .fuel => .fuel
      | .undefined => .undefined
      | .fuel => .fuel
  | .undefined => .undefined
  | .fuel => .fuel

/-! ## The range checks of `_get_sensor_params` -/

def LONG_MIN : Int := -9223372036854775808
def LONG_MAX : Int := 9223372036854775807

/-- The test `isspace` in the "C" locale. -/
def isspace (c : Nat) : Bool := c = 0x20 || (0x09 ≤ c && c ≤ 0x0d)

/-- The digits of `strtol(s, NULL, 10)`: the value of the longest run of decimal digits
at the head of `s`, on top of `acc`. -/
def strtol_digits : List Nat → Nat → Nat
  | [], acc => acc
  | c :: cs, acc =>
    if 0x30 ≤ c ∧ c ≤ 0x39 then strtol_digits cs (10 * acc + (c - 0x30)) else acc

/-- Model of `strtol(s, NULL, 10)` with a 64-bit `long`: white space is skipped, a sign
is taken, the digits that follow are converted (0 when there is none) and the result is
clamped at `LONG_MIN` and `LONG_MAX`. -/
def strtol (s : List Nat) : Int :=
  match s.dropWhile isspace with
  | 0x2d :: cs => max LONG_MIN (-(strtol_digits cs 0 : Int))
  | 0x2b :: cs => min LONG_MAX (strtol_digits cs 0 : Int)
  | cs => min LONG_MAX (strtol_digits cs 0 : Int)

/-- Lines 1142-1182 of `_get_sensor_params`: the conversion of the parsed fields `DMIN`,
`DMAX`, `ARES`, `AMIN`, `AMAX`, `AFRT`, `SCAN` (the strings `h->dmin`, ...) and the range
checks; 0 says that no check fired, so that the function goes on to its final flush and
returns 0. The `double` quotients are exact rationals here: they only enter comparisons
whose outcome is the same in exact arithmetic. `angle_res = 2*M_PI/ares` is positive for
`ares > 0`, infinite for `ares = 0` and negative for `ares < 0`, so the test
`angle_res <= 0` is the test `ares < 0`. The values stored in the handle are not part of
the model. -/
def sensor_params_range_checks (dmin dmax ares amin amax afrt scan : List Nat) : Int :=
  let dist_min : ℚ := (toInt32 (strtol dmin) : ℚ) / 1000
  let dist_max : ℚ := (toInt32 (strtol dmax) : ℚ) / 1000
  if dist_min ≤ 0 then error_return
  else if dist_max < dist_min then error_return
  else if toInt32 (strtol ares) < 0 then error_return
  else
    let count_min := toInt32 (strtol amin)
    let count_max := toInt32 (strtol amax)
    let count_zero := toInt32 (strtol afrt)
    if count_min > count_zero then error_return
    else if count_max < count_zero then error_return
    else
      let scan_rate : ℚ := (strtol scan : ℚ) / 60
      if scan_rate < 0 then error_return
      else 0

/-! ## The worker: `_find_packet_start`, `_run` -/

def READER_MAX_NUM_ERRORS_BEFORE_RESTART : Int := 3

/-- Model of `_find_packet_start`. `data` is the function's static array. The test at
the head is `if (_is_connected(h, caller2))`, without negation, as in the source. -/
def _find_packet_start (h : hokuyo_t) (data : List Nat) :
    Outcome (Int × hokuyo_t × List Nat) :=
  if h.sd.connected then .ok (error_return, h, data)
  else
    let sd := (serial_device_set_io_block_w_timeout_w_term_sequence h.sd [0x0a, 0x0a] 2
      true).2
    match serial_device_read_chars sd data MAX_PACKET_LENGTH 0 with
    | .ok r =>
      if r.ret < 1 then .ok (error_return, { h with sd := r.sd }, r.data)
      else .ok (0, { h with sd := r.sd }, r.data)
    | .undefined => .undefined
    | .fuel => .fuel

/-- The state of the worker thread between two passes of the loop of `_run`: the handle,
the local counter `numErrors` and the static array `data` of `_find_packet_start`. -/
structure RunState where
  h : hokuyo_t
  numErrors : Int
  find_data : List Nat
deriving DecidableEq, Repr

/-- Lines 1782-1796 of `_run`: a pending request to stop the laser is served, and cleared
when `_laser_off` succeeded. -/
def run_stop_laser (h : hokuyo_t) (stack : List Nat) : Outcome hokuyo_t :=
  if h.need_to_stop_laser then
    match _laser_off h stack with
    | .ok r => if r.1 = 0 then .ok { r.2 with need_to_stop_laser := false } else .ok r.2
    | .undefined => .undefined
    | .fuel => .fuel
  else .ok h

/-- One pass of the loop `while(1)` of `_run`. `connected` and `active` are read before
the pending laser stop is served. After a failed acquisition `_find_packet_start` is
called (its result only chooses a debug message). An idle pass sleeps. -/
def run_iteration (s : RunState) (stack : List Nat) : Outcome RunState :=
  let connected := s.h.sd.connected
  let active := s.h.active
  match run_stop_laser s.h stack with
  | .ok h =>
    if connected && active then
      match run_get_scan h stack with
      | .ok (error, h) =>
        if error = 0 then .ok { s with h := h, numErrors := 0 }
        else
          let numErrors := s.numErrors + 1
          match _find_packet_start h s.find_data with
          | .ok (_, h, data) =>
            if numErrors ≥ READER_MAX_NUM_ERRORS_BEFORE_RESTART then
              .ok ⟨{ h with need_to_stop_laser := true }, 0, data⟩
            else .ok ⟨h, numErrors, data⟩
          | .undefined => .undefined
          | .fuel => .fuel
      | .undefined => .undefined
      | .fuel => .fuel
    else .ok { s with h := h }
  | .undefined => .undefined
  | .fuel => .fuel

/-- The passes of the loop of `_run`, one for each element of `frames` (the contents of
the stack at that pass). -/
def run_loop : List (List Nat) → RunState → Outcome RunState
  | [], s => .ok s
  | stack :: frames, s =>
    match run_iteration s stack with
    | .ok s => run_loop frames s
    | .undefined => .undefined
    | .fuel => .fuel

/-- The value of the variable `error` in one pass of the loop of `_run`: the result of
`_get_scan` when the pass makes an acquisition, nothing when the pass idles. -/
def run_pass_error (s : RunState) (stack : List Nat) : Outcome (Option Int) :=
  let connected := s.h.sd.connected
  let active := s.h.active
  match run_stop_laser s.h stack with
  | .ok h =>
    if connected && active then
      match run_get_scan h stack with
      | .ok (error, _) => .ok (some error)
      | .undefined => .undefined
      | .fuel => .fuel
    else .ok none
  | .undefined => .undefined
  | .fuel => .fuel

/-- The values of `error` in the passes of `run_loop` that make an acquisition, in
order. -/
def run_loop_errors : List (List Nat) → RunState → Outcome (List Int)
  | [], _ => .ok []
  | stack :: frames, s =>
    match run_pass_error s stack, run_iteration s stack with
    | .ok oe, .ok s1 =>
      match run_loop_errors frames s1 with
      | .ok es => .ok (oe.toList ++ es)
      | .undefined => .undefined
      | .fuel => .fuel
    | .fuel, _ => .fuel
    | _, .fuel => .fuel
    | _, _ => .undefined

/-- What lines 1813-1831 of `_run` do to the counter `numErrors`, as a function of the
result `error` of the acquisition: the new value of the counter, and whether
`need_to_stop_laser` is set. -/
def count_errors (numErrors error : Int) : Int × Bool :=
  if error = 0 then (0, false)
  else if numErrors + 1 ≥ READER_MAX_NUM_ERRORS_BEFORE_RESTART then (0, true)
  else (numErrors + 1, false)

/-- The counter `numErrors` after a sequence of acquisition results, starting from `n`. -/
def count_errors_after (n : Int) : List Int → Int
  | [] => n
  | e :: es => count_errors_after (count_errors n e).1 es

/-- The number of consecutive failures at the end of a sequence of acquisition results. -/
def trailing_failures (es : List Int) : Nat :=
  (es.reverse.takeWhile (fun e => e != 0)).length

/-- The bytes of a stream of data cycles for the production request, each given by its
timestamp line (data bytes and checksum byte) and its packet lines. -/
def stream_cycles : List ((List Nat × Nat) × List (List Nat × Nat)) → List Nat
  | [] => []
  | c :: cs => data_cycle "MD0044072501000".toList c.1.1 c.1.2 c.2 ++ stream_cycles cs

/-- A handle whose scan settings are as `hokuyo_create` initialises them, of the given
variant and debug flag, connected to a transport on which the bytes `rx` are pending. -/
def mkHandle (type : Int) (debug : Bool) (rx : List Nat) : hokuyo_t :=
  { type := type, scan_ready := false,
    sd := { connected := true, ioMode := 0, numTermChars := 0, termSequence := [],
            retTermSequence := false, rx := rx, tx := [], flush_drops := [],
            write_results := [] },
    streaming := false, scan_start := -1, scan_end := -1, scan_skip := -1,
    encoding := -1, scan_type := -1, packet_length := -1, baud := 0,
    debug := debug, active := false, need_to_stop_laser := false,
    data := [], num_data := 0 }


/-! ## Theorems: `_decode_packet` -/

theorem store_of_lt (a : List Nat) (idx v : Nat) (h : idx < a.length) :
    store a idx v = some (a.set idx v) := by
  unfold store; rw [if_pos h]

theorem three_digit_value_ascii (b0 b1 b2 : Nat) (h0 : 0x30 ≤ b0 ∧ b0 ≤ 0x6F)
    (h1 : 0x30 ≤ b1 ∧ b1 ≤ 0x6F) (h2 : 0x30 ≤ b2 ∧ b2 ≤ 0x6F) :
    three_digit_value b0 b1 b2
      = ((b0 - 0x30) <<< 12) + ((b1 - 0x30) <<< 6) + (b2 - 0x30) := by
  have e0 : charVal b0 = (b0 : Int) := by unfold charVal; split <;> omega
  have e1 : charVal b1 = (b1 : Int) := by unfold charVal; split <;> omega
  have e2 : charVal b2 = (b2 : Int) := by unfold charVal; split <;> omega
  simp only [three_digit_value, toUInt32, shl, e0, e1, e2, Nat.shiftLeft_eq]
  omega

theorem decode_three_digits_loop_run (pkt : List Nat) (len : Int) :
    ∀ (m fuel i p : Nat) (dl : Int) (out : List Nat),
      m < fuel → len - 1 ≤ (i : Int) + 3 * m → (0 < m → (i : Int) + 3 * m - 3 < len - 1) →
      i + 3 * m ≤ pkt.length → p + m ≤ out.length → dl + m ≤ MAX_NUM_POINTS →
      ∃ ed, decode_three_digits_loop pkt len fuel i p dl out = .ok ⟨dl + m, ed⟩
        ∧ ed.length = out.length
        ∧ (∀ j, j < m → ed[p + j]? = some (three_digit_value (pkt.getD (i + 3 * j) 0)
              (pkt.getD (i + 3 * j + 1) 0) (pkt.getD (i + 3 * j + 2) 0)))
        ∧ (∀ q, q < p ∨ p + m ≤ q → ed[q]? = out[q]?) := by
  intro m
  induction m with
  | zero =>
    intro fuel i p dl out hf hge _ _ _ _
    obtain ⟨n, rfl⟩ : ∃ n, fuel = n + 1 := ⟨fuel - 1, by omega⟩
    refine ⟨out, ?_, rfl, ?_, ?_⟩
    · have : ¬ ((i : Int) < len - 1) := by omega
      simp [decode_three_digits_loop, this]
    · intro j hj; omega
    · intro q _; rfl
  | succ m ih =>
    intro fuel i p dl out hf hge hlt hpkt hout hdl
    obtain ⟨n, rfl⟩ : ∃ n, fuel = n + 1 := ⟨fuel - 1, by omega⟩
    have hc : (i : Int) < len - 1 := by have := hlt (by omega); omega
    have r0 : pkt[i]? = some (pkt.getD i 0) := by
      rw [List.getD_eq_getElem?_getD, List.getElem?_eq_getElem (by omega)]; rfl
    have r1 : pkt[i + 1]? = some (pkt.getD (i + 1) 0) := by
      rw [List.getD_eq_getElem?_getD, List.getElem?_eq_getElem (by omega)]; rfl
    have r2 : pkt[i + 2]? = some (pkt.getD (i + 2) 0) := by
      rw [List.getD_eq_getElem?_getD, List.getElem?_eq_getElem (by omega)]; rfl
    have hs : ∀ v, store out p v = some (out.set p v) := by
      intro v; exact store_of_lt _ _ _ (by omega)
    have hd : ¬ (dl + 1 > MAX_NUM_POINTS) := by simp only [MAX_NUM_POINTS] at hdl ⊢; omega
    obtain ⟨ed, he, hl, hv, hfr⟩ := ih n (i + 2 + 1) (p + 1) (dl + 1)
      (out.set p (three_digit_value (pkt.getD i 0) (pkt.getD (i + 1) 0) (pkt.getD (i + 2) 0)))
      (by omega) (by push_cast; omega) (by intro hm; push_cast; have := hlt (by omega); omega)
      (by omega) (by simp; omega) (by push_cast at hdl ⊢; omega)
    refine ⟨ed, ?_, ?_, ?_, ?_⟩
    · rw [decode_three_digits_loop]
      simp only [hc, if_true, r0, r1, r2, hs, hd, if_false]
      rw [he]; congr 2; push_cast; ring
    · simpa using hl
    · intro j hj
      cases j with
      | zero =>
        have := hfr p (Or.inl (by omega))
        simp only [Nat.add_zero, Nat.mul_zero]
        rw [this, List.getElem?_set_self (by omega)]
      | succ j =>
        have := hv j (by omega)
        have e1 : p + (j + 1) = p + 1 + j := by omega
        have e2 : i + 3 * (j + 1) = i + 2 + 1 + 3 * j := by omega
        rw [e1, e2]; exact this
    · intro q hq
      have := hfr q (by omega)
      rw [this, List.getElem?_set_ne (by omega)]
theorem two_digit_value_ascii (b0 b1 : Nat) (h0 : 0x30 ≤ b0 ∧ b0 ≤ 0x6F)
    (h1 : 0x30 ≤ b1 ∧ b1 ≤ 0x6F) :
    two_digit_value b0 b1 = ((b0 - 0x30) <<< 6) + (b1 - 0x30) := by
  have e0 : charVal b0 = (b0 : Int) := by unfold charVal; split <;> omega
  have e1 : charVal b1 = (b1 : Int) := by unfold charVal; split <;> omega
  simp only [two_digit_value, toUInt32, shl, e0, e1, Nat.shiftLeft_eq]
  omega

theorem decode_two_digits_loop_run (pkt : List Nat) (len : Int) :
    ∀ (m fuel i : Nat) (dl : Int) (out : List Nat),
      m < fuel → len - 1 ≤ (i : Int) + 2 * m → (0 < m → (i : Int) + 2 * m - 2 < len - 1) →
      i + 2 * m ≤ pkt.length → (0 < m → 0 < out.length) → dl + m ≤ MAX_NUM_POINTS →
      decode_two_digits_loop pkt len fuel i dl out
        = .ok ⟨dl + m, if m = 0 then out else
            out.set 0 (two_digit_value (pkt.getD (i + 2 * (m - 1)) 0)
              (pkt.getD (i + 2 * (m - 1) + 1) 0))⟩ := by
  intro m
  induction m with
  | zero =>
    intro fuel i dl out hf hge _ _ _ _
    obtain ⟨n, rfl⟩ : ∃ n, fuel = n + 1 := ⟨fuel - 1, by omega⟩
    have : ¬ ((i : Int) < len - 1) := by omega
    simp [decode_two_digits_loop, this]
  | succ m ih =>
    intro fuel i dl out hf hge hlt hpkt hout hdl
    obtain ⟨n, rfl⟩ : ∃ n, fuel = n + 1 := ⟨fuel - 1, by omega⟩
    have hc : (i : Int) < len - 1 := by have := hlt (by omega); omega
    have r0 : pkt[i]? = some (pkt.getD i 0) := by
      rw [List.getD_eq_getElem?_getD, List.getElem?_eq_getElem (by omega)]; rfl
    have r1 : pkt[i + 1]? = some (pkt.getD (i + 1) 0) := by
      rw [List.getD_eq_getElem?_getD, List.getElem?_eq_getElem (by omega)]; rfl
    have hs : ∀ v, store out 0 v = some (out.set 0 v) := by
      intro v; exact store_of_lt _ _ _ (hout (by omega))
    have hd : ¬ (dl + 1 > MAX_NUM_POINTS) := by simp only [MAX_NUM_POINTS] at hdl ⊢; omega
    have he := ih n (i + 1 + 1) (dl + 1)
      (out.set 0 (two_digit_value (pkt.getD i 0) (pkt.getD (i + 1) 0)))
      (by omega) (by push_cast; omega) (by intro hm; push_cast; have := hlt (by omega); omega)
      (by omega) (by intro _; have := hout (by omega); simpa using this)
      (by push_cast at hdl ⊢; omega)
    rw [decode_two_digits_loop]
    simp only [hc, if_true, r0, r1, hs, hd, if_false]
    rw [he]
    have ee : dl + 1 + (m : Int) = dl + ((m + 1 : Nat) : Int) := by push_cast; ring
    rw [ee]
    congr 2
    by_cases hm : m = 0
    · subst hm; simp
    · have e2 : i + 1 + 1 + 2 * (m - 1) = i + 2 * (m + 1 - 1) := by omega
      simp only [hm, if_false, Nat.add_eq_zero, one_ne_zero, and_false, List.set_set, e2]

/-- When the loop still has more than `MAX_NUM_POINTS - data_length` groups in front of
it, it returns the error value. -/
theorem decode_three_digits_loop_error (pkt : List Nat) (len : Int) :
    ∀ (m fuel i p : Nat) (dl : Int) (out : List Nat),
      m < fuel → (i : Int) + 3 * m < len - 1 → i + 3 * m + 3 ≤ pkt.length →
      p + m < out.length → dl + m = MAX_NUM_POINTS →
      ∃ ed, decode_three_digits_loop pkt len fuel i p dl out = .ok ⟨error_return, ed⟩ := by
  intro m
  induction m with
  | zero =>
    intro fuel i p dl out hf hlt hpkt hout hdl
    obtain ⟨n, rfl⟩ : ∃ n, fuel = n + 1 := ⟨fuel - 1, by omega⟩
    have hc : (i : Int) < len - 1 := by omega
    have r0 : pkt[i]? = some (pkt.getD i 0) := by
      rw [List.getD_eq_getElem?_getD, List.getElem?_eq_getElem (by omega)]; rfl
    have r1 : pkt[i + 1]? = some (pkt.getD (i + 1) 0) := by
      rw [List.getD_eq_getElem?_getD, List.getElem?_eq_getElem (by omega)]; rfl
    have r2 : pkt[i + 2]? = some (pkt.getD (i + 2) 0) := by
      rw [List.getD_eq_getElem?_getD, List.getElem?_eq_getElem (by omega)]; rfl
    have hs : ∀ v, store out p v = some (out.set p v) := by
      intro v; exact store_of_lt _ _ _ (by omega)
    have hd : dl + 1 > MAX_NUM_POINTS := by simp only [MAX_NUM_POINTS] at hdl ⊢; omega
    rw [decode_three_digits_loop]
    simp only [hc, if_true, r0, r1, r2, hs, hd]
    exact ⟨_, rfl⟩
  | succ m ih =>
    intro fuel i p dl out hf hlt hpkt hout hdl
    obtain ⟨n, rfl⟩ : ∃ n, fuel = n + 1 := ⟨fuel - 1, by omega⟩
    have hc : (i : Int) < len - 1 := by omega
    have r0 : pkt[i]? = some (pkt.getD i 0) := by
      rw [List.getD_eq_getElem?_getD, List.getElem?_eq_getElem (by omega)]; rfl
    have r1 : pkt[i + 1]? = some (pkt.getD (i + 1) 0) := by
      rw [List.getD_eq_getElem?_getD, List.getElem?_eq_getElem (by omega)]; rfl
    have r2 : pkt[i + 2]? = some (pkt.getD (i + 2) 0) := by
      rw [List.getD_eq_getElem?_getD, List.getElem?_eq_getElem (by omega)]; rfl
    have hs : ∀ v, store out p v = some (out.set p v) := by
      intro v; exact store_of_lt _ _ _ (by omega)
    have hd : ¬ (dl + 1 > MAX_NUM_POINTS) := by
      simp only [MAX_NUM_POINTS] at hdl ⊢; push_cast at hdl; omega
    obtain ⟨ed, he⟩ := ih n (i + 2 + 1) (p + 1) (dl + 1)
      (out.set p (three_digit_value (pkt.getD i 0) (pkt.getD (i + 1) 0) (pkt.getD (i + 2) 0)))
      (by omega) (by push_cast at hlt ⊢; omega) (by omega) (by simp; omega)
      (by push_cast at hdl ⊢; omega)
    refine ⟨ed, ?_⟩
    rw [decode_three_digits_loop]
    simp only [hc, if_true, r0, r1, r2, hs, hd, if_false]
    exact he

theorem decode_two_digits_loop_error (pkt : List Nat) (len : Int) :
    ∀ (m fuel i : Nat) (dl : Int) (out : List Nat),
      m < fuel → (i : Int) + 2 * m < len - 1 → i + 2 * m + 2 ≤ pkt.length →
      0 < out.length → dl + m = MAX_NUM_POINTS →
      ∃ ed, decode_two_digits_loop pkt len fuel i dl out = .ok ⟨error_return, ed⟩ := by
  intro m
  induction m with
  | zero =>
    intro fuel i dl out hf hlt hpkt hout hdl
    obtain ⟨n, rfl⟩ : ∃ n, fuel = n + 1 := ⟨fuel - 1, by omega⟩
    have hc : (i : Int) < len - 1 := by omega
    have r0 : pkt[i]? = some (pkt.getD i 0) := by
      rw [List.getD_eq_getElem?_getD, List.getElem?_eq_getElem (by omega)]; rfl
    have r1 : pkt[i + 1]? = some (pkt.getD (i + 1) 0) := by
      rw [List.getD_eq_getElem?_getD, List.getElem?_eq_getElem (by omega)]; rfl
    have hs : ∀ v, store out 0 v = some (out.set 0 v) := by
      intro v; exact store_of_lt _ _ _ (by omega)
    have hd : dl + 1 > MAX_NUM_POINTS := by simp only [MAX_NUM_POINTS] at hdl ⊢; omega
    rw [decode_two_digits_loop]
    simp only [hc, if_true, r0, r1, hs, hd]
    exact ⟨_, rfl⟩
  | succ m ih =>
    intro fuel i dl out hf hlt hpkt hout hdl
    obtain ⟨n, rfl⟩ : ∃ n, fuel = n + 1 := ⟨fuel - 1, by omega⟩
    have hc : (i : Int) < len - 1 := by omega
    have r0 : pkt[i]? = some (pkt.getD i 0) := by
      rw [List.getD_eq_getElem?_getD, List.getElem?_eq_getElem (by omega)]; rfl
    have r1 : pkt[i + 1]? = some (pkt.getD (i + 1) 0) := by
      rw [List.getD_eq_getElem?_getD, List.getElem?_eq_getElem (by omega)]; rfl
    have hs : ∀ v, store out 0 v = some (out.set 0 v) := by
      intro v; exact store_of_lt _ _ _ (by omega)
    have hd : ¬ (dl + 1 > MAX_NUM_POINTS) := by
      simp only [MAX_NUM_POINTS] at hdl ⊢; push_cast at hdl; omega
    obtain ⟨ed, he⟩ := ih n (i + 1 + 1) (dl + 1)
      (out.set 0 (two_digit_value (pkt.getD i 0) (pkt.getD (i + 1) 0)))
      (by omega) (by push_cast at hlt ⊢; omega) (by omega) (by simpa using hout)
      (by push_cast at hdl ⊢; omega)
    refine ⟨ed, ?_⟩
    rw [decode_two_digits_loop]
    simp only [hc, if_true, r0, r1, hs, hd, if_false]
    exact he
/-- C1 — failing input of the 2-digit decoder: for the two pairs `[0x30, 0x31]`,
`[0x30, 0x32]` (values 1 and 2) `_decode_packet` returns 2 but never advances its output
pointer, so the array `[7, 7]` becomes `[2, 7]` instead of `[1, 2]`: only element 0 is
written, with the value of the last pair. -/
theorem decode_packet_two_digits_overwrites (h : hokuyo_t) :
    _decode_packet h [0x30, 0x31, 0x30, 0x32] [7, 7] 4 TWO_DIGITS = .ok ⟨2, [2, 7]⟩ := by
  rfl

/-- C2 — for a payload of `3k` bytes in `0x30..0x6F` (`1 ≤ k ≤ 3000`), whatever follows
it in the array, `_decode_packet` with the 3-digit encoding returns `k`, stores at index
`i < k` the value `((p[3i]-0x30)<<12) + ((p[3i+1]-0x30)<<6) + (p[3i+2]-0x30)` and leaves
the rest of the output array as it was. -/
theorem decode_packet_three_digits (h : hokuyo_t) (payload rest out : List Nat) (k : Nat)
    (hk : 1 ≤ k) (hk' : k ≤ 3000) (hlen : payload.length = 3 * k)
    (hbytes : ∀ b ∈ payload, 0x30 ≤ b ∧ b ≤ 0x6F) (hout : k ≤ out.length) :
    ∃ ed, _decode_packet h (payload ++ rest) out (payload.length : Int) THREE_DIGITS
          = .ok ⟨(k : Int), ed⟩
      ∧ ed.length = out.length
      ∧ (∀ i, i < k → ed[i]? = some (((payload.getD (3 * i) 0 - 0x30) <<< 12)
            + ((payload.getD (3 * i + 1) 0 - 0x30) <<< 6)
            + (payload.getD (3 * i + 2) 0 - 0x30)))
      ∧ ∀ q, k ≤ q → ed[q]? = out[q]? := by
  obtain ⟨ed, he, hl, hv, hfr⟩ := decode_three_digits_loop_run (payload ++ rest)
    (payload.length : Int) k ((payload.length : Int).toNat + 1) 0 0 0 out
    (by simp; omega) (by push_cast; omega) (by intro _; push_cast; omega)
    (by simp; omega) (by omega) (by simp only [MAX_NUM_POINTS]; omega)
  refine ⟨ed, ?_, hl, ?_, ?_⟩
  · have h1 : ¬ ((payload.length : Int) < 1) := by omega
    unfold _decode_packet
    rw [if_neg h1, if_neg (by decide), if_pos rfl, he, Int.zero_add]
  · intro i hi
    have hget : ∀ j, j < payload.length →
        (payload ++ rest).getD j 0 = payload.getD j 0
          ∧ 0x30 ≤ payload.getD j 0 ∧ payload.getD j 0 ≤ 0x6F := by
      intro j hj
      have e1 : (payload ++ rest).getD j 0 = payload[j] := by
        rw [List.getD_eq_getElem?_getD, List.getElem?_append_left hj,
          List.getElem?_eq_getElem hj]; rfl
      have e2 : payload.getD j 0 = payload[j] := by
        rw [List.getD_eq_getElem?_getD, List.getElem?_eq_getElem hj]; rfl
      rw [e1, e2]
      exact ⟨rfl, hbytes _ (List.getElem_mem _)⟩
    have := hv i hi
    simp only [Nat.zero_add] at this
    obtain ⟨a0, b0, c0⟩ := hget (3 * i) (by omega)
    obtain ⟨a1, b1, c1⟩ := hget (3 * i + 1) (by omega)
    obtain ⟨a2, b2, c2⟩ := hget (3 * i + 2) (by omega)
    rw [this, a0, a1, a2, three_digit_value_ascii _ _ _ ⟨b0, c0⟩ ⟨b1, c1⟩ ⟨b2, c2⟩]
  · intro q hq
    exact hfr q (Or.inr (by omega))

/-- C2, at a concrete input: `[0x31, 0x30, 0x35]` decodes to `[4101]`. -/
theorem decode_packet_three_digits_witness :
    ∃ ed, _decode_packet (mkHandle TYPE_URG_04LX false []) ([0x31, 0x30, 0x35] ++ []) [7, 7]
        (([0x31, 0x30, 0x35] : List Nat).length : Int) THREE_DIGITS = .ok ⟨((1 : Nat) : Int), ed⟩
      ∧ ed[0]? = some 4101 := by
  obtain ⟨ed, h1, _, h3, _⟩ := decode_packet_three_digits (mkHandle TYPE_URG_04LX false [])
    [0x31, 0x30, 0x35] [] [7, 7] 1 (by decide) (by decide) (by decide) (by decide) (by decide)
  exact ⟨ed, h1, h3 0 (by decide)⟩

/-- C3 — failing input of the 3-digit decoder: a payload of 5 bytes. On an array that
holds exactly these 5 bytes the second pass of the loop reads index 5, outside the array;
on an array with one more byte `0x39` the call returns 2 values, not `5 / 3 = 1`, and the
second value is built from the partial group and the byte at index 5. -/
theorem decode_packet_three_digits_reads_past_payload (h : hokuyo_t) :
    _decode_packet h [0x30, 0x30, 0x31, 0x30, 0x30] [7, 7] 5 THREE_DIGITS = .undefined
      ∧ _decode_packet h [0x30, 0x30, 0x31, 0x30, 0x30, 0x39] [7, 7] 5 THREE_DIGITS
          = .ok ⟨2, [1, 9]⟩ := by
  exact ⟨rfl, rfl⟩
/-- C4 (as stated, refuted) — on a URG-04LX handle a payload of `3 * 772` bytes decodes to
772 values without error, although 772 exceeds the variant's maximum of 771. -/
theorem decode_packet_urg_accepts_772 :
    DecodeResult.retOf (_decode_packet (mkHandle TYPE_URG_04LX false [])
        (List.replicate 2317 0x30) (List.replicate 3001 0) 2316 THREE_DIGITS) = some 772
      ∧ MAX_NUM_POINTS_URG_04LX < 772 := by
  refine ⟨?_, by decide⟩
  obtain ⟨ed, he, -⟩ := decode_three_digits_loop_run (List.replicate 2317 0x30) 2316 772
    ((2316 : Int).toNat + 1) 0 0 0 (List.replicate 3001 0)
    (by decide) (by decide) (by intro _; decide)
    (by rw [List.length_replicate]; decide) (by rw [List.length_replicate]; decide)
    (by decide)
  unfold _decode_packet
  rw [if_neg (by decide), if_neg (by decide), if_pos rfl, he]
  rfl

/-- C4 (amended) — `_decode_packet` fails with "too many points" exactly when the number
of decoded values exceeds `MAX_NUM_POINTS = 3000`, whatever the variant of the handle; up
to 3000 values it returns their number. (The arrays are those of the caller: the packet
array is longer than its payload and the output array has room for 3001 values.) -/
theorem decode_packet_too_many_points (h : hokuyo_t) (pkt out : List Nat) (len enc : Int)
    (henc : enc = TWO_DIGITS ∨ enc = THREE_DIGITS) (hlen : 1 ≤ len)
    (hpkt : len < (pkt.length : Int)) (hout : 3001 ≤ out.length) :
    ∃ r, _decode_packet h pkt out len enc = .ok r
      ∧ (r.ret = error_return ↔ MAX_NUM_POINTS < decoded_count len enc)
      ∧ (decoded_count len enc ≤ MAX_NUM_POINTS → r.ret = decoded_count len enc) := by
  have h1 : ¬ (len < 1) := by omega
  rcases henc with rfl | rfl
  · have hc : decoded_count len TWO_DIGITS = len / 2 := by
      unfold decoded_count; rw [if_pos rfl]
    rw [hc]
    unfold _decode_packet
    rw [if_neg h1, if_pos rfl]
    by_cases hm : len / 2 ≤ 3000
    · have he := decode_two_digits_loop_run pkt len (len / 2).toNat (len.toNat + 1) 0 0 out
        (by omega) (by omega) (by intro _; omega) (by omega) (by intro _; omega)
        (by simp only [MAX_NUM_POINTS]; omega)
      rw [he]
      refine ⟨_, rfl, ?_, ?_⟩
      · simp only [error_return, MAX_NUM_POINTS]; omega
      · intro _; simp only []; omega
    · obtain ⟨ed, he⟩ := decode_two_digits_loop_error pkt len 3000 (len.toNat + 1) 0 0 out
        (by omega) (by omega) (by omega) (by omega) (by simp only [MAX_NUM_POINTS]; omega)
      rw [he]
      refine ⟨_, rfl, ⟨fun _ => ?_, fun _ => rfl⟩, ?_⟩
      · simp only [MAX_NUM_POINTS]; omega
      · intro hx; simp only [MAX_NUM_POINTS] at hx; omega
  · have hc : decoded_count len THREE_DIGITS = (len + 1) / 3 := by
      unfold decoded_count; rw [if_neg (by decide)]
    rw [hc]
    unfold _decode_packet
    rw [if_neg h1, if_neg (by decide), if_pos rfl]
    by_cases hm : (len + 1) / 3 ≤ 3000
    · obtain ⟨ed, he, -⟩ := decode_three_digits_loop_run pkt len ((len + 1) / 3).toNat
        (len.toNat + 1) 0 0 0 out
        (by omega) (by omega) (by intro _; omega) (by omega) (by omega)
        (by simp only [MAX_NUM_POINTS]; omega)
      rw [he]
      refine ⟨_, rfl, ?_, ?_⟩
      · simp only [error_return, MAX_NUM_POINTS]; omega
      · intro _; simp only []; omega
    · obtain ⟨ed, he⟩ := decode_three_digits_loop_error pkt len 3000 (len.toNat + 1) 0 0 0 out
        (by omega) (by omega) (by omega) (by omega) (by simp only [MAX_NUM_POINTS]; omega)
      rw [he]
      refine ⟨_, rfl, ⟨fun _ => ?_, fun _ => rfl⟩, ?_⟩
      · simp only [MAX_NUM_POINTS]; omega
      · intro hx; simp only [MAX_NUM_POINTS] at hx; omega

/-- C4 (amended), at a concrete input: 9003 payload bytes, 3-digit encoding, URG-04LX. -/
theorem decode_packet_too_many_points_witness :
    ∃ r, _decode_packet (mkHandle TYPE_URG_04LX false []) (List.replicate 9004 0x30)
        (List.replicate 3001 0) 9003 THREE_DIGITS = .ok r
      ∧ (r.ret = error_return ↔ MAX_NUM_POINTS < decoded_count 9003 THREE_DIGITS)
      ∧ (decoded_count 9003 THREE_DIGITS ≤ MAX_NUM_POINTS
          → r.ret = decoded_count 9003 THREE_DIGITS) :=
  decode_packet_too_many_points (mkHandle TYPE_URG_04LX false []) (List.replicate 9004 0x30)
    (List.replicate 3001 0) 9003 THREE_DIGITS (Or.inr rfl) (by decide)
    (by rw [List.length_replicate]; decide) (by rw [List.length_replicate])
/-! ## Theorems: `_check_line_checksum`, `_extract_packet`, `_read_line` -/

theorem memchr_found (c : Nat) (tail : List Nat) :
    ∀ (pre : List Nat) (n k : Nat), c ∉ pre → pre.length < n →
      memchr (pre ++ c :: tail) c n k = .ok (some (k + pre.length)) := by
  intro pre
  induction pre with
  | nil =>
    intro n k _ hn
    have hn0 : n ≠ 0 := by simp at hn; omega
    simp [memchr, hn0]
  | cons b pre ih =>
    intro n k hc hn
    have hn0 : n ≠ 0 := by simp at hn; omega
    have hb : b ≠ c := by intro e; exact hc (by simp [e])
    have hc' : c ∉ pre := by intro e; exact hc (by simp [e])
    have := ih (n - 1) (k + 1) hc' (by simp at hn; omega)
    have e : k + 1 + pre.length = k + (pre.length + 1) := by omega
    simp only [List.cons_append, memchr, hn0, if_false, hb, List.length_cons]
    rw [← e]; exact this

theorem toSizeT_of_nonneg (x : Int) (h0 : 0 ≤ x) (h1 : x < 18446744073709551616) :
    toSizeT x = x.toNat := by
  unfold toSizeT
  rw [Int.emod_eq_of_lt h0 h1]

theorem checksum_foldl (l : List Nat) :
    ∀ a, a < 256 → l.foldl (fun sum c => (sum + c) % 256) a = (a + l.sum) % 256 := by
  induction l with
  | nil => intro a ha; simp; omega
  | cons c l ih =>
    intro a _
    rw [List.foldl_cons, ih _ (Nat.mod_lt _ (by decide)), List.sum_cons]
    omega

/-- What `_check_line_checksum` computes on a line whose first linefeed is at offset
`pre.length`, with at least one byte in front of it. -/
theorem check_line_checksum_eq (h : hokuyo_t) (pre tail : List Nat) (max_length : Int)
    (hpre : 0x0a ∉ pre) (h1 : 1 ≤ pre.length) (hmax : (pre.length : Int) < max_length)
    (hmax' : max_length < 18446744073709551616) :
    _check_line_checksum h (pre ++ 0x0a :: tail) max_length
      = .ok ⟨(pre.length : Int) - 1, (pre.take (pre.length - 1)).sum % 64 + 0x30,
          (pre.take (pre.length - 1)).sum % 64 + 0x30 != pre.getD (pre.length - 1) 0⟩ := by
  have hm : memchr (pre ++ 0x0a :: tail) 0x0a (toSizeT max_length) 0
      = .ok (some (0 + pre.length)) :=
    memchr_found 0x0a tail pre _ 0 hpre (by rw [toSizeT_of_nonneg _ (by omega) hmax']; omega)
  rw [Nat.zero_add] at hm
  have hne : pre.length ≠ 0 := by omega
  have ht : (pre ++ 0x0a :: tail).take (pre.length - 1) = pre.take (pre.length - 1) := by
    rw [List.take_append_of_le_length (by omega)]
  have hg : (pre ++ 0x0a :: tail).getD (pre.length - 1) 0 = pre.getD (pre.length - 1) 0 := by
    rw [List.getD_eq_getElem?_getD, List.getD_eq_getElem?_getD,
      List.getElem?_append_left (by omega)]
  have hs : checksum_loop (pre ++ 0x0a :: tail) pre.length
      = (pre.take (pre.length - 1)).sum % 256 := by
    unfold checksum_loop
    rw [ht, checksum_foldl _ 0 (by decide), Nat.zero_add]
  have hand : ∀ x : Nat, (x % 256) &&& 0x3f = x % 64 := by
    intro x
    have := Nat.and_pow_two_sub_one_eq_mod (x % 256) 6
    norm_num at this
    rw [this]
  unfold _check_line_checksum
  simp only [hm, hne, if_false, hs, hg, hand]

theorem check_line_checksum_empty (h : hokuyo_t) (tail : List Nat) (max_length : Int)
    (hmax : 1 ≤ max_length) (hmax' : max_length < 18446744073709551616) :
    _check_line_checksum h (0x0a :: tail) max_length = .ok ⟨0, 0, false⟩ := by
  have hm := memchr_found 0x0a tail [] (toSizeT max_length) 0 (by simp)
    (by rw [toSizeT_of_nonneg _ (by omega) hmax']; simp; omega)
  simp only [List.nil_append, List.length_nil, Nat.add_zero] at hm
  unfold _check_line_checksum
  simp only [hm, if_true]
/-- What `_check_line_checksum` computes on a line made of the data bytes `d`, the
checksum byte `c` and a linefeed. -/
theorem check_line_checksum_line (h : hokuyo_t) (d tail : List Nat) (c : Nat)
    (max_length : Int) (hd : 0x0a ∉ d) (hc : c ≠ 0x0a)
    (hmax : (d.length : Int) + 1 < max_length) (hmax' : max_length < 18446744073709551616) :
    _check_line_checksum h (d ++ c :: 0x0a :: tail) max_length
      = .ok ⟨(d.length : Int), d.sum % 64 + 0x30, d.sum % 64 + 0x30 != c⟩ := by
  have hpre : 0x0a ∉ d ++ [c] := by
    intro hm
    rcases List.mem_append.1 hm with hm | hm
    · exact hd hm
    · exact hc (List.mem_singleton.1 hm).symm
  have e := check_line_checksum_eq h (d ++ [c]) tail max_length hpre (by simp)
    (by simp; omega) hmax'
  have hl : (d ++ [c]).length - 1 = d.length := by simp
  have ht : (d ++ [c]).take d.length = d := by simp
  have hg : (d ++ [c]).getD d.length 0 = c := by
    rw [List.getD_eq_getElem?_getD]; simp
  rw [hl, ht, hg] at e
  have ea : d ++ c :: 0x0a :: tail = (d ++ [c]) ++ 0x0a :: tail := by simp
  rw [ea, e]
  congr 2
  simp

theorem length_le_wire_lines (ls : List (List Nat × Nat)) :
    ls.length ≤ (wire_lines ls).length := by
  induction ls with
  | nil => simp
  | cons l ls ih =>
    simp only [wire_lines, wire_line, List.map_cons, List.flatten_cons, List.length_cons,
      List.length_append] at ih ⊢
    omega

theorem wire_lines_cons (l : List Nat × Nat) (ls : List (List Nat × Nat)) (tail : List Nat) :
    wire_lines (l :: ls) ++ tail = l.1 ++ l.2 :: 0x0a :: (wire_lines ls ++ tail) := by
  simp [wire_lines, wire_line]

theorem lines_data_cons (l : List Nat × Nat) (ls : List (List Nat × Nat)) :
    lines_data (l :: ls) = l.1 ++ lines_data ls := by
  simp [lines_data]

/-- The loop of `_extract_packet` on well-formed lines followed by an empty line. -/
theorem extract_loop_lines (h : hokuyo_t) (rest : List Nat) :
    ∀ (ls : List (List Nat × Nat)) (fuel : Nat) (ep : List Nat) (p : Nat) (len : Int),
      (∀ l ∈ ls, 1 ≤ l.1.length ∧ l.1.length ≤ 98 ∧ 0x0a ∉ l.1 ∧ l.2 ≠ 0x0a) →
      ls.length < fuel → p + (lines_data ls).length ≤ ep.length →
      ∃ r0, _check_line_checksum h (wire_lines ls ++ 0x0a :: rest) MAX_LINE_LENGTH = .ok r0
        ∧ extract_loop h fuel (wire_lines ls ++ 0x0a :: rest) ep p len r0.ret
            = .ok ⟨len + (lines_data ls).length,
                ep.take p ++ lines_data ls ++ ep.drop (p + (lines_data ls).length)⟩ := by
  intro ls
  induction ls with
  | nil =>
    intro fuel ep p len _ hf _
    obtain ⟨n, rfl⟩ : ∃ n, fuel = n + 1 := ⟨fuel - 1, by omega⟩
    refine ⟨⟨0, 0, false⟩, ?_, ?_⟩
    · simpa [wire_lines] using
        check_line_checksum_empty h rest MAX_LINE_LENGTH (by decide) (by decide)
    · simp [extract_loop, lines_data]
  | cons l ls ih =>
    intro fuel ep p len hgood hf hroom
    obtain ⟨n, rfl⟩ : ∃ n, fuel = n + 1 := ⟨fuel - 1, by omega⟩
    obtain ⟨hl1, hl98, hlf, hcs⟩ := hgood l (List.mem_cons_self _ _)
    rw [lines_data_cons, List.length_append] at hroom
    have hchk := check_line_checksum_line h l.1 (wire_lines ls ++ 0x0a :: rest) l.2
      MAX_LINE_LENGTH hlf hcs (by simp only [MAX_LINE_LENGTH]; omega) (by decide)
    obtain ⟨r1, hr1, hloop⟩ := ih n (ep.take p ++ l.1 ++ ep.drop (p + l.1.length))
      (p + l.1.length) (len + l.1.length)
      (fun x hx => hgood x (List.mem_cons_of_mem _ hx)) (by simp at hf; omega)
      (by simp; omega)
    refine ⟨_, by rw [wire_lines_cons]; exact hchk, ?_⟩
    have hpos : ((l.1.length : Int) > 0) := by omega
    have hcpy : memcpy ep p (l.1 ++ l.2 :: 0x0a :: (wire_lines ls ++ 0x0a :: rest)) l.1.length
        = some (ep.take p ++ l.1 ++ ep.drop (p + l.1.length)) := by
      unfold memcpy
      rw [if_pos ⟨by omega, by simp⟩]
      simp
    have hdrop : (l.1 ++ l.2 :: 0x0a :: (wire_lines ls ++ 0x0a :: rest)).drop (l.1.length + 2)
        = wire_lines ls ++ 0x0a :: rest := by
      rw [List.drop_append]; rfl
    rw [wire_lines_cons, extract_loop]
    simp only [hpos, if_true, Int.toNat_ofNat, hcpy, hdrop, hr1, hloop]
    congr 2
    · rw [lines_data_cons, List.length_append]; push_cast; ring
    · have e1 : (ep.take p ++ l.1 ++ ep.drop (p + l.1.length)).take (p + l.1.length)
          = ep.take p ++ l.1 := by
        apply List.take_left'
        simp; omega
      have e2 : (ep.take p ++ l.1 ++ ep.drop (p + l.1.length)).drop
            (p + l.1.length + (lines_data ls).length)
          = ep.drop (p + (l.1.length + (lines_data ls).length)) := by
        have hlen : (ep.take p ++ l.1).length = p + l.1.length := by simp; omega
        rw [← hlen, List.drop_append, List.drop_drop]
        congr 1; omega
      rw [e1, e2, lines_data_cons, List.length_append]
      simp
/-- C5 — for a packet of lines (any number of them), each of 1 to 98 data bytes (none a linefeed), a
checksum byte (not a linefeed) and a linefeed, followed by an empty line and then by
arbitrary bytes `rest`, `_extract_packet` returns the total number of data bytes and
leaves the concatenation of the lines' data at the start of the output array (the rest of
that array is untouched). The checksum bytes need not be right. -/
theorem extract_packet_lines (h : hokuyo_t) (ls : List (List Nat × Nat))
    (rest out : List Nat) (packet_length : Int)
    (hgood : ∀ l ∈ ls, 1 ≤ l.1.length ∧ l.1.length ≤ 98 ∧ 0x0a ∉ l.1 ∧ l.2 ≠ 0x0a)
    (hpl : 1 ≤ packet_length) (hout : (lines_data ls).length ≤ out.length) :
    _extract_packet h (wire_lines ls ++ 0x0a :: rest) out packet_length
      = .ok ⟨((lines_data ls).length : Int),
          lines_data ls ++ out.drop (lines_data ls).length⟩ := by
  obtain ⟨r0, hr0, hloop⟩ := extract_loop_lines h rest ls
    ((wire_lines ls ++ 0x0a :: rest).length + 1) out 0 0 hgood
    (by have := length_le_wire_lines ls; simp; omega) (by omega)
  unfold _extract_packet
  rw [if_neg (by omega)]
  simp only [hr0, hloop]
  simp

/-- C5, at a concrete input: the lines `AB` and `C` with (wrong) checksum bytes `1`, `2`,
the empty line, then two stray bytes. -/
theorem extract_packet_lines_witness :
    _extract_packet (mkHandle TYPE_URG_04LX false [])
        (wire_lines [([0x41, 0x42], 0x31), ([0x43], 0x32)] ++ 0x0a :: [0x7a, 0x7a])
        [0, 0, 0, 0, 0] 8
      = .ok ⟨((lines_data [([0x41, 0x42], 0x31), ([0x43], 0x32)]).length : Int),
          lines_data [([0x41, 0x42], 0x31), ([0x43], 0x32)]
            ++ List.drop (lines_data [([0x41, 0x42], 0x31), ([0x43], 0x32)]).length
                [0, 0, 0, 0, 0]⟩ :=
  extract_packet_lines (mkHandle TYPE_URG_04LX false []) [([0x41, 0x42], 0x31), ([0x43], 0x32)]
    [0x7a, 0x7a] [0, 0, 0, 0, 0] 8 (by decide) (by decide) (by decide)

/-- C6 — for a line whose first linefeed is at offset `n = pre.length`, `1 ≤ n ≤ 99`, the
check value that `_check_line_checksum` accumulates in a wrapping 8-bit `char` over the
bytes `0..n-2` is exactly (their arithmetic sum mod 64) + 0x30; the checksum test fires iff
that value differs from byte `n-1`; the call returns `n - 1`. -/
theorem check_line_checksum_value (h : hokuyo_t) (pre tail : List Nat)
    (hpre : 0x0a ∉ pre) (h1 : 1 ≤ pre.length) (h99 : pre.length ≤ 99) :
    ∃ r, _check_line_checksum h (pre ++ 0x0a :: tail) MAX_LINE_LENGTH = .ok r
      ∧ r.sum = (pre.take (pre.length - 1)).sum % 64 + 0x30
      ∧ (r.checksum_error = true ↔ r.sum ≠ pre.getD (pre.length - 1) 0)
      ∧ r.ret = (pre.length : Int) - 1 := by
  refine ⟨_, check_line_checksum_eq h pre tail MAX_LINE_LENGTH hpre h1
    (by simp only [MAX_LINE_LENGTH]; omega) (by decide), rfl, ?_, rfl⟩
  simp

/-- C6, at a concrete input: for the bytes of "GD0044072501" the check value is 0x32. -/
theorem check_line_checksum_value_witness :
    ∃ r, _check_line_checksum (mkHandle TYPE_URG_04LX false [])
        (bytes "GD00440725012" ++ 0x0a :: []) MAX_LINE_LENGTH = .ok r
      ∧ r.sum = 0x32 ∧ r.checksum_error = false := by
  obtain ⟨r, h1, h2, h3, _⟩ := check_line_checksum_value (mkHandle TYPE_URG_04LX false [])
    (bytes "GD00440725012") [] (by decide) (by decide) (by decide)
  have e : r.sum = 0x32 := by rw [h2]; decide
  refine ⟨r, h1, e, ?_⟩
  cases hce : r.checksum_error with
  | false => rfl
  | true => exact absurd e (by rw [e] at h3; exact absurd rfl (h3.1 hce))

/-- C7 (as stated, refuted) — the line "GD0044072501" with its correct checksum byte '2'
passes the test; replacing its byte '0' (0x30) at index 2 by the different byte 'p' (0x70)
gives a line that passes the test as well: the corruption is not detected. -/
theorem check_line_checksum_misses_corruption :
    _check_line_checksum (mkHandle TYPE_URG_04LX false []) (bytes "GD00440725012\n")
        MAX_LINE_LENGTH = .ok ⟨12, 0x32, false⟩
      ∧ (bytes "GD00440725012\n").set 2 0x70 = bytes "GDp0440725012\n"
      ∧ (bytes "GD00440725012\n").getD 2 0 ≠ 0x70
      ∧ _check_line_checksum (mkHandle TYPE_URG_04LX false []) (bytes "GDp0440725012\n")
          MAX_LINE_LENGTH = .ok ⟨12, 0x32, false⟩ := by
  decide

theorem sum_set_add (b : Nat) : ∀ (d : List Nat) (i : Nat), i < d.length →
    (d.set i b).sum + d.getD i 0 = d.sum + b := by
  intro d
  induction d with
  | nil => intro i hi; simp at hi
  | cons x d ih =>
    intro i hi
    cases i with
    | zero => simp; omega
    | succ i =>
      have := ih i (by simpa using hi)
      simp only [List.set_cons_succ, List.sum_cons, List.getD_cons_succ]
      omega

/-- C7 (amended) — on a line with a correct checksum byte, replacing one byte before the
checksum by a non-linefeed byte is reported by the checksum test exactly when the new byte
differs from the old one modulo 64. -/
theorem check_line_checksum_detects (h : hokuyo_t) (d tail : List Nat) (c b i : Nat)
    (hd : 0x0a ∉ d) (hc : c ≠ 0x0a) (hlen : d.length ≤ 98) (hi : i < d.length)
    (hb : b ≠ 0x0a)
    (hok : ∃ r0, _check_line_checksum h (d ++ c :: 0x0a :: tail) MAX_LINE_LENGTH = .ok r0
      ∧ r0.checksum_error = false) :
    ∃ r, _check_line_checksum h (d.set i b ++ c :: 0x0a :: tail) MAX_LINE_LENGTH = .ok r
      ∧ (r.checksum_error = true ↔ b % 64 ≠ d.getD i 0 % 64) := by
  obtain ⟨r0, hr0, he0⟩ := hok
  rw [check_line_checksum_line h d tail c MAX_LINE_LENGTH hd hc
    (by simp only [MAX_LINE_LENGTH]; omega) (by decide)] at hr0
  have hd' : 0x0a ∉ d.set i b := by
    intro hm
    rcases List.mem_or_eq_of_mem_set hm with hm | hm
    · exact hd hm
    · exact hb hm.symm
  refine ⟨_, check_line_checksum_line h (d.set i b) tail c MAX_LINE_LENGTH hd' hc
    (by simp only [MAX_LINE_LENGTH, List.length_set]; omega) (by decide), ?_⟩
  have hsum := sum_set_add b d i hi
  cases hr0
  simp only [bne_eq_false_iff_eq] at he0
  simp only [bne_iff_ne, ne_eq]
  omega

/-- C7 (amended), at a concrete input: in "GD0044072501" + '2' the byte '0' at index 2 is
replaced by '1'. -/
theorem check_line_checksum_detects_witness :
    ∃ r, _check_line_checksum (mkHandle TYPE_URG_04LX false [])
        ((bytes "GD0044072501").set 2 0x31 ++ 0x32 :: 0x0a :: []) MAX_LINE_LENGTH = .ok r
      ∧ (r.checksum_error = true ↔ 0x31 % 64 ≠ (bytes "GD0044072501").getD 2 0 % 64) :=
  check_line_checksum_detects (mkHandle TYPE_URG_04LX false []) (bytes "GD0044072501") []
    0x32 0x31 2 (by decide) (by decide) (by decide) (by decide) (by decide)
    ⟨⟨12, 0x32, false⟩, by decide, rfl⟩

/-- C8 — failing input of `_read_line`: with the debug flag set and checksum verification
requested, the received line "GD0044072501" + '3' + linefeed, whose checksum byte '3'
differs from the computed check value '2' (the checksum test does fire), is not answered
with an error: the call returns 12, exactly as with the flag clear. -/
theorem read_line_debug_accepts_bad_checksum :
    _check_line_checksum (mkHandle TYPE_URG_04LX true []) (bytes "GD00440725013\n")
        MAX_LINE_LENGTH = .ok ⟨12, 0x32, true⟩
      ∧ ReadLineResult.retOf (_read_line (mkHandle TYPE_URG_04LX true (bytes "GD00440725013\n"))
          (List.replicate 100 0) MAX_LINE_LENGTH 500000 true) = some 12
      ∧ ReadLineResult.retOf (_read_line (mkHandle TYPE_URG_04LX false (bytes "GD00440725013\n"))
          (List.replicate 100 0) MAX_LINE_LENGTH 500000 true) = some 12 := by
  decide
/-! ## Theorems: `_create_scan_request` -/

theorem toDigitsCore_eq (b : Nat) (hb : 2 ≤ b) :
    ∀ (fuel n : Nat) (ds : List Char), n < fuel →
      Nat.toDigitsCore b fuel n ds = Nat.toDigits b n ++ ds := by
  intro fuel
  induction fuel using Nat.strong_induction_on with
  | _ fuel ih =>
    intro n ds hn
    obtain ⟨f, rfl⟩ : ∃ f, fuel = f + 1 := ⟨fuel - 1, by omega⟩
    unfold Nat.toDigits
    rw [Nat.toDigitsCore, Nat.toDigitsCore]
    by_cases h0 : n / b = 0
    · simp [h0]
    · have hlt : n / b < n := Nat.div_lt_self (by
        rcases Nat.eq_zero_or_pos n with h | h
        · subst h; simp at h0
        · exact h) hb
      simp only [h0, if_false]
      rw [ih f (by omega) (n / b) _ (by omega), ih n (by omega) (n / b) _ hlt]
      simp

theorem toDigits_step (b : Nat) (hb : 2 ≤ b) (n : Nat) :
    Nat.toDigits b n = if n / b = 0 then [Nat.digitChar (n % b)]
      else Nat.toDigits b (n / b) ++ [Nat.digitChar (n % b)] := by
  by_cases h0 : n / b = 0
  · rw [if_pos h0]; unfold Nat.toDigits; rw [Nat.toDigitsCore]; simp [h0]
  · rw [if_neg h0]
    have hlt : n / b < n := Nat.div_lt_self (by
      rcases Nat.eq_zero_or_pos n with h | h
      · subst h; simp at h0
      · exact h) hb
    conv_lhs => unfold Nat.toDigits
    rw [Nat.toDigitsCore]
    simp only [h0, if_false]
    rw [toDigitsCore_eq b hb n (n / b) _ hlt]

theorem fmt_d4_eq (v : Int) (h0 : 0 ≤ v) (h1 : v < 10000) : fmt_d 4 v = dec4 v.toNat := by
  obtain ⟨n, rfl⟩ : ∃ n : Nat, v = n := ⟨v.toNat, by omega⟩
  have hn : n < 10000 := by omega
  unfold fmt_d
  rw [if_neg (by omega), Int.toNat_ofNat]
  unfold dec4
  rw [toDigits_step 10 (by decide) n]
  by_cases c1 : n / 10 = 0
  · rw [if_pos c1]
    have e1 : n / 1000 % 10 = 0 := by omega
    have e2 : n / 100 % 10 = 0 := by omega
    have e3 : n / 10 % 10 = 0 := by omega
    rw [e1, e2, e3]; rfl
  · rw [if_neg c1, toDigits_step 10 (by decide) (n / 10)]
    by_cases c2 : n / 10 / 10 = 0
    · rw [if_pos c2]
      have e1 : n / 1000 % 10 = 0 := by omega
      have e2 : n / 100 % 10 = 0 := by omega
      rw [e1, e2]; rfl
    · rw [if_neg c2, toDigits_step 10 (by decide) (n / 10 / 10)]
      have d2 : n / 10 / 10 % 10 = n / 100 % 10 := by omega
      by_cases c3 : n / 10 / 10 / 10 = 0
      · rw [if_pos c3]
        have e1 : n / 1000 % 10 = 0 := by omega
        rw [e1, d2]; rfl
      · rw [if_neg c3, toDigits_step 10 (by decide) (n / 10 / 10 / 10)]
        have c4 : n / 10 / 10 / 10 / 10 = 0 := by omega
        have d3 : n / 10 / 10 / 10 % 10 = n / 1000 % 10 := by omega
        rw [if_pos c4, d2, d3]; rfl

theorem fmt_x2_eq (v : Int) (h0 : 0 ≤ v) (h1 : v ≤ 255) : fmt_x 2 v = hex2 v.toNat := by
  obtain ⟨n, rfl⟩ : ∃ n : Nat, v = n := ⟨v.toNat, by omega⟩
  have hn : n < 256 := by omega
  have hu : toUInt32 (n : Int) = n := by unfold toUInt32; omega
  unfold fmt_x
  rw [hu, Int.toNat_ofNat]
  unfold hex2
  rw [toDigits_step 16 (by decide) n]
  by_cases c1 : n / 16 = 0
  · rw [if_pos c1]
    have e1 : n / 16 % 16 = 0 := by omega
    rw [e1]; rfl
  · rw [if_neg c1, toDigits_step 16 (by decide) (n / 16)]
    have c2 : n / 16 / 16 = 0 := by omega
    rw [if_pos c2]; rfl
theorem fmt_d2_zero : fmt_d 2 0 = dec2 0 := by decide
theorem fmt_d2_one : fmt_d 2 1 = dec2 1 := by decide

theorem scan_request_error_ne_zero (req : List Char) (need : Bool) :
    (ScanRequest.mk error_return req need).ret ≠ 0 := by
  intro h
  have h' : error_return = 0 := h
  revert h'; decide

theorem flag_single_regular :
    false = decide ((1 : Int) = 0 ∨ SCAN_REGULAR = SCAN_SPECIAL_ME) := by decide

theorem flag_single_me :
    true = decide ((1 : Int) = 0 ∨ SCAN_SPECIAL_ME = SCAN_SPECIAL_ME) := by decide

theorem flag_stream_regular :
    true = decide ((0 : Int) = 0 ∨ SCAN_REGULAR = SCAN_SPECIAL_ME) := by decide

theorem flag_stream_me :
    true = decide ((0 : Int) = 0 ∨ SCAN_SPECIAL_ME = SCAN_SPECIAL_ME) := by decide

/-- What an accepted request looks like: the checks it passed, the string written and the
flag stored. -/
theorem create_scan_request_ok (h : hokuyo_t) (scan_start scan_end scan_skip encoding
    scan_type num_scans : Int) (req : List Char) (need : Bool) (r : ScanRequest)
    (hr : _create_scan_request h scan_start scan_end scan_skip encoding scan_type num_scans
      req need = r) (hret : r.ret = 0) :
    0 ≤ scan_start ∧ scan_start < scan_end
      ∧ (h.type = TYPE_UTM_30LX → scan_end ≤ MAX_NUM_POINTS_UTM_30LX)
      ∧ (h.type = TYPE_URG_04LX → scan_end ≤ MAX_NUM_POINTS_URG_04LX)
      ∧ (num_scans = 0 ∨ num_scans = 1)
      ∧ (encoding = TWO_DIGITS ∨ encoding = THREE_DIGITS)
      ∧ (h.type = TYPE_UTM_30LX → encoding = THREE_DIGITS)
      ∧ (scan_type = SCAN_REGULAR
          ∨ (scan_type = SCAN_SPECIAL_ME ∧ h.type = TYPE_UTM_30LX ∧ encoding = THREE_DIGITS))
      ∧ r.req = opcode encoding scan_type num_scans ++ fmt_d 4 scan_start
          ++ fmt_d 4 scan_end ++ fmt_x 2 scan_skip
          ++ (if num_scans = 0 ∨ scan_type = SCAN_SPECIAL_ME then '0' :: fmt_d 2 num_scans
              else [])
      ∧ r.need_to_read_off_cmd_and_status
          = decide (num_scans = 0 ∨ scan_type = SCAN_SPECIAL_ME) := by
  unfold _create_scan_request at hr
  by_cases c1 : scan_start < 0
  · rw [if_pos c1] at hr; subst hr; exact absurd hret (scan_request_error_ne_zero _ _)
  rw [if_neg c1] at hr
  by_cases c2 : scan_end < 0
  · rw [if_pos c2] at hr; subst hr; exact absurd hret (scan_request_error_ne_zero _ _)
  rw [if_neg c2] at hr
  by_cases c3 : h.type = TYPE_UTM_30LX ∧ scan_end > MAX_NUM_POINTS_UTM_30LX
  · rw [if_pos c3] at hr; subst hr; exact absurd hret (scan_request_error_ne_zero _ _)
  rw [if_neg c3] at hr
  by_cases c4 : h.type = TYPE_URG_04LX ∧ scan_end > MAX_NUM_POINTS_URG_04LX
  · rw [if_pos c4] at hr; subst hr; exact absurd hret (scan_request_error_ne_zero _ _)
  rw [if_neg c4] at hr
  by_cases c5 : scan_end ≤ scan_start
  · rw [if_pos c5] at hr; subst hr; exact absurd hret (scan_request_error_ne_zero _ _)
  rw [if_neg c5] at hr
  by_cases c6 : num_scans < 0 ∨ num_scans > 99
  · rw [if_pos c6] at hr; subst hr; exact absurd hret (scan_request_error_ne_zero _ _)
  rw [if_neg c6] at hr
  by_cases c7 : h.type = TYPE_UTM_30LX ∧ encoding = TWO_DIGITS
  · rw [if_pos c7] at hr; subst hr; exact absurd hret (scan_request_error_ne_zero _ _)
  rw [if_neg c7] at hr
  have p1 : 0 ≤ scan_start := by omega
  have p2 : scan_start < scan_end := by omega
  have p3 : h.type = TYPE_UTM_30LX → scan_end ≤ MAX_NUM_POINTS_UTM_30LX :=
    fun ht => not_lt.1 (fun hgt => c3 ⟨ht, hgt⟩)
  have p4 : h.type = TYPE_URG_04LX → scan_end ≤ MAX_NUM_POINTS_URG_04LX :=
    fun ht => not_lt.1 (fun hgt => c4 ⟨ht, hgt⟩)
  have n32 : THREE_DIGITS ≠ TWO_DIGITS := by decide
  have p7 : encoding = THREE_DIGITS → h.type = TYPE_UTM_30LX → encoding = THREE_DIGITS :=
    fun e _ => e
  have p7' : encoding = TWO_DIGITS → h.type = TYPE_UTM_30LX → encoding = THREE_DIGITS :=
    fun e ht => absurd ⟨ht, e⟩ c7
  by_cases n1 : num_scans = 1
  · rw [if_pos n1] at hr
    subst n1
    by_cases t0 : scan_type = SCAN_REGULAR
    · rw [if_pos t0] at hr
      subst t0
      by_cases e3 : encoding = THREE_DIGITS
      · rw [if_pos e3] at hr; subst hr
        refine ⟨p1, p2, p3, p4, Or.inr rfl, Or.inr e3, p7 e3, Or.inl rfl, ?_, flag_single_regular⟩
        subst e3
        rw [show opcode THREE_DIGITS SCAN_REGULAR 1 = "GD".toList from rfl,
          if_neg (by decide), List.append_nil]
      · rw [if_neg e3] at hr
        by_cases e2 : encoding = TWO_DIGITS
        · rw [if_pos e2] at hr; subst hr
          refine ⟨p1, p2, p3, p4, Or.inr rfl, Or.inl e2, p7' e2, Or.inl rfl, ?_, flag_single_regular⟩
          subst e2
          rw [show opcode TWO_DIGITS SCAN_REGULAR 1 = "GS".toList from rfl,
            if_neg (by decide), List.append_nil]
        · rw [if_neg e2] at hr; subst hr; exact absurd hret (scan_request_error_ne_zero _ _)
    · rw [if_neg t0] at hr
      by_cases t1 : scan_type = SCAN_SPECIAL_ME ∧ h.type = TYPE_UTM_30LX
      · rw [if_pos t1] at hr
        obtain ⟨t1, ht⟩ := t1
        subst t1
        by_cases e3 : encoding = THREE_DIGITS
        · rw [if_pos e3] at hr; subst hr
          refine ⟨p1, p2, p3, p4, Or.inr rfl, Or.inr e3, p7 e3, Or.inr ⟨rfl, ht, e3⟩, ?_,
            flag_single_me⟩
          subst e3
          rw [show opcode THREE_DIGITS SCAN_SPECIAL_ME 1 = "ME".toList from rfl,
            if_pos (by decide)]
        · rw [if_neg e3] at hr; subst hr; exact absurd hret (scan_request_error_ne_zero _ _)
      · rw [if_neg t1] at hr; subst hr; exact absurd hret (scan_request_error_ne_zero _ _)
  · rw [if_neg n1] at hr
    by_cases n0 : num_scans = 0
    · rw [if_pos n0] at hr
      subst n0
      by_cases t0 : scan_type = SCAN_REGULAR
      · rw [if_pos t0] at hr
        subst t0
        by_cases e3 : encoding = THREE_DIGITS
        · rw [if_pos e3] at hr; subst hr
          refine ⟨p1, p2, p3, p4, Or.inl rfl, Or.inr e3, p7 e3, Or.inl rfl, ?_, flag_stream_regular⟩
          subst e3
          rw [show opcode THREE_DIGITS SCAN_REGULAR 0 = "MD".toList from rfl,
            if_pos (by decide)]
        · rw [if_neg e3] at hr
          by_cases e2 : encoding = TWO_DIGITS
          · rw [if_pos e2] at hr; subst hr
            refine ⟨p1, p2, p3, p4, Or.inl rfl, Or.inl e2, p7' e2, Or.inl rfl, ?_, flag_stream_regular⟩
            subst e2
            rw [show opcode TWO_DIGITS SCAN_REGULAR 0 = "MS".toList from rfl,
              if_pos (by decide)]
          · rw [if_neg e2] at hr; subst hr; exact absurd hret (scan_request_error_ne_zero _ _)
      · rw [if_neg t0] at hr
        by_cases t1 : scan_type = SCAN_SPECIAL_ME ∧ h.type = TYPE_UTM_30LX
        · rw [if_pos t1] at hr
          obtain ⟨t1, ht⟩ := t1
          subst t1
          by_cases e3 : encoding = THREE_DIGITS
          · rw [if_pos e3] at hr; subst hr
            refine ⟨p1, p2, p3, p4, Or.inl rfl, Or.inr e3, p7 e3, Or.inr ⟨rfl, ht, e3⟩, ?_,
              flag_stream_me⟩
            subst e3
            rw [show opcode THREE_DIGITS SCAN_SPECIAL_ME 0 = "ME".toList from rfl,
              if_pos (by decide)]
          · rw [if_neg e3] at hr; subst hr; exact absurd hret (scan_request_error_ne_zero _ _)
        · rw [if_neg t1] at hr; subst hr; exact absurd hret (scan_request_error_ne_zero _ _)
    · rw [if_neg n0] at hr; subst hr; exact absurd hret (scan_request_error_ne_zero _ _)
theorem opcode_two_chars (encoding scan_type num_scans : Int) :
    ∃ a b, opcode encoding scan_type num_scans = [a, b] := by
  unfold opcode
  split
  · exact ⟨_, _, rfl⟩
  · split
    · split <;> exact ⟨_, _, rfl⟩
    · split <;> exact ⟨_, _, rfl⟩

/-- The string of an accepted request whose skip value fits two hexadecimal digits, on a
handle of one of the two variants, is the layout of the specification. -/
theorem create_scan_request_req (h : hokuyo_t) (scan_start scan_end scan_skip encoding
    scan_type num_scans : Int) (req : List Char) (need : Bool)
    (htype : h.type = TYPE_URG_04LX ∨ h.type = TYPE_UTM_30LX)
    (hskip : 0 ≤ scan_skip ∧ scan_skip ≤ 255)
    (hret : (_create_scan_request h scan_start scan_end scan_skip encoding scan_type
      num_scans req need).ret = 0) :
    (_create_scan_request h scan_start scan_end scan_skip encoding scan_type num_scans
        req need).req
      = command_layout scan_start scan_end scan_skip encoding scan_type num_scans
      ∧ 0 ≤ scan_start ∧ scan_start < scan_end ∧ scan_end < 10000
      ∧ (num_scans = 0 ∨ num_scans = 1) := by
  obtain ⟨p1, p2, p3, p4, p5, -, -, -, p9, -⟩ :=
    create_scan_request_ok h scan_start scan_end scan_skip encoding scan_type num_scans req
      need _ rfl hret
  have hend : scan_end < 10000 := by
    rcases htype with ht | ht
    · have := p4 ht; simp only [MAX_NUM_POINTS_URG_04LX] at this; omega
    · have := p3 ht; simp only [MAX_NUM_POINTS_UTM_30LX] at this; omega
  refine ⟨?_, p1, p2, hend, p5⟩
  have hn : fmt_d 2 num_scans = dec2 num_scans.toNat := by
    rcases p5 with rfl | rfl
    · exact fmt_d2_zero
    · exact fmt_d2_one
  rw [p9, fmt_d4_eq scan_start p1 (by omega), fmt_d4_eq scan_end (by omega) hend,
    fmt_x2_eq scan_skip hskip.1 hskip.2, hn]
  rfl

/-- C9 — every request that `_create_scan_request` accepts with `0 ≤ skip ≤ 255` (on a
handle of one of the two variants) yields the command string: opcode, start as 4
zero-padded decimal digits, end as 4 zero-padded decimal digits, skip as 2 lower-case hex
digits and, for streaming and intensity requests only, `'0'` and the repeat count as 2
decimal digits; the opcode is GD, GS, MD, MS or ME as `opcode` says. -/
theorem create_scan_request_layout (h : hokuyo_t) (scan_start scan_end scan_skip encoding
    scan_type num_scans : Int) (req : List Char) (need : Bool)
    (htype : h.type = TYPE_URG_04LX ∨ h.type = TYPE_UTM_30LX)
    (hskip : 0 ≤ scan_skip ∧ scan_skip ≤ 255)
    (hret : (_create_scan_request h scan_start scan_end scan_skip encoding scan_type
      num_scans req need).ret = 0) :
    (_create_scan_request h scan_start scan_end scan_skip encoding scan_type num_scans
        req need).req
      = command_layout scan_start scan_end scan_skip encoding scan_type num_scans :=
  (create_scan_request_req h scan_start scan_end scan_skip encoding scan_type num_scans req
    need htype hskip hret).1

/-- C9, at concrete inputs: (44, 725, skip 1, 3-digit, regular) gives "GD0044072501" for a
single shot; the same window gives "MD0044072501000" for streaming. -/
theorem create_scan_request_layout_witness :
    (_create_scan_request (mkHandle TYPE_URG_04LX false []) 44 725 1 THREE_DIGITS
        SCAN_REGULAR 1 [] false).req
      = command_layout 44 725 1 THREE_DIGITS SCAN_REGULAR 1
    ∧ command_layout 44 725 1 THREE_DIGITS SCAN_REGULAR 1 = "GD0044072501".toList
    ∧ (_create_scan_request (mkHandle TYPE_URG_04LX false []) 44 725 1 THREE_DIGITS
        SCAN_REGULAR 0 [] false).req = "MD0044072501000".toList :=
  ⟨create_scan_request_layout (mkHandle TYPE_URG_04LX false []) 44 725 1 THREE_DIGITS
      SCAN_REGULAR 1 [] false (Or.inl rfl) (by decide) (by decide),
    by decide, by decide⟩

theorem dec_val_digitChar : ∀ k, k < 10 → dec_val (Nat.digitChar k) = k := by decide

theorem hex_val_digitChar : ∀ k, k < 16 → hex_val (Nat.digitChar k) = k := by decide

theorem parse_dec4 (n : Nat) (hn : n < 10000) : parse_dec (dec4 n) = n := by
  simp only [parse_dec, dec4, List.foldl_cons, List.foldl_nil,
    dec_val_digitChar _ (Nat.mod_lt _ (by decide : 10 > 0))]
  omega

theorem parse_dec2 (n : Nat) (hn : n < 100) : parse_dec (dec2 n) = n := by
  simp only [parse_dec, dec2, List.foldl_cons, List.foldl_nil,
    dec_val_digitChar _ (Nat.mod_lt _ (by decide : 10 > 0))]
  omega

theorem parse_hex2 (n : Nat) (hn : n < 256) : parse_hex (hex2 n) = n := by
  simp only [parse_hex, hex2, List.foldl_cons, List.foldl_nil,
    hex_val_digitChar _ (Nat.mod_lt _ (by decide : 16 > 0))]
  omega

/-- C10 (as stated, refuted) — the request (44, 725, skip 256, 3-digit, regular, single
shot) passes the validation on a URG-04LX handle; its command is "GD00440725100", and
characters 10-11 read as hexadecimal give 16, not the skip 256. -/
theorem create_scan_request_skip_not_recovered :
    (_create_scan_request (mkHandle TYPE_URG_04LX false []) 44 725 256 THREE_DIGITS
        SCAN_REGULAR 1 [] false) = ⟨0, "GD00440725100".toList, false⟩
      ∧ parse_hex (field "GD00440725100".toList 10 11) = 16
      ∧ parse_hex (field "GD00440725100".toList 10 11) ≠ 256 := by
  decide

/-- C10 (amended) — for every request that passes the validation of
`_create_scan_request` with `0 ≤ skip ≤ 255` (on a handle of one of the two variants),
reading the generated command at its fixed positions (2-5 decimal, 6-9 decimal, 10-11
hexadecimal and, for streaming and intensity commands, 13-14 decimal) recovers start, end,
skip and the repeat count. -/
theorem create_scan_request_roundtrip (h : hokuyo_t) (scan_start scan_end scan_skip encoding
    scan_type num_scans : Int) (req : List Char) (need : Bool)
    (htype : h.type = TYPE_URG_04LX ∨ h.type = TYPE_UTM_30LX)
    (hskip : 0 ≤ scan_skip ∧ scan_skip ≤ 255)
    (hret : (_create_scan_request h scan_start scan_end scan_skip encoding scan_type
      num_scans req need).ret = 0) :
    (parse_dec (field (_create_scan_request h scan_start scan_end scan_skip encoding
        scan_type num_scans req need).req 2 5) : Int) = scan_start
      ∧ (parse_dec (field (_create_scan_request h scan_start scan_end scan_skip encoding
        scan_type num_scans req need).req 6 9) : Int) = scan_end
      ∧ (parse_hex (field (_create_scan_request h scan_start scan_end scan_skip encoding
        scan_type num_scans req need).req 10 11) : Int) = scan_skip
      ∧ (num_scans = 0 ∨ scan_type = SCAN_SPECIAL_ME →
          (parse_dec (field (_create_scan_request h scan_start scan_end scan_skip encoding
            scan_type num_scans req need).req 13 14) : Int) = num_scans) := by
  obtain ⟨hreq, p1, p2, hend, p5⟩ := create_scan_request_req h scan_start scan_end scan_skip
    encoding scan_type num_scans req need htype hskip hret
  rw [hreq]
  obtain ⟨a, b, hop⟩ := opcode_two_chars encoding scan_type num_scans
  unfold command_layout
  rw [hop]
  have f1 : ∀ t, field ([a, b] ++ dec4 scan_start.toNat ++ dec4 scan_end.toNat
      ++ hex2 scan_skip.toNat ++ t) 2 5 = dec4 scan_start.toNat := fun _ => rfl
  have f2 : ∀ t, field ([a, b] ++ dec4 scan_start.toNat ++ dec4 scan_end.toNat
      ++ hex2 scan_skip.toNat ++ t) 6 9 = dec4 scan_end.toNat := fun _ => rfl
  have f3 : ∀ t, field ([a, b] ++ dec4 scan_start.toNat ++ dec4 scan_end.toNat
      ++ hex2 scan_skip.toNat ++ t) 10 11 = hex2 scan_skip.toNat := fun _ => rfl
  have f4 : field ([a, b] ++ dec4 scan_start.toNat ++ dec4 scan_end.toNat
      ++ hex2 scan_skip.toNat ++ '0' :: dec2 num_scans.toNat) 13 14
      = dec2 num_scans.toNat := rfl
  rw [f1, f2, f3, parse_dec4 _ (by omega), parse_dec4 _ (by omega), parse_hex2 _ (by omega)]
  refine ⟨by omega, by omega, by omega, ?_⟩
  intro hs
  rw [if_pos hs, f4, parse_dec2 _ (by omega)]
  omega

/-- C10 (amended), at a concrete input: the streaming request (44, 725, skip 1). -/
theorem create_scan_request_roundtrip_witness :
    (parse_dec (field (_create_scan_request (mkHandle TYPE_URG_04LX false []) 44 725 1
        THREE_DIGITS SCAN_REGULAR 0 [] false).req 2 5) : Int) = 44
      ∧ (parse_dec (field (_create_scan_request (mkHandle TYPE_URG_04LX false []) 44 725 1
        THREE_DIGITS SCAN_REGULAR 0 [] false).req 6 9) : Int) = 725
      ∧ (parse_hex (field (_create_scan_request (mkHandle TYPE_URG_04LX false []) 44 725 1
        THREE_DIGITS SCAN_REGULAR 0 [] false).req 10 11) : Int) = 1
      ∧ ((0 : Int) = 0 ∨ SCAN_REGULAR = SCAN_SPECIAL_ME →
          (parse_dec (field (_create_scan_request (mkHandle TYPE_URG_04LX false []) 44 725 1
            THREE_DIGITS SCAN_REGULAR 0 [] false).req 13 14) : Int) = 0) :=
  create_scan_request_roundtrip (mkHandle TYPE_URG_04LX false []) 44 725 1 THREE_DIGITS
    SCAN_REGULAR 0 [] false (Or.inl rfl) (by decide) (by decide)
/-! ## Theorems: the iteration bounds of the model are never exhausted -/

theorem decode_two_digits_loop_ne_fuel (pkt : List Nat) (len : Int) :
    ∀ (fuel i : Nat) (dl : Int) (out : List Nat), (len - i).toNat < fuel →
      decode_two_digits_loop pkt len fuel i dl out ≠ .fuel := by
  intro fuel
  induction fuel with
  | zero => intro i dl out hf; omega
  | succ n ih =>
    intro i dl out hf
    rw [decode_two_digits_loop]
    split
    · split
      · split
        · split
          · simp
          · exact ih _ _ _ (by push_cast; omega)
        · simp
      · simp
    · simp

theorem decode_three_digits_loop_ne_fuel (pkt : List Nat) (len : Int) :
    ∀ (fuel i p : Nat) (dl : Int) (out : List Nat), (len - i).toNat < fuel →
      decode_three_digits_loop pkt len fuel i p dl out ≠ .fuel := by
  intro fuel
  induction fuel with
  | zero => intro i p dl out hf; omega
  | succ n ih =>
    intro i p dl out hf
    rw [decode_three_digits_loop]
    split
    · split
      · split
        · split
          · simp
          · exact ih _ _ _ _ (by push_cast; omega)
        · simp
      · simp
    · simp

/-- `_decode_packet` always comes to an end: the bound handed to its loops suffices. -/
theorem decode_packet_ne_fuel (h : hokuyo_t) (pkt out : List Nat) (len enc : Int) :
    _decode_packet h pkt out len enc ≠ .fuel := by
  unfold _decode_packet
  split
  · simp
  · split
    · exact decode_two_digits_loop_ne_fuel pkt len _ 0 0 out (by simp)
    · split
      · exact decode_three_digits_loop_ne_fuel pkt len _ 0 0 0 out (by simp)
      · simp

theorem memchr_ne_fuel (c : Nat) : ∀ (s : List Nat) (n k : Nat), memchr s c n k ≠ .fuel := by
  intro s
  induction s with
  | nil => intro n k; unfold memchr; split <;> simp
  | cons b s ih =>
    intro n k
    unfold memchr
    split
    · simp
    · split
      · simp
      · exact ih _ _

theorem memchr_lt_length (c : Nat) : ∀ (s : List Nat) (n k j : Nat),
    memchr s c n k = .ok (some j) → k ≤ j ∧ j - k < s.length := by
  intro s
  induction s with
  | nil =>
    intro n k j hm
    unfold memchr at hm
    split at hm <;> simp at hm
  | cons b s ih =>
    intro n k j hm
    unfold memchr at hm
    split at hm
    · simp at hm
    · split at hm
      · simp only [Outcome.ok.injEq, Option.some.injEq] at hm
        subst hm; simp
      · have := ih _ _ _ hm
        simp only [List.length_cons]; omega

theorem check_line_checksum_ne_fuel (h : hokuyo_t) (line : List Nat) (max_length : Int) :
    _check_line_checksum h line max_length ≠ .fuel := by
  unfold _check_line_checksum
  split
  · split <;> simp
  · simp
  · simp
  · rename_i hm; exact absurd hm (memchr_ne_fuel _ _ _ _)

/-- The value `_check_line_checksum` returns leaves room for the checksum byte and the
linefeed behind it in the array. -/
theorem check_line_checksum_ret_le (h : hokuyo_t) (line : List Nat) (max_length : Int)
    (r : ChecksumResult) (hr : _check_line_checksum h line max_length = .ok r) :
    r.ret = 0 ∨ (0 < r.ret ∧ r.ret + 2 ≤ line.length) := by
  unfold _check_line_checksum at hr
  split at hr
  · rename_i j hm
    have := memchr_lt_length _ _ _ _ _ hm
    split at hr
    · simp only [Outcome.ok.injEq] at hr; subst hr; exact Or.inl rfl
    · simp only [Outcome.ok.injEq] at hr; subst hr
      simp only []
      omega
  · simp at hr
  · simp at hr
  · simp at hr

theorem extract_loop_ne_fuel (h : hokuyo_t) :
    ∀ (fuel : Nat) (fp ep : List Nat) (p : Nat) (len ll : Int), fp.length < fuel →
      (ll ≤ 0 ∨ ll + 2 ≤ fp.length) →
      extract_loop h fuel fp ep p len ll ≠ .fuel := by
  intro fuel
  induction fuel with
  | zero => intro fp ep p len ll hf; omega
  | succ n ih =>
    intro fp ep p len ll hf hll
    rw [extract_loop]
    split
    · split
      · simp
      · dsimp only
        split
        · rename_i r hr
          have hb := check_line_checksum_ret_le h _ _ r hr
          simp only [List.length_drop] at hb
          refine ih _ _ _ _ _ (by simp only [List.length_drop]; omega) ?_
          simp only [List.length_drop]
          omega
        · simp
        · rename_i hm; exact absurd hm (check_line_checksum_ne_fuel _ _ _)
    · split <;> simp

/-- `_extract_packet` always comes to an end: the bound handed to its loop suffices. -/
theorem extract_packet_ne_fuel (h : hokuyo_t) (full_packet extracted_packet : List Nat)
    (packet_length : Int) :
    _extract_packet h full_packet extracted_packet packet_length ≠ .fuel := by
  unfold _extract_packet
  split
  · simp
  · split
    · rename_i r hr
      have hb := check_line_checksum_ret_le h _ _ r hr
      exact extract_loop_ne_fuel h _ _ _ _ _ _ (by omega) (by omega)
    · simp
    · rename_i hm; exact absurd hm (check_line_checksum_ne_fuel _ _ _)
/-! ## Theorems: `_read_line` on a received line -/

/-- The read loop with the one-byte terminator `0x0a`: it takes the bytes up to and
including the first linefeed off the stream and stores them in `data`. -/
theorem read_term_sequence_loop_line (s : serial_device_t)
    (hterm : s.termSequence[0]? = some 0x0a) (hnum : s.numTermChars = 1)
    (hret : s.retTermSequence = true) (rest : List Nat) :
    ∀ (pre data : List Nat) (total : Nat) (left : Int), 0x0a ∉ pre →
      total + pre.length + 1 ≤ data.length → (pre.length : Int) < left →
      read_term_sequence_loop s (pre ++ 0x0a :: rest) data total left 0
        = .ok ⟨(total : Int) + pre.length + 1, { s with rx := rest },
            data.take total ++ pre ++ 0x0a :: data.drop (total + pre.length + 1)⟩ := by
  intro pre
  induction pre with
  | nil =>
    intro data total left _ hroom hleft
    have hl : left ≠ 0 := by simp at hleft; omega
    have hs := store_of_lt data total 0x0a (by simp at hroom; omega)
    have hset : data.set total 0x0a = data.take total ++ 0x0a :: data.drop (total + 1) := by
      rw [List.set_eq_take_append_cons_drop, if_pos (by simp at hroom; omega)]
    rw [read_term_sequence_loop.eq_def]
    simp only [List.nil_append, hl, if_false, hs, hterm, if_true, hnum, hret, hset]
    simp
  | cons b pre ih =>
    intro data total left hpre hroom hleft
    have hl : left ≠ 0 := by simp at hleft; omega
    have hb : b ≠ 0x0a := by intro e; exact hpre (by simp [e])
    have hpre' : 0x0a ∉ pre := by intro e; exact hpre (by simp [e])
    have hlt : total < data.length := by simp at hroom; omega
    have hs := store_of_lt data total b hlt
    have hset : data.set total b = data.take total ++ b :: data.drop (total + 1) := by
      rw [List.set_eq_take_append_cons_drop, if_pos hlt]
    have e1 : (data.set total b).take (total + 1) = data.take total ++ [b] := by
      have : data.take total ++ b :: data.drop (total + 1)
          = (data.take total ++ [b]) ++ data.drop (total + 1) := by simp
      rw [hset, this]
      apply List.take_left'
      simp; omega
    have e2 : (data.set total b).drop (total + 1 + pre.length + 1)
        = data.drop (total + (pre.length + 1) + 1) := by
      rw [List.drop_set_of_lt _ _ (by omega)]
      congr 1; omega
    have hrec := ih (data.set total b) (total + 1) (left - 1) hpre'
      (by simp at hroom ⊢; omega) (by simp at hleft; omega)
    have hne : ¬ ((0 : Nat) : Int) = s.numTermChars := by rw [hnum]; decide
    rw [List.cons_append, read_term_sequence_loop.eq_def]
    simp only [hl, if_false, hs, hterm, hb, hne, hrec, e1, e2, List.length_cons]
    congr 2
    · push_cast; ring
    · simp

/-- A received line (data bytes `d`, any checksum byte `c`, linefeed) is accepted by
`_read_line` with checksum verification whether or not the checksum byte is right and
whether or not the debug flag is set: the call returns the number of data bytes, takes
the line off the stream and changes nothing else in the handle but the io mode
settings. -/
theorem read_line_returns_length (h : hokuyo_t) (line d rest : List Nat) (c : Nat)
    (max_chars timeout_us : Int) (hconn : h.sd.connected = true)
    (hrx : h.sd.rx = d ++ c :: 0x0a :: rest) (hd : 0x0a ∉ d) (hc : c ≠ 0x0a)
    (hmax : (d.length : Int) + 2 ≤ max_chars) (hmax' : max_chars ≤ MAX_LINE_LENGTH)
    (hline : d.length + 2 ≤ line.length) :
    _read_line h line max_chars timeout_us true
      = .ok ⟨(d.length : Int),
          { h with sd := { h.sd with
              ioMode := IO_BLOCK_W_TIMEOUT_W_TERM_SEQUENCE
              numTermChars := 1
              retTermSequence := true
              termSequence := 0x0a :: h.sd.termSequence.drop 1
              rx := rest } },
          d ++ c :: 0x0a :: line.drop (d.length + 2)⟩ := by
  have hpre : 0x0a ∉ d ++ [c] := by
    intro hm
    rcases List.mem_append.1 hm with hm | hm
    · exact hd hm
    · exact hc (List.mem_singleton.1 hm).symm
  obtain ⟨sd1, hsd1⟩ : ∃ x : serial_device_t, x = { h.sd with
      ioMode := IO_BLOCK_W_TIMEOUT_W_TERM_SEQUENCE
      numTermChars := 1
      retTermSequence := true
      termSequence := 0x0a :: h.sd.termSequence.drop 1 } := ⟨_, rfl⟩
  have hset : (serial_device_set_io_block_w_timeout_w_term_sequence h.sd [0x0a] 1 true).2
      = sd1 := by
    unfold serial_device_set_io_block_w_timeout_w_term_sequence
    rw [hsd1]
    simp [hconn, MAX_NUM_TERM_CHARS]
  have hloop := read_term_sequence_loop_line sd1 (by rw [hsd1]; simp) (by rw [hsd1])
    (by rw [hsd1]) rest (d ++ [c]) line 0 max_chars hpre (by simp; omega) (by simp; omega)
  have hrx1 : sd1.rx = (d ++ [c]) ++ 0x0a :: rest := by rw [hsd1]; simp [hrx]
  have hread : serial_device_read_chars sd1 line max_chars timeout_us
      = .ok ⟨(d.length : Int) + 2, { sd1 with rx := rest },
          d ++ c :: 0x0a :: line.drop (d.length + 2)⟩ := by
    unfold serial_device_read_chars
    have c1 : sd1.connected = true := by rw [hsd1]; exact hconn
    have c2 : sd1.ioMode = IO_BLOCK_W_TIMEOUT_W_TERM_SEQUENCE := by rw [hsd1]
    have c3 : ¬ IO_BLOCK_W_TIMEOUT_W_TERM_SEQUENCE = IO_BLOCK_W_TIMEOUT := by decide
    simp only [c1, c2, c3, Bool.not_true, Bool.false_eq_true, if_false, if_true, hrx1, hloop]
    congr 2
    · simp; ring
    · simp
  have hh : ({ h with sd := { sd1 with rx := rest } } : hokuyo_t) = { h with sd := { h.sd with
              ioMode := IO_BLOCK_W_TIMEOUT_W_TERM_SEQUENCE
              numTermChars := 1
              retTermSequence := true
              termSequence := 0x0a :: h.sd.termSequence.drop 1
              rx := rest } } := by rw [hsd1]
  have hchk := check_line_checksum_line { h with sd := { sd1 with rx := rest } }
    d (line.drop (d.length + 2)) c ((d.length : Int) + 2) hd hc (by omega)
    (by simp only [MAX_LINE_LENGTH] at hmax'; omega)
  have hn1 : ¬ ((d.length : Int) + 2 < 1) := by omega
  have hn2 : ¬ ((d.length : Int) + 2 = 1) := by omega
  unfold _read_line
  simp only [hconn, Bool.not_true, Bool.false_eq_true, if_false, hset, hread, hn1, hn2,
    false_and, read_line_finish, hchk]
  simp [hh, hconn]
/-! ## Theorems: `_decode_packet` on an array that holds exactly the payload -/

/-- The 2-digit decoder on a payload of `2k` bytes, `1 ≤ k ≤ 3000`: it returns `k`, and the
only element of the output array it changes is element 0, which ends up holding the value
of the last pair. -/
theorem decode_packet_two_digits_stores_last (h : hokuyo_t) (payload rest out : List Nat)
    (k : Nat) (hk : 1 ≤ k) (hk' : k ≤ 3000) (hlen : payload.length = 2 * k)
    (hout : 1 ≤ out.length) :
    _decode_packet h (payload ++ rest) out (payload.length : Int) TWO_DIGITS
      = .ok ⟨(k : Int), out.set 0 (two_digit_value ((payload ++ rest).getD (2 * k - 2) 0)
          ((payload ++ rest).getD (2 * k - 1) 0))⟩ := by
  have he := decode_two_digits_loop_run (payload ++ rest) (payload.length : Int) k
    ((payload.length : Int).toNat + 1) 0 0 out
    (by simp; omega) (by push_cast; omega) (by intro _; push_cast; omega)
    (by simp; omega) (by intro _; omega) (by simp only [MAX_NUM_POINTS]; omega)
  unfold _decode_packet
  rw [if_neg (by omega), if_pos rfl, he, if_neg (by omega), Int.zero_add]
  have e1 : 0 + 2 * (k - 1) = 2 * k - 2 := by omega
  have e2 : 2 * k - 2 + 1 = 2 * k - 1 := by omega
  rw [e1, e2]

/-- Where the claim of C3 does hold: on an array that holds exactly the `len` payload
bytes, the 2-digit decoder (any `len`) and the 3-digit decoder (`len mod 3 ≠ 2`) stay
inside the array and return `len / w` values, as long as that is at most 3000. -/
theorem decode_packet_exact_array (h : hokuyo_t) (pkt out : List Nat) (enc : Int)
    (hlen : 1 ≤ pkt.length)
    (henc : enc = TWO_DIGITS ∨ (enc = THREE_DIGITS ∧ pkt.length % 3 ≠ 2))
    (hcount : decoded_count pkt.length enc ≤ MAX_NUM_POINTS)
    (hout : (decoded_count pkt.length enc).toNat ≤ out.length) :
    ∃ ed, _decode_packet h pkt out (pkt.length : Int) enc
        = .ok ⟨decoded_count pkt.length enc, ed⟩
      ∧ decoded_count pkt.length enc
          = (pkt.length : Int) / (if enc = TWO_DIGITS then 2 else 3) := by
  rcases henc with rfl | ⟨rfl, h3⟩
  · have hc : decoded_count pkt.length TWO_DIGITS = (pkt.length : Int) / 2 := by
      unfold decoded_count; rw [if_pos rfl]
    rw [hc] at hcount hout ⊢
    simp only [MAX_NUM_POINTS] at hcount
    have he := decode_two_digits_loop_run pkt (pkt.length : Int)
      ((pkt.length : Int) / 2).toNat ((pkt.length : Int).toNat + 1) 0 0 out
      (by omega) (by omega) (by intro _; omega) (by omega) (by intro _; omega)
      (by simp only [MAX_NUM_POINTS]; omega)
    unfold _decode_packet
    have e : (0 : Int) + (((pkt.length : Int) / 2).toNat : Int) = (pkt.length : Int) / 2 := by
      omega
    rw [if_neg (by omega), if_pos rfl, he, e]
    exact ⟨_, rfl, by rw [if_pos rfl]⟩
  · have hc : decoded_count pkt.length THREE_DIGITS = ((pkt.length : Int) + 1) / 3 := by
      unfold decoded_count; rw [if_neg (by decide)]
    rw [hc] at hcount hout ⊢
    simp only [MAX_NUM_POINTS] at hcount
    obtain ⟨ed, he, -⟩ := decode_three_digits_loop_run pkt (pkt.length : Int)
      (((pkt.length : Int) + 1) / 3).toNat ((pkt.length : Int).toNat + 1) 0 0 0 out
      (by omega) (by omega) (by intro _; omega) (by omega) (by omega)
      (by simp only [MAX_NUM_POINTS]; omega)
    unfold _decode_packet
    have e : (0 : Int) + ((((pkt.length : Int) + 1) / 3).toNat : Int)
        = ((pkt.length : Int) + 1) / 3 := by omega
    rw [if_neg (by omega), if_neg (by decide), if_pos rfl, he, e]
    exact ⟨ed, rfl, by rw [if_neg (by decide)]; omega⟩
/-! ## Theorems: validation in `_create_scan_request` -/

theorem scan_request_ret_ite (c : Prop) [Decidable c] (a b : ScanRequest)
    (ha : a.ret = 0 ∨ a.ret = error_return) (hb : b.ret = 0 ∨ b.ret = error_return) :
    (if c then a else b).ret = 0 ∨ (if c then a else b).ret = error_return := by
  split <;> assumption

/-- `_create_scan_request` returns 0 or -1. -/
theorem create_scan_request_ret (h : hokuyo_t) (scan_start scan_end scan_skip encoding
    scan_type num_scans : Int) (req : List Char) (need : Bool) :
    (_create_scan_request h scan_start scan_end scan_skip encoding scan_type num_scans
        req need).ret = 0
      ∨ (_create_scan_request h scan_start scan_end scan_skip encoding scan_type num_scans
        req need).ret = error_return := by
  unfold _create_scan_request
  repeat' first
    | exact Or.inl rfl
    | exact Or.inr rfl
    | apply scan_request_ret_ite

/-- A request with a valid window, a repeat count of 0 or 1 and an encoding and scan kind
that are valid for the variant is accepted. -/
theorem create_scan_request_accepts (h : hokuyo_t) (scan_start scan_end scan_skip encoding
    scan_type num_scans : Int) (req : List Char) (need : Bool)
    (hw : valid_window h scan_start scan_end)
    (hn : num_scans = 0 ∨ num_scans = 1)
    (hv : valid_encoding_and_kind h encoding scan_type) :
    (_create_scan_request h scan_start scan_end scan_skip encoding scan_type num_scans
        req need).ret = 0 := by
  obtain ⟨w1, w2, w3, w4⟩ := hw
  have n01 : TYPE_URG_04LX ≠ TYPE_UTM_30LX := by decide
  have g3 : ¬ (h.type = TYPE_UTM_30LX ∧ scan_end > MAX_NUM_POINTS_UTM_30LX) := by
    rintro ⟨ht, hgt⟩
    unfold variant_max_points at w4
    rw [if_pos ht] at w4
    simp only [MAX_NUM_POINTS_UTM_30LX] at hgt
    omega
  have g4 : ¬ (h.type = TYPE_URG_04LX ∧ scan_end > MAX_NUM_POINTS_URG_04LX) := by
    rintro ⟨ht, hgt⟩
    unfold variant_max_points at w4
    rw [if_neg (by rw [ht]; exact n01)] at w4
    simp only [MAX_NUM_POINTS_URG_04LX] at hgt
    omega
  have g6 : ¬ (num_scans < 0 ∨ num_scans > 99) := by
    rcases hn with rfl | rfl <;> decide
  have g7 : ¬ (h.type = TYPE_UTM_30LX ∧ encoding = TWO_DIGITS) := by
    rintro ⟨ht, he⟩
    rcases hv with ⟨-, he3 | ⟨-, hu⟩⟩ | ⟨-, -, he3⟩
    · rw [he] at he3; exact absurd he3 (by decide)
    · rw [ht] at hu; exact absurd hu.symm n01
    · rw [he] at he3; exact absurd he3 (by decide)
  unfold _create_scan_request
  rw [if_neg (by omega), if_neg (by omega), if_neg g3, if_neg g4, if_neg (by omega),
    if_neg g6, if_neg g7]
  have r1 : ¬ SCAN_SPECIAL_ME = SCAN_REGULAR := by decide
  have e23 : ¬ TWO_DIGITS = THREE_DIGITS := by decide
  rcases hn with rfl | rfl
  · rw [if_neg (by decide), if_pos rfl]
    rcases hv with ⟨rfl, rfl | ⟨rfl, -⟩⟩ | ⟨rfl, ht, rfl⟩
    · rw [if_pos rfl, if_pos rfl]
    · rw [if_pos rfl, if_neg e23, if_pos rfl]
    · rw [if_neg r1, if_pos ⟨rfl, ht⟩, if_pos rfl]
  · rw [if_pos rfl]
    rcases hv with ⟨rfl, rfl | ⟨rfl, -⟩⟩ | ⟨rfl, ht, rfl⟩
    · rw [if_pos rfl, if_pos rfl]
    · rw [if_pos rfl, if_neg e23, if_pos rfl]
    · rw [if_neg r1, if_pos ⟨rfl, ht⟩, if_pos rfl]

/-- C11 (as stated, refuted) — on a UTM-30LX handle the window 0..1080 is valid, the
3-digit encoding and the regular scan kind are valid, the repeat count 99 lies in [0, 99],
and yet `_create_scan_request` fails: a failure does not imply an invalid window. -/
theorem create_scan_request_valid_window_fails :
    (_create_scan_request (mkHandle TYPE_UTM_30LX false []) 0 1080 1 THREE_DIGITS
        SCAN_REGULAR 99 [] false).ret = error_return
      ∧ ¬ ((0 : Int) < 0 ∨ (1080 : Int) < 0 ∨ (1080 : Int) ≤ 0
          ∨ (1080 : Int) > variant_max_points (mkHandle TYPE_UTM_30LX false []))
      ∧ valid_encoding_and_kind (mkHandle TYPE_UTM_30LX false []) THREE_DIGITS SCAN_REGULAR
      ∧ (0 : Int) ≤ 99 ∧ (99 : Int) ≤ 99 := by
  decide

/-- C11 (amended) — for a request whose encoding and scan kind are valid for the handle's
variant and whose repeat count is 0 or 1 (the counts the function accepts),
`_create_scan_request` fails if and only if the window is invalid: `scan_start < 0`, `scan_end < 0`,
`scan_end <= scan_start`, or `scan_end` greater than the variant's maximum point count
(771 for URG-04LX, 2162 for UTM-30LX). -/
theorem create_scan_request_window (h : hokuyo_t) (scan_start scan_end scan_skip encoding
    scan_type num_scans : Int) (req : List Char) (need : Bool)
    (htype : h.type = TYPE_URG_04LX ∨ h.type = TYPE_UTM_30LX)
    (hn : num_scans = 0 ∨ num_scans = 1)
    (hv : valid_encoding_and_kind h encoding scan_type) :
    (_create_scan_request h scan_start scan_end scan_skip encoding scan_type num_scans
        req need).ret ≠ 0
      ↔ (scan_start < 0 ∨ scan_end < 0 ∨ scan_end ≤ scan_start
          ∨ scan_end > variant_max_points h) := by
  constructor
  · intro hne
    by_contra hcon
    apply hne
    refine create_scan_request_accepts h scan_start scan_end scan_skip encoding scan_type
      num_scans req need ⟨?_, ?_, ?_, ?_⟩ hn hv <;> omega
  · intro hbad hret
    obtain ⟨p1, p2, p3, p4, -⟩ := create_scan_request_ok h scan_start scan_end scan_skip
      encoding scan_type num_scans req need _ rfl hret
    have hmax : scan_end ≤ variant_max_points h := by
      unfold variant_max_points
      rcases htype with ht | ht
      · rw [if_neg (by rw [ht]; decide)]
        have := p4 ht; simp only [MAX_NUM_POINTS_URG_04LX] at this; exact this
      · rw [if_pos ht]
        have := p3 ht; simp only [MAX_NUM_POINTS_UTM_30LX] at this; omega
    omega

/-- C11 (amended), at a concrete input: on a URG-04LX handle the window 44..772 is rejected
(772 > 771) and the window 44..725 is accepted. -/
theorem create_scan_request_window_witness :
    ((_create_scan_request (mkHandle TYPE_URG_04LX false []) 44 772 1 THREE_DIGITS
        SCAN_REGULAR 1 [] false).ret ≠ 0
      ↔ ((44 : Int) < 0 ∨ (772 : Int) < 0 ∨ (772 : Int) ≤ 44
          ∨ (772 : Int) > variant_max_points (mkHandle TYPE_URG_04LX false [])))
    ∧ (_create_scan_request (mkHandle TYPE_URG_04LX false []) 44 772 1 THREE_DIGITS
        SCAN_REGULAR 1 [] false).ret = error_return
    ∧ (_create_scan_request (mkHandle TYPE_URG_04LX false []) 44 725 1 THREE_DIGITS
        SCAN_REGULAR 1 [] false).ret = 0 :=
  ⟨create_scan_request_window (mkHandle TYPE_URG_04LX false []) 44 772 1 THREE_DIGITS
      SCAN_REGULAR 1 [] false (Or.inl rfl) (Or.inr rfl) (Or.inl ⟨rfl, Or.inl rfl⟩),
    by decide, by decide⟩

/-- C12 (as stated, refuted) — the repeat count 2 lies in [0, 99], the window, encoding
and scan kind are valid, and yet `_create_scan_request` rejects the request. -/
theorem create_scan_request_rejects_two :
    (_create_scan_request (mkHandle TYPE_URG_04LX false []) 44 725 1 THREE_DIGITS
        SCAN_REGULAR 2 [] false).ret = error_return
      ∧ (0 : Int) ≤ 2 ∧ (2 : Int) ≤ 99 := by
  decide

/-- C12 (amended) — for a request whose window, encoding and scan kind are valid for the
handle's variant, `_create_scan_request` accepts the repeat counts 0 and 1 and rejects
every other repeat count. -/
theorem create_scan_request_repeat_count (h : hokuyo_t) (scan_start scan_end scan_skip
    encoding scan_type num_scans : Int) (req : List Char) (need : Bool)
    (hw : valid_window h scan_start scan_end)
    (hv : valid_encoding_and_kind h encoding scan_type) :
    (_create_scan_request h scan_start scan_end scan_skip encoding scan_type num_scans
        req need).ret = 0
      ↔ (num_scans = 0 ∨ num_scans = 1) := by
  constructor
  · intro hret
    exact (create_scan_request_ok h scan_start scan_end scan_skip encoding scan_type
      num_scans req need _ rfl hret).2.2.2.2.1
  · intro hn
    exact create_scan_request_accepts h scan_start scan_end scan_skip encoding scan_type
      num_scans req need hw hn hv

/-- C12 (amended), at a concrete input: the production window with repeat count 0. -/
theorem create_scan_request_repeat_count_witness :
    (_create_scan_request (mkHandle TYPE_URG_04LX false []) 44 725 1 THREE_DIGITS
        SCAN_REGULAR 0 [] false).ret = 0
      ↔ ((0 : Int) = 0 ∨ (0 : Int) = 1) :=
  create_scan_request_repeat_count (mkHandle TYPE_URG_04LX false []) 44 725 1 THREE_DIGITS
    SCAN_REGULAR 0 [] false (by decide) (Or.inl ⟨rfl, Or.inl rfl⟩)

/-- C14 — whenever `_create_scan_request` succeeds, the flag
`need_to_read_off_cmd_and_status` it stores is true if and only if the request is a
streaming request (repeat count 0) or an intensity request; so it is false for every
single-shot regular request. The value the flag held before the call does not matter. -/
theorem create_scan_request_flag (h : hokuyo_t) (scan_start scan_end scan_skip encoding
    scan_type num_scans : Int) (req : List Char) (need : Bool)
    (hret : (_create_scan_request h scan_start scan_end scan_skip encoding scan_type
      num_scans req need).ret = 0) :
    ((_create_scan_request h scan_start scan_end scan_skip encoding scan_type num_scans
        req need).need_to_read_off_cmd_and_status = true
      ↔ (num_scans = 0 ∨ scan_type = SCAN_SPECIAL_ME))
    ∧ (num_scans = 1 ∧ scan_type = SCAN_REGULAR →
        (_create_scan_request h scan_start scan_end scan_skip encoding scan_type num_scans
          req need).need_to_read_off_cmd_and_status = false) := by
  obtain ⟨-, -, -, -, -, -, -, -, -, p10⟩ := create_scan_request_ok h scan_start scan_end
    scan_skip encoding scan_type num_scans req need _ rfl hret
  rw [p10]
  refine ⟨by simp, ?_⟩
  rintro ⟨rfl, rfl⟩
  decide

/-- C14, at a concrete input: a single-shot regular request, called with the flag set. -/
theorem create_scan_request_flag_witness :
    ((_create_scan_request (mkHandle TYPE_URG_04LX false []) 44 725 1 THREE_DIGITS
        SCAN_REGULAR 1 [] true).need_to_read_off_cmd_and_status = true
      ↔ ((1 : Int) = 0 ∨ SCAN_REGULAR = SCAN_SPECIAL_ME))
    ∧ ((1 : Int) = 1 ∧ SCAN_REGULAR = SCAN_REGULAR →
        (_create_scan_request (mkHandle TYPE_URG_04LX false []) 44 725 1 THREE_DIGITS
          SCAN_REGULAR 1 [] true).need_to_read_off_cmd_and_status = false) :=
  create_scan_request_flag (mkHandle TYPE_URG_04LX false []) 44 725 1 THREE_DIGITS
    SCAN_REGULAR 1 [] true (by decide)
/-! ## Theorems: what the steps of `_get_scan` leave as it is -/

theorem kept_refl (h : hokuyo_t) : kept h h := ⟨rfl, rfl, rfl, rfl⟩

theorem kept_trans {a b c : hokuyo_t} (h1 : kept a b) (h2 : kept b c) : kept a c := by
  obtain ⟨a1, a2, a3, a4⟩ := h1
  obtain ⟨b1, b2, b3, b4⟩ := h2
  exact ⟨b1.trans a1, b2.trans a2, b3.trans a3, b4.trans a4⟩

theorem quiet_refl (h : hokuyo_t) : quiet h h := ⟨kept_refl h, rfl, rfl⟩

theorem quiet_trans {a b c : hokuyo_t} (h1 : quiet a b) (h2 : quiet b c) : quiet a c := by
  obtain ⟨a1, a2, a3⟩ := h1
  obtain ⟨b1, b2, b3⟩ := h2
  exact ⟨kept_trans a1 b1, b2.trans a2, b3.trans a3⟩

/-- A handle whose transport is replaced by one with the same connection state and
the same bytes written. -/
theorem quiet_of_sd (h : hokuyo_t) (sd : serial_device_t) (hc : sd.connected = h.sd.connected)
    (ht : sd.tx = h.sd.tx) : quiet h { h with sd := sd } :=
  ⟨⟨rfl, rfl, rfl, hc⟩, rfl, ht⟩

theorem read_term_sequence_loop_nil (s : serial_device_t) (data : List Nat) (total : Nat)
    (left : Int) (cm : Nat) :
    read_term_sequence_loop s [] data total left cm
      = .ok ⟨error_return, { s with rx := [] }, data⟩ := by
  rw [read_term_sequence_loop.eq_def]
  split
  split <;> rfl

theorem read_term_sequence_loop_cons (s : serial_device_t) (b : Nat) (rx data : List Nat)
    (total : Nat) (left : Int) (cm : Nat) :
    read_term_sequence_loop s (b :: rx) data total left cm
      = if left = 0 then .ok ⟨error_return, { s with rx := b :: rx }, data⟩
        else
          match store data total b, s.termSequence[cm]? with
          | some data, some t =>
            if (((if b = t then cm + 1 else 0 : Nat) : Int)) = s.numTermChars then
              if s.retTermSequence then
                .ok ⟨(total : Int) + 1, { s with rx := rx }, data⟩
              else
                .ok ⟨(total : Int) + 1 - s.numTermChars, { s with rx := rx }, data⟩
            else
              read_term_sequence_loop s rx data (total + 1) (left - 1)
                (if b = t then cm + 1 else 0)
          | _, _ => .undefined := by
  rw [read_term_sequence_loop.eq_def]

theorem read_term_sequence_loop_sd (s : serial_device_t) :
    ∀ (rx data : List Nat) (total : Nat) (left : Int) (cm : Nat) (r : ReadResult),
      read_term_sequence_loop s rx data total left cm = .ok r →
      r.sd.connected = s.connected ∧ r.sd.tx = s.tx := by
  intro rx
  induction rx with
  | nil =>
    intro data total left cm r hr
    rw [read_term_sequence_loop_nil] at hr
    cases hr; exact ⟨rfl, rfl⟩
  | cons b rx ih =>
    intro data total left cm r hr
    rw [read_term_sequence_loop_cons] at hr
    repeat' split at hr
    all_goals first
      | exact ih _ _ _ _ _ hr
      | (cases hr; exact ⟨rfl, rfl⟩)
      | cases hr

theorem serial_device_read_chars_sd (s : serial_device_t) (data : List Nat) (n t : Int)
    (r : ReadResult) (hr : serial_device_read_chars s data n t = .ok r) :
    r.sd.connected = s.connected ∧ r.sd.tx = s.tx := by
  unfold serial_device_read_chars at hr
  split at hr
  · cases hr; exact ⟨rfl, rfl⟩
  · split at hr
    · split at hr
      · cases hr
      · dsimp only at hr
        split at hr
        · cases hr; exact ⟨rfl, rfl⟩
        · cases hr
    · split at hr
      · exact read_term_sequence_loop_sd s _ _ _ _ _ r hr
      · cases hr; exact ⟨rfl, rfl⟩

theorem set_term_sequence_sd (s : serial_device_t) (seq : List Nat) (n : Int) (b : Bool) :
    (serial_device_set_io_block_w_timeout_w_term_sequence s seq n b).2.connected = s.connected
      ∧ (serial_device_set_io_block_w_timeout_w_term_sequence s seq n b).2.tx = s.tx := by
  unfold serial_device_set_io_block_w_timeout_w_term_sequence
  split
  · exact ⟨rfl, rfl⟩
  · split <;> exact ⟨rfl, rfl⟩

theorem set_io_block_sd (s : serial_device_t) :
    (serial_device_set_io_block_w_timeout s).2.connected = s.connected
      ∧ (serial_device_set_io_block_w_timeout s).2.tx = s.tx := by
  unfold serial_device_set_io_block_w_timeout
  split <;> exact ⟨rfl, rfl⟩

theorem read_line_finish_h (h : hokuyo_t) (line : List Nat) (n : Int) (cs : Bool)
    (r : ReadLineResult) (hr : read_line_finish h line n cs = .ok r) : r.h = h := by
  unfold read_line_finish at hr
  split at hr
  · cases hr; rfl
  · split at hr
    · split at hr
      · split at hr <;> (cases hr; rfl)
      · cases hr; rfl
    · cases hr
    · cases hr

/-- `_read_line` only reads: it changes nothing in the handle but the io mode settings of
the transport and the bytes still to come. -/
theorem read_line_quiet (h : hokuyo_t) (line : List Nat) (m t : Int) (cs : Bool)
    (r : ReadLineResult) (hr : _read_line h line m t cs = .ok r) : quiet h r.h := by
  unfold _read_line at hr
  split at hr
  · cases hr; exact quiet_refl h
  · dsimp only at hr
    split at hr
    · rename_i rr hrr
      have hsd := serial_device_read_chars_sd _ _ _ _ _ hrr
      have hset := set_term_sequence_sd h.sd [0x0a] 1 true
      have hq : quiet h { h with sd := rr.sd } :=
        quiet_of_sd h rr.sd (hsd.1.trans hset.1) (hsd.2.trans hset.2)
      split at hr
      · cases hr; exact hq
      · split at hr
        · split at hr
          · cases hr
          · split at hr
            · cases hr; exact hq
            · split at hr
              · cases hr; exact hq
              · rw [read_line_finish_h _ _ _ _ _ hr]; exact hq
        · rw [read_line_finish_h _ _ _ _ _ hr]; exact hq
    · cases hr
    · cases hr
theorem read_packet_quiet (h : hokuyo_t) (data : List Nat) (t : Int) (p : ReadPacketResult)
    (hp : _read_packet h data t = .ok p) : quiet h p.h := by
  unfold _read_packet at hp
  split at hp
  · cases hp; exact quiet_refl h
  · split at hp
    · dsimp only at hp
      split at hp
      · rename_i rr hrr
        have hsd := serial_device_read_chars_sd _ _ _ _ _ hrr
        have hset := set_io_block_sd h.sd
        have hq : quiet h { h with sd := rr.sd } :=
          quiet_of_sd h rr.sd (hsd.1.trans hset.1) (hsd.2.trans hset.2)
        split at hp <;> (cases hp; exact hq)
      · cases hp
      · cases hp
    · dsimp only at hp
      split at hp
      · rename_i rr hrr
        have hsd := serial_device_read_chars_sd _ _ _ _ _ hrr
        have hset := set_term_sequence_sd h.sd [0x0a, 0x0a] 2 true
        have hc := hsd.1.trans hset.1
        have ht := hsd.2.trans hset.2
        split at hp
        · cases hp; exact quiet_of_sd h rr.sd hc ht
        · cases hp; exact ⟨⟨rfl, rfl, rfl, hc⟩, rfl, ht⟩
      · cases hp
      · cases hp

theorem flush_sd (s : serial_device_t) :
    (serial_device_flush_input_buffer s).2.connected = s.connected
      ∧ (serial_device_flush_input_buffer s).2.tx = s.tx := by
  unfold serial_device_flush_input_buffer
  split
  · exact ⟨rfl, rfl⟩
  · split <;> exact ⟨rfl, rfl⟩

theorem write_chars_connected (s : serial_device_t) (data : List Nat) (n : Int) :
    (serial_device_write_chars s data n).2.connected = s.connected := by
  unfold serial_device_write_chars
  split
  · rfl
  · split
    · rfl
    · split
      · rfl
      · split <;> rfl

theorem send_command2_kept (h : hokuyo_t) (cmd : List Char) :
    kept h (_send_command2 h cmd).2 ∧ (_send_command2 h cmd).2.streaming = h.streaming := by
  unfold _send_command2
  exact ⟨⟨rfl, rfl, rfl, write_chars_connected _ _ _⟩, rfl⟩

/-- `_laser_on_off` keeps the settings; the streaming flag is left alone when the laser is
turned on and is either left alone (handle not connected) or cleared when it is turned
off. -/
theorem laser_on_off_kept (h : hokuyo_t) (turn_on : Bool) (stack : List Nat)
    (r : Int × hokuyo_t) (hr : _laser_on_off h turn_on stack = .ok r) :
    kept h r.2 ∧ (r.2.streaming = h.streaming ∨ r.2.streaming = false)
      ∧ (turn_on = true → r.2.streaming = h.streaming) := by
  unfold _laser_on_off at hr
  split at hr
  · cases hr; exact ⟨kept_refl h, Or.inl rfl, fun _ => rfl⟩
  · dsimp only at hr
    have hf := flush_sd h.sd
    have k0 : kept h { h with sd := (serial_device_flush_input_buffer h.sd).2 } :=
      ⟨rfl, rfl, rfl, hf.1⟩
    have hs := send_command2_kept { h with sd := (serial_device_flush_input_buffer h.sd).2 }
      (if turn_on = true then "BM".toList else "QT".toList)
    have k1 := kept_trans k0 hs.1
    split at hr
    · rename_i r1 h1
      have q1 := read_line_quiet _ _ _ _ _ _ h1
      split at hr
      · rename_i r2 h2
        have q2 := read_line_quiet _ _ _ _ _ _ h2
        split at hr
        · rename_i r3 h3
          have q3 := read_line_quiet _ _ _ _ _ _ h3
          have kall : kept h r3.h := kept_trans k1 (kept_trans q1.1 (kept_trans q2.1 q3.1))
          have sall : r3.h.streaming = h.streaming :=
            q3.2.1.trans (q2.2.1.trans (q1.2.1.trans hs.2))
          split at hr
          · cases hr
            exact ⟨⟨kall.1, kall.2.1, kall.2.2.1, kall.2.2.2⟩, Or.inr rfl,
              fun ht => by simp [ht] at *⟩
          · cases hr
            exact ⟨kall, Or.inl sall, fun _ => sall⟩
        · cases hr
        · cases hr
      · cases hr
      · cases hr
    · cases hr
    · cases hr

theorem laser_on_kept (h : hokuyo_t) (stack : List Nat) (r : Int × hokuyo_t)
    (hr : _laser_on h stack = .ok r) :
    kept h r.2 ∧ (r.2.streaming = h.streaming ∨ r.2.streaming = false) := by
  unfold _laser_on at hr
  split at hr
  · rename_i r1 h1
    obtain ⟨k1, s1, -⟩ := laser_on_off_kept _ _ _ _ h1
    split at hr
    · rename_i r2 h2
      obtain ⟨k2, -, s2⟩ := laser_on_off_kept _ _ _ _ h2
      have s2' := s2 rfl
      split at hr <;>
        (cases hr
         exact ⟨kept_trans k1 k2, by rcases s1 with e | e
                                     · exact Or.inl (s2'.trans e)
                                     · exact Or.inr (s2'.trans e)⟩)
    · cases hr
    · cases hr
  · cases hr
  · cases hr

theorem laser_off_loop_kept (stack : List Nat) :
    ∀ (n : Nat) (h : hokuyo_t) (r : Int × hokuyo_t), laser_off_loop stack n h = .ok r →
      kept h r.2 ∧ (r.2.streaming = h.streaming ∨ r.2.streaming = false) := by
  intro n
  induction n with
  | zero =>
    intro h r hr
    rw [laser_off_loop] at hr
    cases hr
    exact ⟨kept_refl h, Or.inl rfl⟩
  | succ n ih =>
    intro h r hr
    rw [laser_off_loop] at hr
    split at hr
    · rename_i r1 h1
      obtain ⟨k1, s1, -⟩ := laser_on_off_kept _ _ _ _ h1
      split at hr
      · cases hr; exact ⟨k1, s1⟩
      · obtain ⟨k2, s2⟩ := ih _ _ hr
        refine ⟨kept_trans k1 k2, ?_⟩
        rcases s2 with e | e
        · rcases s1 with e1 | e1
          · exact Or.inl (e.trans e1)
          · exact Or.inr (e.trans e1)
        · exact Or.inr e
    · cases hr
    · cases hr

theorem laser_off_kept (h : hokuyo_t) (stack : List Nat) (r : Int × hokuyo_t)
    (hr : _laser_off h stack = .ok r) :
    kept h r.2 ∧ (r.2.streaming = h.streaming ∨ r.2.streaming = false) :=
  laser_off_loop_kept stack _ h r hr
theorem streaming_or_trans {a b c : hokuyo_t}
    (h1 : b.streaming = a.streaming ∨ b.streaming = false)
    (h2 : c.streaming = b.streaming ∨ c.streaming = false) :
    c.streaming = a.streaming ∨ c.streaming = false := by
  rcases h2 with e | e
  · rcases h1 with e1 | e1
    · exact Or.inl (e.trans e1)
    · exact Or.inr (e.trans e1)
  · exact Or.inr e

theorem confirm_scan_kept (h : hokuyo_t) (req : List Char) (t : Int) (stack : List Nat)
    (r : Int × hokuyo_t) (hr : _confirm_scan h req t stack = .ok r) :
    kept h r.2 ∧ (r.2.streaming = h.streaming ∨ r.2.streaming = false) := by
  unfold _confirm_scan at hr
  dsimp only at hr
  split at hr
  · rename_i r1 h1
    have q1 := read_line_quiet _ _ _ _ _ _ h1
    split at hr
    · split at hr
      · cases hr; exact ⟨q1.1, Or.inl q1.2.1⟩
      · split at hr
        · rename_i r2 h2
          have q2 := quiet_trans q1 (read_line_quiet _ _ _ _ _ _ h2)
          split at hr
          · cases hr; exact ⟨q2.1, Or.inl q2.2.1⟩
          · split at hr
            · split at hr
              · split at hr
                · split at hr
                  · rename_i r3 h3
                    obtain ⟨k3, s3⟩ := laser_on_kept _ _ _ h3
                    cases hr
                    exact ⟨kept_trans q2.1 k3, streaming_or_trans (Or.inl q2.2.1) s3⟩
                  · cases hr
                  · cases hr
                · cases hr; exact ⟨q2.1, Or.inl q2.2.1⟩
              · cases hr; exact ⟨q2.1, Or.inl q2.2.1⟩
            · cases hr
        · cases hr
        · cases hr
    · cases hr
    · cases hr
  · cases hr
  · cases hr

/-- The preparation step of `_get_scan` keeps the settings; it leaves the whole transport
and the streaming flag alone unless the handle is streaming and the settings have
changed. -/
theorem get_scan_prepare_kept (h : hokuyo_t) (ss se sk en st : Int) (stack : List Nat)
    (h1 : hokuyo_t) (hp : get_scan_prepare h ss se sk en st stack = .ok h1) :
    kept h h1 ∧ (h1.streaming = h.streaming ∨ h1.streaming = false)
      ∧ (h.streaming = false ∨ settings_changed h ss se sk en st = false →
          h1.sd = h.sd ∧ h1.streaming = h.streaming) := by
  unfold get_scan_prepare at hp
  split at hp
  · rename_i hch
    dsimp only at hp
    split at hp
    · rename_i hst
      split at hp
      · rename_i r hr
        obtain ⟨k, s⟩ := laser_off_kept _ _ _ hr
        cases hp
        refine ⟨⟨k.1, k.2.1, k.2.2.1, k.2.2.2⟩, s, ?_⟩
        rintro (hf | hf)
        · rw [hf] at hst; exact absurd hst (by decide)
        · rw [hf] at hch; exact absurd hch (by decide)
      · cases hp
      · cases hp
    · cases hp
      exact ⟨⟨rfl, rfl, rfl, rfl⟩, Or.inl rfl, fun _ => ⟨rfl, rfl⟩⟩
  · cases hp
    exact ⟨kept_refl h, Or.inl rfl, fun _ => ⟨rfl, rfl⟩⟩

theorem get_scan_request_kept (h : hokuyo_t) (req : List Char) (st ns t : Int)
    (line stack : List Nat) (r : Int × hokuyo_t × List Nat)
    (hr : get_scan_request h req st ns t line stack = .ok r) :
    kept h r.2.1 ∧ (ns ≠ 0 → r.2.1.streaming = h.streaming ∨ r.2.1.streaming = false) := by
  unfold get_scan_request at hr
  dsimp only at hr
  have hf := flush_sd h.sd
  have k0 : kept h { h with sd := (serial_device_flush_input_buffer h.sd).2 } :=
    ⟨rfl, rfl, rfl, hf.1⟩
  have hs := send_command2_kept { h with sd := (serial_device_flush_input_buffer h.sd).2 } req
  have k1 := kept_trans k0 hs.1
  split at hr
  · cases hr; exact ⟨k1, fun _ => Or.inl hs.2⟩
  · split at hr
    · rename_i c hc
      obtain ⟨kc, sc⟩ := confirm_scan_kept _ _ _ _ _ hc
      have k2 := kept_trans k1 kc
      have s2 : c.2.streaming = h.streaming ∨ c.2.streaming = false :=
        streaming_or_trans (Or.inl hs.2) sc
      split at hr
      · cases hr; exact ⟨k2, fun _ => s2⟩
      · split at hr
        · rename_i hor
          split at hr
          · rename_i rl hl
            have ql := read_line_quiet _ _ _ _ _ _ hl
            have k3 : kept h rl.h := by
              refine kept_trans k2 (kept_trans ?_ ql.1)
              split <;> exact ⟨rfl, rfl, rfl, rfl⟩
            have s3 : ns ≠ 0 → rl.h.streaming = h.streaming ∨ rl.h.streaming = false := by
              intro hns
              rw [ql.2.1, if_neg hns]
              exact s2
            split at hr
            · cases hr; exact ⟨k3, s3⟩
            · split at hr <;> (cases hr; exact ⟨k3, s3⟩)
          · cases hr
          · cases hr
        · rename_i hor
          cases hr
          refine ⟨?_, ?_⟩
          · refine kept_trans k2 ?_
            split <;> exact ⟨rfl, rfl, rfl, rfl⟩
          · intro hns
            dsimp only
            rw [if_neg hns]
            exact s2
    · cases hr
    · cases hr

theorem get_scan_read_off_quiet (h : hokuyo_t) (req : List Char) (t : Int) (line : List Nat)
    (r : Int × hokuyo_t × List Nat) (hr : get_scan_read_off h req t line = .ok r) :
    quiet h r.2.1 := by
  unfold get_scan_read_off at hr
  split at hr
  · rename_i r1 h1
    have q1 := read_line_quiet _ _ _ _ _ _ h1
    split at hr
    · cases hr; exact q1
    · split at hr
      · split at hr
        · cases hr; exact q1
        · split at hr
          · rename_i r2 h2
            have q2 := quiet_trans q1 (read_line_quiet _ _ _ _ _ _ h2)
            split at hr
            · cases hr; exact q2
            · split at hr
              · split at hr <;> (cases hr; exact q2)
              · cases hr
              · cases hr
          · cases hr
          · cases hr
      · cases hr
      · cases hr
  · cases hr
  · cases hr

/-- The last step of `_get_scan`: on an error it has only read from the transport; on
success it has stored the requested window, and a streaming request has set the streaming
flag. -/
theorem get_scan_data_frame (h : hokuyo_t) (range : List Nat) (n : Int)
    (ss se sk en st ns t : Int) (line fp ep : List Nat) (r : GetScanResult)
    (hr : get_scan_data h range n ss se sk en st ns t line fp ep = .ok r) :
    (r.ret = 0 ∨ r.ret = error_return)
      ∧ r.h.sd.tx = h.sd.tx ∧ r.h.sd.connected = h.sd.connected ∧ r.h.type = h.type
      ∧ (r.ret ≠ 0 → stored_window r.h = stored_window h ∧ r.h.streaming = h.streaming)
      ∧ (r.ret = 0 → stored_window r.h = (ss, se, sk, en, st)
          ∧ (ns = 0 → r.h.streaming = true) ∧ (ns ≠ 0 → r.h.streaming = h.streaming)) := by
  have e0 : error_return ≠ 0 := by decide
  unfold get_scan_data at hr
  split at hr
  · rename_i r1 h1
    have q1 := read_line_quiet _ _ _ _ _ _ h1
    split at hr
    · cases hr
      exact ⟨Or.inr rfl, q1.2.2, q1.1.2.2.2, q1.1.1, fun _ => ⟨q1.1.2.2.1, q1.2.1⟩,
        fun hh => absurd hh e0⟩
    · split at hr
      · rename_i p hp
        have q2 := quiet_trans q1 (read_packet_quiet _ _ _ _ hp)
        split at hr
        · cases hr
          exact ⟨Or.inr rfl, q2.2.2, q2.1.2.2.2, q2.1.1, fun _ => ⟨q2.1.2.2.1, q2.2.1⟩,
            fun hh => absurd hh e0⟩
        · split at hr
          · split at hr
            · cases hr
              exact ⟨Or.inr rfl, q2.2.2, q2.1.2.2.2, q2.1.1, fun _ => ⟨q2.1.2.2.1, q2.2.1⟩,
                fun hh => absurd hh e0⟩
            · split at hr
              · split at hr
                · cases hr
                  exact ⟨Or.inr rfl, q2.2.2, q2.1.2.2.2, q2.1.1,
                    fun _ => ⟨q2.1.2.2.1, q2.2.1⟩, fun hh => absurd hh e0⟩
                · cases hr
                  refine ⟨Or.inl rfl, ?_, ?_, ?_, fun hh => absurd rfl hh, fun _ => ?_⟩
                  · dsimp only; split <;> exact q2.2.2
                  · dsimp only; split <;> exact q2.1.2.2.2
                  · dsimp only; split <;> exact q2.1.1
                  · dsimp only
                    refine ⟨?_, ?_, ?_⟩
                    · split <;> rfl
                    · intro hns; rw [if_pos hns]
                    · intro hns; rw [if_neg hns]; exact q2.2.1
              · cases hr
              · cases hr
          · cases hr
          · cases hr
      · cases hr
      · cases hr
  · cases hr
  · cases hr
theorem get_scan_request_stage (need : Bool) (h : hokuyo_t) (req : List Char) (st ns t : Int)
    (line stack : List Nat) (r : Int × hokuyo_t × List Nat)
    (hr : (if need = true then get_scan_request h req st ns t line stack
           else .ok (0, h, line)) = .ok r) :
    kept h r.2.1 ∧ (ns ≠ 0 → r.2.1.streaming = h.streaming ∨ r.2.1.streaming = false)
      ∧ (need = false → r.2.1 = h) := by
  cases need with
  | true =>
    rw [if_pos rfl] at hr
    obtain ⟨k, s⟩ := get_scan_request_kept _ _ _ _ _ _ _ _ hr
    exact ⟨k, s, fun hh => absurd hh (by decide)⟩
  | false =>
    rw [if_neg (by decide)] at hr
    cases hr
    exact ⟨kept_refl h, fun _ => Or.inl rfl, fun _ => rfl⟩

theorem get_scan_read_off_stage (b : Bool) (h : hokuyo_t) (req : List Char) (t : Int)
    (line : List Nat) (r : Int × hokuyo_t × List Nat)
    (hr : (if b = true then get_scan_read_off h req t line else .ok (0, h, line)) = .ok r) :
    quiet h r.2.1 := by
  cases b with
  | true =>
    rw [if_pos rfl] at hr
    exact get_scan_read_off_quiet _ _ _ _ _ hr
  | false =>
    rw [if_neg (by decide)] at hr
    cases hr
    exact quiet_refl h

/-- What a call of `_get_scan` that returns leaves behind. -/
theorem get_scan_frame (h : hokuyo_t) (range : List Nat) (n : Int) (ss se sk en st ns : Int)
    (stack : List Nat) (r : GetScanResult)
    (hr : _get_scan h range n ss se sk en st ns stack = .ok r) :
    (r.ret = 0 ∨ r.ret = error_return)
      ∧ r.h.type = h.type ∧ r.h.sd.connected = h.sd.connected
      ∧ (r.ret ≠ 0 → stored_window r.h = stored_window h)
      ∧ (r.ret = 0 → stored_window r.h = (ss, se, sk, en, st) ∧ h.sd.connected = true
          ∧ (ns = 0 → r.h.streaming = true) ∧ (ns = 0 ∨ ns = 1))
      ∧ (h.streaming = false → ns ≠ 0 → r.h.streaming = false)
      ∧ (h.streaming = true → settings_changed h ss se sk en st = false → ns = 0 →
          r.h.sd.tx = h.sd.tx ∧ r.h.streaming = true)
      ∧ (h.sd.connected = false → r.h = h ∧ r.ret = error_return) := by
  have e0 : error_return ≠ 0 := by decide
  unfold _get_scan at hr
  split at hr
  · -- not connected
    rename_i hnc
    cases hr
    exact ⟨Or.inr rfl, rfl, rfl, fun _ => rfl, fun hh => absurd hh e0, fun hs _ => hs,
      fun hs _ _ => ⟨rfl, hs⟩, fun _ => ⟨rfl, rfl⟩⟩
  · rename_i hconn
    have hconn' : h.sd.connected = true := by simpa using hconn
    have hnc : ¬ h.sd.connected = false := by rw [hconn']; decide
    split at hr
    · rename_i hA hp
      obtain ⟨kA, sA, uA⟩ := get_scan_prepare_kept _ _ _ _ _ _ _ _ hp
      -- facts about the handle after the preparation step
      have fA6 : h.streaming = false → hA.streaming = false := by
        intro hs; rcases sA with e | e
        · exact e.trans hs
        · exact e
      have errA : ∀ rr : GetScanResult, rr = ⟨error_return, hA, range, n⟩ →
          (rr.ret = 0 ∨ rr.ret = error_return)
          ∧ rr.h.type = h.type ∧ rr.h.sd.connected = h.sd.connected
          ∧ (rr.ret ≠ 0 → stored_window rr.h = stored_window h)
          ∧ (rr.ret = 0 → stored_window rr.h = (ss, se, sk, en, st) ∧ h.sd.connected = true
              ∧ (ns = 0 → rr.h.streaming = true) ∧ (ns = 0 ∨ ns = 1))
          ∧ (h.streaming = false → ns ≠ 0 → rr.h.streaming = false)
          ∧ (h.streaming = true → settings_changed h ss se sk en st = false → ns = 0 →
              rr.h.sd.tx = h.sd.tx ∧ rr.h.streaming = true)
          ∧ (h.sd.connected = false → rr.h = h ∧ rr.ret = error_return) := by
        intro rr hrr
        subst hrr
        refine ⟨Or.inr rfl, kA.1, kA.2.2.2, fun _ => kA.2.2.1, fun hh => absurd hh e0,
          fun hs _ => fA6 hs, ?_, fun hh => absurd hh hnc⟩
        intro hs hch _
        obtain ⟨u1, u2⟩ := uA (Or.inr hch)
        exact ⟨by rw [u1], u2.trans hs⟩
      dsimp only at hr
      split at hr
      · exact errA r (by cases hr; rfl)
      · split at hr
        · exact errA r (by cases hr; rfl)
        · rename_i hns
          have hns' : ns = 0 ∨ ns = 1 := by
            by_cases h1 : ns = 1
            · exact Or.inr h1
            · by_cases h0 : ns = 0
              · exact Or.inl h0
              · exact absurd ⟨h1, h0⟩ hns
          split at hr
          · rename_i r1 hB line1 hreq
            obtain ⟨kB, sB, uB⟩ := get_scan_request_stage _ _ _ _ _ _ _ _ _ hreq
            dsimp only at kB sB uB
            have kAB := kept_trans kA kB
            have fB6 : h.streaming = false → ns ≠ 0 → hB.streaming = false := by
              intro hs hn0
              rcases sB hn0 with e | e
              · exact e.trans (fA6 hs)
              · exact e
            have fB7 : h.streaming = true → settings_changed h ss se sk en st = false →
                ns = 0 → hB.sd.tx = h.sd.tx ∧ hB.streaming = true := by
              intro hs hch hn0
              obtain ⟨u1, u2⟩ := uA (Or.inr hch)
              have hneed : (if ns = 1 then true else !hA.streaming) = false := by
                rw [if_neg (by omega), u2, hs]; rfl
              have hBA := uB hneed
              rw [hBA, u1]
              exact ⟨rfl, u2.trans hs⟩
            split at hr
            · cases hr
              exact ⟨Or.inr rfl, kAB.1, kAB.2.2.2, fun _ => kAB.2.2.1,
                fun hh => absurd hh e0, fB6, fB7, fun hh => absurd hh hnc⟩
            · split at hr
              · rename_i r2 hC line2 hoff
                have qC := get_scan_read_off_stage _ _ _ _ _ _ hoff
                dsimp only at qC
                have kAC := kept_trans kAB qC.1
                have fC6 : h.streaming = false → ns ≠ 0 → hC.streaming = false :=
                  fun hs hn0 => qC.2.1.trans (fB6 hs hn0)
                have fC7 : h.streaming = true → settings_changed h ss se sk en st = false →
                    ns = 0 → hC.sd.tx = h.sd.tx ∧ hC.streaming = true := by
                  intro hs hch hn0
                  obtain ⟨t1, t2⟩ := fB7 hs hch hn0
                  exact ⟨qC.2.2.trans t1, qC.2.1.trans t2⟩
                split at hr
                · cases hr
                  exact ⟨Or.inr rfl, kAC.1, kAC.2.2.2, fun _ => kAC.2.2.1,
                    fun hh => absurd hh e0, fC6, fC7, fun hh => absurd hh hnc⟩
                · obtain ⟨d1, d2, d3, d4, d5, d6⟩ :=
                    get_scan_data_frame _ _ _ _ _ _ _ _ _ _ _ _ _ _ hr
                  refine ⟨d1, d4.trans kAC.1, d3.trans kAC.2.2.2,
                    fun hh => (d5 hh).1.trans kAC.2.2.1,
                    fun hh => ⟨(d6 hh).1, hconn', (d6 hh).2.1, hns'⟩, ?_, ?_,
                    fun hh => absurd hh hnc⟩
                  · intro hs hn0
                    by_cases hz : r.ret = 0
                    · exact ((d6 hz).2.2 hn0).trans (fC6 hs hn0)
                    · exact (d5 hz).2.trans (fC6 hs hn0)
                  · intro hs hch hn0
                    obtain ⟨t1, t2⟩ := fC7 hs hch hn0
                    refine ⟨d2.trans t1, ?_⟩
                    by_cases hz : r.ret = 0
                    · exact (d6 hz).2.1 hn0
                    · exact (d5 hz).2.trans t2
              · cases hr
              · cases hr
          · cases hr
          · cases hr
    · cases hr
    · cases hr
/-! ## Theorems: `_get_scan` on three short replies of the device -/

set_option maxRecDepth 100000 in
set_option maxHeartbeats 4000000 in
/-- A streaming request whose confirmation is followed by the line "X" instead of the
empty line: the call returns -1 with the streaming flag set. -/
theorem get_scan_blank_line_error :
    _get_scan (mkHandle TYPE_URG_04LX false (bytes "MD0044072501000\n00P\nX\n"))
        [] 0 44 725 1 THREE_DIGITS SCAN_REGULAR 0 []
      = .ok ⟨-1,
          { mkHandle TYPE_URG_04LX false [] with
            streaming := true
            sd := { connected := true, ioMode := 4, numTermChars := 1, termSequence := [10],
                    retTermSequence := true, rx := [],
                    tx := bytes "MD0044072501000\n", flush_drops := [],
                    write_results := [] } },
          [], 0⟩ := by
  decide

set_option maxRecDepth 100000 in
set_option maxHeartbeats 4000000 in
/-- A 2-digit request on a UTM-30LX handle that is streaming another window: the laser is
shut off (the command "QT" is written, its three reply lines are read) before the request
is rejected. -/
theorem get_scan_laser_off_before_reject :
    _get_scan { mkHandle TYPE_UTM_30LX false (bytes "QT\n00P\n\n") with
          streaming := true, scan_start := 0, scan_end := 1080, scan_skip := 1,
          encoding := THREE_DIGITS, scan_type := SCAN_REGULAR }
        [] 0 0 1080 1 TWO_DIGITS SCAN_REGULAR 0 []
      = .ok ⟨-1,
          { mkHandle TYPE_UTM_30LX false [] with
            scan_start := 0, scan_end := 1080, scan_skip := 1,
            encoding := THREE_DIGITS, scan_type := SCAN_REGULAR
            sd := { connected := true, ioMode := 4, numTermChars := 1, termSequence := [10],
                    retTermSequence := true, rx := [],
                    tx := bytes "QT\n", flush_drops := [], write_results := [] } },
          [], 0⟩ := by
  decide

set_option maxRecDepth 100000 in
set_option maxHeartbeats 4000000 in
/-- A single-scan request answered with the status "01": the call returns -1. -/
theorem get_scan_single_bad_status :
    _get_scan (mkHandle TYPE_URG_04LX false (bytes "GD0044072501\n01Q\n"))
        [] 0 44 725 1 THREE_DIGITS SCAN_REGULAR 1 []
      = .ok ⟨-1,
          { mkHandle TYPE_URG_04LX false [] with
            sd := { connected := true, ioMode := 4, numTermChars := 1, termSequence := [10],
                    retTermSequence := true, rx := [],
                    tx := bytes "GD0044072501\n", flush_drops := [],
                    write_results := [] } },
          [], 0⟩ := by
  decide

/-! ## Theorems: what `_get_scan` does to the handle -/

theorem create_scan_request_utm_two_digits (h : hokuyo_t) (ss se sk st ns : Int)
    (req : List Char) (need : Bool) (htype : h.type = TYPE_UTM_30LX) :
    (_create_scan_request h ss se sk TWO_DIGITS st ns req need).ret ≠ 0 := by
  intro h0
  have hk := (create_scan_request_ok h ss se sk TWO_DIGITS st ns req need _ rfl h0).2.2.2.2.2.2.1
    htype
  exact absurd hk (by decide)

/-- C13 — counterexample: a UTM-30LX handle that is streaming the window 0..1080 with
3-digit encoding is asked for the same window with 2-digit encoding. The call fails, but
not before any I/O: it has written "QT" and a linefeed and has read the three reply lines
off the transport. -/
theorem get_scan_utm_two_digits_after_io :
    GetScanResult.summary
        (_get_scan { mkHandle TYPE_UTM_30LX false (bytes "QT\n00P\n\n") with
            streaming := true, scan_start := 0, scan_end := 1080, scan_skip := 1,
            encoding := THREE_DIGITS, scan_type := SCAN_REGULAR }
          [] 0 0 1080 1 TWO_DIGITS SCAN_REGULAR 0 [])
      = some (-1, false, bytes "QT\n", []) := by
  rw [get_scan_laser_off_before_reject]
  rfl

/-- C13 (amended) — on a UTM-30LX handle a call of `_get_scan` that requests the 2-digit
encoding fails whenever it returns; when the handle is not streaming, or the stored
window is the requested one, it returns -1 with the transport exactly as it was (no byte
written, none read) and the caller's output locations untouched. -/
theorem get_scan_utm_two_digits (h : hokuyo_t) (range : List Nat) (n : Int)
    (ss se sk st ns : Int) (stack : List Nat) (htype : h.type = TYPE_UTM_30LX) :
    (∀ r, _get_scan h range n ss se sk TWO_DIGITS st ns stack = .ok r → r.ret = error_return)
      ∧ (h.streaming = false ∨ settings_changed h ss se sk TWO_DIGITS st = false →
          ∃ h1, _get_scan h range n ss se sk TWO_DIGITS st ns stack
              = .ok ⟨error_return, h1, range, n⟩
            ∧ h1.sd = h.sd ∧ h1.streaming = h.streaming) := by
  constructor
  · intro r hr
    unfold _get_scan at hr
    split at hr
    · cases hr; rfl
    · split at hr
      · rename_i hA hp
        have kA := (get_scan_prepare_kept _ _ _ _ _ _ _ _ hp).1
        have hc := create_scan_request_utm_two_digits hA ss se sk st ns [] false
          (kA.1.trans htype)
        dsimp only at hr
        rw [if_pos hc] at hr
        cases hr; rfl
      · cases hr
      · cases hr
  · intro hq
    by_cases hconn : h.sd.connected = true
    · have hp : ∃ hA, get_scan_prepare h ss se sk TWO_DIGITS st stack = .ok hA
          ∧ hA.sd = h.sd ∧ hA.streaming = h.streaming ∧ hA.type = h.type := by
        unfold get_scan_prepare
        by_cases hch : settings_changed h ss se sk TWO_DIGITS st = true
        · have hs : h.streaming = false := by
            rcases hq with e | e
            · exact e
            · rw [hch] at e; cases e
          rw [if_pos hch]
          dsimp only
          rw [hs]
          exact ⟨_, rfl, rfl, rfl, rfl⟩
        · rw [if_neg hch]
          exact ⟨_, rfl, rfl, rfl, rfl⟩
      obtain ⟨hA, hpA, e1, e2, e3⟩ := hp
      have hc := create_scan_request_utm_two_digits hA ss se sk st ns [] false
        (e3.trans htype)
      refine ⟨hA, ?_, e1, e2⟩
      unfold _get_scan
      rw [hconn, hpA]
      dsimp only
      rw [if_pos hc]
      rfl
    · have hconn' : h.sd.connected = false := by
        cases hb : h.sd.connected
        · rfl
        · exact absurd hb hconn
      refine ⟨h, ?_, rfl, rfl⟩
      unfold _get_scan
      rw [hconn']
      rfl

/-- C13 (amended), at a concrete input: a UTM-30LX handle that is not streaming, with the
reply to some earlier command still pending on the transport. -/
theorem get_scan_utm_two_digits_witness :
    (mkHandle TYPE_UTM_30LX false (bytes "00P\n")).type = TYPE_UTM_30LX
      ∧ ∃ h1, _get_scan (mkHandle TYPE_UTM_30LX false (bytes "00P\n")) [7, 7] 2 0 1080 1
            TWO_DIGITS SCAN_REGULAR 0 []
          = .ok ⟨error_return, h1, [7, 7], 2⟩
        ∧ h1.sd = (mkHandle TYPE_UTM_30LX false (bytes "00P\n")).sd
        ∧ h1.streaming = (mkHandle TYPE_UTM_30LX false (bytes "00P\n")).streaming :=
  ⟨rfl, (get_scan_utm_two_digits (mkHandle TYPE_UTM_30LX false (bytes "00P\n")) [7, 7] 2
      0 1080 1 SCAN_REGULAR 0 [] rfl).2 (Or.inl rfl)⟩

/-- C16 — when a call of `_get_scan` returns an error, at whatever step, the stored scan
window of the handle (`scan_start`, `scan_end`, `scan_skip`, `encoding`, `scan_type`) is
what it was before the call; when it returns success the stored window is the requested
one. So the stored window differs after the call only when the call succeeded. -/
theorem get_scan_stored_window (h : hokuyo_t) (range : List Nat) (n : Int)
    (ss se sk en st ns : Int) (stack : List Nat) (r : GetScanResult)
    (hr : _get_scan h range n ss se sk en st ns stack = .ok r) :
    (r.ret ≠ 0 → stored_window r.h = stored_window h)
      ∧ (r.ret = 0 → stored_window r.h = (ss, se, sk, en, st))
      ∧ (stored_window r.h ≠ stored_window h → r.ret = 0) := by
  obtain ⟨_, _, _, p4, p5, _⟩ := get_scan_frame h range n ss se sk en st ns stack r hr
  refine ⟨p4, fun h0 => (p5 h0).1, fun hne => ?_⟩
  by_contra h0
  exact hne (p4 h0)

/-- C16, at a concrete input: a fresh handle (stored window -1, ..., -1), a streaming
request for the window 44..725 that the device confirms and then follows with the line
"X" instead of the empty line. The call returns -1 and the stored window is still
-1, ..., -1. -/
theorem get_scan_stored_window_witness :
    ∃ r, _get_scan (mkHandle TYPE_URG_04LX false (bytes "MD0044072501000\n00P\nX\n"))
          [] 0 44 725 1 THREE_DIGITS SCAN_REGULAR 0 [] = .ok r
      ∧ r.ret = -1 ∧ stored_window r.h = (-1, -1, -1, -1, -1) :=
  ⟨_, get_scan_blank_line_error, rfl,
    (get_scan_stored_window _ _ _ _ _ _ _ _ _ _ _ get_scan_blank_line_error).1 (by decide)⟩

/-- C17 — counterexample: on a fresh handle (not streaming) a streaming request is
written, the device confirms it with "00P", and the line after the confirmation is "X"
instead of the empty line. The call returns -1 and leaves the streaming flag set. -/
theorem get_scan_error_sets_streaming :
    (mkHandle TYPE_URG_04LX false (bytes "MD0044072501000\n00P\nX\n")).streaming = false
      ∧ GetScanResult.summary
          (_get_scan (mkHandle TYPE_URG_04LX false (bytes "MD0044072501000\n00P\nX\n"))
            [] 0 44 725 1 THREE_DIGITS SCAN_REGULAR 0 [])
        = some (-1, true, bytes "MD0044072501000\n", []) := by
  rw [get_scan_blank_line_error]
  exact ⟨rfl, rfl⟩

/-- C17 (amended) — a call of `_get_scan` leaves the streaming flag as it was, whatever it
returns and in particular on every error, in these three cases: the handle is not
connected; the handle is not streaming and the request is not a streaming request
(`num_scans ≠ 0`); the handle is streaming and the request continues that stream (the
stored window is the requested one and `num_scans = 0`). -/
theorem get_scan_streaming_flag (h : hokuyo_t) (range : List Nat) (n : Int)
    (ss se sk en st ns : Int) (stack : List Nat) (r : GetScanResult)
    (hr : _get_scan h range n ss se sk en st ns stack = .ok r)
    (hcase : h.sd.connected = false
      ∨ (h.streaming = false ∧ ns ≠ 0)
      ∨ (h.streaming = true ∧ settings_changed h ss se sk en st = false ∧ ns = 0)) :
    r.h.streaming = h.streaming := by
  obtain ⟨_, _, _, _, _, p6, p7, p8⟩ := get_scan_frame h range n ss se sk en st ns stack r hr
  rcases hcase with hc | ⟨hs, hn⟩ | ⟨hs, hch, hn⟩
  · rw [(p8 hc).1]
  · rw [p6 hs hn, hs]
  · rw [(p7 hs hch hn).2, hs]

/-- C17 (amended), at a concrete input: a single-scan request on a fresh handle that the
device answers with the status "01". The call returns -1 and the flag is still clear. -/
theorem get_scan_streaming_flag_witness :
    ∃ r, _get_scan (mkHandle TYPE_URG_04LX false (bytes "GD0044072501\n01Q\n"))
          [] 0 44 725 1 THREE_DIGITS SCAN_REGULAR 1 [] = .ok r
      ∧ r.ret = -1
      ∧ r.h.streaming = (mkHandle TYPE_URG_04LX false (bytes "GD0044072501\n01Q\n")).streaming :=
  ⟨_, get_scan_single_bad_status, rfl,
    get_scan_streaming_flag _ _ _ _ _ _ _ _ _ _ _ get_scan_single_bad_status
      (Or.inr (Or.inl ⟨rfl, by decide⟩))⟩

/-! ## Theorems: the timeout test in `double` arithmetic -/

theorem round_half_even_error (x : ℚ) : |(round_half_even x : ℚ) - x| ≤ 1 / 2 := by
  have h1 := Int.floor_le x
  have h2 := Int.lt_floor_add_one x
  unfold round_half_even
  split_ifs with a b c
  · rw [abs_le]; constructor <;> linarith
  · push_cast; rw [abs_le]; constructor <;> linarith
  · rw [abs_le]; constructor <;> linarith
  · push_cast; rw [abs_le]; constructor <;> linarith

theorem round_half_even_eq (x : ℚ) (m : Int) (h1 : (m : ℚ) - 1 / 2 < x)
    (h2 : x < (m : ℚ) + 1 / 2) : round_half_even x = m := by
  have f1 := Int.floor_le x
  have f2 := Int.lt_floor_add_one x
  unfold round_half_even
  split_ifs with a b c
  · have e1 : ((⌊x⌋ : Int) : ℚ) < m + 1 := by linarith
    have e2 : (m : ℚ) < ⌊x⌋ + 1 := by linarith
    have e1' : ⌊x⌋ < m + 1 := by exact_mod_cast e1
    have e2' : m < ⌊x⌋ + 1 := by exact_mod_cast e2
    omega
  · have e1 : ((⌊x⌋ : Int) : ℚ) < m := by linarith
    have e2 : (m : ℚ) < ⌊x⌋ + 2 := by linarith
    have e1' : ⌊x⌋ < m := by exact_mod_cast e1
    have e2' : m < ⌊x⌋ + 2 := by exact_mod_cast e2
    omega
  · exfalso
    have e0 : x - ⌊x⌋ = 1 / 2 := le_antisymm (not_lt.mp b) (not_lt.mp a)
    have e1 : ((⌊x⌋ : Int) : ℚ) < m := by linarith
    have e2 : (m : ℚ) < ⌊x⌋ + 1 := by linarith
    have e1' : ⌊x⌋ < m := by exact_mod_cast e1
    have e2' : m < ⌊x⌋ + 1 := by exact_mod_cast e2
    omega
  · exfalso
    have e0 : x - ⌊x⌋ = 1 / 2 := le_antisymm (not_lt.mp b) (not_lt.mp a)
    have e1 : ((⌊x⌋ : Int) : ℚ) < m := by linarith
    have e2 : (m : ℚ) < ⌊x⌋ + 1 := by linarith
    have e1' : ⌊x⌋ < m := by exact_mod_cast e1
    have e2' : m < ⌊x⌋ + 1 := by exact_mod_cast e2
    omega

theorem round_double_error (q : ℚ) : |round_double q - q| ≤ |q| / 2 ^ 53 := by
  by_cases hq : q = 0
  · subst hq
    have : round_half_even 0 = 0 := round_half_even_eq 0 0 (by norm_num) (by norm_num)
    simp [round_double, this]
  · have ha : 0 < |q| := abs_pos.mpr hq
    have hle : ((2 : ℕ) : ℚ) ^ Int.log 2 |q| ≤ |q| := Int.zpow_log_le_self (by norm_num) ha
    obtain ⟨e, he⟩ : ∃ e, e = Int.log 2 |q| := ⟨_, rfl⟩
    rw [← he] at hle
    have hs : (0 : ℚ) < 2 ^ (e - 52) := zpow_pos (by norm_num) _
    have hm := round_half_even_error (q / 2 ^ (e - 52))
    have key : round_double q - q
        = ((round_half_even (q / 2 ^ (e - 52)) : ℚ) - q / 2 ^ (e - 52)) * 2 ^ (e - 52) := by
      unfold round_double
      rw [← he, sub_mul, div_mul_cancel₀ _ hs.ne']
    have hp : (2 : ℚ) ^ (e - 52) = 2 ^ e / 2 ^ 52 := by
      rw [zpow_sub₀ (by norm_num)]; norm_num
    rw [key, abs_mul, abs_of_pos hs]
    calc |(round_half_even (q / 2 ^ (e - 52)) : ℚ) - q / 2 ^ (e - 52)| * 2 ^ (e - 52)
        ≤ 1 / 2 * 2 ^ (e - 52) := mul_le_mul_of_nonneg_right hm hs.le
      _ = 2 ^ e / 2 ^ 53 := by rw [hp]; ring
      _ ≤ |q| / 2 ^ 53 := by
          apply div_le_div_of_nonneg_right _ (by positivity)
          simpa using hle

theorem round_double_eq (q : ℚ) (e m : Int) (h1 : (2 : ℚ) ^ e ≤ |q|)
    (h2 : |q| < (2 : ℚ) ^ (e + 1)) (h3 : (m : ℚ) - 1 / 2 < q / 2 ^ (e - 52))
    (h4 : q / 2 ^ (e - 52) < (m : ℚ) + 1 / 2) : round_double q = m * 2 ^ (e - 52) := by
  have ha : 0 < |q| := lt_of_lt_of_le (zpow_pos (by norm_num) _) h1
  have hlog : Int.log 2 |q| = e := by
    have a1 : e ≤ Int.log 2 |q| := by
      have := (Int.zpow_le_iff_le_log (b := 2) (by norm_num) ha).1 (by simpa using h1)
      exact this
    have a2 : Int.log 2 |q| < e + 1 := by
      have := (Int.lt_zpow_iff_log_lt (b := 2) (by norm_num) ha).1 (by simpa using h2)
      exact this
    omega
  unfold round_double
  rw [hlog, round_half_even_eq _ m h3 h4]


theorem round_double_eq_pos (q : ℚ) (e m : Int) (hq : 0 < q) (h1 : (2 : ℚ) ^ e ≤ q)
    (h2 : q < (2 : ℚ) ^ (e + 1)) (h3 : (m : ℚ) - 1 / 2 < q / 2 ^ (e - 52))
    (h4 : q / 2 ^ (e - 52) < (m : ℚ) + 1 / 2) : round_double q = m * 2 ^ (e - 52) :=
  round_double_eq q e m (by rw [abs_of_pos hq]; exact h1) (by rw [abs_of_pos hq]; exact h2)
    h3 h4

theorem round_double_near (q B : ℚ) (hB : |q| ≤ B) : |round_double q - q| ≤ B / 2 ^ 53 :=
  le_trans (round_double_error q) (div_le_div_of_nonneg_right hB (by positivity))

theorem get_current_time_sec_error (t : timeval) (h0 : 0 ≤ t.tv_sec)
    (h1 : t.tv_sec < 2147483648) (h2 : 0 ≤ t.tv_usec) (h3 : t.tv_usec < 1000000) :
    |_get_current_time_sec t - exact_sec t| ≤ 477 / 1000000000 := by
  have s0 : (0 : ℚ) ≤ t.tv_sec := by exact_mod_cast h0
  have s1 : (t.tv_sec : ℚ) ≤ 2147483648 := by exact_mod_cast h1.le
  have u0 : (0 : ℚ) ≤ t.tv_usec := by exact_mod_cast h2
  have u1 : (t.tv_usec : ℚ) ≤ 1000000 := by exact_mod_cast h3.le
  obtain ⟨S, hS⟩ : ∃ x, x = round_double (t.tv_sec : ℚ) := ⟨_, rfl⟩
  obtain ⟨U, hU⟩ : ∃ x, x = round_double (t.tv_usec : ℚ) := ⟨_, rfl⟩
  obtain ⟨c, hc⟩ : ∃ x, x = round_double (1 / 1000000) := ⟨_, rfl⟩
  obtain ⟨P, hP⟩ : ∃ x, x = round_double (U * c) := ⟨_, rfl⟩
  have eS := round_double_near (t.tv_sec : ℚ) 2147483648 (by rw [abs_of_nonneg s0]; exact s1)
  have eU := round_double_near (t.tv_usec : ℚ) 1000000 (by rw [abs_of_nonneg u0]; exact u1)
  have ec := round_double_near (1 / 1000000) (1 / 1000000) (by norm_num [abs_of_pos])
  rw [← hS] at eS
  rw [← hU] at eU
  rw [← hc] at ec
  have aU : |U| ≤ 1000001 := by
    rw [abs_le] at eU ⊢
    constructor <;> norm_num at eU ⊢ <;> linarith [eU.1, eU.2]
  have prod : |U * (c - 1 / 1000000)| ≤ 1000001 * (1 / 1000000 / 2 ^ 53) := by
    rw [abs_mul]
    exact mul_le_mul aU ec (abs_nonneg _) (by norm_num)
  have eUc : |U * c - (t.tv_usec : ℚ) / 1000000| ≤ 3 / 2 ^ 53 := by
    have e : U * c - (t.tv_usec : ℚ) / 1000000
        = U * (c - 1 / 1000000) + (U - t.tv_usec) / 1000000 := by ring
    rw [e]
    rw [abs_le] at prod eU ⊢
    norm_num at prod eU ⊢
    constructor <;> linarith [prod.1, prod.2, eU.1, eU.2]
  have aUc : |U * c| ≤ 2 := by
    rw [abs_le] at eUc ⊢
    norm_num at eUc ⊢
    constructor <;> linarith [eUc.1, eUc.2]
  have eP := round_double_near (U * c) 2 aUc
  rw [← hP] at eP
  have aSP : |S + P| ≤ 2147483650 := by
    rw [abs_le] at eS eP eUc ⊢
    norm_num at eS eP eUc ⊢
    constructor <;> linarith [eS.1, eS.2, eP.1, eP.2, eUc.1, eUc.2]
  have eT := round_double_near (S + P) 2147483650 aSP
  unfold _get_current_time_sec exact_sec
  rw [← hS, ← hU, ← hc, ← hP]
  rw [abs_le] at eS eP eUc eT ⊢
  norm_num at eS eP eUc eT ⊢
  constructor <;> linarith [eS.1, eS.2, eP.1, eP.2, eUc.1, eUc.2, eT.1, eT.2]

theorem exact_sec_sub (t0 now : timeval) :
    exact_sec now - exact_sec t0 = (elapsed_usec t0 now : ℚ) / 1000000 := by
  unfold exact_sec elapsed_usec
  push_cast
  ring

theorem round_double_1000 : |round_double 1000 - 1000| ≤ 1000 / 2 ^ 53 :=
  round_double_near 1000 1000 (by norm_num [abs_of_pos])

theorem round_double_400 :
    |round_double (READER_GET_SCAN_TIMEOUT_MSEC : ℚ) - 400| ≤ 400 / 2 ^ 53 := by
  have := round_double_near 400 400 (by norm_num [abs_of_pos])
  simpa [READER_GET_SCAN_TIMEOUT_MSEC] using this

/-- A clock reading at least 400001 microseconds after the start passes the timeout test. -/
theorem get_scan_timed_out_of_late (t0 now : timeval) (a0 : 0 ≤ t0.tv_sec)
    (a1 : t0.tv_sec < 2147483648) (a2 : 0 ≤ t0.tv_usec) (a3 : t0.tv_usec < 1000000)
    (b0 : 0 ≤ now.tv_sec) (b1 : now.tv_sec < 2147483648) (b2 : 0 ≤ now.tv_usec)
    (b3 : now.tv_usec < 1000000) (hlate : 400001 ≤ elapsed_usec t0 now) :
    get_scan_timed_out (_get_current_time_sec t0) now = true := by
  have eA := get_current_time_sec_error now b0 b1 b2 b3
  have eB := get_current_time_sec_error t0 a0 a1 a2 a3
  have hsub := exact_sec_sub t0 now
  have hl : (400001 : ℚ) ≤ (elapsed_usec t0 now : ℚ) := by exact_mod_cast hlate
  obtain ⟨D, hD⟩ : ∃ x, x = _get_current_time_sec now - _get_current_time_sec t0 := ⟨_, rfl⟩
  have hDlo : (400000046 : ℚ) / 1000000000 ≤ D := by
    rw [abs_le] at eA eB
    rw [hD]
    have : (400001 : ℚ) / 1000000 ≤ exact_sec now - exact_sec t0 := by
      rw [hsub]; exact div_le_div_of_nonneg_right hl (by norm_num)
    linarith [eA.1, eA.2, eB.1, eB.2]
  have hDpos : 0 < D := lt_of_lt_of_le (by norm_num) hDlo
  obtain ⟨d, hd⟩ : ∃ x, x = round_double D := ⟨_, rfl⟩
  have ed := round_double_error D
  rw [← hd, abs_of_pos hDpos] at ed
  have hdlo : (400000045 : ℚ) / 1000000000 ≤ d := by
    rw [abs_le] at ed
    have := ed.1
    norm_num at this ⊢
    linarith
  obtain ⟨K, hK⟩ : ∃ x, x = round_double 1000 := ⟨_, rfl⟩
  have eK := round_double_1000
  rw [← hK] at eK
  have hKlo : (9999999999 : ℚ) / 10000000 ≤ K := by
    rw [abs_le] at eK
    have := eK.1
    norm_num at this ⊢
    linarith
  have hX : (400000045 : ℚ) / 1000000000 * (9999999999 / 10000000) ≤ d * K :=
    mul_le_mul hdlo hKlo (by norm_num) (le_trans (by norm_num) hdlo)
  have hXpos : 0 < d * K := lt_of_lt_of_le (by norm_num) hX
  obtain ⟨m, hm⟩ : ∃ x, x = round_double (d * K) := ⟨_, rfl⟩
  have em := round_double_error (d * K)
  rw [← hm, abs_of_pos hXpos] at em
  have eF := round_double_400
  unfold get_scan_timed_out
  rw [decide_eq_true_iff, ← hD, ← hd, ← hK, ← hm]
  rw [abs_le] at em eF
  have m1 := em.1
  have f1 := eF.2
  norm_num at m1 f1 hX ⊢
  linarith

/-- A clock reading that passes the timeout test is at least 399999 microseconds after the
start. -/
theorem elapsed_of_get_scan_timed_out (t0 now : timeval) (a0 : 0 ≤ t0.tv_sec)
    (a1 : t0.tv_sec < 2147483648) (a2 : 0 ≤ t0.tv_usec) (a3 : t0.tv_usec < 1000000)
    (b0 : 0 ≤ now.tv_sec) (b1 : now.tv_sec < 2147483648) (b2 : 0 ≤ now.tv_usec)
    (b3 : now.tv_usec < 1000000)
    (hto : get_scan_timed_out (_get_current_time_sec t0) now = true) :
    399999 ≤ elapsed_usec t0 now := by
  by_contra hcon
  have hearly : elapsed_usec t0 now ≤ 399998 := by omega
  have eA := get_current_time_sec_error now b0 b1 b2 b3
  have eB := get_current_time_sec_error t0 a0 a1 a2 a3
  have hsub := exact_sec_sub t0 now
  have hl : (elapsed_usec t0 now : ℚ) ≤ 399998 := by exact_mod_cast hearly
  obtain ⟨D, hD⟩ : ∃ x, x = _get_current_time_sec now - _get_current_time_sec t0 := ⟨_, rfl⟩
  have hDhi : D ≤ (399998954 : ℚ) / 1000000000 := by
    rw [abs_le] at eA eB
    rw [hD]
    have : exact_sec now - exact_sec t0 ≤ (399998 : ℚ) / 1000000 := by
      rw [hsub]; exact div_le_div_of_nonneg_right hl (by norm_num)
    linarith [eA.1, eA.2, eB.1, eB.2]
  obtain ⟨d, hd⟩ : ∃ x, x = round_double D := ⟨_, rfl⟩
  have ed := round_double_error D
  rw [← hd] at ed
  obtain ⟨K, hK⟩ : ∃ x, x = round_double 1000 := ⟨_, rfl⟩
  have eK := round_double_1000
  rw [← hK] at eK
  have hKlo : (0 : ℚ) < K := by
    rw [abs_le] at eK
    have := eK.1
    norm_num at this ⊢
    linarith
  have hKhi : K ≤ (10000000001 : ℚ) / 10000000 := by
    rw [abs_le] at eK
    have := eK.2
    norm_num at this ⊢
    linarith
  obtain ⟨m, hm⟩ : ∃ x, x = round_double (d * K) := ⟨_, rfl⟩
  have em := round_double_error (d * K)
  rw [← hm] at em
  have eF := round_double_400
  unfold get_scan_timed_out at hto
  rw [decide_eq_true_iff, ← hD, ← hd, ← hK, ← hm] at hto
  rw [abs_le] at eF
  have f1 := eF.1
  norm_num at f1
  have hmhi : m ≤ (3999995 : ℚ) / 10000 := by
    rcases le_or_lt D 0 with hD0 | hD0
    · have hd0 : d ≤ 0 := by
        rw [abs_of_nonpos hD0, abs_le] at ed
        have := ed.2
        norm_num at this
        linarith
      have hX0 : d * K ≤ 0 := mul_nonpos_of_nonpos_of_nonneg hd0 hKlo.le
      rw [abs_of_nonpos hX0, abs_le] at em
      have := em.2
      norm_num at this
      linarith
    · rw [abs_of_pos hD0, abs_le] at ed
      have d1 := ed.1
      have d2 := ed.2
      norm_num at d1 d2
      have hd0 : 0 ≤ d := by linarith
      have hdhi : d ≤ (399998955 : ℚ) / 1000000000 := by linarith
      have hX : d * K ≤ (399998955 : ℚ) / 1000000000 * (10000000001 / 10000000) :=
        mul_le_mul hdhi hKhi hKlo.le (by norm_num)
      have hX0 : 0 ≤ d * K := mul_nonneg hd0 hKlo.le
      rw [abs_of_nonneg hX0, abs_le] at em
      have := em.2
      norm_num at this hX
      linarith
  have : (399 : ℚ) < round_double (READER_GET_SCAN_TIMEOUT_MSEC : ℚ) := by linarith
  linarith

theorem round_double_zero : round_double 0 = 0 := by
  have : round_half_even 0 = 0 := round_half_even_eq 0 0 (by norm_num) (by norm_num)
  simp [round_double, this]

/-- At exactly 400000 microseconds after a start at 20 s the test is not yet passed: the
computed number of milliseconds is below 400. -/
theorem get_scan_timed_out_boundary :
    get_scan_timed_out (_get_current_time_sec ⟨20, 0⟩) ⟨20, 400000⟩ = false := by
  have hc : round_double (1 / 1000000) = (4722366482869645 / 4722366482869645213696) := by
    rw [round_double_eq_pos _ (-20) 4722366482869645 (by norm_num) (by norm_num) (by norm_num)
      (by norm_num) (by norm_num)]
    norm_num
  have hs : round_double 20 = 20 := by
    rw [round_double_eq_pos _ (4) 5629499534213120 (by norm_num) (by norm_num) (by norm_num)
      (by norm_num) (by norm_num)]
    norm_num
  have hu : round_double 400000 = 400000 := by
    rw [round_double_eq_pos _ (18) 6871947673600000 (by norm_num) (by norm_num) (by norm_num)
      (by norm_num) (by norm_num)]
    norm_num
  have hp : round_double (400000 * (4722366482869645 / 4722366482869645213696)) = (7205759403792793 / 18014398509481984) := by
    rw [round_double_eq_pos _ (-2) 7205759403792793 (by norm_num) (by norm_num) (by norm_num)
      (by norm_num) (by norm_num)]
    norm_num
  have ht : round_double (20 + (7205759403792793 / 18014398509481984)) = (2871044762448691 / 140737488355328) := by
    rw [round_double_eq_pos _ (4) 5742089524897382 (by norm_num) (by norm_num) (by norm_num)
      (by norm_num) (by norm_num)]
    norm_num
  have hd : round_double ((2871044762448691 / 140737488355328) - 20) = (56294995342131 / 140737488355328) := by
    rw [round_double_eq_pos _ (-2) 7205759403792768 (by norm_num) (by norm_num) (by norm_num)
      (by norm_num) (by norm_num)]
    norm_num
  have hk : round_double 1000 = 1000 := by
    rw [round_double_eq_pos _ (9) 8796093022208000 (by norm_num) (by norm_num) (by norm_num)
      (by norm_num) (by norm_num)]
    norm_num
  have hm : round_double ((56294995342131 / 140737488355328) * 1000) = (7036874417766375 / 17592186044416) := by
    rw [round_double_eq_pos _ (8) 7036874417766375 (by norm_num) (by norm_num) (by norm_num)
      (by norm_num) (by norm_num)]
    norm_num
  have hf : round_double 400 = 400 := by
    rw [round_double_eq_pos _ (8) 7036874417766400 (by norm_num) (by norm_num) (by norm_num)
      (by norm_num) (by norm_num)]
    norm_num
  have t0 : _get_current_time_sec ⟨20, 0⟩ = 20 := by
    unfold _get_current_time_sec
    dsimp only
    simp only [Int.cast_ofNat, Int.cast_zero]
    rw [round_double_zero, zero_mul, round_double_zero, add_zero, hs, hs]
  have t1 : _get_current_time_sec ⟨20, 400000⟩ = (2871044762448691 / 140737488355328) := by
    unfold _get_current_time_sec
    dsimp only
    simp only [Int.cast_ofNat]
    rw [hs, hu, hc, hp, ht]
  unfold get_scan_timed_out
  rw [t0, t1, hd, hk, hm]
  have e4 : ((READER_GET_SCAN_TIMEOUT_MSEC : Int) : ℚ) = 400 := by
    simp [READER_GET_SCAN_TIMEOUT_MSEC]
  rw [e4, hf, decide_eq_false_iff_not]
  norm_num

/-- A clock reading at most 399998 microseconds after the start does not pass the timeout
test. -/
theorem get_scan_not_timed_out_of_early (t0 now : timeval) (a0 : 0 ≤ t0.tv_sec)
    (a1 : t0.tv_sec < 2147483648) (a2 : 0 ≤ t0.tv_usec) (a3 : t0.tv_usec < 1000000)
    (b0 : 0 ≤ now.tv_sec) (b1 : now.tv_sec < 2147483648) (b2 : 0 ≤ now.tv_usec)
    (b3 : now.tv_usec < 1000000) (hearly : elapsed_usec t0 now ≤ 399998) :
    get_scan_timed_out (_get_current_time_sec t0) now = false := by
  cases hto : get_scan_timed_out (_get_current_time_sec t0) now
  · rfl
  · have := elapsed_of_get_scan_timed_out t0 now a0 a1 a2 a3 b0 b1 b2 b3 hto
    omega

/-! ## Theorems: the fetch of a scan -/

theorem get_scan_wait_ready (t0 : ℚ) (events : List WaitEvent) (h : hokuyo_t)
    (hready : h.scan_ready = true) : get_scan_wait t0 events h = .ok h := by
  unfold get_scan_wait
  rw [if_pos hready]

theorem get_scan_wait_times_out (t0 : ℚ) (h : hokuyo_t) (hready : h.scan_ready = false)
    (e : WaitEvent) (post : List WaitEvent) (hto : get_scan_timed_out t0 e.now = true) :
    ∀ pre : List WaitEvent,
      (∀ x ∈ pre, x.slot = none ∧ get_scan_timed_out t0 x.now = false) →
      get_scan_wait t0 (pre ++ e :: post) h = .ok h := by
  intro pre
  induction pre with
  | nil =>
    intro _
    rw [List.nil_append, get_scan_wait, if_neg (by rw [hready]; decide), if_pos hto]
  | cons x pre ih =>
    intro hpre
    obtain ⟨hx1, hx2⟩ := hpre x (List.mem_cons_self _ _)
    rw [List.cons_append, get_scan_wait, if_neg (by rw [hready]; decide),
      if_neg (by rw [hx2]; decide), hx1]
    exact ih (fun y hy => hpre y (List.mem_cons_of_mem _ hy))

/-- C18 — on a connected handle whose slot holds a ready scan of `k` values (`num_data = k`,
within the array `data`) and with a caller's buffer of at least `k` entries,
`hokuyo_get_scan` returns `k` at once, whatever the clock does, leaves the first `k` values
of `data`, in order, at the start of the buffer (the rest of the buffer is untouched) and
clears the ready flag; a second fetch during which nothing is published (no pass of its
wait loop sees the slot change) finds no scan ready, leaves the loop at the first pass
whose clock reading passes the timeout test of the code (the test in `double`
arithmetic) and returns 0 with the buffer and the handle as the first fetch left them. -/
theorem hokuyo_get_scan_copies (h : hokuyo_t) (range : List Nat) (k : Nat)
    (t0 t1 : timeval) (events pre post : List WaitEvent) (e : WaitEvent)
    (hconn : h.sd.connected = true) (hready : h.scan_ready = true)
    (hk : h.num_data = (k : Int)) (hsrc : k ≤ h.data.length) (hdst : k ≤ range.length)
    (hpre : ∀ x ∈ pre, x.slot = none
      ∧ get_scan_timed_out (_get_current_time_sec t1) x.now = false)
    (hto : get_scan_timed_out (_get_current_time_sec t1) e.now = true) :
    hokuyo_get_scan h range t0 events
        = .ok ⟨(k : Int), { h with scan_ready := false }, h.data.take k ++ range.drop k⟩
      ∧ (∀ i, i < k → (h.data.take k ++ range.drop k)[i]? = h.data[i]?)
      ∧ hokuyo_get_scan { h with scan_ready := false } (h.data.take k ++ range.drop k) t1
            (pre ++ e :: post)
          = .ok ⟨0, { h with scan_ready := false }, h.data.take k ++ range.drop k⟩ := by
  refine ⟨?_, ?_, ?_⟩
  · unfold hokuyo_get_scan
    rw [hconn, get_scan_wait_ready _ _ _ hready]
    have hn : ¬ (k : Int) < 0 := by omega
    have hm : memcpy range 0 h.data (k : Int).toNat
        = some (h.data.take k ++ range.drop k) := by
      unfold memcpy
      rw [Int.toNat_ofNat, if_pos ⟨by omega, hsrc⟩]
      simp
    simp only [Bool.not_true, Bool.false_eq_true, if_false, hready, if_true, hn, hm, hk]
  · intro i hi
    rw [List.getElem?_append_left (by rw [List.length_take]; omega), List.getElem?_take_of_lt hi]
  · unfold hokuyo_get_scan
    have hw := get_scan_wait_times_out (_get_current_time_sec t1) { h with scan_ready := false }
      rfl e post hto pre hpre
    simp only [hconn, Bool.not_true, Bool.false_eq_true, if_false, hw]

/-- C18, at a concrete input: a ready scan of 3 values in a slot of 4, a buffer of 4
entries; the second fetch starts at 20 s, passes its wait loop once at 20.1 s and leaves
it at 20.45 s. -/
theorem hokuyo_get_scan_copies_witness :
    hokuyo_get_scan
        { mkHandle TYPE_URG_04LX false [] with
          scan_ready := true, data := [5, 6, 7, 8], num_data := 3 }
        [0, 0, 0, 0] ⟨10, 0⟩ []
      = .ok ⟨3, { mkHandle TYPE_URG_04LX false [] with data := [5, 6, 7, 8], num_data := 3 },
          [5, 6, 7, 0]⟩
      ∧ hokuyo_get_scan
          { mkHandle TYPE_URG_04LX false [] with data := [5, 6, 7, 8], num_data := 3 }
          [5, 6, 7, 0] ⟨20, 0⟩ [⟨⟨20, 100000⟩, none⟩, ⟨⟨20, 450000⟩, none⟩]
        = .ok ⟨0, { mkHandle TYPE_URG_04LX false [] with data := [5, 6, 7, 8], num_data := 3 },
            [5, 6, 7, 0]⟩ :=
  have w := hokuyo_get_scan_copies
    { mkHandle TYPE_URG_04LX false [] with
      scan_ready := true, data := [5, 6, 7, 8], num_data := 3 }
    [0, 0, 0, 0] 3 ⟨10, 0⟩ ⟨20, 0⟩ [] [⟨⟨20, 100000⟩, none⟩] [] ⟨⟨20, 450000⟩, none⟩
    rfl rfl rfl (by decide) (by decide)
    (by
      intro x hx
      rw [List.mem_singleton.1 hx]
      exact ⟨rfl, get_scan_not_timed_out_of_early ⟨20, 0⟩ ⟨20, 100000⟩ (by decide)
        (by decide) (by decide) (by decide) (by decide) (by decide) (by decide) (by decide)
        (by decide)⟩)
    (get_scan_timed_out_of_late ⟨20, 0⟩ ⟨20, 450000⟩ (by decide) (by decide) (by decide)
      (by decide) (by decide) (by decide) (by decide) (by decide) (by decide))
  ⟨w.1, w.2.2⟩

theorem cond_wait_deadline_eq (t : timeval) (h0 : 0 ≤ t.tv_usec) (h1 : t.tv_usec < 1000000) :
    (cond_wait_deadline t READER_GET_SCAN_TIMEOUT_MSEC).tv_sec * 1000000000
        + (cond_wait_deadline t READER_GET_SCAN_TIMEOUT_MSEC).tv_nsec
      = (t.tv_sec * 1000000 + t.tv_usec + 400000) * 1000 := by
  have e1 : toInt32 (READER_GET_SCAN_TIMEOUT_MSEC * 1000) = 400000 := by decide
  have e2 : toInt32 (READER_GET_SCAN_TIMEOUT_MSEC * 1000000) = 400000000 := by decide
  unfold cond_wait_deadline
  rw [e1, e2]
  dsimp only
  rw [Int.tmod_eq_emod (by omega) (by omega)]
  split <;> omega

/-- C19 — on a handle whose slot holds no ready scan, when nothing is published during the
call (no pass of the wait loop sees the slot change), `hokuyo_get_scan` leaves its wait
loop at the first pass whose clock reading passes the timeout test of the code, returns 0
and leaves the caller's buffer and the handle, with its ready flag, as they were. The test
is computed in `double` arithmetic; for clock readings between 1970 and 2038
(`0 <= tv_sec < 2^31`) every reading at least 400001 microseconds after the start passes
it and no reading earlier than 399999 microseconds after the start does. Each pass ends:
the deadline that `data__cond_wait` hands to `pthread_cond_timedwait` is 400 ms after the
clock reading at the start of the wait. -/
theorem hokuyo_get_scan_times_out (h : hokuyo_t) (range : List Nat) (t0 : timeval)
    (pre post : List WaitEvent) (e : WaitEvent) (hready : h.scan_ready = false)
    (hpre : ∀ x ∈ pre, x.slot = none
      ∧ get_scan_timed_out (_get_current_time_sec t0) x.now = false)
    (hto : get_scan_timed_out (_get_current_time_sec t0) e.now = true) :
    hokuyo_get_scan h range t0 (pre ++ e :: post) = .ok ⟨0, h, range⟩
      ∧ (∀ s now : timeval, 0 ≤ s.tv_sec → s.tv_sec < 2147483648 → 0 ≤ s.tv_usec →
          s.tv_usec < 1000000 → 0 ≤ now.tv_sec → now.tv_sec < 2147483648 →
          0 ≤ now.tv_usec → now.tv_usec < 1000000 →
          (400001 ≤ elapsed_usec s now →
              get_scan_timed_out (_get_current_time_sec s) now = true)
            ∧ (get_scan_timed_out (_get_current_time_sec s) now = true →
              399999 ≤ elapsed_usec s now))
      ∧ (∀ t : timeval, 0 ≤ t.tv_usec → t.tv_usec < 1000000 →
          (cond_wait_deadline t READER_GET_SCAN_TIMEOUT_MSEC).tv_sec * 1000000000
              + (cond_wait_deadline t READER_GET_SCAN_TIMEOUT_MSEC).tv_nsec
            = (t.tv_sec * 1000000 + t.tv_usec + 400000) * 1000) := by
  refine ⟨?_, fun s now a0 a1 a2 a3 b0 b1 b2 b3 =>
    ⟨get_scan_timed_out_of_late s now a0 a1 a2 a3 b0 b1 b2 b3,
      elapsed_of_get_scan_timed_out s now a0 a1 a2 a3 b0 b1 b2 b3⟩, cond_wait_deadline_eq⟩
  unfold hokuyo_get_scan
  by_cases hconn : h.sd.connected = true
  · have hw := get_scan_wait_times_out (_get_current_time_sec t0) h hready e post hto pre hpre
    simp only [hconn, Bool.not_true, Bool.false_eq_true, if_false, hw, hready]
  · have hconn' : h.sd.connected = false := by
      cases hb : h.sd.connected
      · rfl
      · exact absurd hb hconn
    rw [hconn']
    rfl

/-- C19, at a concrete input: a fresh handle, a call that starts at 100.9 s; its wait loop
is passed at 100.95 s and at 101.2 s and is left at 101.35 s. -/
theorem hokuyo_get_scan_times_out_witness :
    hokuyo_get_scan (mkHandle TYPE_URG_04LX false []) [9, 9] ⟨100, 900000⟩
        ([⟨⟨100, 950000⟩, none⟩, ⟨⟨101, 200000⟩, none⟩] ++ ⟨⟨101, 350000⟩, none⟩ :: [])
      = .ok ⟨0, mkHandle TYPE_URG_04LX false [], [9, 9]⟩ :=
  (hokuyo_get_scan_times_out (mkHandle TYPE_URG_04LX false []) [9, 9] ⟨100, 900000⟩
    [⟨⟨100, 950000⟩, none⟩, ⟨⟨101, 200000⟩, none⟩] [] ⟨⟨101, 350000⟩, none⟩
    rfl
    (by
      intro x hx
      rcases List.mem_cons.1 hx with e | hx
      · rw [e]
        exact ⟨rfl, get_scan_not_timed_out_of_early ⟨100, 900000⟩ ⟨100, 950000⟩ (by decide)
          (by decide) (by decide) (by decide) (by decide) (by decide) (by decide)
          (by decide) (by decide)⟩
      · rw [List.mem_singleton.1 hx]
        exact ⟨rfl, get_scan_not_timed_out_of_early ⟨100, 900000⟩ ⟨101, 200000⟩ (by decide)
          (by decide) (by decide) (by decide) (by decide) (by decide) (by decide)
          (by decide) (by decide)⟩)
    (get_scan_timed_out_of_late ⟨100, 900000⟩ ⟨101, 350000⟩ (by decide) (by decide)
      (by decide) (by decide) (by decide) (by decide) (by decide) (by decide)
      (by decide))).1

/-! ## Theorems: the lines of a reply, read one after the other -/

theorem local_array_length (stack : List Nat) (n : Nat) : (local_array stack n).length = n := by
  unfold local_array
  rw [List.length_take, List.length_append, List.length_replicate]
  omega

theorem reads_trans {a b c : hokuyo_t} {r1 r2 : List Nat} (h1 : reads a b r1)
    (h2 : reads b c r2) : reads a c r2 :=
  ⟨quiet_trans h1.1 h2.1, h2.2.1.trans h1.2.1, h2.2.2⟩

/-- The read of `_read_line` on a pending line: the bytes up to and including the first
linefeed are taken off the transport and stored at the start of `line`. -/
theorem read_chars_line (s : serial_device_t) (line pre rest : List Nat) (max_chars t : Int)
    (hconn : s.connected = true) (hrx : s.rx = pre ++ 0x0a :: rest) (hpre : 0x0a ∉ pre)
    (hmax : (pre.length : Int) + 1 ≤ max_chars) (hline : pre.length + 1 ≤ line.length) :
    ∃ sd, serial_device_read_chars
          (serial_device_set_io_block_w_timeout_w_term_sequence s [0x0a] 1 true).2 line
          max_chars t
        = .ok ⟨(pre.length : Int) + 1, sd, pre ++ 0x0a :: line.drop (pre.length + 1)⟩
      ∧ sd.rx = rest ∧ sd.connected = true ∧ sd.tx = s.tx := by
  obtain ⟨sd1, hsd1⟩ : ∃ x : serial_device_t, x = { s with
      ioMode := IO_BLOCK_W_TIMEOUT_W_TERM_SEQUENCE
      numTermChars := 1
      retTermSequence := true
      termSequence := 0x0a :: s.termSequence.drop 1 } := ⟨_, rfl⟩
  have hset : (serial_device_set_io_block_w_timeout_w_term_sequence s [0x0a] 1 true).2
      = sd1 := by
    unfold serial_device_set_io_block_w_timeout_w_term_sequence
    rw [hsd1]
    simp [hconn, MAX_NUM_TERM_CHARS]
  have hloop := read_term_sequence_loop_line sd1 (by rw [hsd1]; simp) (by rw [hsd1])
    (by rw [hsd1]) rest pre line 0 max_chars hpre (by omega) (by omega)
  have hrx1 : sd1.rx = pre ++ 0x0a :: rest := by rw [hsd1]; exact hrx
  refine ⟨{ sd1 with rx := rest }, ?_, rfl, by rw [hsd1]; exact hconn, by rw [hsd1]⟩
  rw [hset]
  unfold serial_device_read_chars
  have c1 : sd1.connected = true := by rw [hsd1]; exact hconn
  have c2 : sd1.ioMode = IO_BLOCK_W_TIMEOUT_W_TERM_SEQUENCE := by rw [hsd1]
  have c3 : ¬ IO_BLOCK_W_TIMEOUT_W_TERM_SEQUENCE = IO_BLOCK_W_TIMEOUT := by decide
  simp only [c1, c2, c3, Bool.not_true, Bool.false_eq_true, if_false, if_true, hrx1, hloop]
  congr 2
  · simp
  · simp

theorem reads_of_sd (h : hokuyo_t) (sd : serial_device_t) (rest : List Nat)
    (hrx : sd.rx = rest) (hc : sd.connected = true) (hconn : h.sd.connected = true)
    (htx : sd.tx = h.sd.tx) : reads h { h with sd := sd } rest :=
  ⟨⟨⟨rfl, rfl, rfl, hc.trans hconn.symm⟩, rfl, htx⟩, rfl, hrx⟩

/-- A received line of at least one byte, read without checksum verification. -/
theorem read_line_plain (h : hokuyo_t) (line d rest : List Nat) (max_chars t : Int)
    (hconn : h.sd.connected = true) (hrx : h.sd.rx = d ++ 0x0a :: rest) (hd : 0x0a ∉ d)
    (hd1 : 1 ≤ d.length) (hmax : (d.length : Int) + 1 ≤ max_chars)
    (hline : d.length + 1 ≤ line.length) :
    ∃ h1, _read_line h line max_chars t false
        = .ok ⟨(d.length : Int), h1, d ++ 0x0a :: line.drop (d.length + 1)⟩
      ∧ reads h h1 rest := by
  obtain ⟨sd, hread, e1, e2, e3⟩ := read_chars_line h.sd line d rest max_chars t hconn hrx hd
    hmax hline
  refine ⟨{ h with sd := sd }, ?_, reads_of_sd h sd rest e1 e2 hconn e3⟩
  have hn1 : ¬ ((d.length : Int) + 1 < 1) := by omega
  have hn2 : ¬ ((d.length : Int) + 1 = 1) := by omega
  unfold _read_line
  simp only [hconn, Bool.not_true, Bool.false_eq_true, if_false, hread, hn1, hn2,
    false_and, read_line_finish]
  simp

/-- A received empty line. -/
theorem read_line_blank (h : hokuyo_t) (line rest : List Nat) (max_chars t : Int)
    (cs : Bool) (hconn : h.sd.connected = true) (hrx : h.sd.rx = 0x0a :: rest)
    (hmax : 1 ≤ max_chars) (hline : 1 ≤ line.length) :
    ∃ h1, _read_line h line max_chars t cs = .ok ⟨0, h1, 0x0a :: line.drop 1⟩
      ∧ reads h h1 rest := by
  obtain ⟨sd, hread, e1, e2, e3⟩ := read_chars_line h.sd line [] rest max_chars t hconn
    (by simpa using hrx) (by simp) (by simpa using hmax) (by simpa using hline)
  refine ⟨{ h with sd := sd }, ?_, reads_of_sd h sd rest e1 e2 hconn e3⟩
  simp only [List.length_nil, Nat.cast_zero, Int.zero_add, List.nil_append, Nat.zero_add]
    at hread
  unfold _read_line
  simp only [hconn, Bool.not_true, Bool.false_eq_true, if_false, hread]
  simp

/-- A received line with a checksum byte, read with checksum verification. -/
theorem read_line_checked (h : hokuyo_t) (line d rest : List Nat) (c : Nat)
    (max_chars t : Int) (hconn : h.sd.connected = true)
    (hrx : h.sd.rx = d ++ c :: 0x0a :: rest) (hd : 0x0a ∉ d) (hc : c ≠ 0x0a)
    (hmax : (d.length : Int) + 2 ≤ max_chars) (hmax' : max_chars ≤ MAX_LINE_LENGTH)
    (hline : d.length + 2 ≤ line.length) :
    ∃ h1, _read_line h line max_chars t true
        = .ok ⟨(d.length : Int), h1, d ++ c :: 0x0a :: line.drop (d.length + 2)⟩
      ∧ reads h h1 rest :=
  ⟨_, read_line_returns_length h line d rest c max_chars t hconn hrx hd hc hmax hmax' hline,
    ⟨⟨rfl, rfl, rfl, hconn.symm ▸ rfl⟩, rfl, rfl⟩, rfl, rfl⟩

theorem strncmp_zero (s1 s2 : List Nat) : strncmp s1 s2 0 = .ok 0 := by
  cases s1 with
  | nil => simp [strncmp]
  | cons a s1 =>
    cases s2 with
    | nil => simp [strncmp]
    | cons b s2 => simp [strncmp]

/-- Two arrays that agree on their first `n` bytes compare equal under `strncmp`. -/
theorem strncmp_common (a s1 s2 : List Nat) :
    ∀ n, n ≤ a.length → strncmp (a ++ s1) (a ++ s2) n = .ok 0 := by
  induction a with
  | nil =>
    intro n hn
    have : n = 0 := by simpa using hn
    rw [this]
    exact strncmp_zero _ _
  | cons x a ih =>
    intro n hn
    rw [List.cons_append, List.cons_append, strncmp]
    by_cases h0 : n = 0
    · rw [if_pos h0]
    · rw [if_neg h0, if_neg (by simp)]
      by_cases hx : x = 0
      · rw [if_pos hx]
      · rw [if_neg hx]
        exact ih (n - 1) (by simp at hn; omega)

/-- The confirmation of a request: the echo of the request and the status "00" with any
checksum byte. -/
theorem confirm_scan_accepted (h : hokuyo_t) (req : List Char) (t : Int)
    (stack rest : List Nat) (c : Nat) (hconn : h.sd.connected = true)
    (hreq1 : 1 ≤ req.length) (hreq : req.length ≤ 90)
    (hnl : 0x0a ∉ req.map Char.toNat) (hc : c ≠ 0x0a)
    (hrx : h.sd.rx = req.map Char.toNat ++ 0x0a :: 0x30 :: 0x30 :: c :: 0x0a :: rest) :
    ∃ h1, _confirm_scan h req t stack = .ok (0, h1) ∧ reads h h1 rest := by
  have hlen : (req.map Char.toNat).length = req.length := List.length_map _ _
  have hl0 := local_array_length stack 100
  obtain ⟨h1, hr1, q1⟩ := read_line_plain h (local_array stack 100) (req.map Char.toNat)
    (0x30 :: 0x30 :: c :: 0x0a :: rest) MAX_LINE_LENGTH t hconn hrx hnl (by omega)
    (by simp only [MAX_LINE_LENGTH]; omega) (by omega)
  obtain ⟨line1, hline1⟩ : ∃ x, x = req.map Char.toNat
      ++ 0x0a :: (local_array stack 100).drop ((req.map Char.toNat).length + 1) := ⟨_, rfl⟩
  have hl1 : line1.length = 100 := by
    rw [hline1]
    simp only [List.length_append, List.length_cons, List.length_drop]
    omega
  rw [← hline1] at hr1
  have hconn1 : h1.sd.connected = true := q1.1.1.2.2.2.trans hconn
  obtain ⟨h2, hr2, q2⟩ := read_line_checked h1 line1 [0x30, 0x30] rest c MAX_LINE_LENGTH t
    hconn1 (by rw [q1.2.2]; rfl) (by decide) hc (by decide) (le_refl _)
    (by rw [hl1]; decide)
  have hcmp : strncmp (cstr req) line1 (toSizeT ((req.map Char.toNat).length : Int))
      = .ok 0 := by
    rw [toSizeT_of_nonneg _ (by omega) (by omega), Int.toNat_ofNat, hline1]
    exact strncmp_common _ _ _ _ (le_refl _)
  have h00 : _check_result "00".toList
      ([0x30, 0x30] ++ c :: 0x0a :: line1.drop (([0x30, 0x30] : List Nat).length + 2))
      = .ok 0 := strncmp_common [0x30, 0x30] [0] _ 2 (le_refl _)
  have h10 : _check_result "10".toList
      ([0x30, 0x30] ++ c :: 0x0a :: line1.drop (([0x30, 0x30] : List Nat).length + 2))
      = .ok 1 := by
    simp [_check_result, cstr, strncmp]
  refine ⟨h2, ?_, reads_trans q1 q2⟩
  unfold _confirm_scan
  simp only [hr1, hcmp, hr2, h00, h10]
  simp

/-! ## Theorems: `_read_packet` on a received packet -/

theorem lf_run_data (tl : List Nat) : ∀ (d : List Nat) (cm : Nat), 0x0a ∉ d → 1 ≤ d.length →
    lf_run cm (d ++ tl) = lf_run 0 tl := by
  intro d
  induction d with
  | nil => intro cm _ h1; simp at h1
  | cons b d ih =>
    intro cm hd _
    have hb : b ≠ 0x0a := by intro e; exact hd (by simp [e])
    have hd' : 0x0a ∉ d := by intro e; exact hd (by simp [e])
    rw [List.cons_append, lf_run, if_neg hb, if_neg (by decide)]
    cases d with
    | nil => rfl
    | cons b2 d2 => exact ih 0 hd' (by simp)

theorem lf_run_wire_lines : ∀ (ls : List (List Nat × Nat)) (cm : Nat),
    (∀ l ∈ ls, 0x0a ∉ l.1 ∧ l.2 ≠ 0x0a) → cm ≤ 1 → (ls ≠ [] ∨ cm = 1) →
    lf_run cm (wire_lines ls) = some 1 := by
  intro ls
  induction ls with
  | nil =>
    intro cm _ _ h
    rcases h with h | h
    · exact absurd rfl h
    · rw [h]; rfl
  | cons l ls ih =>
    intro cm hgood _ _
    obtain ⟨hd, hc⟩ := hgood l (List.mem_cons_self _ _)
    have hpre : 0x0a ∉ l.1 ++ [l.2] := by
      intro hm
      rcases List.mem_append.1 hm with hm | hm
      · exact hd hm
      · exact hc (List.mem_singleton.1 hm).symm
    have e : wire_lines (l :: ls) = (l.1 ++ [l.2]) ++ 0x0a :: wire_lines ls := by
      simp [wire_lines, wire_line]
    rw [e, lf_run_data _ _ cm hpre (by simp), lf_run, if_pos rfl, if_neg (by decide)]
    exact ih 1 (fun x hx => hgood x (List.mem_cons_of_mem _ hx)) (le_refl _) (Or.inr rfl)

/-- The read loop with the terminator linefeed-linefeed, over bytes that do not complete
the terminator. -/
theorem read_term_sequence_loop_run (s : serial_device_t)
    (ht0 : s.termSequence[0]? = some 0x0a) (ht1 : s.termSequence[1]? = some 0x0a)
    (hnum : s.numTermChars = 2) (tail : List Nat) :
    ∀ (pre data : List Nat) (total : Nat) (left : Int) (cm cm1 : Nat),
      lf_run cm pre = some cm1 → cm ≤ 1 → total + pre.length ≤ data.length →
      (pre.length : Int) ≤ left →
      read_term_sequence_loop s (pre ++ tail) data total left cm
        = read_term_sequence_loop s tail
            (data.take total ++ pre ++ data.drop (total + pre.length))
            (total + pre.length) (left - pre.length) cm1 := by
  intro pre
  induction pre with
  | nil =>
    intro data total left cm cm1 hrun _ _ _
    have : cm1 = cm := by simpa [lf_run] using hrun.symm
    rw [this]
    simp
  | cons b pre ih =>
    intro data total left cm cm1 hrun hcm hroom hleft
    have hl : left ≠ 0 := by simp at hleft; omega
    have hlt : total < data.length := by simp at hroom; omega
    have hs := store_of_lt data total b hlt
    have ht : s.termSequence[cm]? = some 0x0a := by
      rcases Nat.le_one_iff_eq_zero_or_eq_one.1 hcm with e | e
      · rw [e]; exact ht0
      · rw [e]; exact ht1
    rw [lf_run] at hrun
    by_cases h2 : (if b = 0x0a then cm + 1 else 0) = 2
    · rw [if_pos h2] at hrun; cases hrun
    rw [if_neg h2] at hrun
    have hcm' : (if b = 0x0a then cm + 1 else 0) ≤ 1 := by
      split
      · split at h2 <;> omega
      · omega
    have hne : ¬ (((if b = 0x0a then cm + 1 else 0 : Nat) : Int)) = s.numTermChars := by
      rw [hnum]
      intro e
      exact h2 (by exact_mod_cast e)
    have hrec := ih (data.set total b) (total + 1) (left - 1) _ cm1 hrun hcm'
      (by simp at hroom ⊢; omega) (by simp at hleft; omega)
    have hset : data.set total b = data.take total ++ b :: data.drop (total + 1) := by
      rw [List.set_eq_take_append_cons_drop, if_pos hlt]
    have e1 : (data.set total b).take (total + 1) = data.take total ++ [b] := by
      have : data.take total ++ b :: data.drop (total + 1)
          = (data.take total ++ [b]) ++ data.drop (total + 1) := by simp
      rw [hset, this]
      apply List.take_left'
      simp; omega
    have e2 : (data.set total b).drop (total + 1 + pre.length)
        = data.drop (total + (pre.length + 1)) := by
      rw [List.drop_set_of_lt _ _ (by omega)]
      congr 1; omega
    rw [List.cons_append, read_term_sequence_loop_cons, if_neg hl, hs, ht]
    simp only [hne, if_false]
    rw [hrec, e1, e2, List.length_cons]
    congr 1
    · simp
    · omega
    · push_cast; ring

theorem read_term_sequence_loop_end (s : serial_device_t)
    (ht1 : s.termSequence[1]? = some 0x0a) (hnum : s.numTermChars = 2)
    (hret : s.retTermSequence = true) (rest data : List Nat) (total : Nat) (left : Int)
    (hl : left ≠ 0) (hlt : total < data.length) :
    read_term_sequence_loop s (0x0a :: rest) data total left 1
      = .ok ⟨(total : Int) + 1, { s with rx := rest },
          data.take total ++ 0x0a :: data.drop (total + 1)⟩ := by
  have hset : data.set total 0x0a = data.take total ++ 0x0a :: data.drop (total + 1) := by
    rw [List.set_eq_take_append_cons_drop, if_pos hlt]
  rw [read_term_sequence_loop_cons, if_neg hl, store_of_lt data total 0x0a hlt, ht1]
  simp only [if_true, hnum, hret, hset]
  simp

/-- The first packet of a stream (the packet length is not known yet): it is read up to
the empty line that ends it, and its length, the empty line's linefeed included, becomes
the packet length. -/
theorem read_packet_first (h : hokuyo_t) (data rest : List Nat) (t : Int)
    (ls : List (List Nat × Nat)) (hconn : h.sd.connected = true)
    (hpl : h.packet_length ≤ 0)
    (hgood : ∀ l ∈ ls, 0x0a ∉ l.1 ∧ l.2 ≠ 0x0a) (hne : ls ≠ [])
    (hlen : (wire_lines ls).length + 1 ≤ 15000) (hdata : 15000 ≤ data.length)
    (hrx : h.sd.rx = wire_lines ls ++ 0x0a :: rest) :
    ∃ hp, _read_packet h data t
        = .ok ⟨0, hp, wire_lines ls ++ 0x0a :: data.drop ((wire_lines ls).length + 1)⟩
      ∧ quiet h hp ∧ hp.sd.rx = rest
      ∧ hp.packet_length = ((wire_lines ls).length : Int) + 1 := by
  obtain ⟨sd1, hsd1⟩ : ∃ x : serial_device_t, x = { h.sd with
      ioMode := IO_BLOCK_W_TIMEOUT_W_TERM_SEQUENCE
      numTermChars := 2
      retTermSequence := true
      termSequence := 0x0a :: 0x0a :: h.sd.termSequence.drop 2 } := ⟨_, rfl⟩
  have hset : (serial_device_set_io_block_w_timeout_w_term_sequence h.sd [0x0a, 0x0a] 2
      true).2 = sd1 := by
    unfold serial_device_set_io_block_w_timeout_w_term_sequence
    rw [hsd1]
    simp [hconn, MAX_NUM_TERM_CHARS]
  have ht0 : sd1.termSequence[0]? = some 0x0a := by rw [hsd1]; rfl
  have ht1 : sd1.termSequence[1]? = some 0x0a := by rw [hsd1]; simp
  have hrun := read_term_sequence_loop_run sd1 ht0 ht1 (by rw [hsd1]) (0x0a :: rest)
    (wire_lines ls) data 0 MAX_PACKET_LENGTH 0 1
    (lf_run_wire_lines ls 0 hgood (by decide) (Or.inl hne)) (by decide) (by omega)
    (by simp only [MAX_PACKET_LENGTH]; omega)
  have hend := read_term_sequence_loop_end sd1 ht1 (by rw [hsd1]) (by rw [hsd1]) rest
    (data.take 0 ++ wire_lines ls ++ data.drop (0 + (wire_lines ls).length))
    (0 + (wire_lines ls).length) (MAX_PACKET_LENGTH - ((wire_lines ls).length : Int))
    (by simp only [MAX_PACKET_LENGTH]; omega)
    (by simp only [List.length_append, List.length_take, List.length_drop]; omega)
  have hrx1 : sd1.rx = wire_lines ls ++ 0x0a :: rest := by rw [hsd1]; exact hrx
  have c1 : sd1.connected = true := by rw [hsd1]; exact hconn
  have c2 : sd1.ioMode = IO_BLOCK_W_TIMEOUT_W_TERM_SEQUENCE := by rw [hsd1]
  have c3 : ¬ IO_BLOCK_W_TIMEOUT_W_TERM_SEQUENCE = IO_BLOCK_W_TIMEOUT := by decide
  have hread : serial_device_read_chars sd1 data MAX_PACKET_LENGTH t
      = .ok ⟨((wire_lines ls).length : Int) + 1, { sd1 with rx := rest },
          wire_lines ls ++ 0x0a :: data.drop ((wire_lines ls).length + 1)⟩ := by
    unfold serial_device_read_chars
    simp only [c1, c2, c3, Bool.not_true, Bool.false_eq_true, if_false, if_true, hrx1, hrun,
      hend]
    congr 2
    · simp
    · simp only [List.take_zero, List.nil_append, Nat.zero_add]
      rw [List.take_left' rfl, List.drop_append, List.drop_drop]
  refine ⟨{ h with sd := { sd1 with rx := rest },
                   packet_length := ((wire_lines ls).length : Int) + 1 }, ?_,
    ⟨⟨rfl, rfl, rfl, by rw [hsd1]⟩, rfl, by rw [hsd1]⟩, rfl, rfl⟩
  have hn : ¬ h.packet_length > 0 := by omega
  have hn2 : ¬ (((wire_lines ls).length : Int) + 1 < 0) := by omega
  unfold _read_packet
  simp only [hconn, Bool.not_true, Bool.false_eq_true, if_false, hn, hset, hread, hn2]

/-- A later packet of a stream (the packet length is known): exactly that many bytes are
read. -/
theorem read_packet_next (h : hokuyo_t) (data rest : List Nat) (t : Int)
    (ls : List (List Nat × Nat)) (hconn : h.sd.connected = true)
    (hpl : h.packet_length = ((wire_lines ls).length : Int) + 1)
    (hdata : (wire_lines ls).length + 1 ≤ data.length)
    (hrx : h.sd.rx = wire_lines ls ++ 0x0a :: rest) :
    ∃ hp, _read_packet h data t
        = .ok ⟨0, hp, wire_lines ls ++ 0x0a :: data.drop ((wire_lines ls).length + 1)⟩
      ∧ quiet h hp ∧ hp.sd.rx = rest
      ∧ hp.packet_length = ((wire_lines ls).length : Int) + 1 := by
  obtain ⟨sd1, hsd1⟩ : ∃ x : serial_device_t, x = { h.sd with
      ioMode := IO_BLOCK_W_TIMEOUT
      numTermChars := 0
      retTermSequence := false } := ⟨_, rfl⟩
  have hset : (serial_device_set_io_block_w_timeout h.sd).2 = sd1 := by
    unfold serial_device_set_io_block_w_timeout
    rw [hsd1]
    simp [hconn]
  have hrx1 : sd1.rx = (wire_lines ls ++ [0x0a]) ++ rest := by
    rw [hsd1]; simp [hrx]
  have c1 : sd1.connected = true := by rw [hsd1]; exact hconn
  have c2 : sd1.ioMode = IO_BLOCK_W_TIMEOUT := by rw [hsd1]
  have hL : (((wire_lines ls).length : Int) + 1).toNat = (wire_lines ls ++ [0x0a]).length := by
    simp only [List.length_append, List.length_singleton]
    omega
  have hread : serial_device_read_chars sd1 data (((wire_lines ls).length : Int) + 1) t
      = .ok ⟨((wire_lines ls).length : Int) + 1, { sd1 with rx := rest },
          wire_lines ls ++ 0x0a :: data.drop ((wire_lines ls).length + 1)⟩ := by
    unfold serial_device_read_chars
    have hn : ¬ (((wire_lines ls).length : Int) + 1 < 0) := by omega
    simp only [c1, c2, Bool.not_true, Bool.false_eq_true, if_false, if_true, hn, hrx1, hL,
      List.take_left' rfl, List.drop_left' rfl]
    rw [if_pos (by simp only [List.length_append, List.length_singleton]; omega)]
    congr 2
    · simp
    · simp
  refine ⟨{ h with sd := { sd1 with rx := rest } }, ?_,
    ⟨⟨rfl, rfl, rfl, by rw [hsd1]⟩, rfl, by rw [hsd1]⟩, rfl, hpl⟩
  have hp : h.packet_length > 0 := by omega
  unfold _read_packet
  simp only [hconn, Bool.not_true, Bool.false_eq_true, if_false, hp, if_true, hset]
  rw [hpl, hread]
  simp

/-! ## Theorems: the steps of `_get_scan` on a well-formed stream -/

/-- The request of the production window as a streaming request. -/
theorem create_scan_request_production (h : hokuyo_t) :
    _create_scan_request h SCAN_START SCAN_END SCAN_SKIP ENCODING SCAN_TYPE 0 [] false
      = ⟨0, "MD0044072501000".toList, true⟩ := by
  have hw : valid_window h SCAN_START SCAN_END := by
    refine ⟨by decide, by decide, by decide, ?_⟩
    unfold variant_max_points
    split <;> decide
  have hv : valid_encoding_and_kind h ENCODING SCAN_TYPE := Or.inl ⟨rfl, Or.inl rfl⟩
  have h0 := create_scan_request_accepts h SCAN_START SCAN_END SCAN_SKIP ENCODING SCAN_TYPE 0
    [] false hw (Or.inl rfl) hv
  obtain ⟨_, _, _, _, _, _, _, _, hreq, hneed⟩ :=
    create_scan_request_ok h SCAN_START SCAN_END SCAN_SKIP ENCODING SCAN_TYPE 0 [] false _ rfl h0
  have e1 : opcode ENCODING SCAN_TYPE 0 ++ fmt_d 4 SCAN_START ++ fmt_d 4 SCAN_END
      ++ fmt_x 2 SCAN_SKIP
      ++ (if (0 : Int) = 0 ∨ SCAN_TYPE = SCAN_SPECIAL_ME then '0' :: fmt_d 2 0 else [])
      = "MD0044072501000".toList := by decide
  have e2 : decide ((0 : Int) = 0 ∨ SCAN_TYPE = SCAN_SPECIAL_ME) = true := by decide
  rw [e1] at hreq
  rw [e2] at hneed
  generalize _create_scan_request h SCAN_START SCAN_END SCAN_SKIP ENCODING SCAN_TYPE 0 []
    false = r at h0 hreq hneed
  cases r
  simp only at h0 hreq hneed
  rw [h0, hreq, hneed]

/-- The block that writes a streaming request, on a transport on which the device answers
with the echo, the status "00" and an empty line. -/
theorem get_scan_request_accepted (h : hokuyo_t) (req : List Char) (st t : Int)
    (line stack rest : List Nat) (c : Nat) (hconn : h.sd.connected = true)
    (hfl : h.sd.flush_drops = []) (hwr : h.sd.write_results = [])
    (hreq1 : 1 ≤ req.length) (hreq : req.length ≤ 90)
    (hnl : 0x0a ∉ req.map Char.toNat) (hc : c ≠ 0x0a) (hline : 1 ≤ line.length)
    (hrx : h.sd.rx
      = req.map Char.toNat ++ 0x0a :: 0x30 :: 0x30 :: c :: 0x0a :: 0x0a :: rest) :
    ∃ h1, get_scan_request h req st 0 t line stack = .ok (0, h1, 0x0a :: line.drop 1)
      ∧ kept h h1 ∧ h1.streaming = true ∧ h1.packet_length = h.packet_length
      ∧ h1.sd.rx = rest ∧ h1.sd.tx = h.sd.tx ++ (req.map Char.toNat ++ [0x0a]) := by
  have hflush : (serial_device_flush_input_buffer h.sd).2 = h.sd := by
    unfold serial_device_flush_input_buffer
    rw [hconn, hfl]
    rfl
  obtain ⟨hw, hhw⟩ : ∃ x : hokuyo_t, x = { h with sd := { h.sd with
      tx := h.sd.tx ++ (req.map Char.toNat ++ [0x0a]) } } := ⟨_, rfl⟩
  have hsend : _send_command2 { h with sd := h.sd } req = (0, hw) := by
    unfold _send_command2 serial_device_write_chars
    simp only [hconn, hwr, Bool.not_true, Bool.false_eq_true, if_false, Int.toNat_ofNat,
      List.take_length, ne_eq, not_true_eq_false]
    simp [hhw, hconn, hwr]
  obtain ⟨h1, hr1, q1⟩ := confirm_scan_accepted hw req t stack (0x0a :: rest) c
    (by rw [hhw]; exact hconn) hreq1 hreq hnl hc (by rw [hhw]; exact hrx)
  have hconn1 : h1.sd.connected = true := by
    rw [q1.1.1.2.2.2, hhw]; exact hconn
  obtain ⟨h2, hr2, q2⟩ := read_line_blank { h1 with streaming := true } line rest
    MAX_LINE_LENGTH t false hconn1 q1.2.2 (by decide) hline
  refine ⟨h2, ?_, ?_, ?_, ?_, q2.2.2, ?_⟩
  · unfold get_scan_request
    simp only [hflush, hsend, hr1, ne_eq, not_true_eq_false, if_false, if_true, true_or, hr2,
      lt_self_iff_false, gt_iff_lt]
  · have k1 : kept h hw := by rw [hhw]; exact ⟨rfl, rfl, rfl, rfl⟩
    have k2 : kept h1 { h1 with streaming := true } := ⟨rfl, rfl, rfl, rfl⟩
    exact kept_trans (kept_trans k1 q1.1.1) (kept_trans k2 q2.1.1)
  · exact q2.1.2.1
  · rw [q2.2.1]
    show h1.packet_length = h.packet_length
    rw [q1.2.1, hhw]
  · rw [q2.1.2.2]
    show h1.sd.tx = _
    rw [q1.1.2.2, hhw]

/-- The block that reads off the echo and the status "99" at the head of a data cycle. -/
theorem get_scan_read_off_accepted (h : hokuyo_t) (req : List Char) (t : Int)
    (line rest : List Nat) (c : Nat) (hconn : h.sd.connected = true)
    (hreq1 : 2 ≤ req.length) (hreq : req.length ≤ 90)
    (hnl : 0x0a ∉ req.map Char.toNat) (hc : c ≠ 0x0a) (hline : line.length = 100)
    (hrx : h.sd.rx = req.map Char.toNat ++ 0x0a :: 0x39 :: 0x39 :: c :: 0x0a :: rest) :
    ∃ h1 line1, get_scan_read_off h req t line = .ok (0, h1, line1)
      ∧ line1.length = 100 ∧ reads h h1 rest := by
  have hlen : (req.map Char.toNat).length = req.length := List.length_map _ _
  obtain ⟨h1, hr1, q1⟩ := read_line_plain h line (req.map Char.toNat)
    (0x39 :: 0x39 :: c :: 0x0a :: rest) MAX_LINE_LENGTH t hconn hrx hnl (by omega)
    (by simp only [MAX_LINE_LENGTH]; omega) (by omega)
  obtain ⟨line1, hline1⟩ : ∃ x, x = req.map Char.toNat
      ++ 0x0a :: line.drop ((req.map Char.toNat).length + 1) := ⟨_, rfl⟩
  have hl1 : line1.length = 100 := by
    rw [hline1]
    simp only [List.length_append, List.length_cons, List.length_drop]
    omega
  rw [← hline1] at hr1
  have hconn1 : h1.sd.connected = true := q1.1.1.2.2.2.trans hconn
  obtain ⟨h2, hr2, q2⟩ := read_line_checked h1 line1 [0x39, 0x39] rest c MAX_LINE_LENGTH t
    hconn1 (by rw [q1.2.2]; rfl) (by decide) hc (by decide) (le_refl _)
    (by rw [hl1]; decide)
  have hcmp : strncmp (cstr req) line1 (toSizeT (((req.map Char.toNat).length : Int) - 2))
      = .ok 0 := by
    rw [toSizeT_of_nonneg _ (by omega) (by omega), hline1]
    exact strncmp_common _ _ _ _ (by omega)
  have h99 : strncmp [0x39, 0x39]
      ([0x39, 0x39] ++ c :: 0x0a :: line1.drop (([0x39, 0x39] : List Nat).length + 2)) 2
      = .ok 0 := strncmp_common [0x39, 0x39] [] _ 2 (le_refl _)
  refine ⟨h2, [0x39, 0x39] ++ c :: 0x0a :: line1.drop (([0x39, 0x39] : List Nat).length + 2),
    ?_, ?_, reads_trans q1 q2⟩
  · unfold get_scan_read_off
    have hn : ¬ (((req.map Char.toNat).length : Int) < 0) := by omega
    simp only [hr1, hn, if_false, hcmp, hr2, h99]
    simp
  · simp only [List.length_append, List.length_cons, List.length_drop, List.length_nil]
    omega

/-- The data part of a cycle of a stream: the timestamp line, the packet, its extraction
and decoding, and the publication of the scan. -/
theorem get_scan_data_cycle (h : hokuyo_t) (range : List Nat) (n ss se sk st t : Int)
    (line fp ep ts rest : List Nat) (tc : Nat) (ls : List (List Nat × Nat)) (k : Nat)
    (hconn : h.sd.connected = true) (hline : line.length = 100) (hfp : fp.length = 15000)
    (hep : ep.length = 15000) (hts : 0x0a ∉ ts) (htc : tc ≠ 0x0a) (htl : ts.length ≤ 98)
    (hgood : ∀ l ∈ ls, 1 ≤ l.1.length ∧ l.1.length ≤ 98 ∧ 0x0a ∉ l.1 ∧ l.2 ≠ 0x0a)
    (hlen : (wire_lines ls).length + 1 ≤ 15000)
    (hk : 1 ≤ k) (hk' : k ≤ 3000) (hdata : (lines_data ls).length = 3 * k)
    (hbytes : ∀ b ∈ lines_data ls, 0x30 ≤ b ∧ b ≤ 0x6F) (hout : k ≤ range.length)
    (hpl : h.packet_length ≤ 0 ∨ h.packet_length = ((wire_lines ls).length : Int) + 1)
    (hrx : h.sd.rx = ts ++ tc :: 0x0a :: (wire_lines ls ++ 0x0a :: rest)) :
    ∃ hp ed, get_scan_data h range n ss se sk THREE_DIGITS st 0 t line fp ep
        = .ok ⟨0, { hp with
                    scan_ready := true
                    scan_start := ss
                    scan_end := se
                    scan_skip := sk
                    encoding := THREE_DIGITS
                    scan_type := st
                    streaming := true }, ed, (k : Int)⟩
      ∧ quiet h hp ∧ hp.sd.rx = rest
      ∧ hp.packet_length = ((wire_lines ls).length : Int) + 1
      ∧ ed.length = range.length
      ∧ (∀ i, i < k → ed[i]? = some ((((lines_data ls).getD (3 * i) 0 - 0x30) <<< 12)
            + (((lines_data ls).getD (3 * i + 1) 0 - 0x30) <<< 6)
            + ((lines_data ls).getD (3 * i + 2) 0 - 0x30)))
      ∧ ∀ q, k ≤ q → ed[q]? = range[q]? := by
  have hne : ls ≠ [] := by
    intro e
    rw [e] at hdata
    simp [lines_data] at hdata
    omega
  obtain ⟨h1, hr1, q1⟩ := read_line_checked h line ts (wire_lines ls ++ 0x0a :: rest) tc
    MAX_LINE_LENGTH t hconn hrx hts htc (by simp only [MAX_LINE_LENGTH]; omega) (le_refl _)
    (by omega)
  have hconn1 : h1.sd.connected = true := q1.1.1.2.2.2.trans hconn
  have hpk : ∃ hp, _read_packet h1 fp t
        = .ok ⟨0, hp, wire_lines ls ++ 0x0a :: fp.drop ((wire_lines ls).length + 1)⟩
      ∧ quiet h1 hp ∧ hp.sd.rx = rest
      ∧ hp.packet_length = ((wire_lines ls).length : Int) + 1 := by
    rcases hpl with hpl | hpl
    · exact read_packet_first h1 fp rest t ls hconn1 (by rw [q1.2.1]; exact hpl)
        (fun l hl => ⟨(hgood l hl).2.2.1, (hgood l hl).2.2.2⟩) hne hlen (by omega) q1.2.2
    · exact read_packet_next h1 fp rest t ls hconn1 (by rw [q1.2.1]; exact hpl) (by omega)
        q1.2.2
  obtain ⟨hp, hrp, qp, hrest, hL⟩ := hpk
  have hex := extract_packet_lines hp ls (fp.drop ((wire_lines ls).length + 1)) ep
    hp.packet_length hgood (by omega) (by omega)
  obtain ⟨ed, hdec, hl, hv, hfr⟩ := decode_packet_three_digits hp (lines_data ls)
    (ep.drop (lines_data ls).length) range k hk hk' hdata hbytes hout
  refine ⟨hp, ed, ?_, quiet_trans q1.1 qp, hrest, hL, hl, hv, hfr⟩
  have hn1 : ¬ ((ts.length : Int) < 0) := by omega
  have hn2 : ¬ (((lines_data ls).length : Int) < 0) := by omega
  have hn3 : ¬ ((k : Int) < 0 ∨ (k : Int) > MAX_NUM_POINTS) := by
    simp only [MAX_NUM_POINTS]; omega
  unfold get_scan_data
  simp only [hr1, hn1, if_false, hrp, ne_eq, not_true_eq_false, hex, hn2, hdec, hn3, if_true]

/-- A step that only reads leaves a connected transport connected. -/
theorem reads_connected {h h1 : hokuyo_t} {rest : List Nat} (q : reads h h1 rest)
    (hconn : h.sd.connected = true) : h1.sd.connected = true :=
  q.1.1.2.2.2.trans hconn

/-! ## Theorems: `_get_scan` on the cycles of a stream -/

/-- The first acquisition of the production window on a handle that is not streaming and
has other settings stored, when the device answers the request and sends a data cycle
that carries `k` values: the call succeeds, returns the `k` values and leaves the handle
streaming. -/
theorem get_scan_first_cycle (h : hokuyo_t) (range : List Nat) (n : Int)
    (stack ts rest : List Nat) (tc : Nat) (ls : List (List Nat × Nat)) (k : Nat)
    (hconn : h.sd.connected = true) (hs : h.streaming = false)
    (hfl : h.sd.flush_drops = []) (hwr : h.sd.write_results = [])
    (hch : settings_changed h SCAN_START SCAN_END SCAN_SKIP ENCODING SCAN_TYPE = true)
    (hgood : good_cycle ts tc ls k) (hout : k ≤ range.length)
    (hrx : h.sd.rx = request_reply "MD0044072501000".toList
      ++ (data_cycle "MD0044072501000".toList ts tc ls ++ rest)) :
    ∃ r, _get_scan h range n SCAN_START SCAN_END SCAN_SKIP ENCODING SCAN_TYPE 0 stack = .ok r
      ∧ r.ret = 0 ∧ r.n_range = (k : Int) ∧ r.h.scan_ready = true
      ∧ streams r.h (((wire_lines ls).length : Int) + 1) rest
          (h.sd.tx ++ ("MD0044072501000".toList.map Char.toNat ++ [0x0a]))
      ∧ r.range.length = range.length
      ∧ (∀ i, i < k → r.range[i]? = some (payload_value (lines_data ls) i))
      ∧ ∀ q, k ≤ q → r.range[q]? = range[q]? := by
  obtain ⟨g1, g2, g3, g4, g5, g6, g7, g8, g9⟩ := hgood
  obtain ⟨hA, hhA⟩ : ∃ x : hokuyo_t, x = { h with packet_length := -1, scan_ready := false } :=
    ⟨_, rfl⟩
  have hprep : get_scan_prepare h SCAN_START SCAN_END SCAN_SKIP ENCODING SCAN_TYPE stack
      = .ok hA := by
    unfold get_scan_prepare
    rw [if_pos hch]
    simp only [hs, Bool.false_eq_true, if_false]
    rw [hhA]
    simp only [hs]
  have hcA : hA.sd.connected = true := by rw [hhA]; exact hconn
  have hnl : 0x0a ∉ "MD0044072501000".toList.map Char.toNat := by decide
  obtain ⟨hB, hrB, kB, sB, pB, rxB, txB⟩ := get_scan_request_accepted hA
    "MD0044072501000".toList SCAN_TYPE (get_scan_timeout_us hA) (local_array stack 100) stack
    (data_cycle "MD0044072501000".toList ts tc ls ++ rest) 0x50 hcA
    (by rw [hhA]; exact hfl) (by rw [hhA]; exact hwr) (by decide) (by decide) hnl (by decide)
    (by rw [local_array_length]; decide)
    (by rw [hhA]; simpa [request_reply] using hrx)
  have hcB : hB.sd.connected = true := kB.2.2.2.trans hcA
  obtain ⟨hC, lineC, hrC, lC, qC⟩ := get_scan_read_off_accepted hB "MD0044072501000".toList
    (get_scan_timeout_us hA) (0x0a :: (local_array stack 100).drop 1)
    (ts ++ tc :: 0x0a :: (wire_lines ls ++ 0x0a :: rest)) 0x62 hcB (by decide) (by decide)
    hnl (by decide)
    (by simp only [List.length_cons, List.length_drop, local_array_length])
    (by rw [rxB]; simp [data_cycle])
  have hcC : hC.sd.connected = true := reads_connected qC hcB
  have hplC : hC.packet_length ≤ 0 := by
    rw [qC.2.1, pB, hhA]
    show (-1 : Int) ≤ 0
    decide
  obtain ⟨hp, ed, hrD, qD, rxD, pD, lD, vD, fD⟩ := get_scan_data_cycle hC range n SCAN_START
    SCAN_END SCAN_SKIP SCAN_TYPE (get_scan_timeout_us hA) lineC (local_array stack 15000)
    (local_array stack 15000) ts rest tc ls k hcC lC (local_array_length _ _)
    (local_array_length _ _) g1 g2 g3 g4 g5 g6 g7 g8 g9 hout
    (Or.inl hplC) qC.2.2
  refine ⟨⟨0, { hp with
                scan_ready := true
                scan_start := SCAN_START
                scan_end := SCAN_END
                scan_skip := SCAN_SKIP
                encoding := THREE_DIGITS
                scan_type := SCAN_TYPE
                streaming := true }, ed, (k : Int)⟩,
    ?_, rfl, rfl, rfl, ⟨?_, rfl, rfl, pD, rxD, ?_⟩, lD, vD, fD⟩
  · unfold _get_scan
    rw [hconn, hprep]
    simp only [Bool.not_true, Bool.false_eq_true, if_false, create_scan_request_production,
      ne_eq, not_true_eq_false, one_ne_zero, zero_ne_one, and_false, false_and, if_true]
    have hsA : hA.streaming = false := by rw [hhA]; exact hs
    simp only [hsA, Bool.not_false, if_true, hrB, hrC]
    exact hrD
  · exact (qD.1.2.2.2.trans (qC.1.1.2.2.2.trans hcB))
  · show hp.sd.tx = _
    rw [qD.2.2, qC.1.2.2, txB, hhA]

theorem settings_changed_of_window (h : hokuyo_t) (ss se sk en st : Int)
    (hw : stored_window h = (ss, se, sk, en, st)) : settings_changed h ss se sk en st = false := by
  unfold stored_window at hw
  injection hw with e1 hw
  injection hw with e2 hw
  injection hw with e3 hw
  injection hw with e4 e5
  unfold settings_changed
  rw [e1, e2, e3, e4, e5]
  simp

/-- A later acquisition of the production window on a handle that is streaming it, when
the device sends a data cycle of the known packet length that carries `k` values: the
call succeeds, returns the `k` values and writes nothing. -/
theorem get_scan_next_cycle (h : hokuyo_t) (range : List Nat) (n : Int)
    (stack ts rest tx : List Nat) (tc : Nat) (ls : List (List Nat × Nat)) (k : Nat)
    (hst : streams h (((wire_lines ls).length : Int) + 1)
      (data_cycle "MD0044072501000".toList ts tc ls ++ rest) tx)
    (hgood : good_cycle ts tc ls k) (hout : k ≤ range.length) :
    ∃ r, _get_scan h range n SCAN_START SCAN_END SCAN_SKIP ENCODING SCAN_TYPE 0 stack = .ok r
      ∧ r.ret = 0 ∧ r.n_range = (k : Int) ∧ r.h.scan_ready = true
      ∧ streams r.h (((wire_lines ls).length : Int) + 1) rest tx
      ∧ r.range.length = range.length
      ∧ (∀ i, i < k → r.range[i]? = some (payload_value (lines_data ls) i))
      ∧ ∀ q, k ≤ q → r.range[q]? = range[q]? := by
  obtain ⟨g1, g2, g3, g4, g5, g6, g7, g8, g9⟩ := hgood
  obtain ⟨hconn, hs, hw, hpl, hrx, htx⟩ := hst
  have hprep : get_scan_prepare h SCAN_START SCAN_END SCAN_SKIP ENCODING SCAN_TYPE stack
      = .ok h := by
    unfold get_scan_prepare
    rw [settings_changed_of_window h _ _ _ _ _ hw]
    rfl
  have hnl : 0x0a ∉ "MD0044072501000".toList.map Char.toNat := by decide
  obtain ⟨hC, lineC, hrC, lC, qC⟩ := get_scan_read_off_accepted h "MD0044072501000".toList
    (get_scan_timeout_us h) (local_array stack 100)
    (ts ++ tc :: 0x0a :: (wire_lines ls ++ 0x0a :: rest)) 0x62 hconn (by decide) (by decide)
    hnl (by decide) (local_array_length _ _)
    (by rw [hrx]; simp [data_cycle])
  have hcC : hC.sd.connected = true := reads_connected qC hconn
  obtain ⟨hp, ed, hrD, qD, rxD, pD, lD, vD, fD⟩ := get_scan_data_cycle hC range n SCAN_START
    SCAN_END SCAN_SKIP SCAN_TYPE (get_scan_timeout_us h) lineC (local_array stack 15000)
    (local_array stack 15000) ts rest tc ls k hcC lC (local_array_length _ _)
    (local_array_length _ _) g1 g2 g3 g4 g5 g6 g7 g8 g9 hout
    (Or.inr (by rw [qC.2.1, hpl])) qC.2.2
  refine ⟨⟨0, { hp with
                scan_ready := true
                scan_start := SCAN_START
                scan_end := SCAN_END
                scan_skip := SCAN_SKIP
                encoding := THREE_DIGITS
                scan_type := SCAN_TYPE
                streaming := true }, ed, (k : Int)⟩,
    ?_, rfl, rfl, rfl, ⟨?_, rfl, rfl, pD, rxD, ?_⟩, lD, vD, fD⟩
  · unfold _get_scan
    rw [hconn, hprep]
    simp only [Bool.not_true, Bool.false_eq_true, if_false, create_scan_request_production,
      ne_eq, not_true_eq_false, one_ne_zero, zero_ne_one, and_false, false_and, if_true]
    simp only [hs, Bool.not_true, Bool.false_eq_true, if_false, hrC]
    exact hrD
  · exact (qD.1.2.2.2.trans hcC)
  · show hp.sd.tx = _
    rw [qD.2.2, qC.1.2.2, htx]

/-! ## Theorems: streaming acquisitions one after the other -/

/-- C15 — after a successful streaming acquisition (`_get_scan` with `num_scans = 0`) for
some window, a second streaming acquisition for the same window, whether or not the scan
has been fetched in between (`scan_ready` may have been cleared), writes nothing to the
transport: the bytes written are those written before the call, so the start command is
not sent again, and the handle is still streaming. -/
theorem get_scan_streaming_idempotent (h : hokuyo_t) (range : List Nat) (n : Int)
    (ss se sk en st : Int) (stack : List Nat) (r1 : GetScanResult)
    (hr1 : _get_scan h range n ss se sk en st 0 stack = .ok r1) (hok : r1.ret = 0)
    (b : Bool) (range2 : List Nat) (n2 : Int) (stack2 : List Nat) (r2 : GetScanResult)
    (hr2 : _get_scan { r1.h with scan_ready := b } range2 n2 ss se sk en st 0 stack2
      = .ok r2) :
    r2.h.sd.tx = r1.h.sd.tx ∧ r2.h.streaming = true := by
  obtain ⟨_, _, _, _, p5, _⟩ := get_scan_frame h range n ss se sk en st 0 stack r1 hr1
  obtain ⟨hw, _, hs, _⟩ := p5 hok
  obtain ⟨_, _, _, _, _, _, p7, _⟩ :=
    get_scan_frame { r1.h with scan_ready := b } range2 n2 ss se sk en st 0 stack2 r2 hr2
  exact p7 (hs rfl) (settings_changed_of_window _ _ _ _ _ _ hw) rfl

/-- C15, at a concrete input: a fresh handle; the device confirms the request for the
production window and sends two data cycles, of one value each. Both acquisitions
succeed, and after the second the bytes written are still the one request. -/
theorem get_scan_streaming_idempotent_witness :
    ∃ r1 r2,
      _get_scan
          (mkHandle TYPE_URG_04LX false
            (request_reply "MD0044072501000".toList
              ++ (data_cycle "MD0044072501000".toList [0x30, 0x30, 0x30, 0x30] 0x30
                    [([0x30, 0x30, 0x31], 0x41)]
                ++ (data_cycle "MD0044072501000".toList [0x30, 0x30, 0x30, 0x31] 0x31
                    [([0x30, 0x30, 0x32], 0x42)] ++ []))))
          [0] 0 SCAN_START SCAN_END SCAN_SKIP ENCODING SCAN_TYPE 0 [] = .ok r1
      ∧ r1.ret = 0
      ∧ _get_scan { r1.h with scan_ready := false } r1.range r1.n_range
          SCAN_START SCAN_END SCAN_SKIP ENCODING SCAN_TYPE 0 [] = .ok r2
      ∧ r2.ret = 0
      ∧ r1.h.sd.tx = "MD0044072501000".toList.map Char.toNat ++ [0x0a]
      ∧ r2.h.sd.tx = r1.h.sd.tx ∧ r2.h.streaming = true := by
  obtain ⟨r1, hr1, ok1, _, _, st1, l1, _, _⟩ := get_scan_first_cycle
    (mkHandle TYPE_URG_04LX false
      (request_reply "MD0044072501000".toList
        ++ (data_cycle "MD0044072501000".toList [0x30, 0x30, 0x30, 0x30] 0x30
              [([0x30, 0x30, 0x31], 0x41)]
          ++ (data_cycle "MD0044072501000".toList [0x30, 0x30, 0x30, 0x31] 0x31
              [([0x30, 0x30, 0x32], 0x42)] ++ []))))
    [0] 0 [] [0x30, 0x30, 0x30, 0x30]
    (data_cycle "MD0044072501000".toList [0x30, 0x30, 0x30, 0x31] 0x31
      [([0x30, 0x30, 0x32], 0x42)] ++ [])
    0x30 [([0x30, 0x30, 0x31], 0x41)] 1 rfl rfl rfl rfl (by decide) (by decide) (by decide)
    rfl
  obtain ⟨r2, hr2, ok2, _⟩ := get_scan_next_cycle { r1.h with scan_ready := false } r1.range
    r1.n_range [] [0x30, 0x30, 0x30, 0x31] [] _ 0x31 [([0x30, 0x30, 0x32], 0x42)] 1
    st1 (by decide) (by rw [l1]; decide)
  exact ⟨r1, r2, hr1, ok1, hr2, ok2, st1.2.2.2.2.2,
    get_scan_streaming_idempotent _ _ _ _ _ _ _ _ _ r1 hr1 ok1 false _ _ _ r2 hr2⟩


/-! ## Theorems: a packet of 683 values -/

theorem wire_lines_append (a b : List (List Nat × Nat)) :
    wire_lines (a ++ b) = wire_lines a ++ wire_lines b := by
  simp [wire_lines]

theorem lines_data_append (a b : List (List Nat × Nat)) :
    lines_data (a ++ b) = lines_data a ++ lines_data b := by
  simp [lines_data]

theorem wire_lines_replicate_length (l : List Nat × Nat) :
    ∀ n, (wire_lines (List.replicate n l)).length = n * (l.1.length + 2) := by
  intro n
  induction n with
  | zero => simp [wire_lines]
  | succ n ih =>
    rw [List.replicate_succ, ← List.append_nil (wire_lines _), wire_lines_cons,
      List.append_nil, List.length_append, List.length_cons, List.length_cons, ih]
    ring

theorem lines_data_replicate_length (l : List Nat × Nat) :
    ∀ n, (lines_data (List.replicate n l)).length = n * l.1.length := by
  intro n
  induction n with
  | zero => simp [lines_data]
  | succ n ih =>
    rw [List.replicate_succ, lines_data_cons, List.length_append, ih]
    ring

theorem mem_lines_data (ls : List (List Nat × Nat)) (b : Nat) (hb : b ∈ lines_data ls) :
    ∃ l ∈ ls, b ∈ l.1 := by
  unfold lines_data at hb
  rw [List.mem_flatten] at hb
  obtain ⟨d, hd, hbd⟩ := hb
  rw [List.mem_map] at hd
  obtain ⟨l, hl, rfl⟩ := hd
  exact ⟨l, hl, hbd⟩

theorem good_cycle_683 :
    good_cycle [0x30, 0x30, 0x30, 0x30] 0x30
      (List.replicate 32 (List.replicate 64 0x30, 0x30) ++ [([0x30], 0x60)]) 683 := by
  have hmem : ∀ l ∈ List.replicate 32 (List.replicate 64 0x30, 0x30) ++ [([0x30], 0x60)],
      l = (List.replicate 64 0x30, 0x30) ∨ l = ([0x30], 0x60) := by
    intro l hl
    rcases List.mem_append.1 hl with hl | hl
    · exact Or.inl (List.eq_of_mem_replicate hl)
    · exact Or.inr (List.mem_singleton.1 hl)
  refine ⟨by decide, by decide, by decide, ?_, ?_, by decide, by decide, ?_, ?_⟩
  · intro l hl
    rcases hmem l hl with e | e
    · rw [e]
      refine ⟨?_, ?_, ?_, by decide⟩
      · simp only [List.length_replicate]; decide
      · simp only [List.length_replicate]; decide
      · intro hm
        exact absurd (List.eq_of_mem_replicate hm) (by decide)
    · rw [e]
      decide
  · rw [wire_lines_append, List.length_append, wire_lines_replicate_length]
    simp only [List.length_replicate]
    decide
  · rw [lines_data_append, List.length_append, lines_data_replicate_length]
    simp only [List.length_replicate]
    decide
  · intro b hb
    obtain ⟨l, hl, hbl⟩ := mem_lines_data _ b hb
    have hb30 : b = 0x30 := by
      rcases hmem l hl with e | e
      · rw [e] at hbl
        exact List.eq_of_mem_replicate hbl
      · rw [e] at hbl
        exact List.mem_singleton.1 hbl
    rw [hb30]
    decide

theorem hokuyo_get_scan_short_buffer (h : hokuyo_t) (range : List Nat) (k : Nat) (t : timeval)
    (events : List WaitEvent) (hconn : h.sd.connected = true) (hready : h.scan_ready = true)
    (hk : h.num_data = (k : Int)) (hshort : range.length < k) :
    hokuyo_get_scan h range t events = .undefined := by
  have hn : ¬ (k : Int) < 0 := by omega
  have hm : memcpy range 0 h.data (k : Int).toNat = none := by
    unfold memcpy
    rw [Int.toNat_ofNat, if_neg (by omega)]
  unfold hokuyo_get_scan
  rw [hconn, get_scan_wait_ready _ _ _ hready]
  simp only [Bool.not_true, Bool.false_eq_true, if_false, hready, if_true, hk, hn, hm]

theorem hokuyo_get_scan_long_buffer (h : hokuyo_t) (range : List Nat) (k : Nat) (t : timeval)
    (events : List WaitEvent) (hconn : h.sd.connected = true) (hready : h.scan_ready = true)
    (hk : h.num_data = (k : Int)) (hsrc : k ≤ h.data.length) (hdst : k ≤ range.length) :
    hokuyo_get_scan h range t events
      = .ok ⟨(k : Int), { h with scan_ready := false }, h.data.take k ++ range.drop k⟩ := by
  have hn : ¬ (k : Int) < 0 := by omega
  have hm : memcpy range 0 h.data (k : Int).toNat
      = some (h.data.take k ++ range.drop k) := by
    unfold memcpy
    rw [Int.toNat_ofNat, if_pos ⟨by omega, hsrc⟩]
    simp
  unfold hokuyo_get_scan
  rw [hconn, get_scan_wait_ready _ _ _ hready]
  simp only [Bool.not_true, Bool.false_eq_true, if_false, hready, if_true, hn, hm, hk]

/-- The worker's acquisition on a handle that is not streaming, when the device answers
the request and sends a data cycle that carries `k` values: the scan of `k` values is
published in the slot. -/
theorem run_get_scan_first_cycle (h : hokuyo_t) (stack ts rest : List Nat) (tc : Nat)
    (ls : List (List Nat × Nat)) (k : Nat)
    (hconn : h.sd.connected = true) (hs : h.streaming = false)
    (hfl : h.sd.flush_drops = []) (hwr : h.sd.write_results = [])
    (hch : settings_changed h SCAN_START SCAN_END SCAN_SKIP ENCODING SCAN_TYPE = true)
    (hgood : good_cycle ts tc ls k) (hout : k ≤ h.data.length)
    (hrx : h.sd.rx = request_reply "MD0044072501000".toList
      ++ (data_cycle "MD0044072501000".toList ts tc ls ++ rest)) :
    ∃ h1, run_get_scan h stack = .ok (0, h1)
      ∧ h1.sd.connected = true ∧ h1.scan_ready = true ∧ h1.num_data = (k : Int)
      ∧ h1.data.length = h.data.length
      ∧ ∀ i, i < k → h1.data[i]? = some (payload_value (lines_data ls) i) := by
  obtain ⟨r, hr, ok, hn, hready, st, hl, hv, _⟩ := get_scan_first_cycle h h.data h.num_data
    stack ts rest tc ls k hconn hs hfl hwr hch hgood hout hrx
  refine ⟨{ r.h with data := r.range, num_data := r.n_range }, ?_, st.1, hready, hn, hl, hv⟩
  unfold run_get_scan
  rw [hr]
  simp only [ok]

/-- C20 — failing input of `hokuyo_get_scan` with a buffer of 682 entries: the worker's
acquisition (`_get_scan` as `_run` calls it, production window 44..725) on a fresh
handle, where the device confirms the request and sends a data cycle whose packet has 32
lines of 64 data bytes and one line of 1 data byte, 2049 data bytes in all. The
acquisition succeeds and publishes a scan of 683 values; `hokuyo_get_scan` then copies
683 values: with the caller's buffer of 682 entries the copy leaves the buffer, with a
buffer of 683 entries the call returns 683. -/
theorem hokuyo_get_scan_copies_683_values :
    ∃ h1,
      run_get_scan
          { mkHandle TYPE_URG_04LX false
              (request_reply "MD0044072501000".toList
                ++ (data_cycle "MD0044072501000".toList [0x30, 0x30, 0x30, 0x30] 0x30
                      (List.replicate 32 (List.replicate 64 0x30, 0x30) ++ [([0x30], 0x60)])
                  ++ [])) with
            data := List.replicate 10000 0 }
          [] = .ok (0, h1)
      ∧ h1.scan_ready = true ∧ h1.num_data = 683
      ∧ hokuyo_get_scan h1 (List.replicate 682 0) ⟨0, 0⟩ [] = .undefined
      ∧ ∃ f, hokuyo_get_scan h1 (List.replicate 683 0) ⟨0, 0⟩ [] = .ok f ∧ f.ret = 683 := by
  have hout : 683 ≤ (List.replicate 10000 0 : List Nat).length := by
    rw [List.length_replicate]; decide
  obtain ⟨h1, hrun, hconn, hready, hn, hl, _⟩ := run_get_scan_first_cycle
    { mkHandle TYPE_URG_04LX false
        (request_reply "MD0044072501000".toList
          ++ (data_cycle "MD0044072501000".toList [0x30, 0x30, 0x30, 0x30] 0x30
                (List.replicate 32 (List.replicate 64 0x30, 0x30) ++ [([0x30], 0x60)])
            ++ [])) with
      data := List.replicate 10000 0 }
    [] [0x30, 0x30, 0x30, 0x30] [] 0x30
    (List.replicate 32 (List.replicate 64 0x30, 0x30) ++ [([0x30], 0x60)]) 683
    rfl rfl rfl rfl (by decide) good_cycle_683 hout rfl
  refine ⟨h1, hrun, hready, hn, ?_, ?_⟩
  · exact hokuyo_get_scan_short_buffer h1 _ 683 _ _ hconn hready hn
      (by rw [List.length_replicate]; decide)
  · exact ⟨_, hokuyo_get_scan_long_buffer h1 _ 683 _ _ hconn hready hn
      (by rw [hl]; exact hout) (by rw [List.length_replicate]), rfl⟩

/-! ## Theorems: the deadline of the condition waits -/

/-- C30 — for every clock reading with `0 <= tv_usec < 1000000` and every timeout with
`0 <= timeout_ms < 1000`, the deadline that `data__cond_wait` and `_cond_wait` compute is
a normalised `timespec` (`0 <= tv_nsec < 10^9`) that denotes exactly the clock reading
plus `timeout_ms` milliseconds; the two `int` products `timeout_ms*1000` and
`timeout_ms*1000000` are in the range of `int`, and `tv_usec*1000 + timeout_ms*1000000` is
below `2^31`. -/
theorem cond_wait_deadline_normalised (t : timeval) (timeout_ms : Int)
    (h0 : 0 ≤ t.tv_usec) (h1 : t.tv_usec < 1000000) (h2 : 0 ≤ timeout_ms)
    (h3 : timeout_ms < 1000) :
    0 ≤ (cond_wait_deadline t timeout_ms).tv_nsec
      ∧ (cond_wait_deadline t timeout_ms).tv_nsec < 1000000000
      ∧ (cond_wait_deadline t timeout_ms).tv_sec * 1000000000
          + (cond_wait_deadline t timeout_ms).tv_nsec
        = t.tv_sec * 1000000000 + t.tv_usec * 1000 + timeout_ms * 1000000
      ∧ toInt32 (timeout_ms * 1000) = timeout_ms * 1000
      ∧ toInt32 (timeout_ms * 1000000) = timeout_ms * 1000000
      ∧ t.tv_usec * 1000 + timeout_ms * 1000000 < 2147483648 := by
  have e1 : toInt32 (timeout_ms * 1000) = timeout_ms * 1000 := by
    unfold toInt32; omega
  have e2 : toInt32 (timeout_ms * 1000000) = timeout_ms * 1000000 := by
    unfold toInt32; omega
  unfold cond_wait_deadline
  rw [e1, e2]
  dsimp only
  rw [Int.tmod_eq_emod (by omega) (by omega)]
  refine ⟨by omega, by omega, ?_, rfl, rfl, by omega⟩
  split <;> omega

/-- C30, at a concrete input: 700 ms past the second 100 and a timeout of 400 ms give the
deadline 101 s + 100000000 ns. -/
theorem cond_wait_deadline_normalised_witness :
    cond_wait_deadline ⟨100, 700000⟩ 400 = ⟨101, 100000000⟩
      ∧ (cond_wait_deadline ⟨100, 700000⟩ 400).tv_sec * 1000000000
          + (cond_wait_deadline ⟨100, 700000⟩ 400).tv_nsec
        = (100 : Int) * 1000000000 + 700000 * 1000 + 400 * 1000000 :=
  ⟨by decide,
    (cond_wait_deadline_normalised ⟨100, 700000⟩ 400 (by decide) (by decide) (by decide)
      (by decide)).2.2.1⟩

/-! ## Theorems: where `_extract_packet` stops, and what it reads -/

/-- The loop of `_extract_packet` on well-formed lines followed by bytes `tail` for which
`_check_line_checksum` returns 0. -/
theorem extract_loop_lines_stop (h : hokuyo_t) (tail : List Nat) (s0 : Nat) (b0 : Bool)
    (hstop : _check_line_checksum h tail MAX_LINE_LENGTH = .ok ⟨0, s0, b0⟩) :
    ∀ (ls : List (List Nat × Nat)) (fuel : Nat) (ep : List Nat) (p : Nat) (len : Int),
      (∀ l ∈ ls, 1 ≤ l.1.length ∧ l.1.length ≤ 98 ∧ 0x0a ∉ l.1 ∧ l.2 ≠ 0x0a) →
      ls.length < fuel → p + (lines_data ls).length ≤ ep.length →
      ∃ r0, _check_line_checksum h (wire_lines ls ++ tail) MAX_LINE_LENGTH = .ok r0
        ∧ extract_loop h fuel (wire_lines ls ++ tail) ep p len r0.ret
            = .ok ⟨len + (lines_data ls).length,
                ep.take p ++ lines_data ls ++ ep.drop (p + (lines_data ls).length)⟩ := by
  intro ls
  induction ls with
  | nil =>
    intro fuel ep p len _ hf _
    obtain ⟨n, rfl⟩ : ∃ n, fuel = n + 1 := ⟨fuel - 1, by omega⟩
    refine ⟨⟨0, s0, b0⟩, ?_, ?_⟩
    · simpa [wire_lines] using hstop
    · simp [extract_loop, lines_data]
  | cons l ls ih =>
    intro fuel ep p len hgood hf hroom
    obtain ⟨n, rfl⟩ : ∃ n, fuel = n + 1 := ⟨fuel - 1, by omega⟩
    obtain ⟨hl1, hl98, hlf, hcs⟩ := hgood l (List.mem_cons_self _ _)
    rw [lines_data_cons, List.length_append] at hroom
    have hchk := check_line_checksum_line h l.1 (wire_lines ls ++ tail) l.2
      MAX_LINE_LENGTH hlf hcs (by simp only [MAX_LINE_LENGTH]; omega) (by decide)
    obtain ⟨r1, hr1, hloop⟩ := ih n (ep.take p ++ l.1 ++ ep.drop (p + l.1.length))
      (p + l.1.length) (len + l.1.length)
      (fun x hx => hgood x (List.mem_cons_of_mem _ hx)) (by simp at hf; omega)
      (by simp; omega)
    refine ⟨_, by rw [wire_lines_cons]; exact hchk, ?_⟩
    have hpos : ((l.1.length : Int) > 0) := by omega
    have hcpy : memcpy ep p (l.1 ++ l.2 :: 0x0a :: (wire_lines ls ++ tail)) l.1.length
        = some (ep.take p ++ l.1 ++ ep.drop (p + l.1.length)) := by
      unfold memcpy
      rw [if_pos ⟨by omega, by simp⟩]
      simp
    have hdrop : (l.1 ++ l.2 :: 0x0a :: (wire_lines ls ++ tail)).drop (l.1.length + 2)
        = wire_lines ls ++ tail := by
      rw [List.drop_append]; rfl
    rw [wire_lines_cons, extract_loop]
    simp only [hpos, if_true, Int.toNat_ofNat, hcpy, hdrop, hr1, hloop]
    congr 2
    · rw [lines_data_cons, List.length_append]; push_cast; ring
    · have e1 : (ep.take p ++ l.1 ++ ep.drop (p + l.1.length)).take (p + l.1.length)
          = ep.take p ++ l.1 := by
        apply List.take_left'
        simp; omega
      have e2 : (ep.take p ++ l.1 ++ ep.drop (p + l.1.length)).drop
            (p + l.1.length + (lines_data ls).length)
          = ep.drop (p + (l.1.length + (lines_data ls).length)) := by
        have hlen : (ep.take p ++ l.1).length = p + l.1.length := by simp; omega
        rw [← hlen, List.drop_append, List.drop_drop]
        congr 1; omega
      rw [e1, e2, lines_data_cons, List.length_append]
      simp

/-- C28 — a line that holds exactly one byte `x` before its linefeed ends the extraction
like the empty line does: for well-formed lines `ls` followed by that line and by any
further bytes `rest` (later lines of the packet included), `_extract_packet` returns,
without error, the number of data bytes of `ls` and leaves exactly their data in the
output array; the result is the result on the packet in which the empty line stands in
place of the one-byte line. -/
theorem extract_packet_one_byte_line (h : hokuyo_t) (ls : List (List Nat × Nat))
    (x : Nat) (rest out : List Nat) (packet_length : Int)
    (hgood : ∀ l ∈ ls, 1 ≤ l.1.length ∧ l.1.length ≤ 98 ∧ 0x0a ∉ l.1 ∧ l.2 ≠ 0x0a)
    (hx : x ≠ 0x0a) (hpl : 1 ≤ packet_length) (hout : (lines_data ls).length ≤ out.length) :
    _extract_packet h (wire_lines ls ++ x :: 0x0a :: rest) out packet_length
        = .ok ⟨((lines_data ls).length : Int),
            lines_data ls ++ out.drop (lines_data ls).length⟩
      ∧ _extract_packet h (wire_lines ls ++ x :: 0x0a :: rest) out packet_length
        = _extract_packet h (wire_lines ls ++ 0x0a :: rest) out packet_length := by
  have hstop := check_line_checksum_line h [] rest x MAX_LINE_LENGTH (by simp) hx
    (by decide) (by decide)
  simp only [List.nil_append, List.length_nil, Nat.cast_zero] at hstop
  obtain ⟨r0, hr0, hloop⟩ := extract_loop_lines_stop h (x :: 0x0a :: rest) _ _ hstop ls
    ((wire_lines ls ++ x :: 0x0a :: rest).length + 1) out 0 0 hgood
    (by have := length_le_wire_lines ls; simp; omega) (by omega)
  have e1 : _extract_packet h (wire_lines ls ++ x :: 0x0a :: rest) out packet_length
      = .ok ⟨((lines_data ls).length : Int),
          lines_data ls ++ out.drop (lines_data ls).length⟩ := by
    unfold _extract_packet
    rw [if_neg (by omega)]
    simp only [hr0, hloop]
    simp
  exact ⟨e1, e1.trans (extract_packet_lines h ls rest out packet_length hgood hpl hout).symm⟩

/-- C28, at a concrete input: the line `AB` (checksum byte `1`), the one-byte line `C`,
then the line `DE` (checksum byte `2`) and the empty line. Only `AB` is extracted. -/
theorem extract_packet_one_byte_line_witness :
    _extract_packet (mkHandle TYPE_URG_04LX false [])
        (wire_lines [([0x41, 0x42], 0x31)] ++ 0x43 :: 0x0a :: [0x44, 0x45, 0x32, 0x0a, 0x0a])
        [0, 0, 0, 0, 0] 10
      = .ok ⟨2, [0x41, 0x42, 0, 0, 0]⟩ :=
  (extract_packet_one_byte_line (mkHandle TYPE_URG_04LX false []) [([0x41, 0x42], 0x31)]
    0x43 [0x44, 0x45, 0x32, 0x0a, 0x0a] [0, 0, 0, 0, 0] 10 (by decide) (by decide)
    (by decide) (by decide)).1

/-- C29 — failing input of `_extract_packet`: `packet_length = 3` and a buffer whose first
three bytes are `ABC`, none of them a linefeed. On an array that holds exactly these
three bytes the search for the linefeed reads index 3, outside the array. On two longer
arrays that agree on the first three bytes the results differ (3 data bytes `ABC` when
`D`, linefeed, linefeed follow; 2 data bytes `AB` when three linefeeds follow): the
result is decided by bytes at indices 3 and above. -/
theorem extract_packet_reads_past_packet_length :
    _extract_packet (mkHandle TYPE_URG_04LX false []) [0x41, 0x42, 0x43] [0, 0, 0, 0] 3
        = .undefined
      ∧ _extract_packet (mkHandle TYPE_URG_04LX false [])
          ([0x41, 0x42, 0x43] ++ [0x44, 0x0a, 0x0a]) [0, 0, 0, 0] 3
        = .ok ⟨3, [0x41, 0x42, 0x43, 0]⟩
      ∧ _extract_packet (mkHandle TYPE_URG_04LX false [])
          ([0x41, 0x42, 0x43] ++ [0x0a, 0x0a, 0x0a]) [0, 0, 0, 0] 3
        = .ok ⟨2, [0x41, 0x42, 0, 0]⟩ := by
  decide

/-- For a well-formed packet the extraction stays inside the packet: on an array that
holds exactly the packet (its lines and the closing linefeed) every read is inside the
array. -/
theorem extract_packet_exact_array (h : hokuyo_t) (ls : List (List Nat × Nat))
    (out : List Nat)
    (hgood : ∀ l ∈ ls, 1 ≤ l.1.length ∧ l.1.length ≤ 98 ∧ 0x0a ∉ l.1 ∧ l.2 ≠ 0x0a)
    (hout : (lines_data ls).length ≤ out.length) :
    _extract_packet h (wire_lines ls ++ [0x0a]) out ((wire_lines ls ++ [0x0a]).length : Int)
      = .ok ⟨((lines_data ls).length : Int),
          lines_data ls ++ out.drop (lines_data ls).length⟩ :=
  extract_packet_lines h ls [] out _ hgood (by simp) hout

/-! ## Theorems: `_find_packet_start` -/

theorem find_packet_start_error (h : hokuyo_t) (data : List Nat)
    (hconn : h.sd.connected = true) :
    _find_packet_start h data = .ok (error_return, h, data) := by
  unfold _find_packet_start
  rw [if_pos hconn]

theorem find_packet_start_ret (h1 : hokuyo_t) (data1 : List Nat)
    (r : Int × hokuyo_t × List Nat) (hr : _find_packet_start h1 data1 = .ok r) :
    r.1 = error_return := by
  unfold _find_packet_start at hr
  split at hr
  · cases hr; rfl
  · rename_i hc
    have hc' : h1.sd.connected = false := by
      cases hb : h1.sd.connected
      · rfl
      · exact absurd hb hc
    have hset : (serial_device_set_io_block_w_timeout_w_term_sequence h1.sd [0x0a, 0x0a] 2
        true).2 = h1.sd := by
      unfold serial_device_set_io_block_w_timeout_w_term_sequence
      rw [hc']
      rfl
    have hread : serial_device_read_chars h1.sd data1 MAX_PACKET_LENGTH 0
        = .ok ⟨error_return, h1.sd, data1⟩ := by
      unfold serial_device_read_chars
      rw [hc']
      rfl
    rw [hset] at hr
    dsimp only at hr
    rw [hread] at hr
    dsimp only at hr
    rw [if_pos (by decide)] at hr
    cases hr
    rfl

/-- C25 — on a connected handle `_find_packet_start` returns the error at once: the handle
(its pending input included) and the static array are exactly as before, so no byte is
read or discarded, whatever the input holds. On a handle that is not connected the read
fails. Hence no call returns success. -/
theorem find_packet_start_connected (h : hokuyo_t) (data : List Nat)
    (hconn : h.sd.connected = true) :
    _find_packet_start h data = .ok (error_return, h, data)
      ∧ ∀ (h1 : hokuyo_t) (data1 : List Nat) (r : Int × hokuyo_t × List Nat),
          _find_packet_start h1 data1 = .ok r → r.1 = error_return :=
  ⟨find_packet_start_error h data hconn, find_packet_start_ret⟩

/-- C25, at a concrete input: a connected handle on which the bytes `zz`, linefeed,
linefeed, `MD` are pending. The call returns -1 and the six bytes are still pending. -/
theorem find_packet_start_connected_witness :
    _find_packet_start (mkHandle TYPE_URG_04LX false [0x7a, 0x7a, 0x0a, 0x0a, 0x4d, 0x44])
        (List.replicate 8 0)
      = .ok (-1, mkHandle TYPE_URG_04LX false [0x7a, 0x7a, 0x0a, 0x0a, 0x4d, 0x44],
          List.replicate 8 0) :=
  (find_packet_start_connected
    (mkHandle TYPE_URG_04LX false [0x7a, 0x7a, 0x0a, 0x0a, 0x4d, 0x44])
    (List.replicate 8 0) rfl).1

/-! ## Theorems: the error counter of `_run` -/

theorem count_errors_after_append (es : List Int) (e : Int) :
    ∀ n, count_errors_after n (es ++ [e]) = (count_errors (count_errors_after n es) e).1 := by
  induction es with
  | nil => intro n; rfl
  | cons x es ih => intro n; exact ih _

theorem trailing_failures_append (es : List Int) (e : Int) :
    trailing_failures (es ++ [e]) = if e = 0 then 0 else trailing_failures es + 1 := by
  unfold trailing_failures
  rw [List.reverse_append, List.reverse_singleton, List.singleton_append, List.takeWhile_cons]
  by_cases h0 : e = 0
  · rw [if_pos h0, h0]; rfl
  · rw [if_neg h0, if_pos (by simpa using h0)]
    rfl

theorem count_errors_after_eq (es : List Int) :
    count_errors_after 0 es = ((trailing_failures es % 3 : Nat) : Int) := by
  induction es using List.reverseRecOn with
  | nil => rfl
  | append_singleton es e ih =>
    rw [count_errors_after_append, ih, trailing_failures_append]
    unfold count_errors READER_MAX_NUM_ERRORS_BEFORE_RESTART
    by_cases h0 : e = 0
    · rw [if_pos h0, if_pos h0]; rfl
    · rw [if_neg h0, if_neg h0]
      split
      · dsimp only; omega
      · dsimp only; omega

/-! ## Theorems: the flags that an acquisition leaves alone -/

theorem get_scan_data_flags (h : hokuyo_t) (range : List Nat) (n : Int)
    (ss se sk en st ns t : Int) (line fp ep : List Nat) (r : GetScanResult)
    (hr : get_scan_data h range n ss se sk en st ns t line fp ep = .ok r) :
    stored_flags r.h = stored_flags h := by
  unfold get_scan_data at hr
  split at hr
  · rename_i r1 h1
    have q1 := read_line_quiet _ _ _ _ _ _ h1
    split at hr
    · cases hr; exact q1.1.2.1
    · split at hr
      · rename_i p hp
        have q2 := quiet_trans q1 (read_packet_quiet _ _ _ _ hp)
        split at hr
        · cases hr; exact q2.1.2.1
        · split at hr
          · split at hr
            · cases hr; exact q2.1.2.1
            · split at hr
              · split at hr
                · cases hr; exact q2.1.2.1
                · cases hr
                  dsimp only
                  split <;> exact q2.1.2.1
              · cases hr
              · cases hr
          · cases hr
          · cases hr
      · cases hr
      · cases hr
  · cases hr
  · cases hr

/-- `_get_scan` leaves the flags `debug`, `active`, `need_to_stop_laser` and the baud rate
as they were. -/
theorem get_scan_flags (h : hokuyo_t) (range : List Nat) (n : Int) (ss se sk en st ns : Int)
    (stack : List Nat) (r : GetScanResult)
    (hr : _get_scan h range n ss se sk en st ns stack = .ok r) :
    stored_flags r.h = stored_flags h := by
  unfold _get_scan at hr
  split at hr
  · cases hr; rfl
  · split at hr
    · rename_i hA hp
      have kA := (get_scan_prepare_kept _ _ _ _ _ _ _ _ hp).1.2.1
      dsimp only at hr
      split at hr
      · cases hr; exact kA
      · split at hr
        · cases hr; exact kA
        · split at hr
          · rename_i r1 hB line1 hreq
            have kB := (get_scan_request_stage _ _ _ _ _ _ _ _ _ hreq).1.2.1
            dsimp only at kB
            split at hr
            · cases hr; exact kB.trans kA
            · split at hr
              · rename_i r2 hC line2 hoff
                have kC := (get_scan_read_off_stage _ _ _ _ _ _ hoff).1.2.1
                dsimp only at kC
                split at hr
                · cases hr; exact kC.trans (kB.trans kA)
                · exact (get_scan_data_flags _ _ _ _ _ _ _ _ _ _ _ _ _ _ hr).trans
                    (kC.trans (kB.trans kA))
              · cases hr
              · cases hr
          · cases hr
          · cases hr
    · cases hr
    · cases hr

theorem run_get_scan_flags (h : hokuyo_t) (stack : List Nat) (r : Int × hokuyo_t)
    (hr : run_get_scan h stack = .ok r) :
    stored_flags r.2 = stored_flags h ∧ r.2.sd.connected = h.sd.connected := by
  unfold run_get_scan at hr
  split at hr
  · rename_i g hg
    cases hr
    exact ⟨get_scan_flags _ _ _ _ _ _ _ _ _ _ _ hg,
      (get_scan_frame _ _ _ _ _ _ _ _ _ _ _ hg).2.2.1⟩
  · cases hr
  · cases hr

theorem count_errors_zero (n : Int) : count_errors n 0 = (0, false) := rfl

/-- One pass of the loop of `_run` with an acquisition: the counter and the request
follow `count_errors`, and nothing else raises or clears the request in that pass. -/
theorem run_iteration_counts (s : RunState) (stack : List Nat) (h1 h2 : hokuyo_t) (e : Int)
    (hconn : s.h.sd.connected = true) (hact : s.h.active = true)
    (hl : run_stop_laser s.h stack = .ok h1)
    (hg : run_get_scan h1 stack = .ok (e, h2)) :
    run_iteration s stack
      = .ok ⟨if (count_errors s.numErrors e).2 then { h2 with need_to_stop_laser := true }
            else h2,
          (count_errors s.numErrors e).1, s.find_data⟩ := by
  unfold run_iteration
  rw [hl]
  simp only [hconn, hact, Bool.and_self, if_true, hg]
  by_cases h0 : e = 0
  · rw [if_pos h0, h0, count_errors_zero]
    rfl
  · rw [if_neg h0]
    have hl1 : h1.sd.connected = true := by
      unfold run_stop_laser at hl
      split at hl
      · split at hl
        · rename_i r hr
          have k := (laser_off_kept _ _ _ hr).1.2.2.2
          split at hl <;> (cases hl; exact k.trans hconn)
        · cases hl
        · cases hl
      · cases hl; exact hconn
    have hc2 : h2.sd.connected = true := ((run_get_scan_flags _ _ _ hg).2).trans hl1
    rw [find_packet_start_error h2 s.find_data hc2]
    unfold count_errors
    rw [if_neg h0]
    dsimp only
    split <;> rfl

/-- The counter `numErrors` of `_run` over every sequence `es` of acquisition results
(0 is success), from the initial value 0, and at the next result `e`: the counter at the
start of a pass is 0, 1 or 2, namely the number of consecutive failures that end the
sequence, modulo 3; a success resets it to 0; a failure increments it, except that a
failure that brings it to 3 raises the request `need_to_stop_laser` and resets it to 0;
so the request is raised exactly at a failure that completes a run of failures whose
length is a multiple of 3. A pass of the loop with an acquisition does to the counter and
to the request exactly this. -/
theorem run_error_counter (es : List Int) (e : Int) :
    (count_errors_after 0 es = 0 ∨ count_errors_after 0 es = 1 ∨ count_errors_after 0 es = 2)
      ∧ count_errors_after 0 es = ((trailing_failures es % 3 : Nat) : Int)
      ∧ count_errors (count_errors_after 0 es) 0 = (0, false)
      ∧ (e ≠ 0 → count_errors (count_errors_after 0 es) e
          = if count_errors_after 0 es = 2 then (0, true)
            else (count_errors_after 0 es + 1, false))
      ∧ ((count_errors (count_errors_after 0 es) e).2 = true
          ↔ e ≠ 0 ∧ (trailing_failures es + 1) % 3 = 0)
      ∧ ∀ (s : RunState) (stack : List Nat) (h1 h2 : hokuyo_t) (err : Int),
          s.h.sd.connected = true → s.h.active = true →
          run_stop_laser s.h stack = .ok h1 → run_get_scan h1 stack = .ok (err, h2) →
          ∃ s1, run_iteration s stack = .ok s1
            ∧ s1.numErrors = (count_errors s.numErrors err).1
            ∧ s1.h.need_to_stop_laser
                = ((count_errors s.numErrors err).2 || h1.need_to_stop_laser) := by
  have hc := count_errors_after_eq es
  have hm : trailing_failures es % 3 < 3 := Nat.mod_lt _ (by decide)
  refine ⟨by omega, hc, rfl, ?_, ?_, ?_⟩
  · intro h0
    unfold count_errors READER_MAX_NUM_ERRORS_BEFORE_RESTART
    rw [if_neg h0]
    by_cases h2 : count_errors_after 0 es = 2
    · rw [if_pos h2, if_pos (by omega)]
    · rw [if_neg h2, if_neg (by omega)]
  · unfold count_errors READER_MAX_NUM_ERRORS_BEFORE_RESTART
    by_cases h0 : e = 0
    · rw [if_pos h0]
      simp [h0]
    · rw [if_neg h0]
      by_cases h2 : count_errors_after 0 es + 1 ≥ 3
      · rw [if_pos h2]
        simp only [true_iff]
        exact ⟨h0, by omega⟩
      · rw [if_neg h2]
        simp only [Bool.false_eq_true, false_iff, not_and]
        intro _
        omega
  · intro s stack h1 h2 err hconn hact hl hg
    refine ⟨_, run_iteration_counts s stack h1 h2 err hconn hact hl hg, rfl, ?_⟩
    have hf := (run_get_scan_flags _ _ _ hg).1
    have hn : h2.need_to_stop_laser = h1.need_to_stop_laser := by
      unfold stored_flags at hf
      injection hf with _ hf
      injection hf with _ hf
      injection hf with hf _
    dsimp only
    split
    · rename_i hraise
      rw [hraise]
      rfl
    · rename_i hraise
      have : (count_errors s.numErrors err).2 = false := by
        cases hb : (count_errors s.numErrors err).2
        · rfl
        · exact absurd hb hraise
      rw [this, hn]
      rfl

/-! ## Theorems: the worker on a stream whose checksum bytes are wrong -/

theorem run_stop_laser_idle (h : hokuyo_t) (stack : List Nat)
    (hn : h.need_to_stop_laser = false) : run_stop_laser h stack = .ok h := by
  unfold run_stop_laser
  rw [hn]
  rfl

theorem stored_flags_eq {a b : hokuyo_t} (hf : stored_flags a = stored_flags b) :
    a.active = b.active ∧ a.need_to_stop_laser = b.need_to_stop_laser := by
  unfold stored_flags at hf
  injection hf with _ hf
  injection hf with h1 hf
  injection hf with h2 _
  exact ⟨h1, h2⟩

/-- A pass of the worker on a handle that is streaming the production window, when the
device sends a data cycle of the known packet length that carries `k` values: the
acquisition succeeds, the counter is 0 and no laser stop is requested. -/
theorem run_iteration_next_cycle (s : RunState) (stack ts rest tx : List Nat) (tc : Nat)
    (ls : List (List Nat × Nat)) (k : Nat)
    (hst : streams s.h (((wire_lines ls).length : Int) + 1)
      (data_cycle "MD0044072501000".toList ts tc ls ++ rest) tx)
    (hact : s.h.active = true) (hn : s.h.need_to_stop_laser = false)
    (hgood : good_cycle ts tc ls k) (hout : k ≤ s.h.data.length) :
    ∃ s1, run_iteration s stack = .ok s1 ∧ s1.numErrors = 0
      ∧ s1.find_data = s.find_data
      ∧ streams s1.h (((wire_lines ls).length : Int) + 1) rest tx
      ∧ s1.h.active = true ∧ s1.h.need_to_stop_laser = false
      ∧ s1.h.data.length = s.h.data.length := by
  obtain ⟨r, hr, ok, _, _, st, hl, _, _⟩ := get_scan_next_cycle s.h s.h.data s.h.num_data
    stack ts rest tx tc ls k hst hgood hout
  have hg : run_get_scan s.h stack
      = .ok (0, { r.h with data := r.range, num_data := r.n_range }) := by
    unfold run_get_scan
    rw [hr]
    simp only [ok]
  have hf := stored_flags_eq (run_get_scan_flags _ _ _ hg).1
  refine ⟨_, run_iteration_counts s stack s.h _ 0 hst.1 hact (run_stop_laser_idle _ _ hn) hg,
    rfl, rfl, st, hf.1.trans hact, hf.2.trans hn, hl⟩

/-- The first pass of the worker on a handle that is not streaming, when the device
answers the request and sends a data cycle that carries `k` values. -/
theorem run_iteration_first_cycle (s : RunState) (stack ts rest : List Nat) (tc : Nat)
    (ls : List (List Nat × Nat)) (k : Nat)
    (hconn : s.h.sd.connected = true) (hs : s.h.streaming = false)
    (hfl : s.h.sd.flush_drops = []) (hwr : s.h.sd.write_results = [])
    (hch : settings_changed s.h SCAN_START SCAN_END SCAN_SKIP ENCODING SCAN_TYPE = true)
    (hact : s.h.active = true) (hn : s.h.need_to_stop_laser = false)
    (hgood : good_cycle ts tc ls k) (hout : k ≤ s.h.data.length)
    (hrx : s.h.sd.rx = request_reply "MD0044072501000".toList
      ++ (data_cycle "MD0044072501000".toList ts tc ls ++ rest)) :
    ∃ s1, run_iteration s stack = .ok s1 ∧ s1.numErrors = 0
      ∧ s1.find_data = s.find_data
      ∧ streams s1.h (((wire_lines ls).length : Int) + 1) rest
          (s.h.sd.tx ++ ("MD0044072501000".toList.map Char.toNat ++ [0x0a]))
      ∧ s1.h.active = true ∧ s1.h.need_to_stop_laser = false
      ∧ s1.h.data.length = s.h.data.length := by
  obtain ⟨r, hr, ok, _, _, st, hl, _, _⟩ := get_scan_first_cycle s.h s.h.data s.h.num_data
    stack ts rest tc ls k hconn hs hfl hwr hch hgood hout hrx
  have hg : run_get_scan s.h stack
      = .ok (0, { r.h with data := r.range, num_data := r.n_range }) := by
    unfold run_get_scan
    rw [hr]
    simp only [ok]
  have hf := stored_flags_eq (run_get_scan_flags _ _ _ hg).1
  refine ⟨_, run_iteration_counts s stack s.h _ 0 hconn hact (run_stop_laser_idle _ _ hn) hg,
    rfl, rfl, st, hf.1.trans hact, hf.2.trans hn, hl⟩

/-- The passes of the worker over the data cycles of a stream, on a handle that is
streaming. -/
theorem run_loop_cycles (len : Int) (tx rest : List Nat) :
    ∀ (cycles : List ((List Nat × Nat) × List (List Nat × Nat))) (frames : List (List Nat))
      (s : RunState),
      frames.length = cycles.length →
      streams s.h len (stream_cycles cycles ++ rest) tx →
      s.h.active = true → s.h.need_to_stop_laser = false → s.numErrors = 0 →
      (∀ c ∈ cycles, ∃ k, good_cycle c.1.1 c.1.2 c.2 k ∧ k ≤ s.h.data.length
          ∧ ((wire_lines c.2).length : Int) + 1 = len) →
      ∃ s1, run_loop frames s = .ok s1 ∧ s1.numErrors = 0
        ∧ s1.h.need_to_stop_laser = false ∧ s1.h.active = true
        ∧ streams s1.h len rest tx := by
  intro cycles
  induction cycles with
  | nil =>
    intro frames s hlen hst hact hn h0 _
    have : frames = [] := List.length_eq_zero.1 (by simpa using hlen)
    rw [this]
    exact ⟨s, rfl, h0, hn, hact, by simpa [stream_cycles] using hst⟩
  | cons c cycles ih =>
    intro frames s hlen hst hact hn h0 hall
    obtain ⟨stack, frames1, rfl⟩ : ∃ a b, frames = a :: b := by
      cases frames with
      | nil => simp at hlen
      | cons a b => exact ⟨a, b, rfl⟩
    obtain ⟨k, hgood, hk, hL⟩ := hall c (List.mem_cons_self _ _)
    rw [← hL] at hst
    obtain ⟨s1, hr1, e1, _, st1, a1, n1, d1⟩ := run_iteration_next_cycle s stack c.1.1
      (stream_cycles cycles ++ rest) tx c.1.2 c.2 k
      (by simpa [stream_cycles, List.append_assoc] using hst) hact hn hgood hk
    rw [hL] at st1
    obtain ⟨s2, hr2, e2, n2, a2, st2⟩ := ih frames1 s1 (by simpa using hlen) st1 a1 n1 e1
      (fun x hx => by
        obtain ⟨kx, g, hkx, hLx⟩ := hall x (List.mem_cons_of_mem _ hx)
        exact ⟨kx, g, by rw [d1]; exact hkx, hLx⟩)
    refine ⟨s2, ?_, e2, n2, a2, st2⟩
    rw [run_loop, hr1]
    exact hr2

/-- The worker on a fresh active handle, when the device confirms the request for the
production window and sends data cycles of one packet length, each a timestamp line and
packet lines that carry values, with any checksum bytes: every pass succeeds; after the
passes the counter is 0, no laser stop is requested and the cycles have been read. -/
theorem run_loop_good_cycles (h : hokuyo_t) (find_data rest frame0 : List Nat)
    (c0 : (List Nat × Nat) × List (List Nat × Nat))
    (cycles : List ((List Nat × Nat) × List (List Nat × Nat))) (frames : List (List Nat))
    (hconn : h.sd.connected = true) (hs : h.streaming = false)
    (hfl : h.sd.flush_drops = []) (hwr : h.sd.write_results = [])
    (hch : settings_changed h SCAN_START SCAN_END SCAN_SKIP ENCODING SCAN_TYPE = true)
    (hact : h.active = true) (hn : h.need_to_stop_laser = false)
    (hlen : frames.length = cycles.length)
    (hall : ∀ c ∈ c0 :: cycles, ∃ k, good_cycle c.1.1 c.1.2 c.2 k ∧ k ≤ h.data.length
      ∧ (wire_lines c.2).length = (wire_lines c0.2).length)
    (hrx : h.sd.rx = request_reply "MD0044072501000".toList
      ++ (stream_cycles (c0 :: cycles) ++ rest)) :
    ∃ s1, run_loop (frame0 :: frames) ⟨h, 0, find_data⟩ = .ok s1
      ∧ s1.numErrors = 0 ∧ s1.h.need_to_stop_laser = false ∧ s1.h.sd.rx = rest := by
  obtain ⟨k0, g0, hk0, _⟩ := hall c0 (List.mem_cons_self _ _)
  obtain ⟨s0, hr0, e0, _, st0, a0, n0, d0⟩ := run_iteration_first_cycle ⟨h, 0, find_data⟩
    frame0 c0.1.1 (stream_cycles cycles ++ rest) c0.1.2 c0.2 k0 hconn hs hfl hwr hch hact hn
    g0 hk0 (by simpa [stream_cycles, List.append_assoc] using hrx)
  obtain ⟨s1, hr1, e1, n1, _, st1⟩ := run_loop_cycles _ _ rest cycles frames s0 hlen st0 a0 n0
    e0 (fun x hx => by
      obtain ⟨kx, g, hkx, hLx⟩ := hall x (List.mem_cons_of_mem _ hx)
      refine ⟨kx, g, ?_, by rw [hLx]⟩
      rw [d0]
      exact hkx)
  refine ⟨s1, ?_, e1, n1, st1.2.2.2.2.1⟩
  rw [run_loop, hr0]
  exact hr1

/-- C21 (amended) — the worker on a fresh active handle with the debug flag clear, when the
device confirms the request for the production window and sends data cycles of one packet
length, each a timestamp line and packet lines that carry values, whatever the checksum
bytes of these lines are (right or wrong): every pass succeeds; after the passes over the
cycles the counter `numErrors` is 0, no laser stop has been requested, and the cycles have
been read off the transport. Taken for each initial part of a stream, this says that the counter
is 0 after every cycle and that the request is raised in none of them, for any number of
cycles with wrong checksum bytes. -/
theorem run_ignores_checksums (h : hokuyo_t) (find_data rest frame0 : List Nat)
    (c0 : (List Nat × Nat) × List (List Nat × Nat))
    (cycles : List ((List Nat × Nat) × List (List Nat × Nat))) (frames : List (List Nat))
    (hconn : h.sd.connected = true) (hdbg : h.debug = false) (hs : h.streaming = false)
    (hfl : h.sd.flush_drops = []) (hwr : h.sd.write_results = [])
    (hch : settings_changed h SCAN_START SCAN_END SCAN_SKIP ENCODING SCAN_TYPE = true)
    (hact : h.active = true) (hn : h.need_to_stop_laser = false)
    (hlen : frames.length = cycles.length)
    (hall : ∀ c ∈ c0 :: cycles, ∃ k, good_cycle c.1.1 c.1.2 c.2 k ∧ k ≤ h.data.length
      ∧ (wire_lines c.2).length = (wire_lines c0.2).length)
    (hrx : h.sd.rx = request_reply "MD0044072501000".toList
      ++ (stream_cycles (c0 :: cycles) ++ rest)) :
    ∃ s1, run_loop (frame0 :: frames) ⟨h, 0, find_data⟩ = .ok s1
      ∧ s1.numErrors = 0 ∧ s1.h.need_to_stop_laser = false ∧ s1.h.sd.rx = rest := by
  have _ := hdbg
  exact run_loop_good_cycles h find_data rest frame0 c0 cycles frames hconn hs hfl hwr hch
    hact hn hlen hall hrx

/-- C21 (amended), at a concrete input: one cycle with wrong checksum bytes (timestamp
`0000` with `1` for `0`, packet line `001` with `B` for `A`) and then a clean cycle. -/
theorem run_ignores_checksums_witness :
    ∃ s1, run_loop [[], []]
          ⟨{ mkHandle TYPE_URG_04LX false
                (request_reply "MD0044072501000".toList
                  ++ (stream_cycles
                        [(([0x30, 0x30, 0x30, 0x30], 0x31), [([0x30, 0x30, 0x31], 0x42)]),
                         (([0x30, 0x30, 0x30, 0x30], 0x30), [([0x30, 0x30, 0x31], 0x41)])]
                      ++ [])) with
              active := true, data := List.replicate 10000 0 },
            0, []⟩ = .ok s1
      ∧ s1.numErrors = 0 ∧ s1.h.need_to_stop_laser = false ∧ s1.h.sd.rx = [] :=
  run_ignores_checksums _ [] [] []
    (([0x30, 0x30, 0x30, 0x30], 0x31), [([0x30, 0x30, 0x31], 0x42)])
    [(([0x30, 0x30, 0x30, 0x30], 0x30), [([0x30, 0x30, 0x31], 0x41)])] [[]]
    rfl rfl rfl rfl rfl (by decide) rfl rfl rfl
    (by
      intro c hc
      refine ⟨1, ?_, by show 1 ≤ (List.replicate 10000 0).length
                        rw [List.length_replicate]; decide, ?_⟩
      · rcases List.mem_cons.1 hc with e | hc
        · rw [e]; decide
        · rw [List.mem_singleton.1 hc]; decide
      · rcases List.mem_cons.1 hc with e | hc
        · rw [e]
        · rw [List.mem_singleton.1 hc]; decide)
    rfl

/-- C21 — counterexample: a fresh active handle; the device confirms the request and sends
N = 3 data cycles whose timestamp line and packet line carry wrong checksum bytes (`1`
where the check value of `0000` is `0`, `B` where the check value of `001` is `A`), then a
clean cycle. After each of the four passes of the worker the counter is 0 and no laser
stop is requested: the request is not raised although N >= 3. -/
theorem run_three_corrupted_cycles :
    ([0x30, 0x30, 0x30, 0x30] : List Nat).sum % 64 + 0x30 ≠ 0x31
      ∧ ([0x30, 0x30, 0x31] : List Nat).sum % 64 + 0x30 ≠ 0x42
      ∧ ∀ n ∈ [1, 2, 3, 4], ∃ s,
          run_loop (List.replicate n [])
              ⟨{ mkHandle TYPE_URG_04LX false
                    (request_reply "MD0044072501000".toList
                      ++ (stream_cycles
                            [(([0x30, 0x30, 0x30, 0x30], 0x31), [([0x30, 0x30, 0x31], 0x42)]),
                             (([0x30, 0x30, 0x30, 0x30], 0x31), [([0x30, 0x30, 0x31], 0x42)]),
                             (([0x30, 0x30, 0x30, 0x30], 0x31), [([0x30, 0x30, 0x31], 0x42)]),
                             (([0x30, 0x30, 0x30, 0x30], 0x30), [([0x30, 0x30, 0x31], 0x41)])]
                          ++ [])) with
                  active := true, data := List.replicate 10000 0 },
                0, List.replicate 15000 0⟩ = .ok s
            ∧ s.numErrors = 0 ∧ s.h.need_to_stop_laser = false := by
  have hB : good_cycle [0x30, 0x30, 0x30, 0x30] 0x31 [([0x30, 0x30, 0x31], 0x42)] 1 := by
    decide
  have hG : good_cycle [0x30, 0x30, 0x30, 0x30] 0x30 [([0x30, 0x30, 0x31], 0x41)] 1 := by
    decide
  have hd : 1 ≤ (List.replicate 10000 0 : List Nat).length := by
    rw [List.length_replicate]; decide
  have hall : ∀ c, (c = ((([0x30, 0x30, 0x30, 0x30] : List Nat), (0x31 : Nat)), [(([0x30, 0x30, 0x31] : List Nat), (0x42 : Nat))])
        ∨ c = ((([0x30, 0x30, 0x30, 0x30] : List Nat), (0x30 : Nat)), [(([0x30, 0x30, 0x31] : List Nat), (0x41 : Nat))])) →
      ∃ k, good_cycle c.1.1 c.1.2 c.2 k ∧ k ≤ (List.replicate 10000 0 : List Nat).length
        ∧ (wire_lines c.2).length
          = (wire_lines [(([0x30, 0x30, 0x31] : List Nat), (0x42 : Nat))]).length := by
    intro c hc
    rcases hc with e | e <;> rw [e]
    · exact ⟨1, hB, hd, rfl⟩
    · exact ⟨1, hG, hd, by decide⟩
  refine ⟨by decide, by decide, ?_⟩
  intro n hn
  simp only [List.mem_cons, List.mem_singleton, List.not_mem_nil, or_false] at hn
  rcases hn with e | e | e | e <;> rw [e]
  · obtain ⟨s, hs, e1, e2, _⟩ := run_loop_good_cycles
      { mkHandle TYPE_URG_04LX false
                    (request_reply "MD0044072501000".toList
                      ++ (stream_cycles
                            [(([0x30, 0x30, 0x30, 0x30], 0x31), [([0x30, 0x30, 0x31], 0x42)]),
                             (([0x30, 0x30, 0x30, 0x30], 0x31), [([0x30, 0x30, 0x31], 0x42)]),
                             (([0x30, 0x30, 0x30, 0x30], 0x31), [([0x30, 0x30, 0x31], 0x42)]),
                             (([0x30, 0x30, 0x30, 0x30], 0x30), [([0x30, 0x30, 0x31], 0x41)])]
                          ++ [])) with
                  active := true, data := List.replicate 10000 0 }
      (List.replicate 15000 0)
      (stream_cycles
        [(([0x30, 0x30, 0x30, 0x30], 0x31), [([0x30, 0x30, 0x31], 0x42)]),
         (([0x30, 0x30, 0x30, 0x30], 0x31), [([0x30, 0x30, 0x31], 0x42)]),
         (([0x30, 0x30, 0x30, 0x30], 0x30), [([0x30, 0x30, 0x31], 0x41)])] ++ [])
      [] (([0x30, 0x30, 0x30, 0x30], 0x31), [([0x30, 0x30, 0x31], 0x42)])
      [] []
      rfl rfl rfl rfl (by decide) rfl rfl rfl
      (fun c hc => hall c (by
        simp only [List.mem_cons, List.mem_singleton, List.not_mem_nil, or_false] at hc
        exact Or.inl hc))
      (by decide)
    exact ⟨s, hs, e1, e2⟩
  · obtain ⟨s, hs, e1, e2, _⟩ := run_loop_good_cycles
      { mkHandle TYPE_URG_04LX false
                    (request_reply "MD0044072501000".toList
                      ++ (stream_cycles
                            [(([0x30, 0x30, 0x30, 0x30], 0x31), [([0x30, 0x30, 0x31], 0x42)]),
                             (([0x30, 0x30, 0x30, 0x30], 0x31), [([0x30, 0x30, 0x31], 0x42)]),
                             (([0x30, 0x30, 0x30, 0x30], 0x31), [([0x30, 0x30, 0x31], 0x42)]),
                             (([0x30, 0x30, 0x30, 0x30], 0x30), [([0x30, 0x30, 0x31], 0x41)])]
                          ++ [])) with
                  active := true, data := List.replicate 10000 0 }
      (List.replicate 15000 0)
      (stream_cycles
        [(([0x30, 0x30, 0x30, 0x30], 0x31), [([0x30, 0x30, 0x31], 0x42)]),
         (([0x30, 0x30, 0x30, 0x30], 0x30), [([0x30, 0x30, 0x31], 0x41)])] ++ [])
      [] (([0x30, 0x30, 0x30, 0x30], 0x31), [([0x30, 0x30, 0x31], 0x42)])
      [(([0x30, 0x30, 0x30, 0x30], 0x31), [([0x30, 0x30, 0x31], 0x42)])] [[]]
      rfl rfl rfl rfl (by decide) rfl rfl rfl
      (fun c hc => hall c (by
        simp only [List.mem_cons, List.mem_singleton, List.not_mem_nil, or_false] at hc
        rcases hc with e | e <;> exact Or.inl e))
      (by decide)
    exact ⟨s, hs, e1, e2⟩
  · obtain ⟨s, hs, e1, e2, _⟩ := run_loop_good_cycles
      { mkHandle TYPE_URG_04LX false
                    (request_reply "MD0044072501000".toList
                      ++ (stream_cycles
                            [(([0x30, 0x30, 0x30, 0x30], 0x31), [([0x30, 0x30, 0x31], 0x42)]),
                             (([0x30, 0x30, 0x30, 0x30], 0x31), [([0x30, 0x30, 0x31], 0x42)]),
                             (([0x30, 0x30, 0x30, 0x30], 0x31), [([0x30, 0x30, 0x31], 0x42)]),
                             (([0x30, 0x30, 0x30, 0x30], 0x30), [([0x30, 0x30, 0x31], 0x41)])]
                          ++ [])) with
                  active := true, data := List.replicate 10000 0 }
      (List.replicate 15000 0)
      (stream_cycles
        [(([0x30, 0x30, 0x30, 0x30], 0x30), [([0x30, 0x30, 0x31], 0x41)])] ++ [])
      [] (([0x30, 0x30, 0x30, 0x30], 0x31), [([0x30, 0x30, 0x31], 0x42)])
      [(([0x30, 0x30, 0x30, 0x30], 0x31), [([0x30, 0x30, 0x31], 0x42)]),
       (([0x30, 0x30, 0x30, 0x30], 0x31), [([0x30, 0x30, 0x31], 0x42)])] [[], []]
      rfl rfl rfl rfl (by decide) rfl rfl rfl
      (fun c hc => hall c (by
        simp only [List.mem_cons, List.mem_singleton, List.not_mem_nil, or_false] at hc
        rcases hc with e | e | e <;> exact Or.inl e))
      (by decide)
    exact ⟨s, hs, e1, e2⟩
  · obtain ⟨s, hs, e1, e2, _⟩ := run_loop_good_cycles
      { mkHandle TYPE_URG_04LX false
                    (request_reply "MD0044072501000".toList
                      ++ (stream_cycles
                            [(([0x30, 0x30, 0x30, 0x30], 0x31), [([0x30, 0x30, 0x31], 0x42)]),
                             (([0x30, 0x30, 0x30, 0x30], 0x31), [([0x30, 0x30, 0x31], 0x42)]),
                             (([0x30, 0x30, 0x30, 0x30], 0x31), [([0x30, 0x30, 0x31], 0x42)]),
                             (([0x30, 0x30, 0x30, 0x30], 0x30), [([0x30, 0x30, 0x31], 0x41)])]
                          ++ [])) with
                  active := true, data := List.replicate 10000 0 }
      (List.replicate 15000 0)
      []
      [] (([0x30, 0x30, 0x30, 0x30], 0x31), [([0x30, 0x30, 0x31], 0x42)])
      [(([0x30, 0x30, 0x30, 0x30], 0x31), [([0x30, 0x30, 0x31], 0x42)]),
       (([0x30, 0x30, 0x30, 0x30], 0x31), [([0x30, 0x30, 0x31], 0x42)]),
       (([0x30, 0x30, 0x30, 0x30], 0x30), [([0x30, 0x30, 0x31], 0x41)])] [[], [], []]
      rfl rfl rfl rfl (by decide) rfl rfl rfl
      (fun c hc => hall c (by
        simp only [List.mem_cons, List.mem_singleton, List.not_mem_nil, or_false] at hc
        rcases hc with e | e | e | e <;> first | exact Or.inl e | exact Or.inr e))
      (by decide)
    exact ⟨s, hs, e1, e2⟩

/-! ## Theorems: reads leave the write oracle and the pending flushes alone -/

theorem read_term_sequence_loop_wr (s : serial_device_t) :
    ∀ (rx data : List Nat) (total : Nat) (left : Int) (cm : Nat) (r : ReadResult),
      read_term_sequence_loop s rx data total left cm = .ok r →
      r.sd.write_results = s.write_results ∧ r.sd.flush_drops = s.flush_drops := by
  intro rx
  induction rx with
  | nil =>
    intro data total left cm r hr
    rw [read_term_sequence_loop_nil] at hr
    cases hr; exact ⟨rfl, rfl⟩
  | cons b rx ih =>
    intro data total left cm r hr
    rw [read_term_sequence_loop_cons] at hr
    repeat' split at hr
    all_goals first
      | exact ih _ _ _ _ _ hr
      | (cases hr; exact ⟨rfl, rfl⟩)
      | cases hr

theorem serial_device_read_chars_wr (s : serial_device_t) (data : List Nat) (n t : Int)
    (r : ReadResult) (hr : serial_device_read_chars s data n t = .ok r) :
    r.sd.write_results = s.write_results ∧ r.sd.flush_drops = s.flush_drops := by
  unfold serial_device_read_chars at hr
  split at hr
  · cases hr; exact ⟨rfl, rfl⟩
  · split at hr
    · split at hr
      · cases hr
      · dsimp only at hr
        split at hr
        · cases hr; exact ⟨rfl, rfl⟩
        · cases hr
    · split at hr
      · exact read_term_sequence_loop_wr s _ _ _ _ _ r hr
      · cases hr; exact ⟨rfl, rfl⟩

theorem set_term_sequence_wr (s : serial_device_t) (seq : List Nat) (n : Int) (b : Bool) :
    (serial_device_set_io_block_w_timeout_w_term_sequence s seq n b).2.write_results
        = s.write_results
      ∧ (serial_device_set_io_block_w_timeout_w_term_sequence s seq n b).2.flush_drops
        = s.flush_drops := by
  unfold serial_device_set_io_block_w_timeout_w_term_sequence
  split
  · exact ⟨rfl, rfl⟩
  · split <;> exact ⟨rfl, rfl⟩

/-- `_read_line` leaves the write oracle and the pending flushes of the transport as they
are. -/
theorem read_line_wr (h : hokuyo_t) (line : List Nat) (m t : Int) (cs : Bool)
    (r : ReadLineResult) (hr : _read_line h line m t cs = .ok r) :
    r.h.sd.write_results = h.sd.write_results ∧ r.h.sd.flush_drops = h.sd.flush_drops := by
  unfold _read_line at hr
  split at hr
  · cases hr; exact ⟨rfl, rfl⟩
  · dsimp only at hr
    split at hr
    · rename_i rr hrr
      have hsd := serial_device_read_chars_wr _ _ _ _ _ hrr
      have hset := set_term_sequence_wr h.sd [0x0a] 1 true
      have hq : rr.sd.write_results = h.sd.write_results
          ∧ rr.sd.flush_drops = h.sd.flush_drops :=
        ⟨hsd.1.trans hset.1, hsd.2.trans hset.2⟩
      split at hr
      · cases hr; exact hq
      · split at hr
        · split at hr
          · cases hr
          · split at hr
            · cases hr; exact hq
            · split at hr
              · cases hr; exact hq
              · rw [read_line_finish_h _ _ _ _ _ hr]; exact hq
        · rw [read_line_finish_h _ _ _ _ _ hr]; exact hq
    · cases hr
    · cases hr

/-! ## Theorems: what `_laser_on_off` returns and writes -/

/-- On a connected device whose writes are complete, `_send_command2` appends the command
and a linefeed to the bytes written. -/
theorem send_command2_full (h : hokuyo_t) (cmd : List Char) (hconn : h.sd.connected = true)
    (hw : h.sd.write_results = []) :
    _send_command2 h cmd
      = (0, { h with sd := { h.sd with tx := h.sd.tx ++ (cmd.map Char.toNat ++ [0x0a]) } }) := by
  unfold _send_command2 serial_device_write_chars
  simp [hconn, hw]

/-- The flush of a connected device on which no flush is pending changes nothing. -/
theorem flush_idle (s : serial_device_t) (hf : s.flush_drops = []) :
    (serial_device_flush_input_buffer s).2 = s := by
  unfold serial_device_flush_input_buffer
  split
  · rfl
  · rw [hf]

theorem flush_wr (s : serial_device_t) :
    (serial_device_flush_input_buffer s).2.write_results = s.write_results := by
  unfold serial_device_flush_input_buffer
  split
  · rfl
  · split <;> rfl

/-- On a connected handle `_laser_on_off` returns 0 whenever it returns, whatever the
device sent; with complete writes, the bytes written are the command and a linefeed. -/
theorem laser_on_off_ret (h : hokuyo_t) (turn_on : Bool) (stack : List Nat)
    (r : Int × hokuyo_t) (hr : _laser_on_off h turn_on stack = .ok r)
    (hconn : h.sd.connected = true) :
    r.1 = 0 ∧ r.2.sd.connected = true
      ∧ (h.sd.write_results = [] →
          r.2.sd.write_results = []
            ∧ r.2.sd.tx = h.sd.tx
                ++ ((if turn_on then "BM".toList else "QT".toList).map Char.toNat ++ [0x0a])) := by
  have hk := (laser_on_off_kept h turn_on stack r hr).1
  have hc : r.2.sd.connected = true := hk.2.2.2.trans hconn
  unfold _laser_on_off at hr
  rw [hconn] at hr
  simp only [Bool.not_true, Bool.false_eq_true, if_false] at hr
  split at hr
  · rename_i r1 h1
    have q1 := read_line_quiet _ _ _ _ _ _ h1
    have w1 := read_line_wr _ _ _ _ _ _ h1
    split at hr
    · rename_i r2 h2
      have q2 := read_line_quiet _ _ _ _ _ _ h2
      have w2 := read_line_wr _ _ _ _ _ _ h2
      split at hr
      · rename_i r3 h3
        have q3 := read_line_quiet _ _ _ _ _ _ h3
        have w3 := read_line_wr _ _ _ _ _ _ h3
        have htx := q3.2.2.trans (q2.2.2.trans q1.2.2)
        have hwr := w3.1.trans (w2.1.trans w1.1)
        have key : h.sd.write_results = [] →
            r3.h.sd.write_results = [] ∧ r3.h.sd.tx = h.sd.tx
              ++ ((if turn_on then "BM".toList else "QT".toList).map Char.toNat ++ [0x0a]) := by
          intro hw
          have hw0 : ({ h with sd := (serial_device_flush_input_buffer h.sd).2 }
              : hokuyo_t).sd.write_results = [] := (flush_wr h.sd).trans hw
          have hc0 : ({ h with sd := (serial_device_flush_input_buffer h.sd).2 }
              : hokuyo_t).sd.connected = true := (flush_sd h.sd).1.trans hconn
          rw [send_command2_full _ _ hc0 hw0] at htx hwr
          refine ⟨hwr.trans hw0, ?_⟩
          rw [htx]
          show (serial_device_flush_input_buffer h.sd).2.tx ++ _ = _
          rw [(flush_sd h.sd).2]
        split at hr
        · cases hr; exact ⟨rfl, hc, key⟩
        · cases hr; exact ⟨rfl, hc, key⟩
      · cases hr
      · cases hr
    · cases hr
    · cases hr
  · cases hr
  · cases hr

/-- On a connected handle `_laser_off` is its first call of `_laser_on_off`: that call
returns 0, so the loop ends in its first pass. -/
theorem laser_off_eq (h : hokuyo_t) (stack : List Nat) (hconn : h.sd.connected = true) :
    _laser_off h stack = _laser_on_off h false stack := by
  unfold _laser_off NUM_STOP_LASER_RETRIES
  rw [laser_off_loop]
  cases hr : _laser_on_off h false stack with
  | ok r =>
    have h0 := (laser_on_off_ret h false stack r hr hconn).1
    simp only [h0, if_true]
    rw [← h0]
  | undefined => rfl
  | fuel => rfl

/-! ## Theorems: the baud-rate probe -/

/-- With a host that accepts the rate, `_test_baud_rate` on a connected handle reports
the rate as detected whenever it returns: `_laser_off` returns 0 whatever was received. -/
theorem test_baud_rate_ret (h : hokuyo_t) (rate : Int) (stack : List Nat)
    (r : Int × hokuyo_t) (hconn : h.sd.connected = true)
    (hs : rate ∈ [2400, 4800, 9600, 19200, 38400, 57600, 115200])
    (hr : _test_baud_rate h rate true stack = .ok r) : r.1 = 0 ∧ r.2.baud = rate := by
  unfold _test_baud_rate NUM_TEST_BAUD_RETRIES at hr
  rw [hconn] at hr
  simp only [Bool.not_true, Bool.false_eq_true, if_false] at hr
  rw [test_baud_loop] at hr
  have hb1 : (serial_device_set_baud_rate h.sd rate true).1 = 0 := by
    unfold serial_device_set_baud_rate
    rw [hconn]
    simp only [Bool.not_true, Bool.false_eq_true, if_false]
    rw [if_neg (not_not.mpr hs)]
    split <;> rfl
  have hb2 : (serial_device_set_baud_rate h.sd rate true).2.connected = true := by
    unfold serial_device_set_baud_rate
    rw [hconn]
    simp only [Bool.not_true, Bool.false_eq_true, if_false]
    rw [if_neg (not_not.mpr hs)]
    split <;> first | exact hconn | rfl
  dsimp only at hr
  rw [if_pos hb1] at hr
  split at hr
  · rename_i r1 h1
    have c1 : r1.2.sd.connected = true :=
      (laser_off_kept _ _ _ h1).1.2.2.2.trans hb2
    split at hr
    · rename_i r2 h2
      rw [laser_off_eq _ _ c1] at h2
      have z := (laser_on_off_ret _ _ _ _ h2 c1).1
      rw [if_pos z] at hr
      cases hr
      exact ⟨rfl, rfl⟩
    · cases hr
    · cases hr
  · cases hr
  · cases hr

/-- In debug mode, on a device from which nothing is to come, the read of `_read_line`
times out and the error code is returned. -/
theorem read_line_silent (h : hokuyo_t) (line : List Nat) (m t : Int) (cs : Bool)
    (hconn : h.sd.connected = true) (hrx : h.sd.rx = []) (hdbg : h.debug = true) :
    ∃ h1, _read_line h line m t cs = .ok ⟨error_return, h1, line⟩ ∧ reads h h1 [] := by
  obtain ⟨sd1, hsd1⟩ : ∃ x : serial_device_t, x = { h.sd with
      ioMode := IO_BLOCK_W_TIMEOUT_W_TERM_SEQUENCE
      numTermChars := 1
      retTermSequence := true
      termSequence := 0x0a :: h.sd.termSequence.drop 1 } := ⟨_, rfl⟩
  have hset : (serial_device_set_io_block_w_timeout_w_term_sequence h.sd [0x0a] 1 true).2
      = sd1 := by
    unfold serial_device_set_io_block_w_timeout_w_term_sequence
    rw [hsd1]
    simp [hconn, MAX_NUM_TERM_CHARS]
  have hread : serial_device_read_chars sd1 line m t
      = .ok ⟨error_return, { sd1 with rx := [] }, line⟩ := by
    unfold serial_device_read_chars
    have c1 : sd1.connected = true := by rw [hsd1]; exact hconn
    have c2 : sd1.ioMode = IO_BLOCK_W_TIMEOUT_W_TERM_SEQUENCE := by rw [hsd1]
    have c3 : ¬ IO_BLOCK_W_TIMEOUT_W_TERM_SEQUENCE = IO_BLOCK_W_TIMEOUT := by decide
    have c4 : sd1.rx = [] := by rw [hsd1]; exact hrx
    simp only [c1, c2, c3, c4, Bool.not_true, Bool.false_eq_true, if_false, if_true,
      read_term_sequence_loop_nil]
  refine ⟨{ h with sd := { sd1 with rx := [] } }, ?_,
    reads_of_sd h _ [] rfl (by rw [hsd1]; exact hconn) hconn (by rw [hsd1])⟩
  unfold _read_line
  simp only [hconn, Bool.not_true, Bool.false_eq_true, if_false, hset, hread]
  simp [error_return, hdbg]

theorem reads_debug {h h1 : hokuyo_t} {rest : List Nat} (q : reads h h1 rest) :
    h1.debug = h.debug :=
  congrArg (fun x => x.1) q.1.1.2.1

theorem write_chars_rx (s : serial_device_t) (data : List Nat) (n : Int) :
    (serial_device_write_chars s data n).2.rx = s.rx := by
  unfold serial_device_write_chars
  split
  · rfl
  · split
    · rfl
    · split
      · rfl
      · split <;> rfl

theorem flush_rx_nil (s : serial_device_t) (hrx : s.rx = []) :
    (serial_device_flush_input_buffer s).2.rx = [] := by
  unfold serial_device_flush_input_buffer
  split
  · exact hrx
  · split
    · exact hrx
    · simp [hrx]

/-- In debug mode, against a device that sends nothing, `_laser_on_off` returns 0 after
its three reads have timed out. -/
theorem laser_on_off_silent (h : hokuyo_t) (turn_on : Bool) (stack : List Nat)
    (hconn : h.sd.connected = true) (hrx : h.sd.rx = []) (hdbg : h.debug = true) :
    ∃ h1, _laser_on_off h turn_on stack = .ok (0, h1) ∧ h1.sd.rx = []
      ∧ h1.debug = true := by
  obtain ⟨h0, hh0⟩ : ∃ x, x = (_send_command2
      { h with sd := (serial_device_flush_input_buffer h.sd).2 }
      (if turn_on = true then "BM".toList else "QT".toList)).2 := ⟨_, rfl⟩
  have hs := send_command2_kept { h with sd := (serial_device_flush_input_buffer h.sd).2 }
    (if turn_on = true then "BM".toList else "QT".toList)
  rw [← hh0] at hs
  have c0 : h0.sd.connected = true := hs.1.2.2.2.trans ((flush_sd h.sd).1.trans hconn)
  have d0 : h0.debug = true := (congrArg (fun x => x.1) hs.1.2.1).trans hdbg
  have x0 : h0.sd.rx = [] := by
    rw [hh0]
    unfold _send_command2
    exact (write_chars_rx _ _ _).trans (flush_rx_nil h.sd hrx)
  obtain ⟨h1, e1, q1⟩ := read_line_silent h0 (local_array stack 100) MAX_LINE_LENGTH 200000
    false c0 x0 d0
  have c1 := reads_connected q1 c0
  have d1 := (reads_debug q1).trans d0
  obtain ⟨h2, e2, q2⟩ := read_line_silent h1 (local_array stack 100) MAX_LINE_LENGTH 200000
    true c1 q1.2.2 d1
  have c2 := reads_connected q2 c1
  have d2 := (reads_debug q2).trans d1
  obtain ⟨h3, e3, q3⟩ := read_line_silent h2 (local_array stack 100) MAX_LINE_LENGTH 200000
    false c2 q2.2.2 d2
  have d3 := (reads_debug q3).trans d2
  unfold _laser_on_off
  rw [hconn]
  simp only [Bool.not_true, Bool.false_eq_true, if_false]
  rw [← hh0, e1]
  dsimp only
  rw [e2]
  dsimp only
  rw [e3]
  dsimp only
  cases turn_on
  · exact ⟨_, rfl, q3.2.2, d3⟩
  · exact ⟨_, rfl, q3.2.2, d3⟩

/-- In debug mode, against a device that sends nothing, the probe of `_connect` succeeds
at 115200 when the host accepts that rate: two "QT" commands are written and nothing
was received. -/
theorem connect_detect_baud_silent (h : hokuyo_t) (os_ok : Int → Bool) (stack : List Nat)
    (hconn : h.sd.connected = true) (hrx : h.sd.rx = []) (hdbg : h.debug = true)
    (hw : h.sd.write_results = []) (hos : os_ok 115200 = true) :
    ∃ h1, connect_detect_baud h os_ok stack = .ok (0, h1) ∧ h1.baud = 115200
      ∧ h1.sd.connected = true
      ∧ h1.sd.tx = h.sd.tx ++ [0x51, 0x54, 0x0a, 0x51, 0x54, 0x0a] ∧ h1.sd.rx = [] := by
  obtain ⟨b, hb⟩ : ∃ x, x = serial_device_set_baud_rate h.sd 115200 true := ⟨_, rfl⟩
  have hb1 : b.1 = 0 ∧ b.2.connected = true ∧ b.2.rx = [] ∧ b.2.tx = h.sd.tx
      ∧ b.2.write_results = [] := by
    rw [hb]
    unfold serial_device_set_baud_rate
    rw [hconn]
    simp only [Bool.not_true, Bool.false_eq_true, if_false]
    rw [if_neg (by decide)]
    split
    · exact ⟨rfl, hconn, hrx, rfl, hw⟩
    · exact ⟨rfl, rfl, by simp [hrx], rfl, hw⟩
  obtain ⟨h1, e1, x1, d1⟩ := laser_on_off_silent { h with sd := b.2 } false stack hb1.2.1
    hb1.2.2.1 hdbg
  obtain ⟨-, c1, w1⟩ := laser_on_off_ret _ _ _ _ e1 hb1.2.1
  obtain ⟨w1, t1⟩ := w1 hb1.2.2.2.2
  obtain ⟨h2, e2, x2, d2⟩ := laser_on_off_silent h1 false stack c1 x1 d1
  obtain ⟨-, c2, w2⟩ := laser_on_off_ret _ _ _ _ e2 c1
  obtain ⟨w2, t2⟩ := w2 w1
  have ht : _test_baud_rate h 115200 true stack = .ok (0, { h2 with baud := 115200 }) := by
    unfold _test_baud_rate NUM_TEST_BAUD_RETRIES
    rw [hconn]
    simp only [Bool.not_true, Bool.false_eq_true, if_false]
    rw [test_baud_loop]
    dsimp only
    rw [← hb, if_pos hb1.1, laser_off_eq _ _ hb1.2.1, e1]
    dsimp only
    rw [laser_off_eq _ _ c1, e2]
    simp
  refine ⟨{ h2 with baud := 115200 }, ?_, rfl, c2, ?_, x2⟩
  · unfold connect_detect_baud
    rw [hos, ht]
    simp
  · show h2.sd.tx = _
    rw [t2, t1]
    show b.2.tx ++ _ ++ _ = _
    rw [hb1.2.2.2.1, List.append_assoc]
    rfl

/-- C22 — `_test_baud_rate` reports a rate as detected without any answer of the device:
on a connected handle, with a host that accepts the rate, it returns 0 and stores the
rate whenever it returns; and against a device that sends nothing at all the probe of
`_connect` succeeds at 115200 after two "QT" commands, so that `_connect` does not fail
with the error that the baud rate was not detected. -/
theorem test_baud_rate_detects_silent_device :
    (∀ (h : hokuyo_t) (rate : Int) (stack : List Nat) (r : Int × hokuyo_t),
        h.sd.connected = true → rate ∈ [115200, 19200, 38400] →
        _test_baud_rate h rate true stack = .ok r → r.1 = 0 ∧ r.2.baud = rate)
      ∧ ∃ h1, connect_detect_baud (mkHandle TYPE_URG_04LX true []) (fun _ => true) []
            = .ok (0, h1)
          ∧ h1.baud = 115200 ∧ h1.sd.connected = true
          ∧ h1.sd.tx = [0x51, 0x54, 0x0a, 0x51, 0x54, 0x0a] ∧ h1.sd.rx = [] := by
  refine ⟨fun h rate stack r hconn hs hr => test_baud_rate_ret h rate stack r hconn ?_ hr, ?_⟩
  · simp only [List.mem_cons, List.mem_singleton, List.not_mem_nil, or_false] at hs ⊢
    rcases hs with e | e | e
    · exact Or.inr (Or.inr (Or.inr (Or.inr (Or.inr (Or.inr e)))))
    · exact Or.inr (Or.inr (Or.inr (Or.inl e)))
    · exact Or.inr (Or.inr (Or.inr (Or.inr (Or.inl e))))
  · exact connect_detect_baud_silent (mkHandle TYPE_URG_04LX true []) (fun _ => true) []
      rfl rfl rfl rfl rfl

/-! ## Theorems: the range checks of `_get_sensor_params` -/

/-- The range checks in terms of the converted integers. -/
theorem sensor_params_range_checks_eq (dmin dmax ares amin amax afrt scan : List Nat) :
    sensor_params_range_checks dmin dmax ares amin amax afrt scan
      = if toInt32 (strtol dmin) ≤ 0 ∨ toInt32 (strtol dmax) < toInt32 (strtol dmin)
            ∨ toInt32 (strtol ares) < 0
            ∨ toInt32 (strtol amin) > toInt32 (strtol afrt)
            ∨ toInt32 (strtol amax) < toInt32 (strtol afrt) ∨ strtol scan < 0
        then error_return else 0 := by
  have e1 : ∀ a : Int, ((a : ℚ) / 1000 ≤ 0) ↔ a ≤ 0 := by
    intro a
    rw [div_le_iff₀ (by norm_num), zero_mul]
    exact Int.cast_nonpos
  have e2 : ∀ a b : Int, ((b : ℚ) / 1000 < (a : ℚ) / 1000) ↔ b < a := by
    intro a b
    rw [div_lt_div_iff_of_pos_right (by norm_num)]
    exact Int.cast_lt
  have e3 : ∀ a : Int, ((a : ℚ) / 60 < 0) ↔ a < 0 := by
    intro a
    rw [div_lt_iff₀ (by norm_num), zero_mul]
    exact Int.cast_lt_zero
  unfold sensor_params_range_checks
  simp only [e1, e2, e3]
  split_ifs <;> first | rfl | (exfalso; tauto)

theorem toInt32_of_fits (x : Int) (h1 : -2147483648 ≤ x) (h2 : x ≤ 2147483647) :
    toInt32 x = x := by
  unfold toInt32
  omega

/-- When the values of the fields `DMIN`, `DMAX`, `AMIN`, `AMAX`, `AFRT` fit in an `int`,
the range checks of `_get_sensor_params` return the error code whenever the values
violate a check: `DMIN <= 0`, `DMAX < DMIN`, `AMIN > AFRT`, `AMAX < AFRT` or
`SCAN < 0`. -/
theorem sensor_params_range_checks_rejects (dmin dmax ares amin amax afrt scan : List Nat)
    (hfit : ∀ f ∈ [dmin, dmax, amin, amax, afrt],
      -2147483648 ≤ strtol f ∧ strtol f ≤ 2147483647)
    (hv : strtol dmin ≤ 0 ∨ strtol dmax < strtol dmin ∨ strtol amin > strtol afrt
      ∨ strtol amax < strtol afrt ∨ strtol scan < 0) :
    sensor_params_range_checks dmin dmax ares amin amax afrt scan = error_return := by
  have f1 := hfit dmin (by simp)
  have f2 := hfit dmax (by simp)
  have f3 := hfit amin (by simp)
  have f4 := hfit amax (by simp)
  have f5 := hfit afrt (by simp)
  rw [sensor_params_range_checks_eq, toInt32_of_fits _ f1.1 f1.2, toInt32_of_fits _ f2.1 f2.2,
    toInt32_of_fits _ f3.1 f3.2, toInt32_of_fits _ f4.1 f4.2, toInt32_of_fits _ f5.1 f5.2]
  rw [if_pos]
  rcases hv with e | e | e | e | e
  · exact Or.inl e
  · exact Or.inr (Or.inl e)
  · exact Or.inr (Or.inr (Or.inr (Or.inl e)))
  · exact Or.inr (Or.inr (Or.inr (Or.inr (Or.inl e))))
  · exact Or.inr (Or.inr (Or.inr (Or.inr (Or.inr e))))

/-- The range checks at a concrete input: `DMAX` = 5600 below `DMIN` = 20000. -/
theorem sensor_params_range_checks_rejects_at_input :
    strtol (bytes "5600") < strtol (bytes "20000")
      ∧ sensor_params_range_checks (bytes "20000") (bytes "5600") (bytes "1024") (bytes "44")
          (bytes "725") (bytes "384") (bytes "600") = error_return :=
  ⟨by decide,
    sensor_params_range_checks_rejects (bytes "20000") (bytes "5600") (bytes "1024")
      (bytes "44") (bytes "725") (bytes "384") (bytes "600") (by decide)
      (Or.inr (Or.inl (by decide)))⟩

/-- C23 — failing input of the range checks of `_get_sensor_params`: a response whose
field `DMIN` is -4294967295 passes every check, although the value is not positive: the
conversion `(int)strtol(...)` turns it into 1 before the test `dist_min <= 0`. The values
of the other fields are those of a URG-04LX; with `DMIN` = 20 they pass as well, with
`DMIN` = 0 the check fires, and the same value in the field `SCAN`, which is converted
without the cast, is rejected. -/
theorem sensor_params_range_checks_wraps :
    strtol (bytes "-4294967295") = -4294967295
      ∧ toInt32 (strtol (bytes "-4294967295")) = 1
      ∧ sensor_params_range_checks (bytes "-4294967295") (bytes "5600") (bytes "1024")
          (bytes "44") (bytes "725") (bytes "384") (bytes "600") = 0
      ∧ sensor_params_range_checks (bytes "20") (bytes "5600") (bytes "1024")
          (bytes "44") (bytes "725") (bytes "384") (bytes "600") = 0
      ∧ sensor_params_range_checks (bytes "0") (bytes "5600") (bytes "1024")
          (bytes "44") (bytes "725") (bytes "384") (bytes "600") = error_return
      ∧ sensor_params_range_checks (bytes "20") (bytes "5600") (bytes "1024")
          (bytes "44") (bytes "725") (bytes "384") (bytes "-4294967295") = error_return := by
  refine ⟨by decide, by decide, ?_, ?_, ?_, ?_⟩
  · rw [sensor_params_range_checks_eq]; decide
  · rw [sensor_params_range_checks_eq]; decide
  · rw [sensor_params_range_checks_eq]; decide
  · rw [sensor_params_range_checks_eq]; decide

/-! ## Theorems: `_confirm_scan` by the status received -/

/-- The comparison of two bytes by `strncmp`: the result is 0 exactly when both bytes
agree (the first byte of the pattern is not NUL). -/
theorem strncmp_two (a b : Nat) (l : List Nat) (x0 x1 : Nat) (tl : List Nat) (ha : a ≠ 0) :
    ∃ v, strncmp (a :: b :: l) (x0 :: x1 :: tl) 2 = .ok v ∧ (v = 0 ↔ x0 = a ∧ x1 = b) := by
  by_cases h0 : a = x0
  · subst h0
    by_cases h1 : b = x1
    · subst h1
      refine ⟨0, ?_, by simp⟩
      by_cases hb : b = 0
      · simp [strncmp, ha, hb]
      · simp [strncmp, ha, hb, strncmp_zero]
    · refine ⟨(b : Int) - (x1 : Int), by simp [strncmp, ha, h1], ?_⟩
      constructor
      · intro hv
        exact absurd (by omega : b = x1) h1
      · intro hv
        exact absurd hv.2.symm h1
  · refine ⟨(a : Int) - (x0 : Int), by simp [strncmp, h0], ?_⟩
    constructor
    · intro hv
      exact absurd (by omega : a = x0) h0
    · intro hv
      exact absurd hv.1.symm h0

/-- The confirmation of a request whose echo matches, by the first two bytes `x0`, `x1` of
the status line: "00" is accepted, "10" turns the laser on and fails, every other status
fails at once. -/
theorem confirm_scan_status (h : hokuyo_t) (req : List Char) (t : Int)
    (stack rest d : List Nat) (x0 x1 c : Nat) (hconn : h.sd.connected = true)
    (hreq1 : 1 ≤ req.length) (hreq : req.length ≤ 90)
    (hnl : 0x0a ∉ req.map Char.toNat) (hd : 0x0a ∉ x0 :: x1 :: d) (hdl : d.length ≤ 90)
    (hc : c ≠ 0x0a)
    (hrx : h.sd.rx = req.map Char.toNat ++ 0x0a :: x0 :: x1 :: (d ++ c :: 0x0a :: rest)) :
    ∃ h2, reads h h2 rest ∧ h2.sd.write_results = h.sd.write_results
      ∧ h2.sd.flush_drops = h.sd.flush_drops
      ∧ _confirm_scan h req t stack
        = if x0 = 0x30 ∧ x1 = 0x30 then .ok (0, h2)
          else if x0 = 0x31 ∧ x1 = 0x30 then
            match _laser_on h2 stack with
            | .ok r3 => .ok (-1, r3.2)
            | .undefined => .undefined
            | .fuel => .fuel
          else .ok (-1, h2) := by
  have hlen : (req.map Char.toNat).length = req.length := List.length_map _ _
  have hl0 := local_array_length stack 100
  obtain ⟨h1, hr1, q1⟩ := read_line_plain h (local_array stack 100) (req.map Char.toNat)
    (x0 :: x1 :: (d ++ c :: 0x0a :: rest)) MAX_LINE_LENGTH t hconn hrx hnl (by omega)
    (by simp only [MAX_LINE_LENGTH]; omega) (by omega)
  have w1 := read_line_wr _ _ _ _ _ _ hr1
  obtain ⟨line1, hline1⟩ : ∃ x, x = req.map Char.toNat
      ++ 0x0a :: (local_array stack 100).drop ((req.map Char.toNat).length + 1) := ⟨_, rfl⟩
  have hl1 : line1.length = 100 := by
    rw [hline1]
    simp only [List.length_append, List.length_cons, List.length_drop]
    omega
  rw [← hline1] at hr1
  have hconn1 : h1.sd.connected = true := q1.1.1.2.2.2.trans hconn
  obtain ⟨h2, hr2, q2⟩ := read_line_checked h1 line1 (x0 :: x1 :: d) rest c MAX_LINE_LENGTH t
    hconn1 (by rw [q1.2.2]; rfl) hd hc
    (by simp only [MAX_LINE_LENGTH, List.length_cons]; omega) (le_refl _)
    (by rw [hl1]; simp only [List.length_cons]; omega)
  have w2 := read_line_wr _ _ _ _ _ _ hr2
  have hcmp : strncmp (cstr req) line1 (toSizeT ((req.map Char.toNat).length : Int))
      = .ok 0 := by
    rw [toSizeT_of_nonneg _ (by omega) (by omega), Int.toNat_ofNat, hline1]
    exact strncmp_common _ _ _ _ (le_refl _)
  obtain ⟨v00, e00, i00⟩ := strncmp_two 0x30 0x30 [0] x0 x1
    (d ++ c :: 0x0a :: line1.drop ((x0 :: x1 :: d).length + 2)) (by decide)
  obtain ⟨v10, e10, i10⟩ := strncmp_two 0x31 0x30 [0] x0 x1
    (d ++ c :: 0x0a :: line1.drop ((x0 :: x1 :: d).length + 2)) (by decide)
  have h00 : _check_result "00".toList
      (x0 :: x1 :: d ++ c :: 0x0a :: line1.drop ((x0 :: x1 :: d).length + 2))
      = .ok v00 := e00
  have h10 : _check_result "10".toList
      (x0 :: x1 :: d ++ c :: 0x0a :: line1.drop ((x0 :: x1 :: d).length + 2))
      = .ok v10 := e10
  have hn : ¬ (((x0 :: x1 :: d).length : Int) < 0) := by omega
  refine ⟨h2, reads_trans q1 q2, w2.1.trans w1.1, w2.2.trans w1.2, ?_⟩
  unfold _confirm_scan
  simp only [hr1, hcmp, hr2, h00, h10, hn, ne_eq, not_true_eq_false, if_false]
  by_cases c00 : x0 = 0x30 ∧ x1 = 0x30
  · rw [if_pos c00, if_neg (not_not.mpr (i00.2 c00))]
  · rw [if_neg c00, if_pos (fun e => c00 (i00.1 e))]
    by_cases c10 : x0 = 0x31 ∧ x1 = 0x30
    · rw [if_pos c10, if_pos (i10.2 c10)]
    · rw [if_neg c10, if_neg (fun e => c10 (i10.1 e))]

/-- A command of `_laser_on_off` that the device answers with the echo of the command, a
status line and an empty line: the three lines are read and 0 is returned. -/
theorem laser_on_off_answered (h : hokuyo_t) (turn_on : Bool) (stack s rest : List Nat)
    (c : Nat) (hconn : h.sd.connected = true) (hf : h.sd.flush_drops = [])
    (hw : h.sd.write_results = []) (hs : 0x0a ∉ s) (hsl : s.length ≤ 90) (hc : c ≠ 0x0a)
    (hrx : h.sd.rx = (if turn_on = true then "BM".toList else "QT".toList).map Char.toNat
      ++ 0x0a :: (s ++ c :: 0x0a :: 0x0a :: rest)) :
    ∃ h1, _laser_on_off h turn_on stack = .ok (0, h1) ∧ h1.sd.rx = rest
      ∧ h1.sd.flush_drops = [] := by
  obtain ⟨cmd, hcmd⟩ : ∃ x, x = (if turn_on = true then "BM".toList else "QT".toList) :=
    ⟨_, rfl⟩
  have hcl : cmd.length = 2 := by
    rw [hcmd]; cases turn_on <;> rfl
  have hcn : 0x0a ∉ cmd.map Char.toNat := by
    rw [hcmd]; cases turn_on <;> decide
  rw [← hcmd] at hrx
  have hlen : (cmd.map Char.toNat).length = 2 := by rw [List.length_map, hcl]
  have hl0 := local_array_length stack 100
  obtain ⟨hS, hhS⟩ : ∃ x : hokuyo_t, x
      = { h with sd := { h.sd with tx := h.sd.tx ++ (cmd.map Char.toNat ++ [0x0a]) } } :=
    ⟨_, rfl⟩
  have hsend : (_send_command2 { h with sd := (serial_device_flush_input_buffer h.sd).2 }
      cmd).2 = hS := by
    rw [flush_idle _ hf, send_command2_full _ _ hconn hw, hhS]
  have cS : hS.sd.connected = true := by rw [hhS]; exact hconn
  have xS : hS.sd.rx = cmd.map Char.toNat ++ 0x0a :: (s ++ c :: 0x0a :: 0x0a :: rest) := by
    rw [hhS]; exact hrx
  have fS : hS.sd.flush_drops = [] := by rw [hhS]; exact hf
  obtain ⟨h1, e1, q1⟩ := read_line_plain hS (local_array stack 100) (cmd.map Char.toNat)
    (s ++ c :: 0x0a :: 0x0a :: rest) MAX_LINE_LENGTH 200000 cS xS hcn (by omega)
    (by simp only [MAX_LINE_LENGTH]; omega) (by omega)
  have w1 := read_line_wr _ _ _ _ _ _ e1
  obtain ⟨line1, hline1⟩ : ∃ x, x = cmd.map Char.toNat
      ++ 0x0a :: (local_array stack 100).drop ((cmd.map Char.toNat).length + 1) := ⟨_, rfl⟩
  have hl1 : line1.length = 100 := by
    rw [hline1]
    simp only [List.length_append, List.length_cons, List.length_drop]
    omega
  rw [← hline1] at e1
  have c1 := reads_connected q1 cS
  obtain ⟨h2, e2, q2⟩ := read_line_checked h1 line1 s (0x0a :: rest) c MAX_LINE_LENGTH 200000
    c1 q1.2.2 hs hc (by simp only [MAX_LINE_LENGTH]; omega) (le_refl _)
    (by rw [hl1]; omega)
  have w2 := read_line_wr _ _ _ _ _ _ e2
  obtain ⟨line2, hline2⟩ : ∃ x, x = s ++ c :: 0x0a :: line1.drop (s.length + 2) := ⟨_, rfl⟩
  have hl2 : line2.length = 100 := by
    rw [hline2]
    simp only [List.length_append, List.length_cons, List.length_drop]
    omega
  rw [← hline2] at e2
  have c2 := reads_connected q2 c1
  obtain ⟨h3, e3, q3⟩ := read_line_blank h2 line2 rest MAX_LINE_LENGTH 200000 false c2 q2.2.2
    (by decide) (by rw [hl2]; decide)
  have w3 := read_line_wr _ _ _ _ _ _ e3
  have f3 : h3.sd.flush_drops = [] := w3.2.trans (w2.2.trans (w1.2.trans fS))
  unfold _laser_on_off
  rw [hconn]
  simp only [Bool.not_true, Bool.false_eq_true, if_false]
  rw [← hcmd, hsend, e1]
  dsimp only
  rw [e2]
  dsimp only
  rw [e3]
  dsimp only
  cases turn_on
  · exact ⟨_, rfl, q3.2.2, f3⟩
  · exact ⟨_, rfl, q3.2.2, f3⟩

/-- The sequence of `_laser_on` when the device answers both commands. -/
theorem laser_on_answered (h : hokuyo_t) (stack s1 s2 rest : List Nat) (c1 c2 : Nat)
    (hconn : h.sd.connected = true) (hf : h.sd.flush_drops = [])
    (hw : h.sd.write_results = []) (hs1 : 0x0a ∉ s1) (hs2 : 0x0a ∉ s2)
    (hl1 : s1.length ≤ 90) (hl2 : s2.length ≤ 90) (hc1 : c1 ≠ 0x0a) (hc2 : c2 ≠ 0x0a)
    (hrx : h.sd.rx = 0x51 :: 0x54 :: 0x0a :: (s1 ++ c1 :: 0x0a :: 0x0a
      :: 0x42 :: 0x4d :: 0x0a :: (s2 ++ c2 :: 0x0a :: 0x0a :: rest))) :
    ∃ h2, _laser_on h stack = .ok (0, h2) ∧ h2.sd.rx = rest := by
  obtain ⟨h1, e1, x1, f1⟩ := laser_on_off_answered h false stack s1
    (0x42 :: 0x4d :: 0x0a :: (s2 ++ c2 :: 0x0a :: 0x0a :: rest)) c1 hconn hf hw hs1 hl1 hc1
    hrx
  obtain ⟨-, k1, w1⟩ := laser_on_off_ret _ _ _ _ e1 hconn
  obtain ⟨h2, e2, x2, -⟩ := laser_on_off_answered h1 true stack s2 rest c2 k1 f1 (w1 hw).1
    hs2 hl2 hc2 x1
  refine ⟨h2, ?_, x2⟩
  unfold _laser_on
  rw [e1]
  dsimp only
  rw [e2]
  simp

/-- What `_laser_on` writes on a connected handle with complete writes, whenever it
returns: the two commands "QT" and "BM", each with its linefeed. -/
theorem laser_on_writes (h : hokuyo_t) (stack : List Nat) (r : Int × hokuyo_t)
    (hconn : h.sd.connected = true) (hw : h.sd.write_results = [])
    (hr : _laser_on h stack = .ok r) :
    r.2.sd.tx = h.sd.tx ++ [0x51, 0x54, 0x0a] ++ [0x42, 0x4d, 0x0a] := by
  unfold _laser_on at hr
  split at hr
  · rename_i r1 e1
    obtain ⟨-, k1, w1⟩ := laser_on_off_ret _ _ _ _ e1 hconn
    obtain ⟨w1, t1⟩ := w1 hw
    split at hr
    · rename_i r2 e2
      obtain ⟨-, -, w2⟩ := laser_on_off_ret _ _ _ _ e2 k1
      obtain ⟨-, t2⟩ := w2 w1
      have : r.2 = r2.2 := by
        split at hr <;> (cases hr; rfl)
      rw [this, t2, t1]
      rfl
    · cases hr
    · cases hr
  · cases hr
  · cases hr

/-- C26 — after a matching echo, on a connected handle with complete writes, by the first
two bytes `x0`, `x1` of the status line: "00" makes `_confirm_scan` return 0; every other
status makes it return the error code; for a status other than "00" and "10" it returns
at once and nothing is written; for "10" it runs `_laser_on`, so that whenever it returns
the commands "QT" and "BM" have been written, and it does return (with the error code)
when the device answers both commands. -/
theorem confirm_scan_by_status (h : hokuyo_t) (req : List Char) (t : Int)
    (stack rest d : List Nat) (x0 x1 c : Nat) (hconn : h.sd.connected = true)
    (hw : h.sd.write_results = []) (hf : h.sd.flush_drops = [])
    (hreq1 : 1 ≤ req.length) (hreq : req.length ≤ 90)
    (hnl : 0x0a ∉ req.map Char.toNat) (hd : 0x0a ∉ x0 :: x1 :: d) (hdl : d.length ≤ 90)
    (hc : c ≠ 0x0a)
    (hrx : h.sd.rx = req.map Char.toNat ++ 0x0a :: x0 :: x1 :: (d ++ c :: 0x0a :: rest)) :
    ∃ h2, reads h h2 rest
      ∧ ((x0 = 0x30 ∧ x1 = 0x30) → _confirm_scan h req t stack = .ok (0, h2))
      ∧ (¬ (x0 = 0x30 ∧ x1 = 0x30) → ¬ (x0 = 0x31 ∧ x1 = 0x30) →
          _confirm_scan h req t stack = .ok (error_return, h2))
      ∧ ((x0 = 0x31 ∧ x1 = 0x30) →
          (∀ r, _confirm_scan h req t stack = .ok r →
            r.1 = error_return
              ∧ r.2.sd.tx = h.sd.tx ++ [0x51, 0x54, 0x0a] ++ [0x42, 0x4d, 0x0a])
          ∧ ∀ (s1 s2 tail : List Nat) (c1 c2 : Nat),
              0x0a ∉ s1 → 0x0a ∉ s2 → s1.length ≤ 90 → s2.length ≤ 90 → c1 ≠ 0x0a →
              c2 ≠ 0x0a →
              rest = 0x51 :: 0x54 :: 0x0a :: (s1 ++ c1 :: 0x0a :: 0x0a
                :: 0x42 :: 0x4d :: 0x0a :: (s2 ++ c2 :: 0x0a :: 0x0a :: tail)) →
              ∃ h3, _confirm_scan h req t stack = .ok (error_return, h3)
                ∧ h3.sd.rx = tail) := by
  obtain ⟨h2, q, w2, f2, e⟩ := confirm_scan_status h req t stack rest d x0 x1 c hconn hreq1
    hreq hnl hd hdl hc hrx
  have k2 := reads_connected q hconn
  refine ⟨h2, q, ?_, ?_, ?_⟩
  · intro c00
    rw [e, if_pos c00]
  · intro c00 c10
    rw [e, if_neg c00, if_neg c10]
    rfl
  · intro c10
    have c00 : ¬ (x0 = 0x30 ∧ x1 = 0x30) := by
      intro hh
      have := hh.1.symm.trans c10.1
      omega
    rw [e, if_neg c00, if_pos c10]
    constructor
    · intro r hr
      split at hr
      · rename_i r3 e3
        cases hr
        refine ⟨rfl, ?_⟩
        rw [laser_on_writes h2 stack r3 k2 (w2.trans hw) e3, q.1.2.2]
      · cases hr
      · cases hr
    · intro s1 s2 tail c1 c2 hs1 hs2 hl1 hl2 hc1 hc2 hrest
      obtain ⟨h3, e3, x3⟩ := laser_on_answered h2 stack s1 s2 tail c1 c2 k2 (f2.trans hf)
        (w2.trans hw) hs1 hs2 hl1 hl2 hc1 hc2 (q.2.2.trans hrest)
      exact ⟨h3, by rw [e3]; rfl, x3⟩

/-- C26, at a concrete input: the status "10Q" after the echo of the streaming request,
and a device that answers "QT" and "BM" with the status "00P". -/
theorem confirm_scan_by_status_witness :
    ∃ h3, _confirm_scan
          (mkHandle TYPE_URG_04LX false
            ("MD0044072501000".toList.map Char.toNat ++ 0x0a :: 0x31 :: 0x30
              :: ([] ++ 0x51 :: 0x0a :: bytes "QT\n00P\n\nBM\n00P\n\n")))
          "MD0044072501000".toList 0 [] = .ok (error_return, h3)
      ∧ h3.sd.rx = [] ∧ h3.sd.tx = [0x51, 0x54, 0x0a, 0x42, 0x4d, 0x0a] := by
  obtain ⟨h2, -, -, -, c10⟩ := confirm_scan_by_status
    (mkHandle TYPE_URG_04LX false
      ("MD0044072501000".toList.map Char.toNat ++ 0x0a :: 0x31 :: 0x30
        :: ([] ++ 0x51 :: 0x0a :: bytes "QT\n00P\n\nBM\n00P\n\n")))
    "MD0044072501000".toList 0 [] (bytes "QT\n00P\n\nBM\n00P\n\n") [] 0x31 0x30 0x51
    rfl rfl rfl (by decide) (by decide) (by decide) (by decide) (by decide) (by decide) rfl
  obtain ⟨w, tot⟩ := c10 ⟨rfl, rfl⟩
  obtain ⟨h3, e3, x3⟩ := tot [0x30, 0x30] [0x30, 0x30] [] 0x50 0x50 (by decide) (by decide)
    (by decide) (by decide) (by decide) (by decide) (by decide)
  exact ⟨h3, e3, x3, (w _ e3).2⟩

/-! ## Theorems: the status of a data cycle -/

/-- The echo and status lines of a data cycle, by the first two bytes `x0`, `x1` of the
status line: the block returns 0 when they are "99" and the error code otherwise; in
both cases the two lines, and nothing else, have been read. -/
theorem get_scan_read_off_status (h : hokuyo_t) (req : List Char) (t : Int)
    (line rest d : List Nat) (x0 x1 c : Nat) (hconn : h.sd.connected = true)
    (hreq1 : 2 ≤ req.length) (hreq : req.length ≤ 90)
    (hnl : 0x0a ∉ req.map Char.toNat) (hd : 0x0a ∉ x0 :: x1 :: d) (hdl : d.length ≤ 90)
    (hc : c ≠ 0x0a) (hline : line.length = 100)
    (hrx : h.sd.rx = req.map Char.toNat ++ 0x0a :: x0 :: x1 :: (d ++ c :: 0x0a :: rest)) :
    ∃ h1 line1, get_scan_read_off h req t line
        = .ok (if x0 = 0x39 ∧ x1 = 0x39 then 0 else error_return, h1, line1)
      ∧ line1.length = 100 ∧ reads h h1 rest := by
  have hlen : (req.map Char.toNat).length = req.length := List.length_map _ _
  obtain ⟨h1, hr1, q1⟩ := read_line_plain h line (req.map Char.toNat)
    (x0 :: x1 :: (d ++ c :: 0x0a :: rest)) MAX_LINE_LENGTH t hconn hrx hnl (by omega)
    (by simp only [MAX_LINE_LENGTH]; omega) (by omega)
  obtain ⟨line1, hline1⟩ : ∃ x, x = req.map Char.toNat
      ++ 0x0a :: line.drop ((req.map Char.toNat).length + 1) := ⟨_, rfl⟩
  have hl1 : line1.length = 100 := by
    rw [hline1]
    simp only [List.length_append, List.length_cons, List.length_drop]
    omega
  rw [← hline1] at hr1
  have hconn1 : h1.sd.connected = true := q1.1.1.2.2.2.trans hconn
  obtain ⟨h2, hr2, q2⟩ := read_line_checked h1 line1 (x0 :: x1 :: d) rest c MAX_LINE_LENGTH t
    hconn1 (by rw [q1.2.2]; rfl) hd hc
    (by simp only [MAX_LINE_LENGTH, List.length_cons]; omega) (le_refl _)
    (by rw [hl1]; simp only [List.length_cons]; omega)
  have hcmp : strncmp (cstr req) line1 (toSizeT (((req.map Char.toNat).length : Int) - 2))
      = .ok 0 := by
    rw [toSizeT_of_nonneg _ (by omega) (by omega), hline1]
    exact strncmp_common _ _ _ _ (by omega)
  obtain ⟨v, e99, i99⟩ := strncmp_two 0x39 0x39 [] x0 x1
    (d ++ c :: 0x0a :: line1.drop ((x0 :: x1 :: d).length + 2)) (by decide)
  have h99 : strncmp [0x39, 0x39]
      (x0 :: x1 :: d ++ c :: 0x0a :: line1.drop ((x0 :: x1 :: d).length + 2)) 2
      = .ok v := e99
  refine ⟨h2, x0 :: x1 :: d ++ c :: 0x0a :: line1.drop ((x0 :: x1 :: d).length + 2),
    ?_, ?_, reads_trans q1 q2⟩
  · unfold get_scan_read_off
    have hn : ¬ (((req.map Char.toNat).length : Int) < 0) := by omega
    have hn2 : ¬ (((x0 :: x1 :: d).length : Int) < 0) := by omega
    simp only [hr1, hn, hn2, if_false, hcmp, hr2, h99, ne_eq, not_true_eq_false]
    by_cases c99 : x0 = 0x39 ∧ x1 = 0x39
    · rw [if_pos c99, if_neg (not_not.mpr (i99.2 c99))]
    · rw [if_neg c99, if_pos (fun e => c99 (i99.1 e))]
  · simp only [List.length_append, List.length_cons, List.length_drop]
    omega

/-- A later cycle of the production stream (no request is sent) whose status line does not
begin with "99": `_get_scan` returns the error code after the status line; nothing after
that line is read, nothing is written, the output locations are untouched and the handle
goes on streaming. -/
theorem get_scan_next_cycle_bad_status (h : hokuyo_t) (range : List Nat) (n len : Int)
    (stack rest tx d : List Nat) (x0 x1 c : Nat)
    (hst : streams h len ("MD0044072501000".toList.map Char.toNat
      ++ 0x0a :: x0 :: x1 :: (d ++ c :: 0x0a :: rest)) tx)
    (hd : 0x0a ∉ x0 :: x1 :: d) (hdl : d.length ≤ 90) (hc : c ≠ 0x0a)
    (h99 : ¬ (x0 = 0x39 ∧ x1 = 0x39)) :
    ∃ r, _get_scan h range n SCAN_START SCAN_END SCAN_SKIP ENCODING SCAN_TYPE 0 stack = .ok r
      ∧ r.ret = error_return ∧ r.range = range ∧ r.n_range = n
      ∧ streams r.h len rest tx := by
  obtain ⟨hconn, hs, hw, hpl, hrx, htx⟩ := hst
  have hprep : get_scan_prepare h SCAN_START SCAN_END SCAN_SKIP ENCODING SCAN_TYPE stack
      = .ok h := by
    unfold get_scan_prepare
    rw [settings_changed_of_window h _ _ _ _ _ hw]
    rfl
  have hnl : 0x0a ∉ "MD0044072501000".toList.map Char.toNat := by decide
  obtain ⟨hC, lineC, hrC, -, qC⟩ := get_scan_read_off_status h "MD0044072501000".toList
    (get_scan_timeout_us h) (local_array stack 100) rest d x0 x1 c hconn (by decide)
    (by decide) hnl hd hdl hc (local_array_length _ _) hrx
  rw [if_neg h99] at hrC
  refine ⟨⟨error_return, hC, range, n⟩, ?_, rfl, rfl, rfl,
    reads_connected qC hconn, qC.1.2.1.trans hs, ?_, qC.2.1.trans hpl, qC.2.2,
    qC.1.2.2.trans htx⟩
  · unfold _get_scan
    rw [hconn, hprep]
    simp only [Bool.not_true, Bool.false_eq_true, if_false, create_scan_request_production,
      ne_eq, not_true_eq_false, one_ne_zero, zero_ne_one, and_false, false_and, if_true]
    simp only [hs, Bool.not_true, Bool.false_eq_true, if_false, hrC]
    simp [error_return]
  · rw [qC.1.1.2.2.1, hw]

/-! ## Theorems: the line buffer keeps its length -/

theorem store_length (a d : List Nat) (i v : Nat) (h : store a i v = some d) :
    d.length = a.length := by
  unfold store at h
  split at h
  · cases h; simp
  · cases h

theorem read_term_sequence_loop_length (s : serial_device_t) :
    ∀ (rx data : List Nat) (total : Nat) (left : Int) (cm : Nat) (r : ReadResult),
      read_term_sequence_loop s rx data total left cm = .ok r →
      r.data.length = data.length := by
  intro rx
  induction rx with
  | nil =>
    intro data total left cm r hr
    rw [read_term_sequence_loop_nil] at hr
    cases hr; rfl
  | cons b rx ih =>
    intro data total left cm r hr
    rw [read_term_sequence_loop_cons] at hr
    split at hr
    · cases hr; rfl
    · split at hr
      · rename_i d1 t1 hst htm
        have hl := store_length _ _ _ _ hst
        repeat' split at hr
        all_goals first
          | exact (ih _ _ _ _ _ hr).trans hl
          | (cases hr; exact hl)
      · cases hr

theorem serial_device_read_chars_length (s : serial_device_t) (data : List Nat) (n t : Int)
    (r : ReadResult) (hr : serial_device_read_chars s data n t = .ok r) :
    r.data.length = data.length := by
  unfold serial_device_read_chars at hr
  split at hr
  · cases hr; rfl
  · split at hr
    · split at hr
      · cases hr
      · dsimp only at hr
        split at hr
        · rename_i hle
          cases hr
          simp only [List.length_append, List.length_drop]
          omega
        · cases hr
    · split at hr
      · exact read_term_sequence_loop_length s _ _ _ _ _ r hr
      · cases hr; rfl

theorem read_line_finish_line (h : hokuyo_t) (line : List Nat) (n : Int) (cs : Bool)
    (r : ReadLineResult) (hr : read_line_finish h line n cs = .ok r) : r.line = line := by
  unfold read_line_finish at hr
  split at hr
  · cases hr; rfl
  · split at hr
    · split at hr
      · split at hr <;> (cases hr; rfl)
      · cases hr; rfl
    · cases hr
    · cases hr

/-- `_read_line` leaves the length of the caller's array as it is. -/
theorem read_line_length (h : hokuyo_t) (line : List Nat) (m t : Int) (cs : Bool)
    (r : ReadLineResult) (hr : _read_line h line m t cs = .ok r) :
    r.line.length = line.length := by
  unfold _read_line at hr
  split at hr
  · cases hr; rfl
  · dsimp only at hr
    split at hr
    · rename_i rr hrr
      have hl := serial_device_read_chars_length _ _ _ _ _ hrr
      split at hr
      · cases hr; exact hl
      · split at hr
        · split at hr
          · cases hr
          · split at hr
            · cases hr; exact hl
            · split at hr
              · cases hr; exact hl
              · rw [read_line_finish_line _ _ _ _ _ hr]; exact hl
        · rw [read_line_finish_line _ _ _ _ _ hr]; exact hl
    · cases hr
    · cases hr

theorem get_scan_request_length (h : hokuyo_t) (req : List Char) (st ns t : Int)
    (line stack : List Nat) (r : Int × hokuyo_t × List Nat)
    (hr : get_scan_request h req st ns t line stack = .ok r) :
    r.2.2.length = line.length := by
  unfold get_scan_request at hr
  dsimp only at hr
  split at hr
  · cases hr; rfl
  · split at hr
    · split at hr
      · cases hr; rfl
      · split at hr
        · split at hr
          · rename_i rl hl
            have e := read_line_length _ _ _ _ _ _ hl
            split at hr
            · cases hr; exact e
            · split at hr <;> (cases hr; exact e)
          · cases hr
          · cases hr
        · cases hr; rfl
    · cases hr
    · cases hr

/-! ## Theorems: the shape of a request string -/

theorem digitChar_ne_lf (n : Nat) : (Nat.digitChar n).toNat ≠ 0x0a := by
  by_cases h : n < 16
  · interval_cases n <;> decide
  · have e : Nat.digitChar n = '*' := by
      unfold Nat.digitChar
      repeat rw [if_neg (Nat.ne_of_gt (by omega))]
    rw [e]
    decide

theorem toDigits_no_lf (b : Nat) (hb : 2 ≤ b) :
    ∀ n, 0x0a ∉ (Nat.toDigits b n).map Char.toNat := by
  intro n
  induction n using Nat.strong_induction_on with
  | _ n ih =>
    rw [toDigits_step b hb n]
    split
    · simp only [List.map_cons, List.map_nil, List.mem_singleton]
      exact fun e => digitChar_ne_lf _ e.symm
    · rename_i h0
      have hlt : n / b < n := Nat.div_lt_self (by
        rcases Nat.eq_zero_or_pos n with h | h
        · subst h; simp at h0
        · exact h) hb
      simp only [List.map_append, List.map_cons, List.map_nil, List.mem_append,
        List.mem_singleton, not_or]
      exact ⟨ih _ hlt, fun e => digitChar_ne_lf _ e.symm⟩

theorem toDigits_length_le (b : Nat) (hb : 2 ≤ b) :
    ∀ (k n : Nat), n < b ^ (k + 1) → (Nat.toDigits b n).length ≤ k + 1 := by
  intro k
  induction k with
  | zero =>
    intro n hn
    rw [toDigits_step b hb n, if_pos (Nat.div_eq_of_lt (by simpa using hn))]
    simp
  | succ k ih =>
    intro n hn
    rw [toDigits_step b hb n]
    split
    · simp
    · have : n / b < b ^ (k + 1) := by
        rw [Nat.div_lt_iff_lt_mul (by omega)]
        rw [pow_succ] at hn
        exact hn
      have := ih _ this
      simp only [List.length_append, List.length_singleton]
      omega

theorem zero_pad_no_lf (w : Nat) (s : List Char) (hs : 0x0a ∉ s.map Char.toNat) :
    0x0a ∉ (zero_pad w s).map Char.toNat := by
  unfold zero_pad
  simp only [List.map_append, List.map_replicate, List.mem_append, List.mem_replicate, not_or]
  exact ⟨fun e => absurd e.2 (by decide), hs⟩

theorem zero_pad_length (w : Nat) (s : List Char) :
    (zero_pad w s).length = max w s.length := by
  unfold zero_pad
  simp only [List.length_append, List.length_replicate]
  omega

/-- The skip field of a request: at most 8 characters, none a linefeed. -/
theorem fmt_x_shape (v : Int) :
    (fmt_x 2 v).length ≤ 8 ∧ 0x0a ∉ (fmt_x 2 v).map Char.toNat := by
  have hu : toUInt32 v < 16 ^ (7 + 1) := by
    unfold toUInt32
    omega
  have hl := toDigits_length_le 16 (by decide) 7 _ hu
  unfold fmt_x
  refine ⟨?_, zero_pad_no_lf _ _ (toDigits_no_lf 16 (by decide) _)⟩
  rw [zero_pad_length]
  omega

theorem dec4_no_lf (n : Nat) : (dec4 n).length = 4 ∧ 0x0a ∉ (dec4 n).map Char.toNat := by
  unfold dec4
  refine ⟨rfl, ?_⟩
  simp only [List.map_cons, List.map_nil, List.mem_cons, List.mem_singleton, List.not_mem_nil,
    or_false, not_or]
  exact ⟨fun e => digitChar_ne_lf _ e.symm, fun e => digitChar_ne_lf _ e.symm,
    fun e => digitChar_ne_lf _ e.symm, fun e => digitChar_ne_lf _ e.symm⟩

theorem opcode_no_lf (en st ns : Int) :
    (opcode en st ns).length = 2 ∧ 0x0a ∉ (opcode en st ns).map Char.toNat := by
  unfold opcode
  split
  · exact ⟨rfl, by decide⟩
  · split
    · split <;> exact ⟨rfl, by decide⟩
    · split <;> exact ⟨rfl, by decide⟩

/-- The string of an accepted request, on a handle of one of the two variants: 13 to 21
characters, none a linefeed. -/
theorem create_scan_request_shape (h : hokuyo_t) (ss se sk en st ns : Int)
    (req : List Char) (need : Bool)
    (htype : h.type = TYPE_URG_04LX ∨ h.type = TYPE_UTM_30LX)
    (hret : (_create_scan_request h ss se sk en st ns req need).ret = 0) :
    2 ≤ (_create_scan_request h ss se sk en st ns req need).req.length
      ∧ (_create_scan_request h ss se sk en st ns req need).req.length ≤ 90
      ∧ 0x0a ∉ (_create_scan_request h ss se sk en st ns req need).req.map Char.toNat := by
  obtain ⟨p1, p2, p3, p4, p5, -, -, -, p9, -⟩ :=
    create_scan_request_ok h ss se sk en st ns req need _ rfl hret
  have hend : se < 10000 := by
    rcases htype with ht | ht
    · have := p4 ht; simp only [MAX_NUM_POINTS_URG_04LX] at this; omega
    · have := p3 ht; simp only [MAX_NUM_POINTS_UTM_30LX] at this; omega
  have hn : fmt_d 2 ns = dec2 ns.toNat := by
    rcases p5 with rfl | rfl
    · exact fmt_d2_zero
    · exact fmt_d2_one
  have o := opcode_no_lf en st ns
  have a := dec4_no_lf ss.toNat
  have b := dec4_no_lf se.toNat
  have x := fmt_x_shape sk
  have tl : ((if ns = 0 ∨ st = SCAN_SPECIAL_ME then '0' :: dec2 ns.toNat else []
      : List Char)).length ≤ 3
      ∧ 0x0a ∉ ((if ns = 0 ∨ st = SCAN_SPECIAL_ME then '0' :: dec2 ns.toNat else []
      : List Char)).map Char.toNat := by
    split
    · refine ⟨by simp [dec2], ?_⟩
      unfold dec2
      simp only [List.map_cons, List.map_nil, List.mem_cons, List.mem_singleton,
        List.not_mem_nil, or_false, not_or]
      exact ⟨by decide, fun e => digitChar_ne_lf _ e.symm, fun e => digitChar_ne_lf _ e.symm⟩
    · exact ⟨by simp, by simp⟩
  rw [p9, fmt_d4_eq ss p1 (by omega), fmt_d4_eq se (by omega) hend, hn]
  simp only [List.length_append, List.map_append, List.mem_append, not_or]
  refine ⟨by omega, by omega, ⟨⟨⟨⟨o.2, a.2⟩, b.2⟩, x.2⟩, tl.2⟩⟩

/-! ## Theorems: the status of a data cycle, in every cycle that expects it -/

/-- C27 — in every call of `_get_scan` that expects the echo and status pair (a streaming
request, `num_scans = 0`, or an intensity request, `scan_type = SCAN_SPECIAL_ME`), for
every window and every state of the handle: when the call has come to the point where
the pair is read (the settings block has left the handle `h0`, the request is accepted
by `_create_scan_request`, and the request block, if it ran, has returned 0 and left the
handle `h1`) and the device sends the echo of the request and a status line with the
first two bytes `x0`, `x1`, then `_get_scan` goes on to the timestamp line and the data
packet when the status begins with "99", and returns the error code when it does not, be
it "00". In the second case nothing after the status line has been read: the bytes
`rest`, with the timestamp and the packet, are still to come, nothing has been written
since the request block, and the output locations are untouched. -/
theorem get_scan_requires_status_99 (h h0 h1 : hokuyo_t) (range : List Nat) (n : Int)
    (ss se sk en st ns : Int) (stack line1 rest d : List Nat) (x0 x1 c : Nat)
    (hconn : h.sd.connected = true)
    (htype : h.type = TYPE_URG_04LX ∨ h.type = TYPE_UTM_30LX)
    (hpair : ns = 0 ∨ st = SCAN_SPECIAL_ME)
    (hprep : get_scan_prepare h ss se sk en st stack = .ok h0)
    (hret : (_create_scan_request h0 ss se sk en st ns [] false).ret = 0)
    (hreq : (if (if ns = 1 then true else !h0.streaming) = true then
              get_scan_request h0 (_create_scan_request h0 ss se sk en st ns [] false).req
                st ns (get_scan_timeout_us h0) (local_array stack 100) stack
            else .ok (0, h0, local_array stack 100)) = .ok (0, h1, line1))
    (hrx : h1.sd.rx = (_create_scan_request h0 ss se sk en st ns [] false).req.map Char.toNat
      ++ 0x0a :: x0 :: x1 :: (d ++ c :: 0x0a :: rest))
    (hd : 0x0a ∉ x0 :: x1 :: d) (hdl : d.length ≤ 90) (hc : c ≠ 0x0a) :
    ∃ h2 line2, reads h1 h2 rest
      ∧ ((x0 = 0x39 ∧ x1 = 0x39) →
          _get_scan h range n ss se sk en st ns stack
            = get_scan_data h2 range n ss se sk en st ns (get_scan_timeout_us h0) line2
                (local_array stack 15000) (local_array stack 15000))
      ∧ (¬ (x0 = 0x39 ∧ x1 = 0x39) →
          _get_scan h range n ss se sk en st ns stack = .ok ⟨error_return, h2, range, n⟩) := by
  obtain ⟨creq, hcreq⟩ : ∃ x, x = _create_scan_request h0 ss se sk en st ns [] false :=
    ⟨_, rfl⟩
  rw [← hcreq] at hret hreq hrx
  have k0 := (get_scan_prepare_kept h ss se sk en st stack h0 hprep).1
  have hconn0 : h0.sd.connected = true := k0.2.2.2.trans hconn
  have htype0 : h0.type = TYPE_URG_04LX ∨ h0.type = TYPE_UTM_30LX := by
    rw [k0.1]; exact htype
  obtain ⟨-, -, -, -, p5, -, -, -, -, p10⟩ :=
    create_scan_request_ok h0 ss se sk en st ns [] false creq hcreq.symm hret
  have hneed : creq.need_to_read_off_cmd_and_status = true := by
    rw [p10]; exact decide_eq_true hpair
  obtain ⟨s1, s2, s3⟩ := create_scan_request_shape h0 ss se sk en st ns [] false htype0
    (by rw [← hcreq]; exact hret)
  rw [← hcreq] at s1 s2 s3
  have k1 := (get_scan_request_stage _ h0 creq.req st ns (get_scan_timeout_us h0)
    (local_array stack 100) stack _ hreq).1
  have hconn1 : h1.sd.connected = true := k1.2.2.2.trans hconn0
  have hl1 : line1.length = 100 := by
    by_cases hb : (if ns = 1 then true else !h0.streaming) = true
    · rw [if_pos hb] at hreq
      exact (get_scan_request_length _ _ _ _ _ _ _ _ hreq).trans (local_array_length _ _)
    · rw [if_neg hb] at hreq
      cases hreq
      exact local_array_length _ _
  obtain ⟨h2, line2, hr2, -, q2⟩ := get_scan_read_off_status h1 creq.req
    (get_scan_timeout_us h0) line1 rest d x0 x1 c hconn1 s1 s2 s3 hd hdl hc hl1 hrx
  have hns : ¬ (ns ≠ 1 ∧ ns ≠ 0) := by omega
  have hret' : ¬ creq.ret ≠ 0 := not_not.mpr hret
  have hmain : ∀ R : Int × hokuyo_t × List Nat,
      get_scan_read_off h1 creq.req (get_scan_timeout_us h0) line1 = .ok R →
      _get_scan h range n ss se sk en st ns stack
        = if R.1 ≠ 0 then .ok ⟨error_return, R.2.1, range, n⟩
          else
            get_scan_data R.2.1 range n ss se sk en st ns (get_scan_timeout_us h0) R.2.2
              (local_array stack 15000) (local_array stack 15000) := by
    intro R hR
    unfold _get_scan
    rw [hconn]
    simp only [Bool.not_true, Bool.false_eq_true, if_false]
    rw [hprep]
    dsimp only
    rw [← hcreq, if_neg hret', if_neg hns, hreq]
    dsimp only
    rw [if_neg (by decide), hneed, if_pos rfl, hR]
  refine ⟨h2, line2, q2, ?_, ?_⟩
  · intro h99
    rw [hmain _ hr2, if_pos h99]
    simp
  · intro h99
    rw [hmain _ hr2, if_neg h99]
    simp [error_return]

/-- The request block of an intensity single shot, when the device answers with the echo
of the request, the status "00" and an empty line. -/
theorem get_scan_request_accepted_me (h : hokuyo_t) (req : List Char) (t : Int)
    (line stack rest : List Nat) (c : Nat) (hconn : h.sd.connected = true)
    (hfl : h.sd.flush_drops = []) (hwr : h.sd.write_results = [])
    (hreq1 : 1 ≤ req.length) (hreq : req.length ≤ 90)
    (hnl : 0x0a ∉ req.map Char.toNat) (hc : c ≠ 0x0a) (hline : 1 ≤ line.length)
    (hrx : h.sd.rx
      = req.map Char.toNat ++ 0x0a :: 0x30 :: 0x30 :: c :: 0x0a :: 0x0a :: rest) :
    ∃ h1, get_scan_request h req SCAN_SPECIAL_ME 1 t line stack
        = .ok (0, h1, 0x0a :: line.drop 1)
      ∧ h1.sd.rx = rest := by
  have hflush : (serial_device_flush_input_buffer h.sd).2 = h.sd := by
    unfold serial_device_flush_input_buffer
    rw [hconn, hfl]
    rfl
  obtain ⟨hw, hhw⟩ : ∃ x : hokuyo_t, x = { h with sd := { h.sd with
      tx := h.sd.tx ++ (req.map Char.toNat ++ [0x0a]) } } := ⟨_, rfl⟩
  have hsend : _send_command2 { h with sd := h.sd } req = (0, hw) := by
    unfold _send_command2 serial_device_write_chars
    simp only [hconn, hwr, Bool.not_true, Bool.false_eq_true, if_false, Int.toNat_ofNat,
      List.take_length, ne_eq, not_true_eq_false]
    simp [hhw, hconn, hwr]
  obtain ⟨h1, hr1, q1⟩ := confirm_scan_accepted hw req t stack (0x0a :: rest) c
    (by rw [hhw]; exact hconn) hreq1 hreq hnl hc (by rw [hhw]; exact hrx)
  have hconn1 : h1.sd.connected = true := by
    rw [q1.1.1.2.2.2, hhw]; exact hconn
  obtain ⟨h2, hr2, q2⟩ := read_line_blank h1 line rest
    MAX_LINE_LENGTH t false hconn1 q1.2.2 (by decide) hline
  refine ⟨h2, ?_, q2.2.2⟩
  unfold get_scan_request
  simp only [hflush, hsend, hr1, ne_eq, not_true_eq_false, if_false, if_true, or_true, hr2,
    lt_self_iff_false, gt_iff_lt, one_ne_zero]

/-- C27, at three concrete inputs. A later cycle of the production stream on a URG-04LX
with the status "00P"; the first cycle of a stream of the window 0..1080 on a UTM-30LX,
after the accepted request, with the status "01Q"; an intensity single shot of the window
0..1080 on a UTM-30LX, after the accepted request, with the status "00P". Each call
returns the error code and leaves the timestamp line and the packet unread. -/
theorem get_scan_requires_status_99_witness :
    (∃ h2, _get_scan
          { mkHandle TYPE_URG_04LX false
              ("MD0044072501000".toList.map Char.toNat ++ 0x0a :: 0x30 :: 0x30
                :: ([] ++ 0x50 :: 0x0a :: bytes "00000\n001A\n\n")) with
            streaming := true, scan_start := 44, scan_end := 725, scan_skip := 1
            encoding := 3, scan_type := 0, packet_length := 6 }
          [0] 0 SCAN_START SCAN_END SCAN_SKIP ENCODING SCAN_TYPE 0 []
        = .ok ⟨error_return, h2, [0], 0⟩
      ∧ h2.sd.rx = bytes "00000\n001A\n\n")
    ∧ (∃ h2, _get_scan
          (mkHandle TYPE_UTM_30LX false
            ("MD0000108001000".toList.map Char.toNat
              ++ 0x0a :: 0x30 :: 0x30 :: 0x50 :: 0x0a :: 0x0a
              :: ("MD0000108001000".toList.map Char.toNat ++ 0x0a :: 0x30 :: 0x31
                :: ([] ++ 0x51 :: 0x0a :: bytes "00000\n001A\n\n"))))
          [0] 0 0 1080 1 THREE_DIGITS SCAN_REGULAR 0 []
        = .ok ⟨error_return, h2, [0], 0⟩
      ∧ h2.sd.rx = bytes "00000\n001A\n\n")
    ∧ (∃ h2, _get_scan
          (mkHandle TYPE_UTM_30LX false
            ("ME0000108001001".toList.map Char.toNat
              ++ 0x0a :: 0x30 :: 0x30 :: 0x50 :: 0x0a :: 0x0a
              :: ("ME0000108001001".toList.map Char.toNat ++ 0x0a :: 0x30 :: 0x30
                :: ([] ++ 0x50 :: 0x0a :: bytes "00000\n001A\n\n"))))
          [0] 0 0 1080 1 THREE_DIGITS SCAN_SPECIAL_ME 1 []
        = .ok ⟨error_return, h2, [0], 0⟩
      ∧ h2.sd.rx = bytes "00000\n001A\n\n") := by
  refine ⟨?_, ?_, ?_⟩
  · obtain ⟨h2, -, q, -, e⟩ := get_scan_requires_status_99
      { mkHandle TYPE_URG_04LX false
          ("MD0044072501000".toList.map Char.toNat ++ 0x0a :: 0x30 :: 0x30
            :: ([] ++ 0x50 :: 0x0a :: bytes "00000\n001A\n\n")) with
        streaming := true, scan_start := 44, scan_end := 725, scan_skip := 1
        encoding := 3, scan_type := 0, packet_length := 6 }
      _ _ [0] 0 SCAN_START SCAN_END SCAN_SKIP ENCODING SCAN_TYPE 0 [] (local_array [] 100)
      (bytes "00000\n001A\n\n") [] 0x30 0x30 0x50 rfl (Or.inl rfl) (Or.inl rfl) rfl
      (by decide) rfl (by decide) (by decide) (by decide) (by decide)
    exact ⟨h2, e (by decide), q.2.2⟩
  · obtain ⟨H, hH⟩ : ∃ x : hokuyo_t, x = mkHandle TYPE_UTM_30LX false
        ("MD0000108001000".toList.map Char.toNat
          ++ 0x0a :: 0x30 :: 0x30 :: 0x50 :: 0x0a :: 0x0a
          :: ("MD0000108001000".toList.map Char.toNat ++ 0x0a :: 0x30 :: 0x31
            :: ([] ++ 0x51 :: 0x0a :: bytes "00000\n001A\n\n"))) := ⟨_, rfl⟩
    obtain ⟨H0, hH0⟩ : ∃ x : hokuyo_t,
        x = { H with packet_length := -1, scan_ready := false } := ⟨_, rfl⟩
    have hprep : get_scan_prepare H 0 1080 1 THREE_DIGITS SCAN_REGULAR [] = .ok H0 := by
      rw [hH0, hH]; rfl
    have hc : _create_scan_request H0 0 1080 1 THREE_DIGITS SCAN_REGULAR 0 [] false
        = ⟨0, "MD0000108001000".toList, true⟩ := by
      rw [hH0, hH]; decide
    have hs : H0.streaming = false := by rw [hH0, hH]; rfl
    obtain ⟨h1, hr, -, -, -, rx1, -⟩ := get_scan_request_accepted H0
      "MD0000108001000".toList SCAN_REGULAR (get_scan_timeout_us H0) (local_array [] 100) []
      ("MD0000108001000".toList.map Char.toNat ++ 0x0a :: 0x30 :: 0x31
        :: ([] ++ 0x51 :: 0x0a :: bytes "00000\n001A\n\n")) 0x50
      (by rw [hH0, hH]; rfl) (by rw [hH0, hH]; rfl) (by rw [hH0, hH]; rfl) (by decide)
      (by decide) (by decide) (by decide) (by rw [local_array_length]; decide)
      (by rw [hH0, hH]; rfl)
    obtain ⟨h2, -, q, -, e⟩ := get_scan_requires_status_99 H H0 h1 [0] 0 0 1080 1
      THREE_DIGITS SCAN_REGULAR 0 [] (0x0a :: (local_array [] 100).drop 1)
      (bytes "00000\n001A\n\n") [] 0x30 0x31 0x51 (by rw [hH]; rfl)
      (by rw [hH]; exact Or.inr rfl) (Or.inl rfl) hprep (by rw [hc])
      (by
        rw [hc]
        simp only [hs, Bool.not_false, ite_self, if_true]
        exact hr)
      (by rw [hc, rx1]) (by decide) (by decide) (by decide)
    rw [hH] at e
    exact ⟨h2, e (by decide), q.2.2⟩
  · obtain ⟨H, hH⟩ : ∃ x : hokuyo_t, x = mkHandle TYPE_UTM_30LX false
        ("ME0000108001001".toList.map Char.toNat
          ++ 0x0a :: 0x30 :: 0x30 :: 0x50 :: 0x0a :: 0x0a
          :: ("ME0000108001001".toList.map Char.toNat ++ 0x0a :: 0x30 :: 0x30
            :: ([] ++ 0x50 :: 0x0a :: bytes "00000\n001A\n\n"))) := ⟨_, rfl⟩
    obtain ⟨H0, hH0⟩ : ∃ x : hokuyo_t,
        x = { H with packet_length := -1, scan_ready := false } := ⟨_, rfl⟩
    have hprep : get_scan_prepare H 0 1080 1 THREE_DIGITS SCAN_SPECIAL_ME [] = .ok H0 := by
      rw [hH0, hH]; rfl
    have hc : _create_scan_request H0 0 1080 1 THREE_DIGITS SCAN_SPECIAL_ME 1 [] false
        = ⟨0, "ME0000108001001".toList, true⟩ := by
      rw [hH0, hH]; decide
    have hs : H0.streaming = false := by rw [hH0, hH]; rfl
    obtain ⟨h1, hr, rx1⟩ := get_scan_request_accepted_me H0
      "ME0000108001001".toList (get_scan_timeout_us H0) (local_array [] 100) []
      ("ME0000108001001".toList.map Char.toNat ++ 0x0a :: 0x30 :: 0x30
        :: ([] ++ 0x50 :: 0x0a :: bytes "00000\n001A\n\n")) 0x50
      (by rw [hH0, hH]; rfl) (by rw [hH0, hH]; rfl) (by rw [hH0, hH]; rfl) (by decide)
      (by decide) (by decide) (by decide) (by rw [local_array_length]; decide)
      (by rw [hH0, hH]; rfl)
    obtain ⟨h2, -, q, -, e⟩ := get_scan_requires_status_99 H H0 h1 [0] 0 0 1080 1
      THREE_DIGITS SCAN_SPECIAL_ME 1 [] (0x0a :: (local_array [] 100).drop 1)
      (bytes "00000\n001A\n\n") [] 0x30 0x30 0x50 (by rw [hH]; rfl)
      (by rw [hH]; exact Or.inr rfl) (Or.inr rfl) hprep (by rw [hc])
      (by
        rw [hc]
        simp only [hs, Bool.not_false, ite_self, if_true]
        exact hr)
      (by rw [hc, rx1]) (by decide) (by decide) (by decide)
    rw [hH] at e
    exact ⟨h2, e (by decide), q.2.2⟩

/-! ## Theorems: the error counter over the passes of the worker loop -/

theorem run_stop_laser_connected (h h1 : hokuyo_t) (stack : List Nat)
    (hl : run_stop_laser h stack = .ok h1) : h1.sd.connected = h.sd.connected := by
  unfold run_stop_laser at hl
  split at hl
  · split at hl
    · rename_i r hr
      have k := (laser_off_kept _ _ _ hr).1.2.2.2
      split at hl <;> (cases hl; exact k)
    · cases hl
    · cases hl
  · cases hl; rfl

/-- One pass of the loop of `_run`, whatever it does: an idle pass leaves the counter as
it is; a pass with an acquisition changes the counter and the request as `count_errors`
says, from the result of the acquisition. -/
theorem run_iteration_pass (s : RunState) (stack : List Nat) (s1 : RunState)
    (hr : run_iteration s stack = .ok s1) :
    ∃ h1 oe, run_stop_laser s.h stack = .ok h1 ∧ run_pass_error s stack = .ok oe
      ∧ (oe = none → s1.numErrors = s.numErrors ∧ s1.h = h1)
      ∧ ∀ e, oe = some e →
          s1.numErrors = (count_errors s.numErrors e).1
            ∧ s1.h.need_to_stop_laser
              = ((count_errors s.numErrors e).2 || h1.need_to_stop_laser) := by
  cases hl : run_stop_laser s.h stack with
  | ok h1 =>
    by_cases hca : (s.h.sd.connected && s.h.active) = true
    · have hconn : s.h.sd.connected = true := (Bool.and_eq_true _ _ ▸ hca).1
      have hact : s.h.active = true := (Bool.and_eq_true _ _ ▸ hca).2
      cases hg : run_get_scan h1 stack with
      | ok r =>
        obtain ⟨e, h2⟩ := r
        have hit := run_iteration_counts s stack h1 h2 e hconn hact hl hg
        rw [hit] at hr
        cases hr
        have hf := (stored_flags_eq (run_get_scan_flags _ _ _ hg).1).2
        refine ⟨h1, some e, rfl, ?_, fun hh => absurd hh (by simp), ?_⟩
        · unfold run_pass_error
          rw [hl]
          simp only [hca, if_true, hg]
        · intro e' he'
          cases he'
          refine ⟨rfl, ?_⟩
          dsimp only
          cases hb : (count_errors s.numErrors e).2
          · simp only [Bool.false_eq_true, if_false, Bool.false_or]
            exact hf
          · simp
      | undefined =>
        unfold run_iteration at hr
        rw [hl] at hr
        simp only [hca, if_true, hg] at hr
        cases hr
      | fuel =>
        unfold run_iteration at hr
        rw [hl] at hr
        simp only [hca, if_true, hg] at hr
        cases hr
    · unfold run_iteration at hr
      rw [hl] at hr
      simp only [hca, if_false] at hr
      cases hr
      refine ⟨h1, none, rfl, ?_, fun _ => ⟨rfl, rfl⟩, fun e he => absurd he (by simp)⟩
      unfold run_pass_error
      rw [hl]
      simp only [hca, if_false, Bool.false_eq_true]
  | undefined =>
    unfold run_iteration at hr
    rw [hl] at hr
    cases hr
  | fuel =>
    unfold run_iteration at hr
    rw [hl] at hr
    cases hr

/-- The counter after the passes of the loop is the counter that `count_errors_after`
computes from the results of the acquisitions made in these passes. -/
theorem run_loop_counts :
    ∀ (frames : List (List Nat)) (s0 s : RunState), run_loop frames s0 = .ok s →
      ∃ es, run_loop_errors frames s0 = .ok es
        ∧ s.numErrors = count_errors_after s0.numErrors es := by
  intro frames
  induction frames with
  | nil =>
    intro s0 s hr
    rw [run_loop] at hr
    cases hr
    exact ⟨[], rfl, rfl⟩
  | cons stack frames ih =>
    intro s0 s hr
    rw [run_loop] at hr
    cases hit : run_iteration s0 stack with
    | ok s1 =>
      rw [hit] at hr
      obtain ⟨h1, oe, -, hpe, hnone, hsome⟩ := run_iteration_pass s0 stack s1 hit
      obtain ⟨es, hes, hcnt⟩ := ih s1 s hr
      refine ⟨oe.toList ++ es, ?_, ?_⟩
      · rw [run_loop_errors, hpe, hit]
        dsimp only
        rw [hes]
      · cases oe with
        | none =>
          rw [hcnt, (hnone rfl).1]
          rfl
        | some e =>
          rw [hcnt, (hsome e rfl).1]
          rfl
    | undefined => rw [hit] at hr; cases hr
    | fuel => rw [hit] at hr; cases hr

/-- C24 — the counter `numErrors` of `_run` over the passes of its loop, from the initial
value 0 of the thread: after any number of passes, whatever they did (idle passes, laser
stops, acquisitions), the counter is the value that the sequence `es` of the results of
the acquisitions made so far determines; it is 0, 1 or 2, namely the number of
consecutive failures that end `es`, modulo 3. In the next pass an idle pass leaves the
counter as it is and raises no request; a successful acquisition resets the counter to 0
and raises no request; a failed acquisition raises the request `need_to_stop_laser` and
resets the counter to 0 when it completes a run of failures whose length is a multiple of
3 (the counter has come to 3), and otherwise increments the counter and raises no
request. `h1` is the handle after the pending laser stop of the pass has been served. -/
theorem run_loop_error_counter (frames : List (List Nat)) (s0 s : RunState)
    (h0 : s0.numErrors = 0) (hrun : run_loop frames s0 = .ok s) :
    ∃ es, run_loop_errors frames s0 = .ok es
      ∧ s.numErrors = count_errors_after 0 es
      ∧ (s.numErrors = 0 ∨ s.numErrors = 1 ∨ s.numErrors = 2)
      ∧ s.numErrors = ((trailing_failures es % 3 : Nat) : Int)
      ∧ ∀ (stack : List Nat) (s1 : RunState), run_iteration s stack = .ok s1 →
          ∃ h1 oe, run_stop_laser s.h stack = .ok h1 ∧ run_pass_error s stack = .ok oe
            ∧ (oe = none → s1.numErrors = s.numErrors ∧ s1.h = h1)
            ∧ (oe = some 0 → s1.numErrors = 0
                ∧ s1.h.need_to_stop_laser = h1.need_to_stop_laser)
            ∧ ∀ e, oe = some e → e ≠ 0 →
                if (trailing_failures es + 1) % 3 = 0 then
                  s1.numErrors = 0 ∧ s1.h.need_to_stop_laser = true
                else s1.numErrors = s.numErrors + 1
                  ∧ s1.h.need_to_stop_laser = h1.need_to_stop_laser := by
  obtain ⟨es, hes, hcnt⟩ := run_loop_counts frames s0 s hrun
  rw [h0] at hcnt
  have hmod := count_errors_after_eq es
  have hn : s.numErrors = ((trailing_failures es % 3 : Nat) : Int) := hcnt.trans hmod
  refine ⟨es, hes, hcnt, by omega, hn, ?_⟩
  intro stack s1 hit
  obtain ⟨h1, oe, hl, hpe, hnone, hsome⟩ := run_iteration_pass s stack s1 hit
  refine ⟨h1, oe, hl, hpe, hnone, ?_, ?_⟩
  · intro h00
    obtain ⟨a, b⟩ := hsome 0 h00
    rw [count_errors_zero] at a b
    exact ⟨a, by simpa using b⟩
  · intro e he hne
    obtain ⟨a, b⟩ := hsome e he
    unfold count_errors READER_MAX_NUM_ERRORS_BEFORE_RESTART at a b
    rw [if_neg hne] at a b
    by_cases h3 : (trailing_failures es + 1) % 3 = 0
    · rw [if_pos h3]
      have : s.numErrors + 1 ≥ 3 := by omega
      rw [if_pos this] at a b
      exact ⟨a, by simpa using b⟩
    · rw [if_neg h3]
      have : ¬ s.numErrors + 1 ≥ 3 := by omega
      rw [if_neg this] at a b
      exact ⟨a, by simpa using b⟩

/-- A pass of the worker on a handle that is streaming the production window, when the
device sends a cycle whose status line does not begin with "99": the acquisition fails
and the counter and the request follow `count_errors`. -/
theorem run_iteration_bad_status (s : RunState) (stack rest tx d : List Nat) (len : Int)
    (x0 x1 c : Nat)
    (hst : streams s.h len ("MD0044072501000".toList.map Char.toNat
      ++ 0x0a :: x0 :: x1 :: (d ++ c :: 0x0a :: rest)) tx)
    (hact : s.h.active = true) (hn : s.h.need_to_stop_laser = false)
    (hd : 0x0a ∉ x0 :: x1 :: d) (hdl : d.length ≤ 90) (hc : c ≠ 0x0a)
    (h99 : ¬ (x0 = 0x39 ∧ x1 = 0x39)) :
    ∃ s1, run_iteration s stack = .ok s1
      ∧ run_pass_error s stack = .ok (some error_return)
      ∧ s1.numErrors = (count_errors s.numErrors error_return).1
      ∧ s1.h.need_to_stop_laser = (count_errors s.numErrors error_return).2
      ∧ s1.find_data = s.find_data ∧ streams s1.h len rest tx ∧ s1.h.active = true := by
  obtain ⟨r, hr, hret, -, -, st⟩ := get_scan_next_cycle_bad_status s.h s.h.data s.h.num_data
    len stack rest tx d x0 x1 c hst hd hdl hc h99
  have hg : run_get_scan s.h stack
      = .ok (error_return, { r.h with data := r.range, num_data := r.n_range }) := by
    unfold run_get_scan
    rw [hr]
    simp only [hret]
  have hf := stored_flags_eq (run_get_scan_flags _ _ _ hg).1
  have hl := run_stop_laser_idle s.h stack hn
  have hit := run_iteration_counts s stack s.h _ error_return hst.1 hact hl hg
  refine ⟨_, hit, ?_, rfl, ?_, rfl, ?_, ?_⟩
  · unfold run_pass_error
    rw [hl]
    simp only [hst.1, hact, Bool.and_self, if_true, hg]
  · dsimp only
    cases hb : (count_errors s.numErrors error_return).2
    · simp only [Bool.false_eq_true, if_false]
      exact hf.2.trans hn
    · simp
  · dsimp only
    cases hb : (count_errors s.numErrors error_return).2
    · simp only [Bool.false_eq_true, if_false]
      exact st
    · simp only [if_true]
      exact st
  · dsimp only
    cases hb : (count_errors s.numErrors error_return).2
    · simp only [Bool.false_eq_true, if_false]
      exact hf.1.trans hact
    · simp only [if_true]
      exact hf.1.trans hact

/-- C24, at a concrete input: a handle that streams the production window and a device
that sends three cycles with the status "00P". The three acquisitions fail; the counter
is 1, then 2, and at the third failure the request is raised and the counter is 0. -/
theorem run_loop_error_counter_witness :
    ∃ s1 s2 s3 es,
      run_loop [[]]
          ⟨{ mkHandle TYPE_URG_04LX false
              ("MD0044072501000".toList.map Char.toNat ++ 0x0a :: 0x30 :: 0x30
                :: ([] ++ 0x50 :: 0x0a
                :: ("MD0044072501000".toList.map Char.toNat ++ 0x0a :: 0x30 :: 0x30
                :: ([] ++ 0x50 :: 0x0a
                :: ("MD0044072501000".toList.map Char.toNat ++ 0x0a :: 0x30 :: 0x30
                :: ([] ++ 0x50 :: 0x0a :: [])))))) with
            active := true, streaming := true, scan_start := 44, scan_end := 725
            scan_skip := 1, encoding := 3, scan_type := 0, packet_length := 6 },
          0, []⟩ = .ok s1
      ∧ s1.numErrors = 1 ∧ s1.h.need_to_stop_laser = false
      ∧ run_loop [[]] s1 = .ok s2
      ∧ s2.numErrors = 2 ∧ s2.h.need_to_stop_laser = false
      ∧ run_loop [[]] s2 = .ok s3
      ∧ s3.numErrors = 0 ∧ s3.h.need_to_stop_laser = true
      ∧ run_loop_errors [[], []]
          ⟨{ mkHandle TYPE_URG_04LX false
              ("MD0044072501000".toList.map Char.toNat ++ 0x0a :: 0x30 :: 0x30
                :: ([] ++ 0x50 :: 0x0a
                :: ("MD0044072501000".toList.map Char.toNat ++ 0x0a :: 0x30 :: 0x30
                :: ([] ++ 0x50 :: 0x0a
                :: ("MD0044072501000".toList.map Char.toNat ++ 0x0a :: 0x30 :: 0x30
                :: ([] ++ 0x50 :: 0x0a :: [])))))) with
            active := true, streaming := true, scan_start := 44, scan_end := 725
            scan_skip := 1, encoding := 3, scan_type := 0, packet_length := 6 },
          0, []⟩ = .ok es
      ∧ es = [-1, -1] ∧ s2.numErrors = ((trailing_failures es % 3 : Nat) : Int) := by
  obtain ⟨S0, hS0⟩ : ∃ x : RunState, x =
      ⟨{ mkHandle TYPE_URG_04LX false
          ("MD0044072501000".toList.map Char.toNat ++ 0x0a :: 0x30 :: 0x30
            :: ([] ++ 0x50 :: 0x0a
            :: ("MD0044072501000".toList.map Char.toNat ++ 0x0a :: 0x30 :: 0x30
            :: ([] ++ 0x50 :: 0x0a
            :: ("MD0044072501000".toList.map Char.toNat ++ 0x0a :: 0x30 :: 0x30
            :: ([] ++ 0x50 :: 0x0a :: [])))))) with
        active := true, streaming := true, scan_start := 44, scan_end := 725
        scan_skip := 1, encoding := 3, scan_type := 0, packet_length := 6 },
      0, []⟩ := ⟨_, rfl⟩
  rw [← hS0]
  have hb : ¬ ((0x30 : Nat) = 0x39 ∧ (0x30 : Nat) = 0x39) := by decide
  have hd : (0x0a : Nat) ∉ [0x30, 0x30] := by decide
  obtain ⟨s1, i1, p1, n1, f1, -, st1, a1⟩ := run_iteration_bad_status S0 [] _ [] [] 6 0x30
    0x30 0x50 (by subst hS0; exact ⟨rfl, rfl, rfl, rfl, rfl, rfl⟩) (by subst hS0; rfl)
    (by subst hS0; rfl) hd (by decide) (by decide) hb
  have e0 : S0.numErrors = 0 := by subst hS0; rfl
  rw [e0] at n1 f1
  have f1' : s1.h.need_to_stop_laser = false := f1.trans (by decide)
  have n1' : s1.numErrors = 1 := n1.trans (by decide)
  obtain ⟨s2, i2, p2, n2, f2, -, st2, a2⟩ := run_iteration_bad_status s1 [] _ [] [] 6 0x30
    0x30 0x50 st1 a1 f1' hd (by decide) (by decide) hb
  rw [n1'] at n2 f2
  have f2' : s2.h.need_to_stop_laser = false := f2.trans (by decide)
  have n2' : s2.numErrors = 2 := n2.trans (by decide)
  obtain ⟨s3, i3, p3, n3, f3, -, -, -⟩ := run_iteration_bad_status s2 [] _ [] [] 6 0x30
    0x30 0x50 st2 a2 f2' hd (by decide) (by decide) hb
  rw [n2'] at n3 f3
  have r1 : run_loop [[]] S0 = .ok s1 := by rw [run_loop, i1]; rfl
  have r2 : run_loop [[]] s1 = .ok s2 := by rw [run_loop, i2]; rfl
  have r3 : run_loop [[]] s2 = .ok s3 := by rw [run_loop, i3]; rfl
  have r12 : run_loop [[], []] S0 = .ok s2 := by rw [run_loop, i1]; exact r2
  have he : run_loop_errors [[], []] S0 = .ok [-1, -1] := by
    rw [run_loop_errors, p1, i1]
    dsimp only
    rw [run_loop_errors, p2, i2]
    rfl
  obtain ⟨es, hes, -, -, hmod, -⟩ := run_loop_error_counter [[], []] S0 s2 e0 r12
  have hes' : es = [-1, -1] := by
    rw [he] at hes
    cases hes
    rfl
  exact ⟨s1, s2, s3, es, r1, n1', f1', r2, n2', f2', r3, n3.trans (by decide),
    f3.trans (by decide), hes, hes', hmod⟩

end Hokuyo
